import Mathlib

/-!
Jitter buffer of shairport-sync (`player.c`): a shallow embedding

The ring buffer of decoded audio packets, the producer `player_put_packet` and the
consumer `buffer_get_frame`, translated from `src/shairport-sync/player.c` and
`player.h`.

Conventions.
* `seq_t` (`uint16_t`), `uint32_t` and `uint64_t` values are natural numbers; where the
  C arithmetic wraps, the reduction modulo `2^16`, `2^32` or `2^64` is written out.
* C `int`, `int32_t` and `int64_t` values are integers.
* `conn->audio_buffer` is a function from the slot index to the slot; only the indices
  below `BUFFER_FRAMES` are ever addressed, because every access goes through `BUFIDX`.
* A pointer `abuf_t *` into `conn->audio_buffer` is the index of the slot, `NULL` is `none`.
* One call runs alone: what other threads do while a mutex is released is not modelled.
* Calls into code outside these files (clock, codec, cipher, time mapping, audio sink)
  are inputs of the call that makes them.
* A signed overflow, a conversion out of range and a division by zero have no defined
  result in C. Where a property depends on one, the inputs concerned are marked by a
  predicate (`put_arithmetic_defined`, `frame_in_range`) or by a result of its own
  (`session_start.undefined`).
-/

namespace ShairportSync

/-! ## Constants and sequence arithmetic -/

/-- The `BUFFER_FRAMES` constant of `player.h`. -/
def BUFFER_FRAMES : Nat := 1024

/-- The `MAX_PACKET` constant of `player.c`. -/
def MAX_PACKET : Int := 2048

/-- The constant `INT_MAX` of a 32-bit `int`. -/
def INT_MAX : Int := 2147483647

/-- The macro `BUFIDX(seqno)`, `((seq_t)(seqno) % BUFFER_FRAMES)`. -/
def BUFIDX (seqno : Nat) : Nat := (seqno % 65536) % BUFFER_FRAMES

/-- The function `modulo_32_offset(from, to)` on `uint32_t`. -/
def modulo_32_offset (frm upto : Nat) : Nat :=
  if frm ≤ upto then upto - frm
  else (4294967295 - frm + upto + 1) % 4294967296

/-- The function `SUCCESSOR(x)`. -/
def SUCCESSOR (x : Nat) : Nat := ((x % 65536) + 1) % 65536

/-- The function `ORDINATE(x, base)`; the threshold is the source's `t >= 32767`. -/
def ORDINATE (x base : Nat) : Int :=
  let p : Int := x
  let q : Int := base
  let t : Int := (p + 65536 - q) % 65536
  if t ≥ 32767 then t - 65536 else t

/-- What the comment inside `ORDINATE` says the function does: "if the result is greater
than 32767, we will assume its an alias and subtract 65536 from it". -/
def ORDINATE_documented (x base : Nat) : Int :=
  let p : Int := x
  let q : Int := base
  let t : Int := (p + 65536 - q) % 65536
  if t > 32767 then t - 65536 else t

/-- The function `seq_diff(a, b, base)`. -/
def seq_diff (a b base : Nat) : Int := ORDINATE b base - ORDINATE a base

/-- The function `seq_order(a, b, base)`: true when `b` is after `a`. -/
def seq_order (a b base : Nat) : Bool := decide (ORDINATE b base - ORDINATE a base > 0)

/-- The function `seq_sum(a, b)`. -/
def seq_sum (a b : Nat) : Nat := (a + b) % 65536

/-! ## Data model -/

/-- The struct `abuf_t` (`audio_buffer_entry`): one slot of the ring. `data` holds the
decoded samples the slot's arena contains. -/
structure abuf_t where
  ready : Int
  resend_level : Int
  sequence_number : Nat
  given_timestamp : Nat
  data : List Int
  length : Int
deriving DecidableEq, Repr

/-- The enum `audio_stream_type`. -/
inductive audio_stream_type where
  | ast_unknown
  | ast_uncompressed
  | ast_apple_lossless
deriving DecidableEq, Repr

/-- The fields of `rtsp_conn_info` that the jitter buffer reads or writes.
`resend_calls` is the list of `rtp_request_resend(first, count, conn)` calls made so
far, newest first; it stands for the effect of that external call. -/
structure rtsp_conn_info where
  resend_interval : Int
  latency : Nat
  stream_encrypted : Int
  stream_type : audio_stream_type
  unfixable_error_reported : Int
  input_frame_rate_starting_point_is_valid : Int
  frames_inward_measurement_start_time : Nat
  frames_inward_frames_received_at_measurement_start_time : Nat
  frames_inward_measurement_time : Nat
  frames_inward_frames_received_at_measurement_time : Nat
  audio_buffer : Nat → abuf_t
  max_frames_per_packet : Nat
  input_rate : Nat
  input_bytes_per_frame : Int
  packet_count : Nat
  packet_count_since_flush : Nat
  connection_state_to_output : Int
  first_packet_time_to_play : Nat
  time_since_play_started : Int
  missing_packets : Nat
  late_packets : Nat
  too_late_packets : Nat
  resend_requests : Nat
  last_seqno_read : Int
  ab_buffering : Int
  ab_synced : Int
  first_packet_timestamp : Int
  flush_requested : Int
  flush_rtp_timestamp : Nat
  time_of_last_audio_packet : Nat
  ab_read : Nat
  ab_write : Nat
  initial_reference_timestamp : Nat
  initial_reference_time : Nat
  play_number_after_flush : Int
  resend_calls : List (Nat × Nat)

/-- Assignment `conn->audio_buffer[i] = v`. -/
def set_slot (buf : Nat → abuf_t) (i : Nat) (v : abuf_t) : Nat → abuf_t :=
  fun k => if k = i then v else buf k

/-- The code outside these files that decoding calls: the ALAC decoder
(`alac_decode_frame` or `apple_alac_decode_frame`, bytes to the samples written and the
resulting `outsize` in bytes) and the AES-CBC decryption of the first `aeslen` bytes. -/
structure codec_t where
  alac_decode_frame : List Nat → List Int × Int
  aes_decrypt : List Nat → Int → List Nat

/-- One incoming audio packet: the arguments of `player_put_packet` together with the
two readings of `get_absolute_time_in_fp()` the call makes. -/
structure packet_t where
  seqno : Nat
  actual_timestamp : Nat
  data : List Nat
  len : Int
  time_of_arrival : Nat
  reception_time : Nat

/-! ## Resynchronisation -/

/-- The loop of `ab_resync`, slots `0 .. n-1`. -/
def ab_resync_slots (buf : Nat → abuf_t) : Nat → (Nat → abuf_t)
  | 0 => buf
  | n + 1 =>
    let b := ab_resync_slots buf n
    set_slot b n { b n with ready := 0, resend_level := 0, sequence_number := 0 }

/-- The function `ab_resync(conn)`. -/
def ab_resync (conn : rtsp_conn_info) : rtsp_conn_info :=
  { conn with
    audio_buffer := ab_resync_slots conn.audio_buffer BUFFER_FRAMES
    ab_synced := 0
    last_seqno_read := -1
    ab_buffering := 1 }

/-- The function `reset_input_flow_metrics(conn)`. -/
def reset_input_flow_metrics (conn : rtsp_conn_info) : rtsp_conn_info :=
  { conn with
    play_number_after_flush := 0
    packet_count_since_flush := 0
    input_frame_rate_starting_point_is_valid := 0
    initial_reference_time := 0
    initial_reference_timestamp := 0 }

/-- The function `do_flush(timestamp, conn)`. -/
def do_flush (timestamp : Nat) (conn : rtsp_conn_info) : rtsp_conn_info :=
  reset_input_flow_metrics
    { conn with flush_requested := 1, flush_rtp_timestamp := timestamp }

/-! ## Decoding -/

/-- Conversion of a 16-bit pattern to `short`. -/
def to_short (u : Nat) : Int :=
  if u % 65536 < 32768 then (u % 65536 : Nat) else ((u % 65536 : Nat) : Int) - 65536

/-- The samples `ntohs(*source)` for the first `n` shorts of a byte buffer. -/
def ntohs_samples : Nat → List Nat → List Int
  | 0, _ => []
  | _ + 1, [] => []
  | _ + 1, [_] => []
  | n + 1, hi :: lo :: rest => to_short (hi * 256 + lo) :: ntohs_samples n rest

/-- Writing `pcm` at the start of the arena `dest`. -/
def write_samples (dest pcm : List Int) : List Int := pcm ++ dest.drop pcm.length

/-- The function `unencrypted_packet_decode`: the new contents of `dest` and `*outsize`. -/
def unencrypted_packet_decode (codec : codec_t) (conn : rtsp_conn_info) (packet : List Nat)
    (length : Int) (dest : List Int) (outsize size_limit : Int) : List Int × Int :=
  match conn.stream_type with
  | .ast_apple_lossless =>
    let r := codec.alac_decode_frame packet
    (write_samples dest r.1, r.2)
  | .ast_uncompressed =>
    let length_to_use := if length > size_limit then size_limit else length
    (write_samples dest (ntohs_samples (Int.tdiv length_to_use 2).toNat packet), length_to_use)
  | .ast_unknown => (dest, outsize)

/-- What `audio_packet_decode` leaves behind: the return value, `dest` and `*destlen`. -/
structure decode_result where
  reply : Int
  dest : List Int
  destlen : Int
deriving DecidableEq, Repr

/-- The function `audio_packet_decode(dest, &destlen, buf, len, conn)`. -/
def audio_packet_decode (codec : codec_t) (conn : rtsp_conn_info) (dest : List Int)
    (destlen : Int) (buf : List Nat) (len : Int) : decode_result :=
  if len > MAX_PACKET then ⟨-1, dest, destlen⟩
  else
    let outsize := conn.input_bytes_per_frame * destlen
    let maximum_possible_outsize := outsize
    let packet :=
      if conn.stream_encrypted ≠ 0 then
        let aeslen := len - len % 16
        codec.aes_decrypt buf aeslen ++ buf.drop aeslen.toNat
      else buf
    let r := unencrypted_packet_decode codec conn packet len dest outsize
      maximum_possible_outsize
    let reply : Int := if r.2 > maximum_possible_outsize then -1 else 0
    ⟨reply, r.1, Int.tdiv r.2 conn.input_bytes_per_frame⟩

/-! ## The producer: `player_put_packet` -/

/-- The settings of `config` (and the capabilities of `config.output`) that the two
functions read. The four frame counts are the values of the source's floating-point
expressions, which are taken as given:
`silent_lead_in_frames` is `(int64_t)(config.audio_backend_silent_lead_in_time * conn->input_rate)`,
`silent_lead_in_fp` is `(int64_t)(config.audio_backend_silent_lead_in_time * 0x100000000)`,
`latency_offset_frames` is `(uint32_t)(config.audio_backend_latency_offset * conn->input_rate)`,
`buffer_desired_frames` is
`(uint32_t)(config.audio_backend_buffer_desired_length * conn->input_rate)`. -/
structure config_t where
  disable_resend_requests : Int
  output_rate : Nat
  output_has_is_running : Bool
  output_has_flush : Bool
  output_has_delay : Bool
  silent_lead_in_nonneg : Bool
  silent_lead_in_frames : Int
  silent_lead_in_fp : Int
  latency_offset_frames : Nat
  buffer_desired_frames : Nat

/-- The test of the "Dropping flushed packet" branches of `player_put_packet` and
`buffer_get_frame`: a non-zero target, a different timestamp, and
`modulo_32_offset(timestamp, target) < conn->input_rate * 10` in `unsigned int`. -/
def flush_drops (conn : rtsp_conn_info) (timestamp : Nat) : Bool :=
  decide (conn.flush_rtp_timestamp ≠ 0 ∧ timestamp ≠ conn.flush_rtp_timestamp ∧
    modulo_32_offset timestamp conn.flush_rtp_timestamp
      < (conn.input_rate * 10) % 4294967296)

/-- Lines 438-444: a flush requested before the first packet is ignored. -/
def put_ignore_early_flush (conn : rtsp_conn_info) : rtsp_conn_info :=
  if conn.packet_count = 0 then { conn with flush_requested := 0, flush_rtp_timestamp := 0 }
  else conn

/-- Lines 447-449: the packet counters and the arrival time. -/
def put_count (conn : rtsp_conn_info) (p : packet_t) : rtsp_conn_info :=
  { conn with
    packet_count := (conn.packet_count + 1) % 18446744073709551616
    packet_count_since_flush := (conn.packet_count_since_flush + 1) % 18446744073709551616
    time_of_last_audio_packet := p.time_of_arrival }

/-- Lines 475-481: the first packet after a resync sets both cursors. -/
def put_sync (conn : rtsp_conn_info) (seqno : Nat) : rtsp_conn_info :=
  if conn.ab_synced = 0 then { conn with ab_write := seqno, ab_read := seqno, ab_synced := 1 }
  else conn

/-- Lines 484-489: the local `resend_interval`, in packets. The divisor
`number_of_resend_attempts * conn->max_frames_per_packet` is formed in `unsigned int`; a
division by 0 there has no defined result in C, and `put_arithmetic_defined` tells the
calls in which that happens apart. -/
def put_resend_interval (conn : rtsp_conn_info) : Int :=
  let resend_interval : Int := ((250 * 44100) / 352) / 1000
  let number_of_resend_attempts : Nat := 8
  let latency_based_resend_interval : Int :=
    ((conn.latency / ((number_of_resend_attempts * conn.max_frames_per_packet) % 4294967296)
      : Nat) : Int)
  if latency_based_resend_interval > resend_interval then latency_based_resend_interval
  else resend_interval

/-- The slot contents written by the gap loop and by the bad-packet branch. -/
def cleared_slot (a : abuf_t) : abuf_t :=
  { a with ready := 0, resend_level := 0, given_timestamp := 0, sequence_number := 0 }

/-- The loop at lines 522-529 for `i = 0 .. n-1`. -/
def clear_gap_slots (buf : Nat → abuf_t) (ab_write : Nat) : Nat → (Nat → abuf_t)
  | 0 => buf
  | n + 1 =>
    let b := clear_gap_slots buf ab_write n
    let idx := BUFIDX (seq_sum ab_write (n % 65536))
    set_slot b idx (cleared_slot (b idx))

/-- The four branches of lines 497-551. -/
inductive put_branch where
  | expected
  | newer
  | late
  | too_late
deriving DecidableEq, Repr

/-- Which branch of lines 497-551 a sequence number takes. -/
def put_classify (conn : rtsp_conn_info) (seqno : Nat) : put_branch :=
  if conn.ab_write = seqno then .expected
  else if seq_order conn.ab_write seqno conn.ab_read then .newer
  else if seq_order conn.ab_read seqno conn.ab_read then .late
  else .too_late

/-- Lines 499-509: the expected packet's reception time feeds the input-rate
measurement. -/
def put_note_reception (conn : rtsp_conn_info) (p : packet_t) : rtsp_conn_info :=
  let conn1 :=
    if conn.input_frame_rate_starting_point_is_valid = 0 ∧
        conn.packet_count_since_flush ≥ 500 ∧ conn.packet_count_since_flush ≤ 510 then
      { conn with
        frames_inward_measurement_start_time := p.reception_time
        frames_inward_frames_received_at_measurement_start_time := p.actual_timestamp
        input_frame_rate_starting_point_is_valid := 1 }
    else conn
  { conn1 with
    frames_inward_measurement_time := p.reception_time
    frames_inward_frames_received_at_measurement_time := p.actual_timestamp }

/-- Lines 497-551: the cursor and counter updates of the chosen branch, and `abuf`. -/
def put_place (conn : rtsp_conn_info) (p : packet_t) : rtsp_conn_info × Option Nat :=
  match put_classify conn p.seqno with
  | .expected =>
    ({ put_note_reception conn p with ab_write := SUCCESSOR p.seqno }, some (BUFIDX p.seqno))
  | .newer =>
    let gap := seq_diff conn.ab_write p.seqno conn.ab_read
    ({ conn with
        audio_buffer := clear_gap_slots conn.audio_buffer conn.ab_write gap.toNat
        ab_write := SUCCESSOR p.seqno }, some (BUFIDX p.seqno))
  | .late =>
    ({ conn with late_packets := (conn.late_packets + 1) % 18446744073709551616 },
      some (BUFIDX p.seqno))
  | .too_late =>
    ({ conn with too_late_packets := (conn.too_late_packets + 1) % 18446744073709551616 },
      none)

/-- Lines 555-569: the slot after decoding the packet into it: marked ready with the
packet's length, timestamp and sequence number, or cleared when the decoder reports an
error. -/
def put_fill (codec : codec_t) (conn : rtsp_conn_info) (slot : abuf_t) (p : packet_t) :
    abuf_t :=
  let datalen : Int := conn.max_frames_per_packet
  let r := audio_packet_decode codec conn slot.data datalen p.data p.len
  if r.reply = 0 then
    { slot with data := r.dest, ready := 1, length := r.destlen,
                given_timestamp := p.actual_timestamp, sequence_number := p.seqno }
  else cleared_slot { slot with data := r.dest }

/-- Lines 554-570: decode into the chosen slot, if there is one. -/
def put_store (codec : codec_t) (conn : rtsp_conn_info) (abuf : Option Nat) (p : packet_t) :
    rtsp_conn_info :=
  match abuf with
  | none => conn
  | some i =>
    { conn with audio_buffer :=
        set_slot conn.audio_buffer i (put_fill codec conn (conn.audio_buffer i) p) }

/-- Lines 589-606: the body of the look-back loops for one pass `j` and one offset `k`.
`back_step` is `(int)(resend_interval * pow(j, 2.0))`; the `double` product is exactly
`resend_interval * j * j`, and the conversion yields it when it is within `int`
(`back_step_defined`). Beyond `INT_MAX` the conversion has no defined result in C;
`put_arithmetic_defined` tells the calls in which that happens apart. -/
def lookback_check (cfg : config_t) (resend_interval : Int) (conn : rtsp_conn_info)
    (j k : Int) : rtsp_conn_info :=
  let back_step : Int := resend_interval * (j * j)
  if back_step + k < seq_diff conn.ab_read conn.ab_write conn.ab_read then
    let item_to_check : Int := ((conn.ab_write : Int) - (back_step + k)) % 65536
    let next : Nat := item_to_check.toNat
    let check_buf := conn.audio_buffer (BUFIDX next)
    if check_buf.ready = 0 ∧ check_buf.resend_level < j then
      let marked : abuf_t := { check_buf with resend_level := j }
      let conn1 := { conn with audio_buffer := set_slot conn.audio_buffer (BUFIDX next) marked }
      if cfg.disable_resend_requests = 0 then
        { conn1 with
          resend_calls := (next, 1) :: conn1.resend_calls
          resend_requests := (conn1.resend_requests + 1) % 18446744073709551616 }
      else conn1
    else conn
  else conn

/-- Lines 588-607: the inner loop `k = -1, 0, 1` of one pass. -/
def lookback_pass (cfg : config_t) (resend_interval : Int) (conn : rtsp_conn_info)
    (j : Int) : rtsp_conn_info :=
  ([-1, 0, 1] : List Int).foldl (fun c k => lookback_check cfg resend_interval c j k) conn

/-- Lines 579-609: the look-back for missing packets, passes `j = 1 .. 8`. -/
def put_lookback (cfg : config_t) (resend_interval : Int) (conn : rtsp_conn_info) :
    rtsp_conn_info :=
  if conn.ab_buffering = 0 then
    ([1, 2, 3, 4, 5, 6, 7, 8] : List Int).foldl
      (fun c j => lookback_pass cfg resend_interval c j) conn
  else conn

/-- Lines 484-495: the resend interval is recorded in the connection. -/
def put_set_resend_interval (conn : rtsp_conn_info) : rtsp_conn_info :=
  { conn with resend_interval := put_resend_interval conn }

/-- Lines 473-570: the ring-buffer part of `player_put_packet` up to and including the
store, before the look-back. -/
def put_buffer (codec : codec_t) (conn : rtsp_conn_info) (p : packet_t) : rtsp_conn_info :=
  put_store codec (put_place (put_set_resend_interval (put_sync conn p.seqno)) p).1
    (put_place (put_set_resend_interval (put_sync conn p.seqno)) p).2 p

/-- Lines 461-610: the `else` branch of the flush filter. -/
def put_process (cfg : config_t) (codec : codec_t) (conn : rtsp_conn_info) (p : packet_t) :
    rtsp_conn_info :=
  put_lookback cfg (put_resend_interval conn) (put_buffer codec conn p)

/-- The function `player_put_packet(seqno, actual_timestamp, data, len, conn)`. -/
def player_put_packet (cfg : config_t) (codec : codec_t) (conn : rtsp_conn_info)
    (p : packet_t) : rtsp_conn_info :=
  let conn1 := put_count (put_ignore_early_flush conn) p
  if conn1.connection_state_to_output ≠ 0 then
    if flush_drops conn1 p.actual_timestamp then
      { conn1 with initial_reference_time := 0, initial_reference_timestamp := 0 }
    else put_process cfg codec conn1 p
  else conn1

/-! ## The consumer: `buffer_get_frame` -/

/-- The constant `sps_extra_code_output_stalled` of `common.h`. -/
def sps_extra_code_output_stalled : Int := 32768

/-- What one iteration of the `do ... while (wait)` loop reads from outside:
the clock, `get_requested_connection_state_to_output()`, `config.output->is_running()`,
`have_timestamp_timing_information(conn)`, the mapping `frame_to_local_time` of `rtp.c`,
and the return value and result of `config.output->delay(&dac_delay)`. -/
structure iter_env where
  local_time_now : Nat
  rco : Int
  is_running : Int
  have_timing : Bool
  frame_to_local_time : Nat → Nat
  delay_resp : Int
  dac_delay : Int

/-- The locals of `buffer_get_frame` that live across iterations. -/
structure get_locals where
  curframe : Option Nat
  notified_buffer_empty : Int

/-- Lines 873-891: a change of the requested output state, or a back end that is not
running, requests a flush. -/
def get_check_output (cfg : config_t) (e : iter_env) (conn : rtsp_conn_info) :
    rtsp_conn_info :=
  let conn1 :=
    if conn.connection_state_to_output ≠ e.rco then
      let c := { conn with connection_state_to_output := e.rco }
      if c.connection_state_to_output = 0 then { c with flush_requested := 1 } else c
    else conn
  if cfg.output_has_is_running ∧ e.is_running ≠ 0 then { conn1 with flush_requested := 1 }
  else conn1

/-- Lines 893-903: a requested flush resynchronises the buffer. -/
def get_flush (conn : rtsp_conn_info) : rtsp_conn_info :=
  if conn.flush_requested = 1 then
    { ab_resync conn with
      first_packet_timestamp := 0
      first_packet_time_to_play := 0
      time_since_play_started := 0
      flush_requested := 0 }
  else conn

/-- Lines 913-924: the aliasing check on the ready slot at the read cursor. -/
def get_alias (conn : rtsp_conn_info) (slot : abuf_t) : rtsp_conn_info :=
  if slot.sequence_number ≠ conn.ab_read then
    if BUFIDX slot.sequence_number = BUFIDX conn.ab_read then
      if seq_order conn.ab_read slot.sequence_number conn.ab_read then
        { conn with ab_read := slot.sequence_number }
      else conn
    else conn
  else conn

/-- Lines 906-951: `curframe` is set to the slot at the read cursor; when the buffer is
not empty and the slot is ready, the aliasing check and the flush filter run. -/
def get_select (conn : rtsp_conn_info) : rtsp_conn_info × Option Nat :=
  let idx := BUFIDX conn.ab_read
  let slot := conn.audio_buffer idx
  if conn.ab_read ≠ conn.ab_write ∧ slot.ready ≠ 0 then
    let conn1 := get_alias conn slot
    if flush_drops conn1 slot.given_timestamp then
      let dropped : abuf_t := { slot with ready := 0, resend_level := 0 }
      ({ conn1 with
          audio_buffer := set_slot conn1.audio_buffer idx dropped
          initial_reference_time := 0
          initial_reference_timestamp := 0 }, none)
    else if conn1.flush_rtp_timestamp ≠ 0 ∧
        modulo_32_offset conn1.flush_rtp_timestamp slot.given_timestamp
          > conn1.input_rate / 5 ∧
        modulo_32_offset conn1.flush_rtp_timestamp slot.given_timestamp
          < (conn1.input_rate * 10) % 4294967296 then
      ({ conn1 with flush_rtp_timestamp := 0 }, some idx)
    else (conn1, some idx)
  else (conn, some idx)

/-- The timestamp argument `conn->first_packet_timestamp + conn->latency + offset`,
converted to `uint32_t`. -/
def first_play_timestamp (cfg : config_t) (conn : rtsp_conn_info) : Nat :=
  ((conn.first_packet_timestamp + (conn.latency : Int) + (cfg.latency_offset_frames : Int))
    % 4294967296).toNat

/-- Lines 966-1031: the very first ready frame seen while buffering. -/
def get_first_frame (cfg : config_t) (e : iter_env) (conn : rtsp_conn_info)
    (slot : abuf_t) : rtsp_conn_info × Int :=
  if conn.first_packet_timestamp = 0 ∧ e.have_timing then
    let conn1 := { conn with first_packet_timestamp := (slot.given_timestamp : Int) }
    let should_be_time := e.frame_to_local_time (first_play_timestamp cfg conn1)
    let conn2 := { conn1 with first_packet_time_to_play := should_be_time }
    if e.local_time_now > conn2.first_packet_time_to_play then
      (do_flush ((conn2.first_packet_timestamp + 5 * 4410) % 4294967296).toNat conn2, 0)
    else (conn2, 0)
  else (conn, 1)

/-- Lines 1099-1198: the back end has a `delay` function. The second argument is
`have_sent_prefiller_silence`; the silence handed to `config.output->play` leaves no
trace in `conn`. -/
def get_prefill_with_delay (cfg : config_t) (e : iter_env) (conn : rtsp_conn_info)
    (have_sent_prefiller_silence : Int) (max_dac_delay : Int) : rtsp_conn_info :=
  let resp : Int := if have_sent_prefiller_silence ≠ 0 then e.delay_resp else 0
  let dac_delay : Int := if have_sent_prefiller_silence ≠ 0 then e.dac_delay else 0
  if resp = 0 then
    let gross_frame_gap : Int :=
      ((((conn.first_packet_time_to_play - e.local_time_now) * cfg.output_rate)
        % 18446744073709551616) / 4294967296 : Nat)
    let exact_frame_gap : Int := gross_frame_gap - dac_delay
    if exact_frame_gap < 0 then
      { ab_resync conn with first_packet_timestamp := 0, first_packet_time_to_play := 0 }
    else
      let fs0 : Int := max_dac_delay
      let fs1 : Int := if fs0 > max_dac_delay - dac_delay then max_dac_delay - dac_delay else fs0
      let fs2 : Int := if fs1 < 0 then 0 else fs1
      if exact_frame_gap ≤ fs2 ∨
          exact_frame_gap ≤ (((conn.max_frames_per_packet * 2) % 4294967296 : Nat) : Int) then
        { conn with ab_buffering := 0 }
      else conn
  else if resp = sps_extra_code_output_stalled ∧ conn.unfixable_error_reported = 0 then
    { conn with unfixable_error_reported := 1 }
  else conn

/-- Lines 1033-1232: while buffering with a known start time, decide whether to leave
the buffering state. -/
def get_prefill (cfg : config_t) (e : iter_env) (conn : rtsp_conn_info)
    (have_sent_prefiller_silence : Int) : rtsp_conn_info :=
  if conn.first_packet_time_to_play ≠ 0 then
    let should_be_time := e.frame_to_local_time (first_play_timestamp cfg conn)
    let conn1 := { conn with first_packet_time_to_play := should_be_time }
    let max_dac_delay0 : Int :=
      if cfg.silent_lead_in_nonneg then cfg.silent_lead_in_frames else (conn1.latency : Int)
    let max_dac_delay : Int := Int.tdiv max_dac_delay0 4
    if e.local_time_now > conn1.first_packet_time_to_play then
      { conn1 with ab_buffering := 0 }
    else
      let lead_time : Int := (conn1.first_packet_time_to_play : Int) - (e.local_time_now : Int)
      let lead_in_time : Int := if cfg.silent_lead_in_nonneg then cfg.silent_lead_in_fp else -1
      if lead_in_time < 0 ∨ lead_time ≤ lead_in_time then
        if cfg.output_has_delay then
          get_prefill_with_delay cfg e conn1 have_sent_prefiller_silence max_dac_delay
        else { conn1 with ab_buffering := 0 }
      else conn1
  else conn

/-- Lines 953-1249: what happens while `curframe` is ready. -/
def get_buffering (cfg : config_t) (e : iter_env) (conn : rtsp_conn_info)
    (loc : get_locals) : rtsp_conn_info × get_locals :=
  match loc.curframe with
  | none => (conn, loc)
  | some i =>
    if (conn.audio_buffer i).ready ≠ 0 then
      let loc1 := { loc with notified_buffer_empty := 0 }
      if conn.ab_buffering ≠ 0 then
        let first := get_first_frame cfg e conn (conn.audio_buffer i)
        (get_prefill cfg e first.1 first.2, loc1)
      else (conn, loc1)
    else (conn, loc)

/-- Lines 1264-1285: `do_wait` from the play time of the current frame. -/
def get_do_wait_time (cfg : config_t) (e : iter_env) (conn : rtsp_conn_info)
    (loc : get_locals) : Int :=
  match loc.curframe with
  | none => 0
  | some i =>
    let slot := conn.audio_buffer i
    if conn.ab_synced ≠ 0 ∧ slot.ready ≠ 0 ∧ slot.given_timestamp ≠ 0 then
      if e.have_timing then
        let time_to_play := e.frame_to_local_time
          ((slot.given_timestamp + conn.latency + cfg.latency_offset_frames
            + (4294967296 - cfg.buffer_desired_frames % 4294967296)) % 4294967296)
        if e.local_time_now ≥ time_to_play then 0 else 1
      else 1
    else 0

/-- The state, the locals and the flag `wait` at the end of an iteration. -/
structure iter_result where
  conn : rtsp_conn_info
  loc : get_locals
  wait : Bool

/-- Lines 1286-1295: an empty buffer also waits; then the flag `wait`. -/
def get_decide_wait (cfg : config_t) (e : iter_env) (conn : rtsp_conn_info)
    (loc : get_locals) : iter_result :=
  let do_wait0 := get_do_wait_time cfg e conn loc
  if do_wait0 = 0 ∧ conn.ab_synced ≠ 0 ∧ conn.ab_read = conn.ab_write then
    let conn1 := if loc.notified_buffer_empty = 0 then reset_input_flow_metrics conn else conn
    let loc1 := { loc with notified_buffer_empty := 1 }
    ⟨conn1, loc1, true⟩
  else
    ⟨conn, loc, decide (conn.ab_buffering ≠ 0 ∨ do_wait0 ≠ 0 ∨ conn.ab_synced = 0)⟩

/-- One iteration of the `do ... while (wait)` loop, lines 869-1326. -/
def buffer_get_frame_iter (cfg : config_t) (e : iter_env) (conn : rtsp_conn_info)
    (loc : get_locals) : iter_result :=
  let conn1 := get_flush (get_check_output cfg e conn)
  if conn1.ab_synced ≠ 0 then
    let sel := get_select conn1
    let buffered := get_buffering cfg e sel.1 { loc with curframe := sel.2 }
    get_decide_wait cfg e buffered.1 buffered.2
  else get_decide_wait cfg e conn1 loc

/-- The loop: one environment per iteration; `none` when the environments run out while
the loop is still waiting. -/
def buffer_get_frame_loop (cfg : config_t) :
    List iter_env → rtsp_conn_info → get_locals → Option (rtsp_conn_info × get_locals)
  | [], _, _ => none
  | e :: es, conn, loc =>
    let r := buffer_get_frame_iter cfg e conn loc
    if r.wait then buffer_get_frame_loop cfg es r.conn r.loc
    else some (r.conn, r.loc)

/-- Lines 1328-1340: the slot is handed out and the read cursor moves on. -/
def get_release (conn : rtsp_conn_info) (curframe : Option Nat) :
    rtsp_conn_info × Option Nat :=
  let conn1 :=
    match curframe with
    | none => conn
    | some i =>
      let slot := conn.audio_buffer i
      let conn2 :=
        if slot.ready = 0 then
          let silent : abuf_t := { slot with given_timestamp := 0 }
          { conn with
            missing_packets := (conn.missing_packets + 1) % 18446744073709551616
            audio_buffer := set_slot conn.audio_buffer i silent }
        else conn
      let taken : abuf_t := { conn2.audio_buffer i with ready := 0, resend_level := 0 }
      { conn2 with audio_buffer := set_slot conn2.audio_buffer i taken }
  ({ conn1 with ab_read := SUCCESSOR conn1.ab_read }, curframe)

/-- The function `buffer_get_frame(conn)`: the state it leaves and the returned pointer. -/
def buffer_get_frame (cfg : config_t) (envs : List iter_env) (conn : rtsp_conn_info) :
    Option (rtsp_conn_info × Option Nat) :=
  match buffer_get_frame_loop cfg envs conn ⟨none, 0⟩ with
  | none => none
  | some r => some (get_release r.1 r.2.curframe)

/-- Whether a call of `player_put_packet` gets as far as the ring buffer: output is
enabled and the flush filter lets the packet through (lines 450-461). -/
def put_reaches_buffer (conn : rtsp_conn_info) (p : packet_t) : Bool :=
  let conn1 := put_count (put_ignore_early_flush conn) p
  decide (conn1.connection_state_to_output ≠ 0) && !flush_drops conn1 p.actual_timestamp

/-- Whether the packet decodes without error in this connection. -/
def packet_decodes (codec : codec_t) (conn : rtsp_conn_info) (p : packet_t) : Bool :=
  decide ((audio_packet_decode codec conn [] (conn.max_frames_per_packet : Int)
    p.data p.len).reply = 0)

/-- Whether a call of `player_put_packet` stores the packet: it reaches the buffer, it is
not too late (so `abuf` is not `NULL`), and it decodes. -/
def put_stores (codec : codec_t) (conn : rtsp_conn_info) (p : packet_t) : Bool :=
  put_reaches_buffer conn p &&
    decide (put_classify (put_sync conn p.seqno) p.seqno ≠ .too_late) &&
    packet_decodes codec conn p

/-- The fields of the connection that decoding reads. -/
def decode_params (conn : rtsp_conn_info) : Nat × Int × Int × audio_stream_type :=
  (conn.max_frames_per_packet, conn.input_bytes_per_frame, conn.stream_encrypted,
    conn.stream_type)

/-- Everything in a slot except `resend_level`: the ready flag, the sequence number, the
timestamp, the length and the payload. -/
def slot_content (a : abuf_t) : Int × Nat × Nat × Int × List Int :=
  (a.ready, a.sequence_number, a.given_timestamp, a.length, a.data)

/-- The connection with its flush target replaced. -/
def with_flush_target (conn : rtsp_conn_info) (x : Nat) : rtsp_conn_info :=
  { conn with flush_rtp_timestamp := x }

/-- The fields of the connection that the tests of lines 439-461 read. -/
def filter_params (conn : rtsp_conn_info) : Int × Nat × Nat :=
  (conn.connection_state_to_output, conn.flush_rtp_timestamp, conn.input_rate)

/-- The second state has the slots, cursors, sync flag, input rate and missing-packet
count of the first. -/
def ring_kept (a b : rtsp_conn_info) : Prop :=
  b.audio_buffer = a.audio_buffer ∧ b.ab_read = a.ab_read ∧ b.ab_write = a.ab_write ∧
  b.ab_synced = a.ab_synced ∧ b.input_rate = a.input_rate ∧
  b.missing_packets = a.missing_packets

/-- The second state has a flush requested, or the flush request and target of the
first. -/
def flush_kept (a b : rtsp_conn_info) : Prop :=
  b.flush_requested = 1 ∨
    (b.flush_requested = a.flush_requested ∧ b.flush_rtp_timestamp = a.flush_rtp_timestamp)

/-- The conditions of lines 908-917 under which the read cursor is reset to the sequence
number stored in the slot it points at. -/
def read_cursor_aliased (conn : rtsp_conn_info) : Bool :=
  decide (conn.ab_read ≠ conn.ab_write ∧
    (conn.audio_buffer (BUFIDX conn.ab_read)).ready ≠ 0 ∧
    (conn.audio_buffer (BUFIDX conn.ab_read)).sequence_number ≠ conn.ab_read ∧
    BUFIDX (conn.audio_buffer (BUFIDX conn.ab_read)).sequence_number = BUFIDX conn.ab_read ∧
    seq_order conn.ab_read (conn.audio_buffer (BUFIDX conn.ab_read)).sequence_number
      conn.ab_read = true)

/-- Successive calls of `player_put_packet`, one per packet. -/
def put_all (cfg : config_t) (codec : codec_t) (conn : rtsp_conn_info)
    (ps : List packet_t) : rtsp_conn_info :=
  ps.foldl (player_put_packet cfg codec) conn

/-- Successive calls of `buffer_get_frame` that all return, one list of iteration
environments per call; the state after the last call. -/
def get_all (cfg : config_t) : List (List iter_env) → rtsp_conn_info → Option rtsp_conn_info
  | [], conn => some conn
  | envs :: rest, conn =>
    match buffer_get_frame cfg envs conn with
    | none => none
    | some r => get_all cfg rest r.1

/-- Some packet of the list carries sequence number `s`. -/
def stored_in (ps : List packet_t) (s : Nat) : Prop := ∃ p, p ∈ ps ∧ p.seqno = s

/-- From position `j` on, the slot of position `first + k` is ready and holds that
sequence number if a packet of the list carries it, and is not ready otherwise. -/
def slots_hold (f : Nat) (ps : List packet_t) (j : Nat) (c : rtsp_conn_info) : Prop :=
  ∀ k, j ≤ k → k < 1024 →
    (stored_in ps ((f + k) % 65536) →
      (c.audio_buffer ((f + k) % 1024)).ready = 1 ∧
      (c.audio_buffer ((f + k) % 1024)).sequence_number = (f + k) % 65536) ∧
    (¬ stored_in ps ((f + k) % 65536) → (c.audio_buffer ((f + k) % 1024)).ready = 0)

/-- The ring after the packets `ps`, all within `m < 1024` positions of the first
sequence number `f`, and `j` releases. -/
def ring_inv (f : Nat) (ps : List packet_t) (m j : Nat) (c : rtsp_conn_info) : Prop :=
  c.ab_synced ≠ 0 ∧ c.ab_read = (f + j) % 65536 ∧ c.ab_write = (f + m + 1) % 65536 ∧
  m < 1024 ∧ j ≤ m + 1 ∧ slots_hold f ps j c ∧
  (∀ p, p ∈ ps → ∃ k, k ≤ m ∧ p.seqno = (f + k) % 65536)

/-! ## Concrete values used to exercise the definitions -/

/-- A configuration with resend requests enabled and a full-featured back end. -/
def cfg0 : config_t :=
  { disable_resend_requests := 0, output_rate := 44100, output_has_is_running := false,
    output_has_flush := true, output_has_delay := true, silent_lead_in_nonneg := false,
    silent_lead_in_frames := 0, silent_lead_in_fp := 0, latency_offset_frames := 0,
    buffer_desired_frames := 6615 }

/-- A codec whose ALAC decoder produces two samples (one stereo frame, four bytes). -/
def codec0 : codec_t :=
  { alac_decode_frame := fun b => ([(b.headD 0 : Int), (b.length : Int)], 4),
    aes_decrypt := fun b _ => b }

/-- A slot as `ab_resync` leaves it, with an empty arena. -/
def slot0 : abuf_t :=
  { ready := 0, resend_level := 0, sequence_number := 0, given_timestamp := 0, data := [],
    length := 0 }

/-- A ready slot holding sequence number `s` with timestamp `t`. -/
def slot_ready (s t : Nat) : abuf_t :=
  { ready := 1, resend_level := 0, sequence_number := s, given_timestamp := t, data := [1, 2],
    length := 1 }

/-- A connection as `player_thread_func` and `ab_resync` leave it before the first
packet: 44100 Hz ALAC, two seconds of latency, output enabled, every slot cleared. -/
def conn0 : rtsp_conn_info :=
  { resend_interval := 0, latency := 88200, stream_encrypted := 0,
    stream_type := .ast_apple_lossless, unfixable_error_reported := 0,
    input_frame_rate_starting_point_is_valid := 0, frames_inward_measurement_start_time := 0,
    frames_inward_frames_received_at_measurement_start_time := 0,
    frames_inward_measurement_time := 0,
    frames_inward_frames_received_at_measurement_time := 0,
    audio_buffer := fun _ => slot0, max_frames_per_packet := 352, input_rate := 44100,
    input_bytes_per_frame := 4, packet_count := 0, packet_count_since_flush := 0,
    connection_state_to_output := 1, first_packet_time_to_play := 0,
    time_since_play_started := 0, missing_packets := 0, late_packets := 0,
    too_late_packets := 0, resend_requests := 0, last_seqno_read := -1, ab_buffering := 1,
    ab_synced := 0, first_packet_timestamp := 0, flush_requested := 0,
    flush_rtp_timestamp := 0, time_of_last_audio_packet := 0, ab_read := 0, ab_write := 0,
    initial_reference_timestamp := 0, initial_reference_time := 0,
    play_number_after_flush := 0, resend_calls := [] }

/-- A playing connection: synced, not buffering, with the given cursors and slots, some
packets already counted. -/
def conn_playing (rd wr : Nat) (buf : Nat → abuf_t) : rtsp_conn_info :=
  { conn0 with ab_synced := 1, ab_buffering := 0, ab_read := rd, ab_write := wr,
               audio_buffer := buf, packet_count := 9, packet_count_since_flush := 9 }

/-- A packet with sequence number `s` and timestamp `t`. -/
def pkt (s t : Nat) : packet_t :=
  { seqno := s, actual_timestamp := t, data := [7, 7, 7], len := 3, time_of_arrival := 0,
    reception_time := 0 }

/-- An iteration environment in which the timing reference is valid, the clock reads
`now` and every frame's play time is `play`. -/
def env0 (now play : Nat) : iter_env :=
  { local_time_now := now, rco := 1, is_running := 0, have_timing := true,
    frame_to_local_time := fun _ => play, delay_resp := 0, dac_delay := 0 }

/-- A ring in which only slot `i` is filled, with `a`. -/
def buf_one (i : Nat) (a : abuf_t) : Nat → abuf_t := fun k => if k = i then a else slot0

/-- A fresh connection after packets 10, 13 and 11 (12 never arrives) and two calls of
`buffer_get_frame` made when the play time has come. -/
def conn_after_two : rtsp_conn_info :=
  (get_all cfg0 [[env0 1000 1000], [env0 1000 1000]]
    (put_all cfg0 codec0 conn0 [pkt 10 1000, pkt 13 2056, pkt 11 1352])).getD conn0

/-! ## The look-back for missing packets, step by step -/

/-- The sequence number `next` of lines 592-593 for pass `j` and offset `k`:
`(conn->ab_write - (back_step + k)) & 0xffff`. -/
def lookback_next (resend_interval : Int) (conn : rtsp_conn_info) (j k : Int) : Nat :=
  (((conn.ab_write : Int) - (resend_interval * (j * j) + k)) % 65536).toNat

/-- The tests of lines 589-599 for pass `j` and offset `k`: the distance is within the
frames in use, the slot is not ready, it has not been flagged at this level, and resend
requests are enabled. When they hold `rtp_request_resend(next, 1, conn)` is called. -/
def lookback_emits (cfg : config_t) (resend_interval : Int) (conn : rtsp_conn_info)
    (j k : Int) : Bool :=
  decide (resend_interval * (j * j) + k < seq_diff conn.ab_read conn.ab_write conn.ab_read ∧
    (conn.audio_buffer (BUFIDX (lookback_next resend_interval conn j k))).ready = 0 ∧
    (conn.audio_buffer (BUFIDX (lookback_next resend_interval conn j k))).resend_level < j ∧
    cfg.disable_resend_requests = 0)

/-- The pairs `(j, k)` in the order in which the loops of lines 581-608 visit them. -/
def lookback_steps : List (Int × Int) :=
  [(1, -1), (1, 0), (1, 1), (2, -1), (2, 0), (2, 1), (3, -1), (3, 0), (3, 1),
   (4, -1), (4, 0), (4, 1), (5, -1), (5, 0), (5, 1), (6, -1), (6, 0), (6, 1),
   (7, -1), (7, 0), (7, 1), (8, -1), (8, 0), (8, 1)]

/-- The state after the loop bodies for the given pairs, in order. -/
def lookback_run (cfg : config_t) (resend_interval : Int) (conn : rtsp_conn_info)
    (steps : List (Int × Int)) : rtsp_conn_info :=
  steps.foldl (fun c s => lookback_check cfg resend_interval c s.1 s.2) conn

/-- The resend requests made by the loop bodies for the given pairs, oldest first, each
with the pass level `j` at which it is made. -/
def lookback_requests (cfg : config_t) (resend_interval : Int) :
    rtsp_conn_info → List (Int × Int) → List (Nat × Int)
  | _, [] => []
  | c, s :: rest =>
    (if lookback_emits cfg resend_interval c s.1 s.2 = true
      then [(lookback_next resend_interval c s.1 s.2, s.1)] else [])
    ++ lookback_requests cfg resend_interval (lookback_check cfg resend_interval c s.1 s.2) rest

/-- The state of a call of `player_put_packet` when it reaches line 579, just before the
look-back; a call that does not get that far has its final state. -/
def put_before_lookback (cfg : config_t) (codec : codec_t) (conn : rtsp_conn_info)
    (p : packet_t) : rtsp_conn_info :=
  if put_reaches_buffer conn p = true then
    put_buffer codec (put_count (put_ignore_early_flush conn) p) p
  else player_put_packet cfg codec conn p

/-- The resend requests made by one call of `player_put_packet`, oldest first, each with
its pass level. -/
def put_requests (cfg : config_t) (codec : codec_t) (conn : rtsp_conn_info)
    (p : packet_t) : List (Nat × Int) :=
  if put_reaches_buffer conn p = true ∧ (put_before_lookback cfg codec conn p).ab_buffering = 0
  then lookback_requests cfg (put_resend_interval conn) (put_before_lookback cfg codec conn p)
    lookback_steps
  else []

/-- The resend requests made by successive calls of `player_put_packet`, oldest first. -/
def run_requests (cfg : config_t) (codec : codec_t) :
    rtsp_conn_info → List packet_t → List (Nat × Int)
  | _, [] => []
  | c, p :: ps =>
    put_requests cfg codec c p ++ run_requests cfg codec (player_put_packet cfg codec c p) ps

/-- The pass levels of the requests that were made for slot `i`, oldest first. -/
def slot_levels (i : Nat) (reqs : List (Nat × Int)) : List Int :=
  (reqs.filter (fun r => decide (BUFIDX r.1 = i))).map (fun r => r.2)

/-- In each of the successive calls the part before the look-back (the gap loop and the
decoding into the chosen slot) leaves slot `i` exactly as it was. -/
def run_keeps_slot (cfg : config_t) (codec : codec_t) (i : Nat) :
    rtsp_conn_info → List packet_t → Prop
  | _, [] => True
  | c, p :: ps =>
    (put_before_lookback cfg codec c p).audio_buffer i = c.audio_buffer i ∧
    run_keeps_slot cfg codec i (player_put_packet cfg codec c p) ps

/-- The divisor of line 487, `number_of_resend_attempts * conn->max_frames_per_packet`, an
`unsigned int`. The division is defined when it is not 0. -/
def resend_divisor (conn : rtsp_conn_info) : Nat :=
  (8 * conn.max_frames_per_packet) % 4294967296

/-- Whether the `int` arithmetic of pass `j` of the look-back is defined: the conversion
`(int)(resend_interval * pow(j, step_exponent))` of line 586 needs the product
`resend_interval * j * j` within `int`, and the sums `back_step + k` of lines 589 and 592,
for `k` up to 1, need it below `INT_MAX`. -/
def back_step_defined (resend_interval j : Int) : Bool :=
  decide (-2147483648 < resend_interval * (j * j) ∧ resend_interval * (j * j) < INT_MAX)

/-- Whether the arithmetic of a call of `player_put_packet` is defined in C: a call that
reaches line 487 does not divide by 0 there, and one that runs the look-back stays within
`int` at lines 586-592 in each of the passes `j = 1 .. 8`. -/
def put_arithmetic_defined (cfg : config_t) (codec : codec_t) (conn : rtsp_conn_info)
    (p : packet_t) : Bool :=
  if put_reaches_buffer conn p = true then
    decide (resend_divisor conn ≠ 0) &&
      (if (put_before_lookback cfg codec conn p).ab_buffering = 0 then
        ([1, 2, 3, 4, 5, 6, 7, 8] : List Int).all
          (fun j => back_step_defined (put_resend_interval conn) j)
      else true)
  else true

/-- The function `player_put_packet` with what C leaves undefined made explicit: the state
after the call, or `none` for a call that divides by 0 at line 487 or leaves the range of
`int` at lines 586-592. -/
def player_put_packet_checked (cfg : config_t) (codec : codec_t) (conn : rtsp_conn_info)
    (p : packet_t) : Option rtsp_conn_info :=
  if put_arithmetic_defined cfg codec conn p = true then
    some (player_put_packet cfg codec conn p)
  else none

/-- A playing connection with an empty window at sequence number 5, a latency of
4,294,967,295 frames and one frame per packet. -/
def conn_huge_latency : rtsp_conn_info :=
  { conn_playing 5 5 (fun _ => slot0) with latency := 4294967295, max_frames_per_packet := 1 }

/-- A packet that `audio_packet_decode` rejects because it is longer than `MAX_PACKET`. -/
def pkt_bad (s t : Nat) : packet_t :=
  { seqno := s, actual_timestamp := t, data := [7, 7, 7], len := 3000, time_of_arrival := 0,
    reception_time := 0 }

/-! ## Decoding errors -/

/-- One call on the ring buffer: `player_put_packet` with a packet, or `buffer_get_frame`
with the environments of its iterations. -/
inductive ring_call where
  | put (p : packet_t)
  | get (envs : List iter_env)

/-- The states after each call of a run, in order; the run stops at a call of
`buffer_get_frame` that does not return. -/
def run_states (cfg : config_t) (codec : codec_t) :
    rtsp_conn_info → List ring_call → List rtsp_conn_info
  | _, [] => []
  | c, .put p :: rest =>
    player_put_packet cfg codec c p :: run_states cfg codec (player_put_packet cfg codec c p) rest
  | c, .get envs :: rest =>
    match buffer_get_frame cfg envs c with
    | none => []
    | some r => r.1 :: run_states cfg codec r.1 rest

/-- In-order, loss-free delivery: every packet put carries a 16-bit sequence number, which
is the write cursor if the buffer is synced, and decodes; the arithmetic of the call is
defined; after the call fewer than `BUFFER_FRAMES` packets lie between the cursors. -/
def in_order_run (cfg : config_t) (codec : codec_t) :
    rtsp_conn_info → List ring_call → Prop
  | _, [] => True
  | c, .put p :: rest =>
    p.seqno < 65536 ∧ (c.ab_synced ≠ 0 → p.seqno = c.ab_write) ∧
    packet_decodes codec c p = true ∧
    put_arithmetic_defined cfg codec c p = true ∧
    seq_diff (player_put_packet cfg codec c p).ab_read (player_put_packet cfg codec c p).ab_write
      (player_put_packet cfg codec c p).ab_read < (BUFFER_FRAMES : Int) ∧
    in_order_run cfg codec (player_put_packet cfg codec c p) rest
  | c, .get envs :: rest =>
    match buffer_get_frame cfg envs c with
    | none => True
    | some r => in_order_run cfg codec r.1 rest

/-- The counters and the trace that a resend request, a late packet or a too-late packet
would change. -/
def request_counts (c : rtsp_conn_info) : Nat × Nat × Nat × List (Nat × Nat) :=
  (c.resend_requests, c.late_packets, c.too_late_packets, c.resend_calls)

/-- When the buffer is synced: the write cursor is `d < 1024` positions after the read
cursor, every slot strictly between the cursors is ready, and a ready slot from the read
cursor on holds its own sequence number. -/
def window_ready (c : rtsp_conn_info) : Prop :=
  c.ab_synced ≠ 0 →
    c.ab_read < 65536 ∧
    ∃ d : Nat, d < 1024 ∧ c.ab_write = (c.ab_read + d) % 65536 ∧
      (∀ m, m < d → (c.audio_buffer (((c.ab_read + m) % 65536) % 1024)).ready ≠ 0 →
        (c.audio_buffer (((c.ab_read + m) % 65536) % 1024)).sequence_number
          = (c.ab_read + m) % 65536) ∧
      (∀ m, 0 < m → m < d → (c.audio_buffer (((c.ab_read + m) % 65536) % 1024)).ready ≠ 0)

/-! ## Stuffing: `stuff_buffer_basic_32` -/

/-- Conversion of a 64-bit value to `int32_t`. -/
def to_int32 (x : Int) : Int := (x + 2147483648) % 4294967296 - 2147483648

/-- The function `mean_32(a, b)`: the mean is taken in `int64_t` with C division, which
truncates towards zero, and converted back to `int32_t`. -/
def mean_32 (a b : Int) : Int :=
  let mean := Int.tdiv (a + b) 2
  to_int32 mean

/-- The copying loops of `stuff_buffer_basic_32` (lines 1377-1380 and 1401-1404) for `n`
frames: each frame is two calls `process_sample(*inptr++, ...)`. The state is what the
calls of `process_sample` have produced so far (the output buffer, and the dither state in
`conn`) and the position of `inptr`, counted in samples from the start of the input. -/
def process_frames {σ : Type} (process_sample : σ → Int → σ) (inptr : List Int) :
    Nat → σ × Nat → σ × Nat
  | 0, st => st
  | n + 1, st =>
    let o1 := process_sample st.1 (inptr.getD st.2 0)
    let o2 := process_sample o1 (inptr.getD (st.2 + 1) 0)
    process_frames process_sample inptr n (o2, st.2 + 2)

/-- What `stuff_buffer_basic_32` leaves: the output, `conn->amountStuffed` and the return
value. -/
structure stuff_result (σ : Type) where
  out : σ
  amountStuffed : Int
  reply : Int

/-- The function `stuff_buffer_basic_32(inptr, length, l_output_format, outptr, stuff,
dither, conn)`. `process_sample` with its format, volume and dither arguments is the
parameter `process_sample`, acting on the output state; `rand` is the value returned by
`rand()`. `stuffsamp` is at least 1 when a frame is inserted, so `inptr[-2]` and
`inptr[-1]` lie inside the input. -/
def stuff_buffer_basic_32 {σ : Type} (process_sample : σ → Int → σ) (inptr : List Int)
    (length : Int) (stuff : Int) (rand : Nat) (out : σ) : stuff_result σ :=
  let tstuff : Int := if stuff > 1 ∨ stuff < -1 ∨ length < 100 then 0 else stuff
  let stuffsamp : Int := if tstuff ≠ 0 then Int.tmod rand (length - 2) + 1 else length
  let st1 := process_frames process_sample inptr stuffsamp.toNat (out, 0)
  let st3 :=
    if tstuff ≠ 0 then
      let st2 :=
        if tstuff = 1 then
          (process_sample
            (process_sample st1.1 (mean_32 (inptr.getD (st1.2 - 2) 0) (inptr.getD st1.2 0)))
            (mean_32 (inptr.getD (st1.2 - 1) 0) (inptr.getD (st1.2 + 1) 0)), st1.2)
        else if stuff = -1 then (st1.1, st1.2 + 2)
        else st1
      let remainder : Int := if tstuff < 0 then length + tstuff else length
      process_frames process_sample inptr (remainder - stuffsamp).toNat st2
    else st1
  ⟨st3.1, tstuff, length + tstuff⟩

/-- The samples handed to `process_sample`, in order: `stuff_buffer_basic_32` run with a
`process_sample` that appends its argument to a list. -/
def stuffed_samples (inptr : List Int) (length : Int) (stuff : Int) (rand : Nat) : List Int :=
  (stuff_buffer_basic_32 (fun (acc : List Int) s => acc ++ [s]) inptr length stuff rand []).out

/-- An input of 100 stereo frames: the samples 0, 1, ..., 199. -/
def frames_100 : List Int := (List.range 200).map (fun n => (n : Int))

/-! ## Session start: the latency check of `player_thread_func` -/

/-- Lines 1630-1634: a latency of 0 becomes the default of 88,200 frames. -/
def default_latency (conn : rtsp_conn_info) : rtsp_conn_info :=
  if conn.latency = 0 then { conn with latency := 88200 } else conn

/-- Lines 1705-1706: `int maximum_latency = conn->latency +
(int)(config.audio_backend_latency_offset * config.output_rate)`. `offset_frames` is the
value of the cast. The sum of a `uint32_t` and an `int` is formed in `unsigned int` and
then converted to `int`. -/
def maximum_latency (conn : rtsp_conn_info) (offset_frames : Int) : Int :=
  to_int32 (((conn.latency : Int) + offset_frames % 4294967296) % 4294967296)

/-- The test of line 1707, `(maximum_latency + (352 - 1)) / 352 + 10 > BUFFER_FRAMES`, in
`int` arithmetic (the division truncates); `none` when the sum `maximum_latency + 351`
would pass `INT_MAX`, an overflow that C leaves undefined. -/
def latency_check_fails (conn : rtsp_conn_info) (offset_frames : Int) : Option Bool :=
  if maximum_latency conn offset_frames + (352 - 1) > INT_MAX then none
  else some (decide (Int.tdiv (maximum_latency conn offset_frames + (352 - 1)) 352 + 10
    > (BUFFER_FRAMES : Int)))

/-- How the start of a session ends at line 1710: `die` is called, or the session goes on
with the connection, or the test has no defined result. -/
inductive session_start where
  | dies
  | proceeds (conn : rtsp_conn_info)
  | undefined

/-- Lines 1630-1634 and 1703-1710 of `player_thread_func`. -/
def player_thread_latency_check (conn : rtsp_conn_info) (offset_frames : Int) :
    session_start :=
  match latency_check_fails (default_latency conn) offset_frames with
  | none => .undefined
  | some true => .dies
  | some false => .proceeds (default_latency conn)

/-! ## The activity monitor (`activity_monitor.c`) -/

/-- The enum `am_state` of `activity_monitor.h`. -/
inductive am_state where
  | am_inactive
  | am_active
  | am_timing_out
deriving DecidableEq, Repr

/-- The enum `ps_state`. -/
inductive ps_state where
  | ps_inactive
  | ps_active
deriving DecidableEq, Repr

/-- A call of `going_active(block)` or of `going_inactive(block)`. -/
inductive hook_call where
  | going_active (block : Int)
  | going_inactive (block : Int)
deriving DecidableEq, Repr

/-- The settings the monitor reads: whether `config.active_state_timeout == 0.0`, and
`config.cmd_blocking`. -/
structure am_config where
  active_state_timeout_is_zero : Bool
  cmd_blocking : Int

/-- The globals `state` and `player_state`, and the hook calls made so far, oldest
first. -/
structure monitor_t where
  state : am_state
  player_state : ps_state
  hooks : List hook_call
deriving DecidableEq, Repr

/-- The function `activity_monitor_signify_activity(active)`. -/
def activity_monitor_signify_activity (cfg : am_config) (m : monitor_t) (active : Int) :
    monitor_t :=
  let m1 := { m with player_state := if active = 0 then ps_state.ps_inactive
                                     else ps_state.ps_active }
  if m1.state = .am_inactive ∧ m1.player_state = .ps_active then
    { m1 with hooks := m1.hooks ++ [hook_call.going_active cfg.cmd_blocking] }
  else if m1.state = .am_active ∧ m1.player_state = .ps_inactive ∧
      cfg.active_state_timeout_is_zero = true then
    { m1 with hooks := m1.hooks ++ [hook_call.going_inactive cfg.cmd_blocking] }
  else m1

/-- The error number `ETIMEDOUT` of `errno.h` (110 on Linux); it is not 0. -/
def ETIMEDOUT : Int := 110

/-- One return of `pthread_cond_wait` or `pthread_cond_timedwait` in the monitor thread:
the calls of `activity_monitor_signify_activity` that other threads made while the thread
was waiting with the mutex released, in order, and the return value `rc` of the wait. -/
structure wake_t where
  signals : List Int
  rc : Int
deriving DecidableEq, Repr

/-- The globals when a wait returns. -/
def wait_wake (cfg : am_config) (m : monitor_t) (w : wake_t) : monitor_t :=
  w.signals.foldl (activity_monitor_signify_activity cfg) m

/-- The loops `while (player_state != target) pthread_cond_wait(...)` of the states
`am_inactive` and `am_active`; `none` when the wake-ups run out while the loop is still
waiting. -/
def wait_for_player (cfg : am_config) (target : ps_state) :
    monitor_t → List wake_t → Option (monitor_t × List wake_t)
  | m, [] => if m.player_state ≠ target then none else some (m, [])
  | m, w :: ws =>
    if m.player_state ≠ target then wait_for_player cfg target (wait_wake cfg m w) ws
    else some (m, w :: ws)

/-- The loop `while ((player_state != ps_active) && (rc != ETIMEDOUT)) rc =
pthread_cond_timedwait(...)` of the state `am_timing_out`. -/
def wait_timing_out (cfg : am_config) :
    monitor_t → Int → List wake_t → Option (monitor_t × Int × List wake_t)
  | m, rc, [] =>
    if m.player_state ≠ .ps_active ∧ rc ≠ ETIMEDOUT then none else some (m, rc, [])
  | m, rc, w :: ws =>
    if m.player_state ≠ .ps_active ∧ rc ≠ ETIMEDOUT then
      wait_timing_out cfg (wait_wake cfg m w) w.rc ws
    else some (m, rc, w :: ws)

/-- One pass of the loop `do { switch (state) ... } while (1)` of
`activity_monitor_thread_code`, with the wake-ups still to come; `none` when the thread is
left waiting. The hook of the time-out is called with the mutex released; what other
threads do during that call is not modelled. -/
def activity_monitor_thread_step (cfg : am_config) (m : monitor_t) (ws : List wake_t) :
    Option (monitor_t × List wake_t) :=
  match m.state with
  | .am_inactive =>
    match wait_for_player cfg .ps_active m ws with
    | none => none
    | some q => some ({ q.1 with state := .am_active }, q.2)
  | .am_active =>
    match wait_for_player cfg .ps_inactive m ws with
    | none => none
    | some q =>
      if cfg.active_state_timeout_is_zero = true then
        some ({ q.1 with state := .am_inactive }, q.2)
      else some ({ q.1 with state := .am_timing_out }, q.2)
  | .am_timing_out =>
    match wait_timing_out cfg m 0 ws with
    | none => none
    | some q =>
      if q.1.player_state = .ps_active then some ({ q.1 with state := .am_active }, q.2.2)
      else if q.2.1 = ETIMEDOUT then
        some ({ q.1 with state := .am_inactive,
                         hooks := q.1.hooks ++ [hook_call.going_inactive 0] }, q.2.2)
      else some (q.1, q.2.2)

/-- A monitor configuration with a non-zero timeout and blocking hooks. -/
def am_cfg0 : am_config := { active_state_timeout_is_zero := false, cmd_blocking := 1 }

/-- The monitor while timing out, the player inactive, one hook call made so far. -/
def monitor_timing_out : monitor_t :=
  { state := .am_timing_out, player_state := .ps_inactive,
    hooks := [hook_call.going_active 1] }

/-! ## The running statistics of `player_thread_func` -/

/-- The macro `trend_interval`. -/
def trend_interval : Nat := 1003

/-- The value an `int64_t` takes when it is assigned `x`. -/
def to_int64 (x : Int) : Int :=
  (x + 9223372036854775808) % 18446744073709551616 - 9223372036854775808

/-- The struct `stats_t`. -/
structure stats_t where
  sync_error : Int
  correction : Int
  drift : Int
deriving DecidableEq, Repr

/-- The locals of `player_thread_func` that hold the running statistics, and
`conn->session_corrections`. The three `int` counters stay between 0 and
`trend_interval`. -/
structure statistics_t where
  statistics : Nat → stats_t
  number_of_statistics : Nat
  oldest_statistic : Nat
  newest_statistic : Nat
  tsum_of_sync_errors : Int
  tsum_of_corrections : Int
  tsum_of_insertions_and_deletions : Int
  tsum_of_drifts : Int
  previous_sync_error : Int
  previous_correction : Int
  session_corrections : Int

/-- The statistics as `player_thread_func` sets them before its loop; the array
`statistics` is not initialised and holds whatever `arr` is. -/
def statistics_init (arr : Nat → stats_t) : statistics_t :=
  { statistics := arr
    number_of_statistics := 0
    oldest_statistic := 0
    newest_statistic := 0
    tsum_of_sync_errors := 0
    tsum_of_corrections := 0
    tsum_of_insertions_and_deletions := 0
    tsum_of_drifts := 0
    previous_sync_error := 0
    previous_correction := 0
    session_corrections := 0 }

/-- The body of `if (number_of_statistics == trend_interval)`: the oldest record is taken
out of the sums. -/
def statistics_remove_oldest (s : statistics_t) : statistics_t :=
  let o := s.statistics s.oldest_statistic
  { s with
    tsum_of_sync_errors := to_int64 (s.tsum_of_sync_errors - o.sync_error)
    tsum_of_drifts := to_int64 (s.tsum_of_drifts - o.drift)
    tsum_of_insertions_and_deletions :=
      if o.correction > 0 then to_int64 (s.tsum_of_insertions_and_deletions - o.correction)
      else to_int64 (s.tsum_of_insertions_and_deletions + o.correction)
    tsum_of_corrections := to_int64 (s.tsum_of_corrections - o.correction)
    oldest_statistic := (s.oldest_statistic + 1) % trend_interval
    number_of_statistics := s.number_of_statistics - 1 }

/-- The drift stored with a new record. -/
def new_drift (s : statistics_t) (sync_error : Int) : Int :=
  if s.number_of_statistics = 0 then 0
  else to_int64 (sync_error - s.previous_sync_error - s.previous_correction)

/-- The rest of the body of `if (sync_error != -1)`: the new record is stored at
`newest_statistic` and added to the sums. -/
def statistics_add_newest (s : statistics_t) (sync_error amountStuffed : Int) :
    statistics_t :=
  let drift := new_drift s sync_error
  { s with
    statistics := fun i =>
      if i = s.newest_statistic then ⟨sync_error, amountStuffed, drift⟩ else s.statistics i
    previous_sync_error := sync_error
    previous_correction := amountStuffed
    tsum_of_sync_errors := to_int64 (s.tsum_of_sync_errors + sync_error)
    tsum_of_drifts := to_int64 (s.tsum_of_drifts + drift)
    tsum_of_insertions_and_deletions :=
      if amountStuffed > 0 then to_int64 (s.tsum_of_insertions_and_deletions + amountStuffed)
      else to_int64 (s.tsum_of_insertions_and_deletions - amountStuffed)
    tsum_of_corrections := to_int64 (s.tsum_of_corrections + amountStuffed)
    session_corrections := to_int64 (s.session_corrections + amountStuffed)
    newest_statistic := (s.newest_statistic + 1) % trend_interval
    number_of_statistics := s.number_of_statistics + 1 }

/-- The statistics update of one played frame, for the frame's `sync_error` and
`conn->amountStuffed`. -/
def update_statistics (s : statistics_t) (sync_error amountStuffed : Int) : statistics_t :=
  if sync_error ≠ -1 then
    statistics_add_newest
      (if s.number_of_statistics = trend_interval then statistics_remove_oldest s else s)
      sync_error amountStuffed
  else s

/-- The statistics after the frames of `samples`, each a pair of `sync_error` and
`amountStuffed`. -/
def record_samples (s : statistics_t) (samples : List (Int × Int)) : statistics_t :=
  samples.foldl (fun t p => update_statistics t p.1 p.2) s

/-- The samples that are recorded: those whose `sync_error` is not the value -1 that
stands for no reading. -/
def recorded_samples (samples : List (Int × Int)) : List (Int × Int) :=
  samples.filter (fun p => decide (p.1 ≠ -1))

/-- The records of a sequence of recorded samples as the specification describes them:
the drift of a sample is its `sync_error` minus the previous sample's `sync_error` minus
the previous sample's correction, and 0 for the very first sample. -/
def spec_records_from : Option (Int × Int) → List (Int × Int) → List stats_t
  | _, [] => []
  | prev, x :: xs =>
    ⟨x.1, x.2, match prev with
               | none => 0
               | some p => x.1 - p.1 - p.2⟩ :: spec_records_from (some x) xs

/-- The records of all recorded samples, oldest first. -/
def spec_records (rs : List (Int × Int)) : List stats_t := spec_records_from none rs

/-- The `m` most recent entries of a list whose last entry is the newest. -/
def most_recent {α : Type} (m : Nat) (l : List α) : List α := l.drop (l.length - m)

/-- The sum of a field over a list of records. -/
def stat_sum (f : stats_t → Int) (w : List stats_t) : Int := (w.map f).sum

/-- Whether a sample is in the range taken for the statistics: a `sync_error` of at most
`2^50` frames either way, and an `int` as `amountStuffed`. -/
def sample_in_range (p : Int × Int) : Prop :=
  -1125899906842624 ≤ p.1 ∧ p.1 ≤ 1125899906842624 ∧ -2147483648 ≤ p.2 ∧ p.2 ≤ 2147483647

instance (p : Int × Int) : Decidable (sample_in_range p) := by
  unfold sample_in_range; infer_instance

/-- Whether a stored record is in the range that in-range samples give. -/
def record_in_range (r : stats_t) : Prop :=
  (-1125899906842624 ≤ r.sync_error ∧ r.sync_error ≤ 1125899906842624) ∧
  (-2147483648 ≤ r.correction ∧ r.correction ≤ 2147483648) ∧
  (-4503599627370496 ≤ r.drift ∧ r.drift ≤ 4503599627370496)

/-- The window invariant of the statistics: the circular array holds the records of `w`,
oldest first from `oldest_statistic` on, and the sums are the sums over `w`. -/
structure stats_inv (s : statistics_t) (w : List stats_t) : Prop where
  number : s.number_of_statistics = w.length
  len : w.length ≤ trend_interval
  oldest : s.oldest_statistic < trend_interval
  newest : s.newest_statistic = (s.oldest_statistic + w.length) % trend_interval
  slots : ∀ k, k < w.length →
    s.statistics ((s.oldest_statistic + k) % trend_interval) = w.getD k ⟨0, 0, 0⟩
  sum_se : s.tsum_of_sync_errors = stat_sum (fun r => r.sync_error) w
  sum_c : s.tsum_of_corrections = stat_sum (fun r => r.correction) w
  sum_abs : s.tsum_of_insertions_and_deletions = stat_sum (fun r => |r.correction|) w
  sum_d : s.tsum_of_drifts = stat_sum (fun r => r.drift) w
  range : ∀ r, r ∈ w → record_in_range r
  prev : (-1125899906842624 ≤ s.previous_sync_error ∧
      s.previous_sync_error ≤ 1125899906842624) ∧
    (-2147483648 ≤ s.previous_correction ∧ s.previous_correction ≤ 2147483647)

/-- The last of the recorded samples `rs`, or `prev` if there is none. -/
def last_sample : Option (Int × Int) → List (Int × Int) → Option (Int × Int)
  | prev, [] => prev
  | _, x :: xs => last_sample (some x) xs

/-- Four frames, the second without a sync reading. -/
def samples_4 : List (Int × Int) := [(5, 1), (-1, 0), (7, -1), (4, 0)]

/-- As many samples as the window holds, all `(0, 0)`. -/
def samples_full : List (Int × Int) := List.replicate 1003 (0, 0)

/-! ## Loss of synchronisation in `player_thread_func` -/

/-- The settings the loss-of-sync check reads: `config.no_sync`, `config.resyncthreshold`
(a `double`, taken as the rational number it is), `config.output_rate`,
`conn->output_sample_ratio`, and `threshold_frames`, the `double` that the product
`config.resyncthreshold * config.output_rate` of lines 2214 and 2237 evaluates to on the
machine, rounding included (13230 for a threshold of 0.3 at 44,100 frames per second); it
is read only when `config.resyncthreshold > 0.0`, and is then not negative. -/
structure resync_config where
  no_sync : Int
  resyncthreshold : ℚ
  output_rate : Nat
  output_sample_ratio : Int
  threshold_frames : ℚ

/-- What one iteration of the play loop that has a frame with data finds:
`conn->play_number_after_flush` as it is when `buffer_get_frame` has returned, the
frame's `given_timestamp`, the result `resp` of asking the output device for its delay
(-1 without a delay function), the `sync_error` the iteration computes from that delay,
and whether `malloc` gives the buffer for a long silence. -/
structure played_frame where
  play_number_after_flush : Int
  given_timestamp : Nat
  resp : Int
  sync_error : Int
  malloc_ok : Bool
deriving DecidableEq, Repr

/-- What the iteration does with the frame: it plays a packet of silence for a frame with
timestamp 0 or for one of the first nine frames after a flush; as a hard correction it
sets `conn->flush_rtp_timestamp` to `t`, or plays `n` frames of silence (or fails to
allocate them), in both cases calling `reset_input_flow_metrics`, or finds neither
needed; otherwise it plays the frame, with or without a sync reading. -/
inductive frame_action where
  | silent_frame
  | after_flush
  | flush_target (t : Nat)
  | long_silence (n : Int)
  | no_silence (n : Int)
  | neither
  | played
  | played_unsynced
deriving DecidableEq, Repr

/-- The local `sync_error_out_of_bounds` and `conn->play_number_after_flush` after the
iteration, and what was done with the frame. -/
structure resync_result where
  sync_error_out_of_bounds : Int
  play_number_after_flush : Int
  action : frame_action
deriving DecidableEq, Repr

/-- The local `abs_sync_error`. -/
def abs_sync_error (sync_error : Int) : Int :=
  if sync_error < 0 then to_int64 (-sync_error) else sync_error

/-- The `double` product `config.resyncthreshold * config.output_rate`, as the machine
computes it. -/
def resync_threshold (cfg : resync_config) : ℚ := cfg.threshold_frames

/-- The local `filler_length`: the `double` product cut to an `int64_t`, towards zero. -/
def filler_length (cfg : resync_config) : Int :=
  Int.tdiv (resync_threshold cfg).num (resync_threshold cfg).den

/-- The conversion of an `int64_t` to `double` that the comparison of line 2214 makes
(IEEE 754 binary64, round to nearest, ties to even): exact up to `2^53` in magnitude,
beyond that the nearest multiple of the power of two that leaves 53 significant bits. -/
def int64_to_double (x : Int) : Int :=
  let a := x.natAbs
  if a ≤ 9007199254740992 then x
  else
    let k := Nat.log2 a - 52
    let q := a / 2 ^ k
    let r := a % 2 ^ k
    let m := if 2 * r > 2 ^ k ∨ (2 * r = 2 ^ k ∧ q % 2 = 1) then q + 1 else q
    Int.sign x * ((m * 2 ^ k : Nat) : Int)

/-- The condition under which `sync_error_out_of_bounds` is incremented; the comparison
is made between `double`s. -/
def out_of_bounds (cfg : resync_config) (f : played_frame) : Prop :=
  cfg.no_sync = 0 ∧ f.given_timestamp ≠ 0 ∧ cfg.resyncthreshold > 0 ∧
    ((int64_to_double (abs_sync_error f.sync_error) : Int) : ℚ) > resync_threshold cfg

instance (cfg : resync_config) (f : played_frame) : Decidable (out_of_bounds cfg f) := by
  unfold out_of_bounds; infer_instance

/-- The body of `if (sync_error_out_of_bounds > 3)`. -/
def hard_correction (cfg : resync_config) (f : played_frame)
    (play_number_after_flush : Int) : resync_result :=
  if f.sync_error > 0 ∧ f.sync_error > filler_length cfg then
    let local_frames_to_drop := Int.tdiv f.sync_error cfg.output_sample_ratio
    let frames_to_drop_sized := (local_frames_to_drop % 4294967296).toNat
    ⟨0, 0, .flush_target ((f.given_timestamp + frames_to_drop_sized) % 4294967296)⟩
  else if f.sync_error < 0 ∧ to_int64 (-f.sync_error) > filler_length cfg then
    let silence_length :=
      if to_int64 (-f.sync_error) > to_int64 (filler_length cfg * 5) then
        to_int64 (filler_length cfg * 5)
      else to_int64 (-f.sync_error)
    ⟨0, 0, if f.malloc_ok = true then .long_silence silence_length
           else .no_silence silence_length⟩
  else ⟨0, play_number_after_flush, .neither⟩

/-- One iteration of the play loop of `player_thread_func` for a frame with data, as far
as the loss of synchronisation goes. -/
def play_frame (cfg : resync_config) (sync_error_out_of_bounds : Int) (f : played_frame) :
    resync_result :=
  let play_number_after_flush := to_int32 (f.play_number_after_flush + 1)
  if f.given_timestamp = 0 then
    ⟨sync_error_out_of_bounds, play_number_after_flush, .silent_frame⟩
  else if play_number_after_flush < 10 then
    ⟨sync_error_out_of_bounds, play_number_after_flush, .after_flush⟩
  else if f.resp = 0 then
    let counter :=
      if out_of_bounds cfg f then to_int32 (sync_error_out_of_bounds + 1) else 0
    if counter > 3 then hard_correction cfg f play_number_after_flush
    else ⟨counter, play_number_after_flush, .played⟩
  else ⟨sync_error_out_of_bounds, play_number_after_flush, .played_unsynced⟩

/-- The local `sync_error_out_of_bounds` after the iterations for `frames`, oldest first,
from its initial value 0. Each iteration takes `conn` as it finds it. -/
def counter_after (cfg : resync_config) (frames : List played_frame) : Int :=
  frames.foldl (fun c f => (play_frame cfg c f).sync_error_out_of_bounds) 0

/-- Whether the iteration checks the sync of its frame: the frame is not a silent one, it
is at least the tenth since the last flush, and the output device gave its delay. -/
def sync_checked (f : played_frame) : Prop :=
  f.given_timestamp ≠ 0 ∧ ¬ to_int32 (f.play_number_after_flush + 1) < 10 ∧ f.resp = 0

instance (f : played_frame) : Decidable (sync_checked f) := by
  unfold sync_checked; infer_instance

/-- The number of out-of-bounds frames in a row at the end of a history given newest
first, counting only the frames whose sync was checked. -/
def oob_streak (cfg : resync_config) : List played_frame → Nat
  | [] => 0
  | f :: older =>
    if sync_checked f then
      if out_of_bounds cfg f then oob_streak cfg older + 1 else 0
    else oob_streak cfg older

/-- Whether an action is a hard correction: a flush target, or a long silence, played or
not allocated. -/
def is_hard_correction : frame_action → Bool
  | .flush_target _ => true
  | .long_silence _ => true
  | .no_silence _ => true
  | _ => false

/-- What IEEE 754 arithmetic makes of the product of lines 2214 and 2237 when the result
is in the normal range of a `double`: `threshold_frames` is the exact product
`config.resyncthreshold * config.output_rate` rounded to 53 significant bits, so it differs
from the exact product by at most `2^-53` of it. The rate, an `unsigned int`, is converted
to `double` without rounding. -/
def is_double_product (cfg : resync_config) : Prop :=
  |cfg.threshold_frames - cfg.resyncthreshold * cfg.output_rate|
    ≤ |cfg.resyncthreshold * cfg.output_rate| / 9007199254740992

/-- The values for which the arithmetic of an iteration stays within its C types:
`sync_error` is an `int64_t` other than `INT64_MIN`, which line 2209 could not negate, and
`play_number_after_flush` an `int` below `INT_MAX`, which line 1932 increments. -/
def frame_in_range (f : played_frame) : Prop :=
  -9223372036854775808 < f.sync_error ∧ f.sync_error < 9223372036854775808 ∧
  -2147483648 ≤ f.play_number_after_flush ∧ f.play_number_after_flush < 2147483647

instance (f : played_frame) : Decidable (frame_in_range f) := by
  unfold frame_in_range; infer_instance

/-- A resync threshold of 50 ms at 44,100 frames per second: 2,205 frames. -/
def resync_cfg0 : resync_config :=
  { no_sync := 0, resyncthreshold := 1 / 20, output_rate := 44100, output_sample_ratio := 1,
    threshold_frames := 2205 }

/-- A resync threshold of 0.3 s, as the `double` nearest to it, at 44,100 frames per
second: the exact product is below 13,230, the `double` product is 13,230. -/
def resync_cfg1 : resync_config :=
  { no_sync := 0, resyncthreshold := 5404319552844595 / 18014398509481984,
    output_rate := 44100, output_sample_ratio := 1, threshold_frames := 13230 }

/-- A frame that is 100,000 frames late, found with `play_number_after_flush = n`. -/
def late_frame (n : Int) : played_frame :=
  { play_number_after_flush := n, given_timestamp := 1000, resp := 0,
    sync_error := 100000, malloc_ok := true }

/-- A silent frame, standing in for a missing packet. -/
def silent_frame (n : Int) : played_frame :=
  { play_number_after_flush := n, given_timestamp := 0, resp := 0,
    sync_error := 0, malloc_ok := true }

/-! ## A late first packet -/

/-- The play time computed for the frame at the read cursor when it is the first one
seen: `frame_to_local_time` of its timestamp plus the latency and the latency offset. -/
def first_frame_play_time (cfg : config_t) (e : iter_env) (conn : rtsp_conn_info) : Nat :=
  e.frame_to_local_time
    (first_play_timestamp cfg
      { conn with first_packet_timestamp :=
          ((conn.audio_buffer (BUFIDX conn.ab_read)).given_timestamp : Int) })

/-- The flush target of a late first packet: its timestamp plus `5 * 4410`, as a
`uint32_t`. -/
def late_flush_target (conn : rtsp_conn_info) : Nat :=
  ((((conn.audio_buffer (BUFIDX conn.ab_read)).given_timestamp : Int) + 5 * 4410)
    % 4294967296).toNat

/-- The state in which the buffering logic of lines 966-1232 leaves the connection when
`curframe` is the slot at the read cursor. -/
def first_frame_state (cfg : config_t) (e : iter_env) (conn : rtsp_conn_info) :
    rtsp_conn_info :=
  get_prefill cfg e
    (get_first_frame cfg e conn (conn.audio_buffer (BUFIDX conn.ab_read))).1
    (get_first_frame cfg e conn (conn.audio_buffer (BUFIDX conn.ab_read))).2

/-- A connection that is synced and buffering, with packet 7 (timestamp 5000) in its slot
and the write cursor at 9. -/
def conn_buffering : rtsp_conn_info :=
  { conn0 with ab_synced := 1, ab_buffering := 1, ab_read := 7, ab_write := 9,
               audio_buffer := buf_one 7 (slot_ready 7 5000), packet_count := 2,
               packet_count_since_flush := 2 }

/-! ## Soft correction in `player_thread_func` -/

/-- Lines 2289-2331: the local `amount_to_stuff` handed to the stuffing function, from
the frame's `sync_error`, the random threshold `s` as line 2296 leaves it, the clock and
`conn->first_packet_time_to_play`. -/
def soft_correction (cfg : resync_config) (sync_error s : Int)
    (local_time_now first_packet_time_to_play : Nat) : Int :=
  let amount_to_stuff0 : Int := 0
  let amount_to_stuff1 : Int :=
    if amount_to_stuff0 = 0 then
      let a : Int := if sync_error > 0 ∧ sync_error > s then -1 else amount_to_stuff0
      if sync_error < 0 ∧ sync_error < to_int64 (-s) then 1 else a
    else amount_to_stuff0
  let amount_to_stuff2 : Int :=
    if amount_to_stuff1 ≠ 0 then
      if local_time_now ≠ 0 ∧ first_packet_time_to_play ≠ 0 ∧
          local_time_now ≥ first_packet_time_to_play then
        let tp : Int := (((local_time_now - first_packet_time_to_play) / 4294967296 : Nat) : Int)
        if tp < 5 then 0 else amount_to_stuff1
      else amount_to_stuff1
    else amount_to_stuff1
  if cfg.no_sync ≠ 0 then 0 else amount_to_stuff2

/-- The condition under which the five-second rule applies: both times are non-zero, the
start time has been reached, and fewer than 5 whole seconds have passed since. -/
def within_first_seconds (local_time_now first_packet_time_to_play : Nat) : Prop :=
  local_time_now ≠ 0 ∧ first_packet_time_to_play ≠ 0 ∧
    local_time_now ≥ first_packet_time_to_play ∧
    (local_time_now - first_packet_time_to_play) / 4294967296 < 5

instance (a b : Nat) : Decidable (within_first_seconds a b) := by
  unfold within_first_seconds; infer_instance

/-! ## Output formats, `process_sample` and `generate_zero_frames` -/

/-- The enum `sps_format_t` of `common.h`. -/
inductive sps_format_t where
  | SPS_FORMAT_UNKNOWN
  | SPS_FORMAT_S8
  | SPS_FORMAT_U8
  | SPS_FORMAT_S16
  | SPS_FORMAT_S16_LE
  | SPS_FORMAT_S16_BE
  | SPS_FORMAT_S24
  | SPS_FORMAT_S24_LE
  | SPS_FORMAT_S24_BE
  | SPS_FORMAT_S24_3LE
  | SPS_FORMAT_S24_3BE
  | SPS_FORMAT_S32
  | SPS_FORMAT_S32_LE
  | SPS_FORMAT_S32_BE
  | SPS_FORMAT_AUTO
  | SPS_FORMAT_INVALID
deriving DecidableEq, Repr

/-- The enum `playback_mode_type` of `common.h`. -/
inductive playback_mode_type where
  | ST_stereo
  | ST_mono
  | ST_reverse_stereo
  | ST_left_only
  | ST_right_only
deriving DecidableEq, Repr

/-- Lines 1673-1691 of `player_thread_func`: `conn->output_bytes_per_frame`. -/
def output_bytes_per_frame : sps_format_t → Int
  | .SPS_FORMAT_S24_3LE => 6
  | .SPS_FORMAT_S24_3BE => 6
  | .SPS_FORMAT_S24 => 8
  | .SPS_FORMAT_S24_LE => 8
  | .SPS_FORMAT_S24_BE => 8
  | .SPS_FORMAT_S32 => 8
  | .SPS_FORMAT_S32_LE => 8
  | .SPS_FORMAT_S32_BE => 8
  | _ => 4

/-- Lines 1756-1789 of `player_thread_func`: the local `output_bit_depth`; `none` where
the thread dies. -/
def output_bit_depth : sps_format_t → Option Nat
  | .SPS_FORMAT_S8 => some 8
  | .SPS_FORMAT_U8 => some 8
  | .SPS_FORMAT_S16 => some 16
  | .SPS_FORMAT_S16_LE => some 16
  | .SPS_FORMAT_S16_BE => some 16
  | .SPS_FORMAT_S24 => some 24
  | .SPS_FORMAT_S24_LE => some 24
  | .SPS_FORMAT_S24_BE => some 24
  | .SPS_FORMAT_S24_3LE => some 24
  | .SPS_FORMAT_S24_3BE => some 24
  | .SPS_FORMAT_S32 => some 32
  | .SPS_FORMAT_S32_LE => some 32
  | .SPS_FORMAT_S32_BE => some 32
  | .SPS_FORMAT_UNKNOWN => none
  | .SPS_FORMAT_AUTO => none
  | .SPS_FORMAT_INVALID => none

/-- Lines 1985-2040 of `player_thread_func`: one stereo frame of 16-bit samples raised to
32 bits according to `config.playback_mode`. -/
def widen_frame (mode : playback_mode_type) (ls rs : Int) : Int × Int :=
  match mode with
  | .ST_mono =>
    let both := to_int32 (to_int32 (ls + rs) * 32768)
    (both, both)
  | .ST_reverse_stereo => (to_int32 (rs * 65536), to_int32 (ls * 65536))
  | .ST_left_only => (to_int32 (ls * 65536), to_int32 (ls * 65536))
  | .ST_right_only => (to_int32 (rs * 65536), to_int32 (rs * 65536))
  | .ST_stereo => (to_int32 (ls * 65536), to_int32 (rs * 65536))

/-- The constant `INT64_MAX`. -/
def INT64_MAX : Int := 9223372036854775807

/-- The constant `INT64_MIN`. -/
def INT64_MIN : Int := -9223372036854775808

/-- The local `dither_mask` after `dither_mask -= 1`: `(1 << (64 - b)) - 1` for an output
of `b` bits; `none` where the function dies. -/
def dither_mask : sps_format_t → Option Int
  | .SPS_FORMAT_S32 => some 4294967295
  | .SPS_FORMAT_S32_LE => some 4294967295
  | .SPS_FORMAT_S32_BE => some 4294967295
  | .SPS_FORMAT_S24 => some 1099511627775
  | .SPS_FORMAT_S24_LE => some 1099511627775
  | .SPS_FORMAT_S24_BE => some 1099511627775
  | .SPS_FORMAT_S24_3LE => some 1099511627775
  | .SPS_FORMAT_S24_3BE => some 1099511627775
  | .SPS_FORMAT_S16 => some 281474976710655
  | .SPS_FORMAT_S16_LE => some 281474976710655
  | .SPS_FORMAT_S16_BE => some 281474976710655
  | .SPS_FORMAT_S8 => some 72057594037927935
  | .SPS_FORMAT_U8 => some 72057594037927935
  | .SPS_FORMAT_UNKNOWN => none
  | .SPS_FORMAT_AUTO => none
  | .SPS_FORMAT_INVALID => none

/-- The local `tpdf`, `(r & dither_mask) - (previous_random_number & dither_mask)`; the
mask is `2^k - 1`, so `x & dither_mask` is `x mod 2^k`. -/
def tpdf_value (mask r previous_random_number : Int) : Int :=
  r % (mask + 1) - previous_random_number % (mask + 1)

/-- Lines 706-717 of `process_sample`: the dither is added, "allowing for clipping". -/
def add_dither (hyper_sample tpdf : Int) : Int :=
  if tpdf ≥ 0 then
    if INT64_MAX - tpdf ≥ hyper_sample then hyper_sample + tpdf else INT64_MAX
  else
    if INT64_MIN - tpdf ≤ hyper_sample then hyper_sample + tpdf else INT64_MIN

/-- Lines 637-647 of `process_sample`: the sample as an `int64_t`, shifted up by 32 bits
when `config.loudness` is set and multiplied by `volume << 16` otherwise. -/
def scale_sample (loudness : Int) (sample volume : Int) : Int :=
  if loudness ≠ 0 then to_int64 (sample * 4294967296)
  else
    let hyper_volume := to_int64 (volume * 65536)
    to_int64 (sample * hyper_volume)

/-- The conversion `(uint8_t)x`. -/
def to_uint8 (x : Int) : Nat := (x % 256).toNat

/-- The number of bits by which the output switch shifts `hyper_sample` right. -/
def sample_shift : sps_format_t → Option Nat
  | .SPS_FORMAT_S32_LE => some 32
  | .SPS_FORMAT_S32_BE => some 32
  | .SPS_FORMAT_S32 => some 32
  | .SPS_FORMAT_S24_3LE => some 40
  | .SPS_FORMAT_S24_3BE => some 40
  | .SPS_FORMAT_S24_LE => some 40
  | .SPS_FORMAT_S24_BE => some 40
  | .SPS_FORMAT_S24 => some 40
  | .SPS_FORMAT_S16_LE => some 48
  | .SPS_FORMAT_S16_BE => some 48
  | .SPS_FORMAT_S16 => some 48
  | .SPS_FORMAT_S8 => some 56
  | .SPS_FORMAT_U8 => some 56
  | .SPS_FORMAT_UNKNOWN => none
  | .SPS_FORMAT_AUTO => none
  | .SPS_FORMAT_INVALID => none

/-- The bytes the output switch stores for the shifted value `h`, in the order of the
addresses; the formats without a byte order are stored as an `int32_t` or `int16_t` of
the host, whose byte order is `big_endian`. `none` where the function dies. -/
def store_sample (big_endian : Bool) (format : sps_format_t) (h : Int) : Option (List Nat) :=
  match format with
  | .SPS_FORMAT_S32_LE =>
    some [to_uint8 h, to_uint8 (h / 256), to_uint8 (h / 65536), to_uint8 (h / 16777216)]
  | .SPS_FORMAT_S32_BE =>
    some [to_uint8 (h / 16777216), to_uint8 (h / 65536), to_uint8 (h / 256), to_uint8 h]
  | .SPS_FORMAT_S32 =>
    if big_endian = true then
      some [to_uint8 (h / 16777216), to_uint8 (h / 65536), to_uint8 (h / 256), to_uint8 h]
    else some [to_uint8 h, to_uint8 (h / 256), to_uint8 (h / 65536), to_uint8 (h / 16777216)]
  | .SPS_FORMAT_S24_3LE => some [to_uint8 h, to_uint8 (h / 256), to_uint8 (h / 65536)]
  | .SPS_FORMAT_S24_3BE => some [to_uint8 (h / 65536), to_uint8 (h / 256), to_uint8 h]
  | .SPS_FORMAT_S24_LE => some [to_uint8 h, to_uint8 (h / 256), to_uint8 (h / 65536), 0]
  | .SPS_FORMAT_S24_BE => some [0, to_uint8 (h / 65536), to_uint8 (h / 256), to_uint8 h]
  | .SPS_FORMAT_S24 =>
    if big_endian = true then
      some [to_uint8 (h / 16777216), to_uint8 (h / 65536), to_uint8 (h / 256), to_uint8 h]
    else some [to_uint8 h, to_uint8 (h / 256), to_uint8 (h / 65536), to_uint8 (h / 16777216)]
  | .SPS_FORMAT_S16_LE => some [to_uint8 h, to_uint8 (h / 256)]
  | .SPS_FORMAT_S16_BE => some [to_uint8 (h / 256), to_uint8 h]
  | .SPS_FORMAT_S16 =>
    if big_endian = true then some [to_uint8 (h / 256), to_uint8 h]
    else some [to_uint8 h, to_uint8 (h / 256)]
  | .SPS_FORMAT_S8 => some [to_uint8 h]
  | .SPS_FORMAT_U8 => some [to_uint8 (h + 128)]
  | .SPS_FORMAT_UNKNOWN => none
  | .SPS_FORMAT_AUTO => none
  | .SPS_FORMAT_INVALID => none

/-- The output switch of `process_sample` (lines 722-846) and of `generate_zero_frames`:
`hyper_sample` is shifted right, arithmetically, by 64 minus the bit depth and stored. -/
def sample_bytes (big_endian : Bool) (format : sps_format_t) (hyper_sample : Int) :
    Option (List Nat) :=
  match sample_shift format with
  | none => none
  | some k => store_sample big_endian format (hyper_sample / 2 ^ k)

/-- What `process_sample` writes through `*outp`, all bytes so far, and
`conn->previous_random_number`. -/
structure out_state where
  out : List Nat
  previous_random_number : Int
deriving DecidableEq, Repr

/-- The function `process_sample(sample, outp, format, volume, dither, conn)`; `loudness`
is `config.loudness`, `r` is what `ranarray64i()` returns if it is called, and the result
is `none` where the function dies. -/
def process_sample (big_endian : Bool) (loudness : Int) (format : sps_format_t)
    (volume dither : Int) (r : Int) (st : out_state) (sample : Int) : Option out_state :=
  let hyper_sample := scale_sample loudness sample volume
  if dither ≠ 0 then
    match dither_mask format with
    | none => none
    | some mask =>
      let tpdf := tpdf_value mask r st.previous_random_number
      match sample_bytes big_endian format (add_dither hyper_sample tpdf) with
      | none => none
      | some bs => some ⟨st.out ++ bs, r⟩
  else
    match sample_bytes big_endian format hyper_sample with
    | none => none
    | some bs => some ⟨st.out ++ bs, st.previous_random_number⟩

/-- One pass of the loop of `generate_zero_frames`: the bytes of one sample. -/
def zero_sample_bytes (big_endian : Bool) (format : sps_format_t) (with_dither : Int)
    (r previous_random_number : Int) : Option (List Nat) :=
  match dither_mask format with
  | none => none
  | some mask =>
    let tpdf := tpdf_value mask r previous_random_number
    let hyper_sample : Int := if with_dither ≠ 0 then to_int64 (0 + tpdf) else 0
    sample_bytes big_endian format hyper_sample

/-- The first `k` passes of the loop of `generate_zero_frames`: the samples written, each
as its bytes, and `previous_random_number`; `ran i` is what the `i`-th call of
`ranarray64i()` returns. -/
def generate_zero_samples (big_endian : Bool) (format : sps_format_t) (with_dither : Int)
    (random_number_in : Int) (ran : Nat → Int) : Nat → Option (List (List Nat) × Int)
  | 0 => some ([], random_number_in)
  | k + 1 =>
    match generate_zero_samples big_endian format with_dither random_number_in ran k with
    | none => none
    | some q =>
      match zero_sample_bytes big_endian format with_dither (ran k) q.2 with
      | none => none
      | some bs => some (q.1 ++ [bs], ran k)

/-- The function `generate_zero_frames(outp, number_of_frames, format, with_dither,
random_number_in)` of `common.c`: the bytes written and the return value. -/
def generate_zero_frames (big_endian : Bool) (number_of_frames : Nat) (format : sps_format_t)
    (with_dither : Int) (random_number_in : Int) (ran : Nat → Int) :
    Option (List Nat × Int) :=
  (generate_zero_samples big_endian format with_dither random_number_in ran
    (number_of_frames * 2)).map (fun q => (q.1.flatten, q.2))

/-- The number of bytes of one sample in each format, as the specification lists them. -/
def bytes_per_sample : sps_format_t → Option Nat
  | .SPS_FORMAT_S8 => some 1
  | .SPS_FORMAT_U8 => some 1
  | .SPS_FORMAT_S16 => some 2
  | .SPS_FORMAT_S16_LE => some 2
  | .SPS_FORMAT_S16_BE => some 2
  | .SPS_FORMAT_S24_3LE => some 3
  | .SPS_FORMAT_S24_3BE => some 3
  | .SPS_FORMAT_S24 => some 4
  | .SPS_FORMAT_S24_LE => some 4
  | .SPS_FORMAT_S24_BE => some 4
  | .SPS_FORMAT_S32 => some 4
  | .SPS_FORMAT_S32_LE => some 4
  | .SPS_FORMAT_S32_BE => some 4
  | .SPS_FORMAT_UNKNOWN => none
  | .SPS_FORMAT_AUTO => none
  | .SPS_FORMAT_INVALID => none

/-! ## Basic facts -/

theorem BUFIDX_eq (x : Nat) : BUFIDX x = x % 1024 := by
  unfold BUFIDX BUFFER_FRAMES; omega

theorem BUFIDX_lt (x : Nat) : BUFIDX x < 1024 := by
  rw [BUFIDX_eq]; omega

theorem set_slot_same (buf : Nat → abuf_t) (i : Nat) (v : abuf_t) : set_slot buf i v i = v := by
  simp [set_slot]

theorem set_slot_other (buf : Nat → abuf_t) (i k : Nat) (v : abuf_t) (h : k ≠ i) :
    set_slot buf i v k = buf k := by
  simp [set_slot, h]

/-- A property kept by every step of the look-back is kept by the whole look-back. -/
theorem put_lookback_induct (P : rtsp_conn_info → Prop) (cfg : config_t) (ri : Int)
    (h : ∀ c j k, 1 ≤ j → j ≤ 8 → -1 ≤ k → k ≤ 1 → P c → P (lookback_check cfg ri c j k))
    (c : rtsp_conn_info) (hc : P c) : P (put_lookback cfg ri c) := by
  unfold put_lookback
  split
  · simp only [List.foldl, lookback_pass]
    iterate 24 refine h _ _ _ (by decide) (by decide) (by decide) (by decide) ?_
    exact hc
  · exact hc

theorem lookback_check_ab_read (cfg : config_t) (ri : Int) (c : rtsp_conn_info) (j k : Int) :
    (lookback_check cfg ri c j k).ab_read = c.ab_read := by
  unfold lookback_check
  simp only
  split_ifs <;> rfl

theorem lookback_check_ab_write (cfg : config_t) (ri : Int) (c : rtsp_conn_info) (j k : Int) :
    (lookback_check cfg ri c j k).ab_write = c.ab_write := by
  unfold lookback_check
  simp only
  split_ifs <;> rfl

theorem put_lookback_ab_read (cfg : config_t) (ri : Int) (c : rtsp_conn_info) :
    (put_lookback cfg ri c).ab_read = c.ab_read :=
  put_lookback_induct (fun x => x.ab_read = c.ab_read) cfg ri
    (fun x j k _ _ _ _ hx => (lookback_check_ab_read cfg ri x j k).trans hx) c rfl

theorem put_lookback_ab_write (cfg : config_t) (ri : Int) (c : rtsp_conn_info) :
    (put_lookback cfg ri c).ab_write = c.ab_write :=
  put_lookback_induct (fun x => x.ab_write = c.ab_write) cfg ri
    (fun x j k _ _ _ _ hx => (lookback_check_ab_write cfg ri x j k).trans hx) c rfl

theorem put_store_ab_read (codec : codec_t) (c : rtsp_conn_info) (a : Option Nat)
    (p : packet_t) : (put_store codec c a p).ab_read = c.ab_read := by
  cases a <;> rfl

theorem put_store_ab_write (codec : codec_t) (c : rtsp_conn_info) (a : Option Nat)
    (p : packet_t) : (put_store codec c a p).ab_write = c.ab_write := by
  cases a <;> rfl

theorem put_note_reception_ring (c : rtsp_conn_info) (p : packet_t) :
    (put_note_reception c p).ab_read = c.ab_read ∧
    (put_note_reception c p).ab_write = c.ab_write ∧
    (put_note_reception c p).ab_synced = c.ab_synced ∧
    (put_note_reception c p).audio_buffer = c.audio_buffer ∧
    (put_note_reception c p).late_packets = c.late_packets ∧
    (put_note_reception c p).too_late_packets = c.too_late_packets := by
  unfold put_note_reception
  simp only
  split_ifs <;> exact ⟨rfl, rfl, rfl, rfl, rfl, rfl⟩

theorem put_place_ab_read (c : rtsp_conn_info) (p : packet_t) :
    (put_place c p).1.ab_read = c.ab_read := by
  unfold put_place
  cases put_classify c p.seqno <;> simp only
  exact (put_note_reception_ring c p).1

theorem put_place_ab_synced (c : rtsp_conn_info) (p : packet_t) :
    (put_place c p).1.ab_synced = c.ab_synced := by
  unfold put_place
  cases put_classify c p.seqno <;> simp only
  exact (put_note_reception_ring c p).2.2.1

theorem put_store_ab_synced (codec : codec_t) (c : rtsp_conn_info) (a : Option Nat)
    (p : packet_t) : (put_store codec c a p).ab_synced = c.ab_synced := by
  cases a <;> rfl

/-- The write cursor after the placement, by branch. -/
theorem put_place_ab_write (c : rtsp_conn_info) (p : packet_t) :
    (put_place c p).1.ab_write =
      match put_classify c p.seqno with
      | .expected => SUCCESSOR p.seqno
      | .newer => SUCCESSOR p.seqno
      | .late => c.ab_write
      | .too_late => c.ab_write := by
  unfold put_place
  cases put_classify c p.seqno <;> simp only

theorem put_process_ab_read (cfg : config_t) (codec : codec_t) (c : rtsp_conn_info)
    (p : packet_t) : (put_process cfg codec c p).ab_read = (put_sync c p.seqno).ab_read := by
  unfold put_process put_buffer
  rw [put_lookback_ab_read, put_store_ab_read, put_place_ab_read]
  rfl

theorem put_process_ab_write (cfg : config_t) (codec : codec_t) (c : rtsp_conn_info)
    (p : packet_t) :
    (put_process cfg codec c p).ab_write =
      match put_classify (put_sync c p.seqno) p.seqno with
      | .expected => SUCCESSOR p.seqno
      | .newer => SUCCESSOR p.seqno
      | .late => (put_sync c p.seqno).ab_write
      | .too_late => (put_sync c p.seqno).ab_write := by
  unfold put_process put_buffer
  rw [put_lookback_ab_write, put_store_ab_write, put_place_ab_write]
  rfl

theorem put_sync_of_synced (c : rtsp_conn_info) (seqno : Nat) (h : c.ab_synced ≠ 0) :
    put_sync c seqno = c := by
  unfold put_sync
  rw [if_neg h]

theorem put_prep_ring (conn : rtsp_conn_info) (p : packet_t) :
    (put_count (put_ignore_early_flush conn) p).ab_read = conn.ab_read ∧
    (put_count (put_ignore_early_flush conn) p).ab_write = conn.ab_write ∧
    (put_count (put_ignore_early_flush conn) p).ab_synced = conn.ab_synced ∧
    (put_count (put_ignore_early_flush conn) p).audio_buffer = conn.audio_buffer := by
  unfold put_count put_ignore_early_flush
  split_ifs <;> exact ⟨rfl, rfl, rfl, rfl⟩

/-- The cursors after a call, in terms of the branch taken. -/
theorem player_put_packet_cursors (cfg : config_t) (codec : codec_t) (conn : rtsp_conn_info)
    (p : packet_t) (h_synced : conn.ab_synced ≠ 0) :
    (player_put_packet cfg codec conn p).ab_read = conn.ab_read ∧
    (player_put_packet cfg codec conn p).ab_write =
      if put_reaches_buffer conn p = true ∧
          (put_classify conn p.seqno = .expected ∨ put_classify conn p.seqno = .newer)
      then SUCCESSOR p.seqno else conn.ab_write := by
  obtain ⟨hr, hw, hs, hb⟩ := put_prep_ring conn p
  have hs' : (put_count (put_ignore_early_flush conn) p).ab_synced ≠ 0 := by rw [hs]; exact h_synced
  have hcl : put_classify (put_count (put_ignore_early_flush conn) p) p.seqno
      = put_classify conn p.seqno := by
    unfold put_classify; rw [hr, hw]
  unfold player_put_packet put_reaches_buffer
  simp only
  by_cases h1 : (put_count (put_ignore_early_flush conn) p).connection_state_to_output ≠ 0
  · rw [if_pos h1]
    by_cases h2 : flush_drops (put_count (put_ignore_early_flush conn) p) p.actual_timestamp = true
    · rw [if_pos h2]
      refine ⟨hr, ?_⟩
      simp [h2, hw]
    · rw [if_neg h2]
      rw [put_process_ab_read, put_process_ab_write, put_sync_of_synced _ _ hs', hcl, hr, hw]
      refine ⟨rfl, ?_⟩
      cases put_classify conn p.seqno <;> simp [h1, h2]
  · rw [if_neg h1]
    refine ⟨hr, ?_⟩
    simp [h1, hw]

/-- Moving the write cursor past an expected or newer packet moves it forward. -/
theorem seq_diff_forward (w s r : Nat) (hs : s < 65536)
    (h : w = s ∨ seq_order w s r = true) (h_near : ORDINATE s r < 32766) :
    seq_diff w (SUCCESSOR s) r ≥ 1 := by
  unfold seq_order at h
  unfold seq_diff
  unfold ORDINATE SUCCESSOR at *
  simp only [decide_eq_true_eq] at h
  simp only at *
  rcases h with h | h
  · subst h
    split_ifs at * <;> omega
  · split_ifs at * <;> omega

theorem put_classify_forward (c : rtsp_conn_info) (s : Nat)
    (h : put_classify c s = .expected ∨ put_classify c s = .newer) :
    c.ab_write = s ∨ seq_order c.ab_write s c.ab_read = true := by
  unfold put_classify at h
  by_cases h1 : c.ab_write = s
  · exact Or.inl h1
  · right
    rw [if_neg h1] at h
    by_cases h2 : seq_order c.ab_write s c.ab_read = true
    · exact h2
    · rw [if_neg h2] at h
      split_ifs at h <;> simp at h

/-- C9. Writes never move the write cursor backward: a call of `player_put_packet` on a
synced buffer whose sequence number is fewer than 32766 positions ahead of the read
cursor (its ordinate relative to the read cursor is below 32766) leaves the read cursor
alone, and the write cursor is either unchanged (the packet is filtered out, late or too
late) or becomes `SUCCESSOR(seq)` (the packet is the expected one or newer), and then
`seq_diff(old write, new write, read) >= 1`. -/
theorem C9_write_cursor_never_moves_backward (cfg : config_t) (codec : codec_t)
    (conn : rtsp_conn_info) (p : packet_t)
    (h_synced : conn.ab_synced ≠ 0)
    (h_seq : p.seqno < 65536)
    (h_near : ORDINATE p.seqno conn.ab_read < 32766) :
    (player_put_packet cfg codec conn p).ab_read = conn.ab_read ∧
    ((put_reaches_buffer conn p = true ∧
        (put_classify conn p.seqno = .expected ∨ put_classify conn p.seqno = .newer)) →
      (player_put_packet cfg codec conn p).ab_write = SUCCESSOR p.seqno ∧
      seq_diff conn.ab_write (player_put_packet cfg codec conn p).ab_write conn.ab_read ≥ 1) ∧
    (¬ (put_reaches_buffer conn p = true ∧
        (put_classify conn p.seqno = .expected ∨ put_classify conn p.seqno = .newer)) →
      (player_put_packet cfg codec conn p).ab_write = conn.ab_write) := by
  obtain ⟨hr, hw⟩ := player_put_packet_cursors cfg codec conn p h_synced
  refine ⟨hr, ?_, ?_⟩
  · intro h
    rw [hw, if_pos h]
    exact ⟨rfl, seq_diff_forward _ _ _ h_seq (put_classify_forward _ _ h.2) h_near⟩
  · intro h
    rw [hw, if_neg h]

/-- C9 at a concrete call: the expected packet 7 arrives with the cursors at 5 and 7. -/
theorem C9_witness :
    (player_put_packet cfg0 codec0 (conn_playing 5 7 (fun _ => slot0)) (pkt 7 1000)).ab_write
      = SUCCESSOR 7 ∧
    seq_diff 7 (player_put_packet cfg0 codec0 (conn_playing 5 7 (fun _ => slot0))
      (pkt 7 1000)).ab_write 5 ≥ 1 :=
  (C9_write_cursor_never_moves_backward cfg0 codec0 (conn_playing 5 7 (fun _ => slot0))
    (pkt 7 1000) (by decide) (by decide) (by decide)).2.1
    ⟨by decide, Or.inl (by decide)⟩

/-! ## Resynchronisation on flush (C10) and the first packets after it (C2) -/

theorem ab_resync_slots_apply (buf : Nat → abuf_t) (n i : Nat) :
    ab_resync_slots buf n i =
      if i < n then { buf i with ready := 0, resend_level := 0, sequence_number := 0 }
      else buf i := by
  induction n with
  | zero => simp [ab_resync_slots]
  | succ n ih =>
    simp only [ab_resync_slots]
    by_cases h : i = n
    · subst h
      rw [set_slot_same, ih]
      simp
    · rw [set_slot_other _ _ _ _ h, ih]
      by_cases h1 : i < n
      · have h2 : i < n + 1 := by omega
        simp [h1, h2]
      · have h2 : ¬ i < n + 1 := by omega
        simp [h1, h2]

theorem player_put_packet_of_reaches (cfg : config_t) (codec : codec_t)
    (conn : rtsp_conn_info) (p : packet_t) (h : put_reaches_buffer conn p = true) :
    player_put_packet cfg codec conn p
      = put_process cfg codec (put_count (put_ignore_early_flush conn) p) p := by
  unfold put_reaches_buffer at h
  simp only [Bool.and_eq_true, decide_eq_true_eq, Bool.not_eq_true'] at h
  unfold player_put_packet
  simp only
  rw [if_pos h.1, h.2]
  simp

theorem put_resend_interval_ge (c : rtsp_conn_info) : 31 ≤ put_resend_interval c := by
  unfold put_resend_interval
  simp only
  split_ifs with h
  · have h31 : ((250 * 44100 / 352 / 1000 : Int)) = 31 := by decide
    rw [h31] at h
    omega
  · decide

/-- With fewer than 31 packets between the cursors the look-back examines nothing. -/
theorem put_lookback_small (cfg : config_t) (ri : Int) (c : rtsp_conn_info) (hri : 31 ≤ ri)
    (h : seq_diff c.ab_read c.ab_write c.ab_read ≤ 30) : put_lookback cfg ri c = c := by
  refine put_lookback_induct (fun x => x = c) cfg ri ?_ c rfl
  intro x j k hj1 _ hk _ hx
  subst hx
  unfold lookback_check
  simp only
  have hjj : 1 ≤ j * j := by nlinarith
  have hb : 31 ≤ ri * (j * j) := by nlinarith
  rw [if_neg (by omega)]

theorem put_sync_of_unsynced (c : rtsp_conn_info) (seqno : Nat) (h : c.ab_synced = 0) :
    (put_sync c seqno).ab_read = seqno ∧ (put_sync c seqno).ab_write = seqno ∧
    (put_sync c seqno).ab_synced = 1 := by
  unfold put_sync
  rw [if_pos h]
  exact ⟨rfl, rfl, rfl⟩

theorem put_classify_expected (c : rtsp_conn_info) (s : Nat) (h : c.ab_write = s) :
    put_classify c s = .expected := by
  unfold put_classify
  rw [if_pos h]

theorem put_sync_ab_synced (c : rtsp_conn_info) (seqno : Nat) :
    (put_sync c seqno).ab_synced ≠ 0 := by
  unfold put_sync
  split_ifs with h
  · simp
  · exact h

theorem lookback_check_ab_synced (cfg : config_t) (ri : Int) (c : rtsp_conn_info) (j k : Int) :
    (lookback_check cfg ri c j k).ab_synced = c.ab_synced := by
  unfold lookback_check
  simp only
  split_ifs <;> rfl

theorem put_process_ab_synced (cfg : config_t) (codec : codec_t) (c : rtsp_conn_info)
    (p : packet_t) : (put_process cfg codec c p).ab_synced = (put_sync c p.seqno).ab_synced := by
  unfold put_process
  have h1 : (put_lookback cfg (put_resend_interval c) (put_buffer codec c p)).ab_synced
      = (put_buffer codec c p).ab_synced :=
    put_lookback_induct (fun x => x.ab_synced = (put_buffer codec c p).ab_synced) cfg _
      (fun x j k _ _ _ _ hx => (lookback_check_ab_synced cfg _ x j k).trans hx) _ rfl
  rw [h1]
  unfold put_buffer
  rw [put_store_ab_synced, put_place_ab_synced]
  rfl

/-- The first packet to reach an unsynced buffer sets both cursors to its own sequence
number and then moves the write cursor past it. -/
theorem player_put_packet_unsynced (cfg : config_t) (codec : codec_t)
    (conn : rtsp_conn_info) (p : packet_t) (h_unsynced : conn.ab_synced = 0)
    (h : put_reaches_buffer conn p = true) :
    (player_put_packet cfg codec conn p).ab_read = p.seqno ∧
    (player_put_packet cfg codec conn p).ab_write = SUCCESSOR p.seqno ∧
    (player_put_packet cfg codec conn p).ab_synced = 1 := by
  obtain ⟨_, _, hs, _⟩ := put_prep_ring conn p
  have hs' : (put_count (put_ignore_early_flush conn) p).ab_synced = 0 := by
    rw [hs]; exact h_unsynced
  obtain ⟨h1, h2, h3⟩ := put_sync_of_unsynced _ p.seqno hs'
  rw [player_put_packet_of_reaches cfg codec conn p h, put_process_ab_read,
    put_process_ab_write, put_process_ab_synced, put_classify_expected _ _ h2]
  exact ⟨h1, rfl, h3⟩

/-- C10. Resync on flush: when an iteration of `buffer_get_frame` finds `flush_requested`
set (line 894), it runs `ab_resync`: at the end of the iteration every one of the
`BUFFER_FRAMES` slots has `ready = 0`, `resend_level = 0` and `sequence_number = 0`,
`ab_synced = 0`, `ab_buffering = 1`, and `flush_requested`, `first_packet_timestamp` and
`first_packet_time_to_play` are cleared (the iteration then waits). The next packet that
reaches the buffer re-synchronises both cursors to its own sequence number (line 478-480)
and leaves the read cursor there and the write cursor just past it. -/
theorem C10_resync_on_flush (cfg : config_t) (codec : codec_t) (e : iter_env)
    (conn : rtsp_conn_info) (loc : get_locals)
    (h_flush : (get_check_output cfg e conn).flush_requested = 1) :
    (∀ i, i < BUFFER_FRAMES →
      ((buffer_get_frame_iter cfg e conn loc).conn.audio_buffer i).ready = 0 ∧
      ((buffer_get_frame_iter cfg e conn loc).conn.audio_buffer i).resend_level = 0 ∧
      ((buffer_get_frame_iter cfg e conn loc).conn.audio_buffer i).sequence_number = 0) ∧
    (buffer_get_frame_iter cfg e conn loc).conn.ab_synced = 0 ∧
    (buffer_get_frame_iter cfg e conn loc).conn.ab_buffering = 1 ∧
    (buffer_get_frame_iter cfg e conn loc).conn.flush_requested = 0 ∧
    (buffer_get_frame_iter cfg e conn loc).conn.first_packet_timestamp = 0 ∧
    (buffer_get_frame_iter cfg e conn loc).conn.first_packet_time_to_play = 0 ∧
    (buffer_get_frame_iter cfg e conn loc).wait = true ∧
    ∀ p : packet_t, put_reaches_buffer (buffer_get_frame_iter cfg e conn loc).conn p = true →
      (put_sync (buffer_get_frame_iter cfg e conn loc).conn p.seqno).ab_read = p.seqno ∧
      (put_sync (buffer_get_frame_iter cfg e conn loc).conn p.seqno).ab_write = p.seqno ∧
      (player_put_packet cfg codec (buffer_get_frame_iter cfg e conn loc).conn p).ab_read
        = p.seqno ∧
      (player_put_packet cfg codec (buffer_get_frame_iter cfg e conn loc).conn p).ab_write
        = SUCCESSOR p.seqno ∧
      (player_put_packet cfg codec (buffer_get_frame_iter cfg e conn loc).conn p).ab_synced
        = 1 := by
  have hiter : buffer_get_frame_iter cfg e conn loc =
      ⟨{ ab_resync (get_check_output cfg e conn) with
          first_packet_timestamp := 0
          first_packet_time_to_play := 0
          time_since_play_started := 0
          flush_requested := 0 }, loc, true⟩ := by
    unfold buffer_get_frame_iter get_flush
    simp only [h_flush, if_true]
    simp [ab_resync, get_decide_wait]
  rw [hiter]
  refine ⟨?_, rfl, rfl, rfl, rfl, rfl, rfl, ?_⟩
  · intro i hi
    simp [ab_resync, ab_resync_slots_apply, hi]
  · intro p hp
    have hu := put_sync_of_unsynced { ab_resync (get_check_output cfg e conn) with
          first_packet_timestamp := 0
          first_packet_time_to_play := 0
          time_since_play_started := 0
          flush_requested := 0 } p.seqno rfl
    have hq := player_put_packet_unsynced cfg codec _ p rfl hp
    exact ⟨hu.1, hu.2.1, hq.1, hq.2.1, hq.2.2⟩

/-! ## How one call of `player_put_packet` changes the ring -/

theorem audio_packet_decode_congr (codec : codec_t) (c1 c2 : rtsp_conn_info)
    (h : decode_params c1 = decode_params c2) (dest : List Int) (destlen : Int)
    (buf : List Nat) (len : Int) :
    audio_packet_decode codec c1 dest destlen buf len
      = audio_packet_decode codec c2 dest destlen buf len := by
  unfold decode_params at h
  simp only [Prod.mk.injEq] at h
  obtain ⟨_, h2, h3, h4⟩ := h
  unfold audio_packet_decode unencrypted_packet_decode
  simp only [h2, h3, h4]

theorem put_fill_congr (codec : codec_t) (c1 c2 : rtsp_conn_info)
    (h : decode_params c1 = decode_params c2) (slot : abuf_t) (p : packet_t) :
    put_fill codec c1 slot p = put_fill codec c2 slot p := by
  have h1 : c1.max_frames_per_packet = c2.max_frames_per_packet := by
    unfold decode_params at h
    simp only [Prod.mk.injEq] at h
    exact h.1
  unfold put_fill
  rw [h1]
  simp only [audio_packet_decode_congr codec c1 c2 h]

/-- The return value of the decoder does not depend on what the arena held. -/
theorem audio_packet_decode_reply (codec : codec_t) (c : rtsp_conn_info) (d1 d2 : List Int)
    (destlen : Int) (buf : List Nat) (len : Int) :
    (audio_packet_decode codec c d1 destlen buf len).reply
      = (audio_packet_decode codec c d2 destlen buf len).reply := by
  unfold audio_packet_decode unencrypted_packet_decode
  split_ifs <;> cases c.stream_type <;> simp_all

theorem put_prep_params (conn : rtsp_conn_info) (p : packet_t) :
    decode_params (put_count (put_ignore_early_flush conn) p) = decode_params conn ∧
    (put_count (put_ignore_early_flush conn) p).late_packets = conn.late_packets ∧
    (put_count (put_ignore_early_flush conn) p).too_late_packets = conn.too_late_packets ∧
    (put_count (put_ignore_early_flush conn) p).ab_buffering = conn.ab_buffering := by
  unfold put_count put_ignore_early_flush decode_params
  split_ifs <;> exact ⟨rfl, rfl, rfl, rfl⟩

/-- The state after the store (before the look-back), for a synced buffer, branch by
branch. -/
theorem put_buffer_synced (codec : codec_t) (c : rtsp_conn_info) (p : packet_t)
    (h_synced : c.ab_synced ≠ 0) :
    (put_buffer codec c p).ab_read = c.ab_read ∧
    (put_buffer codec c p).ab_synced = c.ab_synced ∧
    (put_buffer codec c p).ab_buffering = c.ab_buffering ∧
    decode_params (put_buffer codec c p) = decode_params c ∧
    (match put_classify c p.seqno with
      | .expected =>
        (put_buffer codec c p).ab_write = SUCCESSOR p.seqno ∧
        (put_buffer codec c p).audio_buffer = set_slot c.audio_buffer (BUFIDX p.seqno)
          (put_fill codec c (c.audio_buffer (BUFIDX p.seqno)) p) ∧
        (put_buffer codec c p).late_packets = c.late_packets ∧
        (put_buffer codec c p).too_late_packets = c.too_late_packets
      | .newer =>
        (put_buffer codec c p).ab_write = SUCCESSOR p.seqno ∧
        (put_buffer codec c p).audio_buffer =
          set_slot (clear_gap_slots c.audio_buffer c.ab_write
              (seq_diff c.ab_write p.seqno c.ab_read).toNat) (BUFIDX p.seqno)
            (put_fill codec c (clear_gap_slots c.audio_buffer c.ab_write
              (seq_diff c.ab_write p.seqno c.ab_read).toNat (BUFIDX p.seqno)) p) ∧
        (put_buffer codec c p).late_packets = c.late_packets ∧
        (put_buffer codec c p).too_late_packets = c.too_late_packets
      | .late =>
        (put_buffer codec c p).ab_write = c.ab_write ∧
        (put_buffer codec c p).audio_buffer = set_slot c.audio_buffer (BUFIDX p.seqno)
          (put_fill codec c (c.audio_buffer (BUFIDX p.seqno)) p) ∧
        (put_buffer codec c p).late_packets = (c.late_packets + 1) % 18446744073709551616 ∧
        (put_buffer codec c p).too_late_packets = c.too_late_packets
      | .too_late =>
        (put_buffer codec c p).ab_write = c.ab_write ∧
        (put_buffer codec c p).audio_buffer = c.audio_buffer ∧
        (put_buffer codec c p).late_packets = c.late_packets ∧
        (put_buffer codec c p).too_late_packets
          = (c.too_late_packets + 1) % 18446744073709551616) := by
  unfold put_buffer
  rw [put_sync_of_synced c p.seqno h_synced]
  have hcl : put_classify (put_set_resend_interval c) p.seqno = put_classify c p.seqno := rfl
  obtain ⟨n1, _, n3, n4, n5, n6⟩ := put_note_reception_ring (put_set_resend_interval c) p
  have n7 : (put_note_reception (put_set_resend_interval c) p).ab_buffering = c.ab_buffering := by
    unfold put_note_reception; simp only; split_ifs <;> rfl
  have n8 : decode_params (put_note_reception (put_set_resend_interval c) p)
      = decode_params c := by
    unfold put_note_reception decode_params; simp only; split_ifs <;> rfl
  unfold put_place
  rw [hcl]
  cases put_classify c p.seqno
  · refine ⟨n1, n3, n7, n8, rfl, ?_, n5, n6⟩
    show set_slot (put_note_reception (put_set_resend_interval c) p).audio_buffer _ _ = _
    rw [n4]
    exact congrArg _ (put_fill_congr codec _ _ n8 _ _)
  · exact ⟨rfl, rfl, rfl, rfl, rfl, rfl, rfl, rfl⟩
  · exact ⟨rfl, rfl, rfl, rfl, rfl, rfl, rfl, rfl⟩
  · exact ⟨rfl, rfl, rfl, rfl, rfl, rfl, rfl, rfl⟩

/-- One step of the look-back changes no cursor, flag or counter of the ring and, in
the slots, only `resend_level`. -/
theorem lookback_check_frame (cfg : config_t) (ri : Int) (c : rtsp_conn_info) (j k : Int) :
    (lookback_check cfg ri c j k).ab_buffering = c.ab_buffering ∧
    (lookback_check cfg ri c j k).late_packets = c.late_packets ∧
    (lookback_check cfg ri c j k).too_late_packets = c.too_late_packets ∧
    decode_params (lookback_check cfg ri c j k) = decode_params c ∧
    ∀ i, slot_content ((lookback_check cfg ri c j k).audio_buffer i)
      = slot_content (c.audio_buffer i) := by
  unfold lookback_check
  simp only
  split_ifs
  · refine ⟨rfl, rfl, rfl, rfl, ?_⟩
    intro i
    simp only [set_slot]
    split_ifs with hi
    · subst hi; rfl
    · rfl
  · refine ⟨rfl, rfl, rfl, rfl, ?_⟩
    intro i
    simp only [set_slot]
    split_ifs with hi
    · subst hi; rfl
    · rfl
  · exact ⟨rfl, rfl, rfl, rfl, fun _ => rfl⟩
  · exact ⟨rfl, rfl, rfl, rfl, fun _ => rfl⟩

theorem put_lookback_frame (cfg : config_t) (ri : Int) (c : rtsp_conn_info) :
    (put_lookback cfg ri c).ab_buffering = c.ab_buffering ∧
    (put_lookback cfg ri c).late_packets = c.late_packets ∧
    (put_lookback cfg ri c).too_late_packets = c.too_late_packets ∧
    decode_params (put_lookback cfg ri c) = decode_params c ∧
    ∀ i, slot_content ((put_lookback cfg ri c).audio_buffer i)
      = slot_content (c.audio_buffer i) := by
  refine put_lookback_induct (fun x => x.ab_buffering = c.ab_buffering ∧
    x.late_packets = c.late_packets ∧ x.too_late_packets = c.too_late_packets ∧
    decode_params x = decode_params c ∧
    ∀ i, slot_content (x.audio_buffer i) = slot_content (c.audio_buffer i)) cfg ri ?_ c
    ⟨rfl, rfl, rfl, rfl, fun _ => rfl⟩
  intro x j k _ _ _ _ hx
  obtain ⟨f1, f2, f3, f4, f5⟩ := lookback_check_frame cfg ri x j k
  exact ⟨f1.trans hx.1, f2.trans hx.2.1, f3.trans hx.2.2.1, f4.trans hx.2.2.2.1,
    fun i => (f5 i).trans (hx.2.2.2.2 i)⟩

theorem seq_diff_two (s : Nat) :
    seq_diff s (SUCCESSOR (SUCCESSOR s)) s = 2 := by
  unfold seq_diff ORDINATE SUCCESSOR
  simp only
  split_ifs <;> omega

/-- C10 at a concrete state: a playing connection with a flush requested. -/
theorem C10_witness :
    (get_check_output cfg0 (env0 0 0)
      { conn_playing 3 9 (fun _ => slot_ready 3 500) with flush_requested := 1 }).flush_requested
      = 1 ∧
    (buffer_get_frame_iter cfg0 (env0 0 0)
      { conn_playing 3 9 (fun _ => slot_ready 3 500) with flush_requested := 1 }
      ⟨none, 0⟩).conn.ab_synced = 0 ∧
    (player_put_packet cfg0 codec0 (buffer_get_frame_iter cfg0 (env0 0 0)
      { conn_playing 3 9 (fun _ => slot_ready 3 500) with flush_requested := 1 }
      ⟨none, 0⟩).conn (pkt 700 5000)).ab_read = 700 :=
  have h := C10_resync_on_flush cfg0 codec0 (env0 0 0)
    { conn_playing 3 9 (fun _ => slot_ready 3 500) with flush_requested := 1 } ⟨none, 0⟩
    (by decide)
  ⟨by decide, h.2.1, (h.2.2.2.2.2.2.2 (pkt 700 5000) (by decide)).2.2.1⟩

/-- C2. Sequence-number wraparound is treated as consecutive: for every sequence number
`s` (in particular `0xFFFF`, whose successor is `0`), when `s` is put into an unsynced
buffer and `SUCCESSOR(s)` is put next (both packets reaching the buffer), the second
packet takes the expected-next-packet branch: the write cursor becomes
`SUCCESSOR(SUCCESSOR(s))`, the read cursor stays `s`, every slot other than the one the
second packet is stored in is left exactly as it was (no slot is cleared as a gap), and
neither `late_packets` nor `too_late_packets` changes. -/
theorem C2_wraparound_is_consecutive (cfg : config_t) (codec : codec_t)
    (conn : rtsp_conn_info) (p1 p2 : packet_t)
    (h_unsynced : conn.ab_synced = 0)
    (h_next : p2.seqno = SUCCESSOR p1.seqno)
    (h1 : put_reaches_buffer conn p1 = true)
    (h2 : put_reaches_buffer (player_put_packet cfg codec conn p1) p2 = true) :
    put_classify (player_put_packet cfg codec conn p1) p2.seqno = .expected ∧
    (player_put_packet cfg codec (player_put_packet cfg codec conn p1) p2).ab_write
      = SUCCESSOR (SUCCESSOR p1.seqno) ∧
    (player_put_packet cfg codec (player_put_packet cfg codec conn p1) p2).ab_read
      = p1.seqno ∧
    (∀ i, i ≠ BUFIDX p2.seqno →
      (player_put_packet cfg codec (player_put_packet cfg codec conn p1) p2).audio_buffer i
        = (player_put_packet cfg codec conn p1).audio_buffer i) ∧
    (player_put_packet cfg codec (player_put_packet cfg codec conn p1) p2).late_packets
      = (player_put_packet cfg codec conn p1).late_packets ∧
    (player_put_packet cfg codec (player_put_packet cfg codec conn p1) p2).too_late_packets
      = (player_put_packet cfg codec conn p1).too_late_packets := by
  obtain ⟨c1r, c1w, c1s⟩ := player_put_packet_unsynced cfg codec conn p1 h_unsynced h1
  generalize player_put_packet cfg codec conn p1 = c1 at *
  obtain ⟨qr, qw, qs, qb⟩ := put_prep_ring c1 p2
  obtain ⟨_, ql, qt, _⟩ := put_prep_params c1 p2
  have hcl1 : put_classify c1 p2.seqno = .expected :=
    put_classify_expected _ _ (by rw [c1w, h_next])
  have hcl : put_classify (put_count (put_ignore_early_flush c1) p2) p2.seqno = .expected :=
    put_classify_expected _ _ (by rw [qw, c1w, h_next])
  have hsy : (put_count (put_ignore_early_flush c1) p2).ab_synced ≠ 0 := by
    rw [qs, c1s]; decide
  obtain ⟨br, _, _, _, hb⟩ := put_buffer_synced codec _ p2 hsy
  rw [hcl] at hb
  obtain ⟨bw, bb, bl, bt⟩ := hb
  have hsmall : put_lookback cfg (put_resend_interval (put_count (put_ignore_early_flush c1) p2))
      (put_buffer codec (put_count (put_ignore_early_flush c1) p2) p2)
      = put_buffer codec (put_count (put_ignore_early_flush c1) p2) p2 := by
    apply put_lookback_small _ _ _ (put_resend_interval_ge _)
    rw [br, bw, qr, c1r, h_next, seq_diff_two]
    decide
  rw [player_put_packet_of_reaches cfg codec c1 p2 h2]
  unfold put_process
  rw [hsmall, bw, br, bb, bl, bt, qr, qb, ql, qt, c1r, h_next]
  refine ⟨h_next ▸ hcl1, rfl, rfl, ?_, rfl, rfl⟩
  intro i hi
  exact set_slot_other _ _ _ _ hi

/-- C2 at the wraparound itself: sequence number `0xFFFF` followed by `0`. -/
theorem C2_witness :
    put_classify (player_put_packet cfg0 codec0 conn0 (pkt 65535 1000)) (pkt 0 1352).seqno
      = .expected ∧
    (player_put_packet cfg0 codec0 (player_put_packet cfg0 codec0 conn0 (pkt 65535 1000))
      (pkt 0 1352)).ab_write = 1 ∧
    (player_put_packet cfg0 codec0 (player_put_packet cfg0 codec0 conn0 (pkt 65535 1000))
      (pkt 0 1352)).ab_read = 65535 :=
  have h := C2_wraparound_is_consecutive cfg0 codec0 conn0 (pkt 65535 1000) (pkt 0 1352)
    (by decide) (by decide) (by decide) (by decide)
  ⟨h.1, h.2.1, h.2.2.1⟩

/-! ## Gaps (C7) and late packets (C8) -/

theorem cleared_slot_idem (a : abuf_t) : cleared_slot (cleared_slot a) = cleared_slot a := rfl

theorem clear_gap_slots_hit (buf : Nat → abuf_t) (w n j : Nat)
    (h : ∃ i, i < n ∧ BUFIDX (seq_sum w (i % 65536)) = j) :
    clear_gap_slots buf w n j = cleared_slot (buf j) := by
  induction n with
  | zero => obtain ⟨i, hi, _⟩ := h; omega
  | succ n ih =>
    simp only [clear_gap_slots]
    by_cases hj : j = BUFIDX (seq_sum w (n % 65536))
    · rw [hj, set_slot_same]
      by_cases hprev : ∃ i, i < n ∧ BUFIDX (seq_sum w (i % 65536)) = j
      · rw [← hj, ih hprev]; rfl
      · have hmiss : clear_gap_slots buf w n j = buf j := by
          clear ih h
          have : ∀ m, m ≤ n → clear_gap_slots buf w m j = buf j := by
            intro m
            induction m with
            | zero => intro _; rfl
            | succ m ihm =>
              intro hm
              simp only [clear_gap_slots]
              have hne : j ≠ BUFIDX (seq_sum w (m % 65536)) := by
                intro heq
                exact hprev ⟨m, by omega, heq.symm⟩
              rw [set_slot_other _ _ _ _ hne]
              exact ihm (by omega)
          exact this n (le_refl n)
        rw [← hj, hmiss]
    · rw [set_slot_other _ _ _ _ hj]
      apply ih
      obtain ⟨i, hi, hij⟩ := h
      refine ⟨i, ?_, hij⟩
      by_cases hin : i = n
      · subst hin; exact absurd hij.symm hj
      · omega

theorem clear_gap_slots_miss (buf : Nat → abuf_t) (w n j : Nat)
    (h : ∀ i, i < n → BUFIDX (seq_sum w (i % 65536)) ≠ j) :
    clear_gap_slots buf w n j = buf j := by
  induction n with
  | zero => rfl
  | succ n ih =>
    simp only [clear_gap_slots]
    rw [set_slot_other _ _ _ _ (fun heq => h n (by omega) heq.symm)]
    exact ih (fun i hi => h i (by omega))

/-- A packet that decodes fills its slot: ready, with the packet's timestamp and
sequence number; `resend_level` is not touched. -/
theorem put_fill_of_decodes (codec : codec_t) (c0 c : rtsp_conn_info) (slot : abuf_t)
    (p : packet_t) (hp : decode_params c = decode_params c0)
    (h : packet_decodes codec c0 p = true) :
    (put_fill codec c slot p).ready = 1 ∧
    (put_fill codec c slot p).sequence_number = p.seqno ∧
    (put_fill codec c slot p).given_timestamp = p.actual_timestamp ∧
    (put_fill codec c slot p).resend_level = slot.resend_level := by
  rw [put_fill_congr codec c c0 hp]
  unfold packet_decodes at h
  simp only [decide_eq_true_eq] at h
  rw [audio_packet_decode_reply codec c0 [] slot.data] at h
  unfold put_fill
  simp only
  rw [if_pos h]
  exact ⟨rfl, rfl, rfl, rfl⟩

theorem put_classify_newer (c : rtsp_conn_info) (s : Nat)
    (h : seq_order c.ab_write s c.ab_read = true) : put_classify c s = .newer := by
  have hne : c.ab_write ≠ s := by
    intro heq
    rw [heq] at h
    unfold seq_order at h
    simp at h
  unfold put_classify
  rw [if_neg hne, if_pos h]

/-- The slot of a sequence number inside a gap shorter than the ring is not the slot of
the packet that opened the gap. -/
theorem gap_slot_ne (w s r i : Nat) (hi : (i : Int) < seq_diff w s r)
    (hg : seq_diff w s r < 1024) : BUFIDX (seq_sum w (i % 65536)) ≠ BUFIDX s := by
  rw [BUFIDX_eq, BUFIDX_eq]
  unfold seq_sum
  unfold seq_diff ORDINATE at *
  simp only at *
  split_ifs at * <;> omega

/-- The state after the store for a call on a synced buffer, in terms of the state
before the call. -/
theorem put_buffer_prep (codec : codec_t) (conn : rtsp_conn_info) (p : packet_t)
    (h_synced : conn.ab_synced ≠ 0) :
    (put_buffer codec (put_count (put_ignore_early_flush conn) p) p).ab_read = conn.ab_read ∧
    (put_buffer codec (put_count (put_ignore_early_flush conn) p) p).ab_buffering
      = conn.ab_buffering ∧
    decode_params (put_buffer codec (put_count (put_ignore_early_flush conn) p) p)
      = decode_params conn ∧
    (match put_classify conn p.seqno with
      | .expected =>
        (put_buffer codec (put_count (put_ignore_early_flush conn) p) p).ab_write
          = SUCCESSOR p.seqno ∧
        (put_buffer codec (put_count (put_ignore_early_flush conn) p) p).audio_buffer
          = set_slot conn.audio_buffer (BUFIDX p.seqno)
              (put_fill codec conn (conn.audio_buffer (BUFIDX p.seqno)) p) ∧
        (put_buffer codec (put_count (put_ignore_early_flush conn) p) p).late_packets
          = conn.late_packets ∧
        (put_buffer codec (put_count (put_ignore_early_flush conn) p) p).too_late_packets
          = conn.too_late_packets
      | .newer =>
        (put_buffer codec (put_count (put_ignore_early_flush conn) p) p).ab_write
          = SUCCESSOR p.seqno ∧
        (put_buffer codec (put_count (put_ignore_early_flush conn) p) p).audio_buffer =
          set_slot (clear_gap_slots conn.audio_buffer conn.ab_write
              (seq_diff conn.ab_write p.seqno conn.ab_read).toNat) (BUFIDX p.seqno)
            (put_fill codec conn (clear_gap_slots conn.audio_buffer conn.ab_write
              (seq_diff conn.ab_write p.seqno conn.ab_read).toNat (BUFIDX p.seqno)) p) ∧
        (put_buffer codec (put_count (put_ignore_early_flush conn) p) p).late_packets
          = conn.late_packets ∧
        (put_buffer codec (put_count (put_ignore_early_flush conn) p) p).too_late_packets
          = conn.too_late_packets
      | .late =>
        (put_buffer codec (put_count (put_ignore_early_flush conn) p) p).ab_write
          = conn.ab_write ∧
        (put_buffer codec (put_count (put_ignore_early_flush conn) p) p).audio_buffer
          = set_slot conn.audio_buffer (BUFIDX p.seqno)
              (put_fill codec conn (conn.audio_buffer (BUFIDX p.seqno)) p) ∧
        (put_buffer codec (put_count (put_ignore_early_flush conn) p) p).late_packets
          = (conn.late_packets + 1) % 18446744073709551616 ∧
        (put_buffer codec (put_count (put_ignore_early_flush conn) p) p).too_late_packets
          = conn.too_late_packets
      | .too_late =>
        (put_buffer codec (put_count (put_ignore_early_flush conn) p) p).ab_write
          = conn.ab_write ∧
        (put_buffer codec (put_count (put_ignore_early_flush conn) p) p).audio_buffer
          = conn.audio_buffer ∧
        (put_buffer codec (put_count (put_ignore_early_flush conn) p) p).late_packets
          = conn.late_packets ∧
        (put_buffer codec (put_count (put_ignore_early_flush conn) p) p).too_late_packets
          = (conn.too_late_packets + 1) % 18446744073709551616) := by
  obtain ⟨qr, qw, qs, qb⟩ := put_prep_ring conn p
  obtain ⟨qp, ql, qt, qf⟩ := put_prep_params conn p
  have hsy : (put_count (put_ignore_early_flush conn) p).ab_synced ≠ 0 := by
    rw [qs]; exact h_synced
  have hcl : put_classify (put_count (put_ignore_early_flush conn) p) p.seqno
      = put_classify conn p.seqno := by
    unfold put_classify; rw [qr, qw]
  obtain ⟨br, _, bf, bp, hb⟩ := put_buffer_synced codec _ p hsy
  rw [hcl] at hb
  refine ⟨br.trans qr, bf.trans qf, bp.trans qp, ?_⟩
  have hfill : ∀ slot, put_fill codec (put_count (put_ignore_early_flush conn) p) slot p
      = put_fill codec conn slot p := fun slot => put_fill_congr codec _ _ qp slot p
  cases hc : put_classify conn p.seqno <;> rw [hc] at hb <;> simp only at hb ⊢ <;>
    obtain ⟨bw, bb, bl, bt⟩ := hb
  · exact ⟨bw, by rw [bb, qb, hfill], bl.trans ql, bt.trans qt⟩
  · exact ⟨bw, by rw [bb, qb, qw, qr, hfill], bl.trans ql, bt.trans qt⟩
  · exact ⟨bw.trans qw, by rw [bb, qb, hfill], by rw [bl, ql], bt.trans qt⟩
  · exact ⟨bw.trans qw, bb.trans qb, bl.trans ql, by rw [bt, qt]⟩

/-- A call that reaches the buffer ends with the look-back applied to the state after
the store; the look-back changes no slot content. -/
theorem player_put_packet_content (cfg : config_t) (codec : codec_t) (conn : rtsp_conn_info)
    (p : packet_t) (h_reach : put_reaches_buffer conn p = true) :
    player_put_packet cfg codec conn p
      = put_lookback cfg (put_resend_interval conn)
          (put_buffer codec (put_count (put_ignore_early_flush conn) p) p) ∧
    (∀ i, slot_content ((player_put_packet cfg codec conn p).audio_buffer i)
      = slot_content
          ((put_buffer codec (put_count (put_ignore_early_flush conn) p) p).audio_buffer i)) ∧
    (player_put_packet cfg codec conn p).late_packets
      = (put_buffer codec (put_count (put_ignore_early_flush conn) p) p).late_packets ∧
    (player_put_packet cfg codec conn p).too_late_packets
      = (put_buffer codec (put_count (put_ignore_early_flush conn) p) p).too_late_packets := by
  have hri : put_resend_interval (put_count (put_ignore_early_flush conn) p)
      = put_resend_interval conn := by
    unfold put_resend_interval put_count put_ignore_early_flush
    split_ifs <;> rfl
  rw [player_put_packet_of_reaches cfg codec conn p h_reach]
  unfold put_process
  rw [hri]
  obtain ⟨_, f2, f3, _, f5⟩ := put_lookback_frame cfg (put_resend_interval conn)
    (put_buffer codec (put_count (put_ignore_early_flush conn) p) p)
  exact ⟨rfl, f5, f2, f3⟩

theorem slot_content_fields (a b : abuf_t) (h : slot_content a = slot_content b) :
    a.ready = b.ready ∧ a.sequence_number = b.sequence_number ∧
    a.given_timestamp = b.given_timestamp ∧ a.length = b.length ∧ a.data = b.data := by
  unfold slot_content at h
  simp only [Prod.mk.injEq] at h
  exact h

/-- C7. Gap handling: when a packet that reaches a synced buffer and decodes has a
sequence number strictly ahead of the write cursor (`seq_order(write, seq, read)`), with
gap `g = seq_diff(write, seq, read)`, then `g > 0`, after the call the write cursor is
`SUCCESSOR(seq)`, the read cursor is unchanged, the slot of `seq` is ready and holds
`seq` and the packet's timestamp, and for `g < BUFFER_FRAMES` the slot of each of the `g`
intervening sequence numbers `write + i`, `i < g`, is not ready with `resend_level = 0`
in the state after the store, on which the look-back pass then runs (and it is still not
ready after the look-back). -/
theorem C7_gap_handling (cfg : config_t) (codec : codec_t) (conn : rtsp_conn_info)
    (p : packet_t)
    (h_synced : conn.ab_synced ≠ 0)
    (h_reach : put_reaches_buffer conn p = true)
    (h_ahead : seq_order conn.ab_write p.seqno conn.ab_read = true)
    (h_dec : packet_decodes codec conn p = true) :
    0 < seq_diff conn.ab_write p.seqno conn.ab_read ∧
    (player_put_packet cfg codec conn p).ab_write = SUCCESSOR p.seqno ∧
    (player_put_packet cfg codec conn p).ab_read = conn.ab_read ∧
    ((player_put_packet cfg codec conn p).audio_buffer (BUFIDX p.seqno)).ready = 1 ∧
    ((player_put_packet cfg codec conn p).audio_buffer (BUFIDX p.seqno)).sequence_number
      = p.seqno ∧
    ((player_put_packet cfg codec conn p).audio_buffer (BUFIDX p.seqno)).given_timestamp
      = p.actual_timestamp ∧
    player_put_packet cfg codec conn p
      = put_lookback cfg (put_resend_interval conn)
          (put_buffer codec (put_count (put_ignore_early_flush conn) p) p) ∧
    (seq_diff conn.ab_write p.seqno conn.ab_read < (BUFFER_FRAMES : Int) →
      ∀ i : Nat, (i : Int) < seq_diff conn.ab_write p.seqno conn.ab_read →
        ((put_buffer codec (put_count (put_ignore_early_flush conn) p) p).audio_buffer
          (BUFIDX (seq_sum conn.ab_write i))).ready = 0 ∧
        ((put_buffer codec (put_count (put_ignore_early_flush conn) p) p).audio_buffer
          (BUFIDX (seq_sum conn.ab_write i))).resend_level = 0 ∧
        ((player_put_packet cfg codec conn p).audio_buffer
          (BUFIDX (seq_sum conn.ab_write i))).ready = 0) := by
  have hg : 0 < seq_diff conn.ab_write p.seqno conn.ab_read := by
    unfold seq_order at h_ahead
    unfold seq_diff
    simpa using h_ahead
  have hcl := put_classify_newer conn p.seqno h_ahead
  obtain ⟨hr, hw⟩ := player_put_packet_cursors cfg codec conn p h_synced
  rw [if_pos ⟨h_reach, Or.inr hcl⟩] at hw
  obtain ⟨heq, hcont, _, _⟩ := player_put_packet_content cfg codec conn p h_reach
  obtain ⟨_, _, _, hb⟩ := put_buffer_prep codec conn p h_synced
  rw [hcl] at hb
  obtain ⟨_, hbuf, _, _⟩ := hb
  obtain ⟨d1, d2, d3, _⟩ := put_fill_of_decodes codec conn conn
    (clear_gap_slots conn.audio_buffer conn.ab_write
      (seq_diff conn.ab_write p.seqno conn.ab_read).toNat (BUFIDX p.seqno)) p rfl h_dec
  have hslot := slot_content_fields _ _ (hcont (BUFIDX p.seqno))
  rw [hbuf, set_slot_same] at hslot
  refine ⟨hg, hw, hr, hslot.1.trans d1, hslot.2.1.trans d2, hslot.2.2.1.trans d3, heq, ?_⟩
  intro hlt i hi
  have hlt' : seq_diff conn.ab_write p.seqno conn.ab_read < 1024 := hlt
  have hne := gap_slot_ne conn.ab_write p.seqno conn.ab_read i hi hlt'
  have hi65 : i % 65536 = i := by omega
  rw [hi65] at hne
  have hmid : (put_buffer codec (put_count (put_ignore_early_flush conn) p) p).audio_buffer
      (BUFIDX (seq_sum conn.ab_write i))
      = cleared_slot (conn.audio_buffer (BUFIDX (seq_sum conn.ab_write i))) := by
    rw [hbuf, set_slot_other _ _ _ _ hne]
    apply clear_gap_slots_hit
    exact ⟨i, by omega, by rw [hi65]⟩
  have hfin := slot_content_fields _ _ (hcont (BUFIDX (seq_sum conn.ab_write i)))
  rw [hmid] at hfin ⊢
  exact ⟨rfl, rfl, hfin.1⟩

/-- C7 at a concrete call: cursors at 10 and 12, packet 15 arrives (gap 3); the slot of
the intervening sequence number 14 ends up not ready. -/
theorem C7_witness :
    (player_put_packet cfg0 codec0 (conn_playing 10 12 (fun _ => slot_ready 0 77))
      (pkt 15 9000)).ab_write = SUCCESSOR (pkt 15 9000).seqno ∧
    ((player_put_packet cfg0 codec0 (conn_playing 10 12 (fun _ => slot_ready 0 77))
      (pkt 15 9000)).audio_buffer
        (BUFIDX (seq_sum (conn_playing 10 12 (fun _ => slot_ready 0 77)).ab_write 2))).ready
      = 0 :=
  have h := C7_gap_handling cfg0 codec0 (conn_playing 10 12 (fun _ => slot_ready 0 77))
    (pkt 15 9000) (by decide) (by decide) (by decide) (by decide)
  ⟨h.2.1, ((h.2.2.2.2.2.2.2 (by decide)) 2 (by decide)).2.2⟩

theorem put_classify_late (c : rtsp_conn_info) (s : Nat) (h1 : c.ab_write ≠ s)
    (h2 : seq_order c.ab_write s c.ab_read = false)
    (h3 : seq_order c.ab_read s c.ab_read = true) : put_classify c s = .late := by
  unfold put_classify
  rw [if_neg h1, h2, h3]
  simp

set_option maxRecDepth 8000 in
/-- C8, as stated, fails: with the cursors at 0 and 5 and slot 2 already ready (timestamp
100, payload `[1, 2]`), a late packet with sequence number 2 and timestamp 200 takes the
late branch and replaces the stored timestamp and payload. -/
theorem C8_counterexample :
    put_classify (conn_playing 0 5 (buf_one 2 (slot_ready 2 100))) (pkt 2 200).seqno = .late ∧
    ((conn_playing 0 5 (buf_one 2 (slot_ready 2 100))).audio_buffer (BUFIDX 2)).ready = 1 ∧
    ((conn_playing 0 5 (buf_one 2 (slot_ready 2 100))).audio_buffer (BUFIDX 2)).given_timestamp
      = 100 ∧
    ((player_put_packet cfg0 codec0 (conn_playing 0 5 (buf_one 2 (slot_ready 2 100)))
      (pkt 2 200)).audio_buffer (BUFIDX 2)).given_timestamp = 200 ∧
    ((conn_playing 0 5 (buf_one 2 (slot_ready 2 100))).audio_buffer (BUFIDX 2)).data
      = [1, 2] ∧
    ((player_put_packet cfg0 codec0 (conn_playing 0 5 (buf_one 2 (slot_ready 2 100)))
      (pkt 2 200)).audio_buffer (BUFIDX 2)).data = [7, 3] := by
  decide

/-- C8, amended. When a packet that reaches a synced buffer has a sequence number behind
the write cursor but strictly ahead of the read cursor, `late_packets` is incremented by
one (modulo `2^64`), `too_late_packets` and both cursors are unchanged, and the packet
is decoded into its slot whether or not that slot is already ready: the slot's content
afterwards is what `put_fill` makes of it, so after a successful decode it is ready and
holds the incoming sequence number and timestamp; every other slot keeps its content. -/
theorem C8_late_packet_overwrites (cfg : config_t) (codec : codec_t) (conn : rtsp_conn_info)
    (p : packet_t)
    (h_synced : conn.ab_synced ≠ 0)
    (h_reach : put_reaches_buffer conn p = true)
    (h_not_expected : conn.ab_write ≠ p.seqno)
    (h_behind : seq_order conn.ab_write p.seqno conn.ab_read = false)
    (h_ahead : seq_order conn.ab_read p.seqno conn.ab_read = true) :
    (player_put_packet cfg codec conn p).late_packets
      = (conn.late_packets + 1) % 18446744073709551616 ∧
    (player_put_packet cfg codec conn p).too_late_packets = conn.too_late_packets ∧
    (player_put_packet cfg codec conn p).ab_read = conn.ab_read ∧
    (player_put_packet cfg codec conn p).ab_write = conn.ab_write ∧
    slot_content ((player_put_packet cfg codec conn p).audio_buffer (BUFIDX p.seqno))
      = slot_content (put_fill codec conn (conn.audio_buffer (BUFIDX p.seqno)) p) ∧
    (packet_decodes codec conn p = true →
      ((player_put_packet cfg codec conn p).audio_buffer (BUFIDX p.seqno)).ready = 1 ∧
      ((player_put_packet cfg codec conn p).audio_buffer (BUFIDX p.seqno)).sequence_number
        = p.seqno ∧
      ((player_put_packet cfg codec conn p).audio_buffer (BUFIDX p.seqno)).given_timestamp
        = p.actual_timestamp) ∧
    (∀ i, i ≠ BUFIDX p.seqno →
      slot_content ((player_put_packet cfg codec conn p).audio_buffer i)
        = slot_content (conn.audio_buffer i)) := by
  have hcl := put_classify_late conn p.seqno h_not_expected h_behind h_ahead
  obtain ⟨hr, hw⟩ := player_put_packet_cursors cfg codec conn p h_synced
  rw [if_neg (by rw [hcl]; simp)] at hw
  obtain ⟨_, hcont, hl, ht⟩ := player_put_packet_content cfg codec conn p h_reach
  obtain ⟨_, _, _, hb⟩ := put_buffer_prep codec conn p h_synced
  rw [hcl] at hb
  obtain ⟨_, hbuf, bl, bt⟩ := hb
  have hslot := hcont (BUFIDX p.seqno)
  rw [hbuf, set_slot_same] at hslot
  refine ⟨hl.trans bl, ht.trans bt, hr, hw, hslot, ?_, ?_⟩
  · intro hdec
    obtain ⟨d1, d2, d3, _⟩ := put_fill_of_decodes codec conn conn
      (conn.audio_buffer (BUFIDX p.seqno)) p rfl hdec
    have hf := slot_content_fields _ _ hslot
    exact ⟨hf.1.trans d1, hf.2.1.trans d2, hf.2.2.1.trans d3⟩
  · intro i hi
    have := hcont i
    rw [hbuf, set_slot_other _ _ _ _ hi] at this
    exact this

/-- C8 (amended) at the call of the counterexample. -/
theorem C8_witness :
    (player_put_packet cfg0 codec0 (conn_playing 0 5 (buf_one 2 (slot_ready 2 100)))
      (pkt 2 200)).late_packets
      = ((conn_playing 0 5 (buf_one 2 (slot_ready 2 100))).late_packets + 1)
          % 18446744073709551616 ∧
    ((player_put_packet cfg0 codec0 (conn_playing 0 5 (buf_one 2 (slot_ready 2 100)))
      (pkt 2 200)).audio_buffer (BUFIDX (pkt 2 200).seqno)).given_timestamp
      = (pkt 2 200).actual_timestamp :=
  have h := C8_late_packet_overwrites cfg0 codec0
    (conn_playing 0 5 (buf_one 2 (slot_ready 2 100))) (pkt 2 200)
    (by decide) (by decide) (by decide) (by decide) (by decide)
  ⟨h.1, (h.2.2.2.2.2.1 (by decide)).2.2⟩

/-! ## The flush filter on arrival (C4) -/

theorem modulo_32_offset_eq (a b : Nat) (ha : a < 4294967296) (hb : b < 4294967296) :
    modulo_32_offset a b = (b + 4294967296 - a) % 4294967296 := by
  unfold modulo_32_offset
  split_ifs <;> omega

theorem write_samples_idem (dest pcm : List Int) :
    write_samples (write_samples dest pcm) pcm = write_samples dest pcm := by
  unfold write_samples
  rw [List.drop_left]

/-- Decoding the same packet again into the arena it was decoded into changes nothing. -/
theorem audio_packet_decode_idem (codec : codec_t) (c : rtsp_conn_info) (d : List Int)
    (n : Int) (buf : List Nat) (len : Int) :
    audio_packet_decode codec c (audio_packet_decode codec c d n buf len).dest n buf len
      = audio_packet_decode codec c d n buf len := by
  unfold audio_packet_decode unencrypted_packet_decode
  split_ifs <;> cases c.stream_type <;> simp [write_samples_idem]

/-- Filling a slot that already holds the decoded packet leaves its content as it is. -/
theorem put_fill_content_idem (codec : codec_t) (c c1 : rtsp_conn_info) (a a1 : abuf_t)
    (p p2 : packet_t) (hp : decode_params c1 = decode_params c)
    (h_seq : p2.seqno = p.seqno) (h_ts : p2.actual_timestamp = p.actual_timestamp)
    (h_data : p2.data = p.data) (h_len : p2.len = p.len)
    (h : slot_content a1 = slot_content (put_fill codec c a p)) :
    slot_content (put_fill codec c1 a1 p2) = slot_content a1 := by
  rw [put_fill_congr codec c1 c hp]
  obtain ⟨e1, e2, e3, e4, e5⟩ := slot_content_fields _ _ h
  have hdata : (put_fill codec c a p).data
      = (audio_packet_decode codec c a.data (c.max_frames_per_packet : Int) p.data p.len).dest := by
    unfold put_fill
    simp only
    split_ifs <;> rfl
  have hr1 : audio_packet_decode codec c a1.data (c.max_frames_per_packet : Int) p.data p.len
      = audio_packet_decode codec c a.data (c.max_frames_per_packet : Int) p.data p.len := by
    rw [e5, hdata]
    exact audio_packet_decode_idem codec c a.data _ p.data p.len
  by_cases hr : (audio_packet_decode codec c a.data (c.max_frames_per_packet : Int) p.data
      p.len).reply = 0
  · have hX : put_fill codec c a p =
        { a with data := (audio_packet_decode codec c a.data (c.max_frames_per_packet : Int)
                    p.data p.len).dest,
                 ready := 1,
                 length := (audio_packet_decode codec c a.data (c.max_frames_per_packet : Int)
                    p.data p.len).destlen,
                 given_timestamp := p.actual_timestamp, sequence_number := p.seqno } := by
      unfold put_fill
      simp only
      rw [if_pos hr]
    rw [hX] at e1 e2 e3 e4 e5
    unfold put_fill
    simp only [h_seq, h_ts, h_data, h_len]
    rw [hr1, if_pos hr]
    unfold slot_content
    simp only [Prod.mk.injEq]
    exact ⟨e1.symm, e2.symm, e3.symm, e4.symm, e5.symm⟩
  · have hX : put_fill codec c a p =
        cleared_slot { a with data := (audio_packet_decode codec c a.data
          (c.max_frames_per_packet : Int) p.data p.len).dest } := by
      unfold put_fill
      simp only
      rw [if_neg hr]
    rw [hX] at e1 e2 e3 e4 e5
    unfold put_fill
    simp only [h_seq, h_ts, h_data, h_len]
    rw [hr1, if_neg hr]
    unfold slot_content cleared_slot
    simp only [Prod.mk.injEq]
    exact ⟨e1.symm, e2.symm, e3.symm, trivial, e5.symm⟩

theorem lookback_check_filter (cfg : config_t) (ri : Int) (c : rtsp_conn_info) (j k : Int) :
    filter_params (lookback_check cfg ri c j k) = filter_params c ∧
    (lookback_check cfg ri c j k).packet_count = c.packet_count := by
  unfold lookback_check filter_params
  simp only
  split_ifs <;> exact ⟨rfl, rfl⟩

/-- Processing a packet changes none of the fields the arrival tests read. -/
theorem put_process_filter (cfg : config_t) (codec : codec_t) (c : rtsp_conn_info)
    (p : packet_t) :
    filter_params (put_process cfg codec c p) = filter_params c ∧
    (put_process cfg codec c p).packet_count = c.packet_count := by
  unfold put_process
  have h1 := put_lookback_induct (fun x => filter_params x
      = filter_params (put_buffer codec c p) ∧ x.packet_count
      = (put_buffer codec c p).packet_count) cfg (put_resend_interval c)
    (fun x j k _ _ _ _ hx => ⟨(lookback_check_filter cfg _ x j k).1.trans hx.1,
      (lookback_check_filter cfg _ x j k).2.trans hx.2⟩) _ ⟨rfl, rfl⟩
  have h2 : filter_params (put_buffer codec c p) = filter_params c ∧
      (put_buffer codec c p).packet_count = c.packet_count := by
    unfold put_buffer put_place
    have hs : filter_params (put_set_resend_interval (put_sync c p.seqno)) = filter_params c ∧
        (put_set_resend_interval (put_sync c p.seqno)).packet_count = c.packet_count := by
      unfold put_set_resend_interval put_sync filter_params
      split_ifs <;> exact ⟨rfl, rfl⟩
    generalize put_set_resend_interval (put_sync c p.seqno) = c' at hs ⊢
    have hn : filter_params (put_note_reception c' p) = filter_params c' ∧
        (put_note_reception c' p).packet_count = c'.packet_count := by
      unfold put_note_reception filter_params
      simp only
      split_ifs <;> exact ⟨rfl, rfl⟩
    cases put_classify c' p.seqno
    · exact ⟨hn.1.trans hs.1, hn.2.trans hs.2⟩
    · exact hs
    · exact hs
    · exact hs
  exact ⟨h1.1.trans h2.1, h1.2.trans h2.2⟩

/-- A packet with the same timestamp as one that has just reached the buffer reaches
the buffer too. -/
theorem put_reaches_buffer_again (cfg : config_t) (codec : codec_t) (conn : rtsp_conn_info)
    (p p2 : packet_t) (h_ts : p2.actual_timestamp = p.actual_timestamp)
    (h : put_reaches_buffer conn p = true) :
    put_reaches_buffer (player_put_packet cfg codec conn p) p2 = true := by
  rw [player_put_packet_of_reaches cfg codec conn p h]
  obtain ⟨hf, _⟩ := put_process_filter cfg codec (put_count (put_ignore_early_flush conn) p) p
  generalize put_process cfg codec (put_count (put_ignore_early_flush conn) p) p = c1 at hf ⊢
  unfold put_reaches_buffer at h ⊢
  generalize put_count (put_ignore_early_flush conn) p = c0 at hf h
  unfold filter_params at hf
  simp only [Prod.mk.injEq] at hf
  obtain ⟨f1, f2, f3⟩ := hf
  unfold flush_drops put_count put_ignore_early_flush at *
  simp only [Bool.and_eq_true, decide_eq_true_eq, Bool.not_eq_true', decide_eq_false_iff_not]
    at h ⊢
  split_ifs
  · simp only [f1]
    exact ⟨h.1, by simp⟩
  · simp only [f1, f2, f3, h_ts]
    exact h

/-- On a synced buffer, a sequence number whose successor is the write cursor is late or
too late, unless it is exactly 32766 ahead of the read cursor. -/
theorem put_classify_behind (c : rtsp_conn_info) (s : Nat) (hw : c.ab_write = SUCCESSOR s)
    (h_edge : ORDINATE s c.ab_read ≠ 32766) :
    put_classify c s = .late ∨ put_classify c s = .too_late := by
  have h1 : c.ab_write ≠ s := by
    rw [hw]; unfold SUCCESSOR; omega
  have h2 : seq_order c.ab_write s c.ab_read = false := by
    rw [hw]
    unfold seq_order
    unfold ORDINATE SUCCESSOR at *
    simp only [decide_eq_false_iff_not] at *
    split_ifs at * <;> omega
  unfold put_classify
  rw [if_neg h1, h2]
  simp only [Bool.false_eq_true, if_false]
  split_ifs <;> simp

/-- A late or too-late packet whose slot already holds what decoding it produces changes
no cursor and no slot content. -/
theorem put_again_frame (cfg : config_t) (codec : codec_t) (c1 : rtsp_conn_info)
    (p2 : packet_t) (hs : c1.ab_synced ≠ 0) (hreach : put_reaches_buffer c1 p2 = true)
    (hcl : put_classify c1 p2.seqno = .late ∨ put_classify c1 p2.seqno = .too_late)
    (hslot : put_classify c1 p2.seqno = .late →
      slot_content (put_fill codec c1 (c1.audio_buffer (BUFIDX p2.seqno)) p2)
        = slot_content (c1.audio_buffer (BUFIDX p2.seqno))) :
    (player_put_packet cfg codec c1 p2).ab_read = c1.ab_read ∧
    (player_put_packet cfg codec c1 p2).ab_write = c1.ab_write ∧
    ∀ i, slot_content ((player_put_packet cfg codec c1 p2).audio_buffer i)
      = slot_content (c1.audio_buffer i) := by
  obtain ⟨hr, hw⟩ := player_put_packet_cursors cfg codec c1 p2 hs
  have hnot : ¬ (put_reaches_buffer c1 p2 = true ∧
      (put_classify c1 p2.seqno = .expected ∨ put_classify c1 p2.seqno = .newer)) := by
    rintro ⟨_, h | h⟩ <;> rcases hcl with h' | h' <;> rw [h] at h' <;> cases h'
  rw [if_neg hnot] at hw
  obtain ⟨_, hcont, _, _⟩ := player_put_packet_content cfg codec c1 p2 hreach
  obtain ⟨_, _, _, hb⟩ := put_buffer_prep codec c1 p2 hs
  refine ⟨hr, hw, ?_⟩
  intro i
  rw [hcont i]
  rcases hcl with h | h
  · rw [h] at hb
    obtain ⟨_, hbuf, _, _⟩ := hb
    rw [hbuf]
    by_cases hi : i = BUFIDX p2.seqno
    · rw [hi, set_slot_same]
      exact hslot h
    · rw [set_slot_other _ _ _ _ hi]
  · rw [h] at hb
    obtain ⟨_, hbuf, _, _⟩ := hb
    rw [hbuf]

/-- The state after a call that stores its packet, on a synced buffer. -/
theorem put_stored_state (cfg : config_t) (codec : codec_t) (conn : rtsp_conn_info)
    (p : packet_t) (h_synced : conn.ab_synced ≠ 0) (h_stored : put_stores codec conn p = true) :
    (player_put_packet cfg codec conn p).ab_synced ≠ 0 ∧
    decode_params (player_put_packet cfg codec conn p) = decode_params conn ∧
    (player_put_packet cfg codec conn p).ab_read = conn.ab_read ∧
    ((player_put_packet cfg codec conn p).ab_write = SUCCESSOR p.seqno ∨
      ((player_put_packet cfg codec conn p).ab_write = conn.ab_write ∧
        put_classify conn p.seqno = .late)) ∧
    (∃ a, slot_content ((player_put_packet cfg codec conn p).audio_buffer (BUFIDX p.seqno))
      = slot_content (put_fill codec conn a p)) ∧
    ((player_put_packet cfg codec conn p).audio_buffer (BUFIDX p.seqno)).ready = 1 ∧
    ((player_put_packet cfg codec conn p).audio_buffer (BUFIDX p.seqno)).sequence_number
      = p.seqno ∧
    ((player_put_packet cfg codec conn p).audio_buffer (BUFIDX p.seqno)).given_timestamp
      = p.actual_timestamp := by
  unfold put_stores at h_stored
  rw [put_sync_of_synced conn p.seqno h_synced] at h_stored
  simp only [Bool.and_eq_true, decide_eq_true_eq] at h_stored
  obtain ⟨⟨hreach, hcl⟩, hdec⟩ := h_stored
  obtain ⟨hr, hw⟩ := player_put_packet_cursors cfg codec conn p h_synced
  obtain ⟨heq, hcont, _, _⟩ := player_put_packet_content cfg codec conn p hreach
  obtain ⟨_, _, hparams, hb⟩ := put_buffer_prep codec conn p h_synced
  have hsy : (player_put_packet cfg codec conn p).ab_synced ≠ 0 := by
    rw [player_put_packet_of_reaches cfg codec conn p hreach, put_process_ab_synced]
    exact put_sync_ab_synced _ _
  have hpar : decode_params (player_put_packet cfg codec conn p) = decode_params conn := by
    rw [heq]
    exact (put_lookback_frame cfg _ _).2.2.2.1.trans hparams
  have hfill : ∀ a, (put_fill codec conn a p).ready = 1 ∧
      (put_fill codec conn a p).sequence_number = p.seqno ∧
      (put_fill codec conn a p).given_timestamp = p.actual_timestamp := fun a =>
    ⟨(put_fill_of_decodes codec conn conn a p rfl hdec).1,
      (put_fill_of_decodes codec conn conn a p rfl hdec).2.1,
      (put_fill_of_decodes codec conn conn a p rfl hdec).2.2.1⟩
  have hslot := hcont (BUFIDX p.seqno)
  cases hc : put_classify conn p.seqno
  · rw [hc] at hb hw
    obtain ⟨_, hbuf, _, _⟩ := hb
    rw [hbuf, set_slot_same] at hslot
    obtain ⟨s1, s2, s3, _, _⟩ := slot_content_fields _ _ hslot
    obtain ⟨d1, d2, d3⟩ := hfill (conn.audio_buffer (BUFIDX p.seqno))
    rw [if_pos ⟨hreach, Or.inl rfl⟩] at hw
    exact ⟨hsy, hpar, hr, Or.inl hw, ⟨_, hslot⟩, s1.trans d1, s2.trans d2, s3.trans d3⟩
  · rw [hc] at hb hw
    obtain ⟨_, hbuf, _, _⟩ := hb
    rw [hbuf, set_slot_same] at hslot
    obtain ⟨s1, s2, s3, _, _⟩ := slot_content_fields _ _ hslot
    obtain ⟨d1, d2, d3⟩ := hfill (clear_gap_slots conn.audio_buffer conn.ab_write
      (seq_diff conn.ab_write p.seqno conn.ab_read).toNat (BUFIDX p.seqno))
    rw [if_pos ⟨hreach, Or.inr rfl⟩] at hw
    exact ⟨hsy, hpar, hr, Or.inl hw, ⟨_, hslot⟩, s1.trans d1, s2.trans d2, s3.trans d3⟩
  · rw [hc] at hb hw
    obtain ⟨_, hbuf, _, _⟩ := hb
    rw [hbuf, set_slot_same] at hslot
    obtain ⟨s1, s2, s3, _, _⟩ := slot_content_fields _ _ hslot
    obtain ⟨d1, d2, d3⟩ := hfill (conn.audio_buffer (BUFIDX p.seqno))
    rw [if_neg (by simp)] at hw
    exact ⟨hsy, hpar, hr, Or.inr ⟨hw, rfl⟩, ⟨_, hslot⟩, s1.trans d1, s2.trans d2,
      s3.trans d3⟩
  · exact absurd hc hcl

/-- With the threshold that the comment inside `ORDINATE` describes, the far end of the
half-window lies one position further out: relative to a read cursor at 0 a packet 32766
is behind the write cursor 32767 that follows it, and a packet 32767 is ahead of the write
cursor 32768 that follows it, by 65535. -/
theorem horizon_documented :
    ORDINATE_documented 32766 0 - ORDINATE_documented 32767 0 = -1 ∧
    ORDINATE_documented 32767 0 - ORDINATE_documented 32768 0 = 65535 ∧
    ORDINATE 32765 0 - ORDINATE 32766 0 = -1 ∧
    ORDINATE 32766 0 - ORDINATE 32767 0 = 65535 := by
  decide

set_option maxRecDepth 8000 in
/-- C3, as stated, fails at the far end of the half-window of the sequence arithmetic:
with the read cursor at 0 and the write cursor at 32766, the expected packet 32766 is
stored and the write cursor becomes 32767; the same packet put again is classified as
newer than expected (the ordinate of 32767 relative to 0 is negative), the gap loop runs
65535 times and clears every slot, so slot 5, which was ready before the second call, is
not ready after it. -/
theorem C3_counterexample :
    put_stores codec0 (conn_playing 0 32766 (buf_one 5 (slot_ready 5 100))) (pkt 32766 7000)
      = true ∧
    ((player_put_packet cfg0 codec0 (conn_playing 0 32766 (buf_one 5 (slot_ready 5 100)))
      (pkt 32766 7000)).audio_buffer 5).ready = 1 ∧
    ((player_put_packet cfg0 codec0
      (player_put_packet cfg0 codec0 (conn_playing 0 32766 (buf_one 5 (slot_ready 5 100)))
        (pkt 32766 7000)) (pkt 32766 7000)).audio_buffer 5).ready = 0 := by
  refine ⟨by decide, by decide, ?_⟩
  have hs : (player_put_packet cfg0 codec0
      (conn_playing 0 32766 (buf_one 5 (slot_ready 5 100))) (pkt 32766 7000)).ab_synced ≠ 0 := by
    decide
  have hreach : put_reaches_buffer (player_put_packet cfg0 codec0
      (conn_playing 0 32766 (buf_one 5 (slot_ready 5 100))) (pkt 32766 7000)) (pkt 32766 7000)
      = true := by decide
  have hahead : seq_order (player_put_packet cfg0 codec0
      (conn_playing 0 32766 (buf_one 5 (slot_ready 5 100))) (pkt 32766 7000)).ab_write
      (pkt 32766 7000).seqno (player_put_packet cfg0 codec0
      (conn_playing 0 32766 (buf_one 5 (slot_ready 5 100))) (pkt 32766 7000)).ab_read = true := by
    decide
  have h6 : 6 < (seq_diff (player_put_packet cfg0 codec0
      (conn_playing 0 32766 (buf_one 5 (slot_ready 5 100))) (pkt 32766 7000)).ab_write
      (pkt 32766 7000).seqno (player_put_packet cfg0 codec0
      (conn_playing 0 32766 (buf_one 5 (slot_ready 5 100))) (pkt 32766 7000)).ab_read).toNat := by
    decide
  have hidx : BUFIDX (seq_sum (player_put_packet cfg0 codec0
      (conn_playing 0 32766 (buf_one 5 (slot_ready 5 100))) (pkt 32766 7000)).ab_write
      (6 % 65536)) = 5 := by decide
  have hne : (5 : Nat) ≠ BUFIDX (pkt 32766 7000).seqno := by decide
  generalize player_put_packet cfg0 codec0
      (conn_playing 0 32766 (buf_one 5 (slot_ready 5 100))) (pkt 32766 7000) = c1 at *
  obtain ⟨_, hcont, _, _⟩ := player_put_packet_content cfg0 codec0 c1 (pkt 32766 7000) hreach
  obtain ⟨_, _, _, hb⟩ := put_buffer_prep codec0 c1 (pkt 32766 7000) hs
  rw [put_classify_newer c1 _ hahead] at hb
  obtain ⟨_, hbuf, _, _⟩ := hb
  have h5 := (slot_content_fields _ _ (hcont 5)).1
  rw [hbuf, set_slot_other _ _ _ _ hne,
    clear_gap_slots_hit _ _ _ 5 ⟨6, h6, hidx⟩] at h5
  exact h5

/-- C3, amended. Idempotence of put, away from the horizon of the sequence arithmetic:
for every synced buffer state and every packet that `player_put_packet` has just stored,
whose sequence number is fewer than 32766 positions ahead of the read cursor (the read
cursor itself included), putting the same packet (same sequence number, timestamp, bytes
and length) again is a no-op duplicate: both cursors and every slot's ready flag, sequence
number, timestamp, length and payload are the same as before the second call, and the
packet's slot still holds it. -/
theorem C3_put_twice_is_noop (cfg : config_t) (codec : codec_t) (conn : rtsp_conn_info)
    (p p2 : packet_t)
    (h_synced : conn.ab_synced ≠ 0)
    (h_stored : put_stores codec conn p = true)
    (h_edge : 0 ≤ ORDINATE p.seqno conn.ab_read ∧ ORDINATE p.seqno conn.ab_read < 32766)
    (h_seq : p2.seqno = p.seqno) (h_ts : p2.actual_timestamp = p.actual_timestamp)
    (h_data : p2.data = p.data) (h_len : p2.len = p.len) :
    (player_put_packet cfg codec (player_put_packet cfg codec conn p) p2).ab_read
      = (player_put_packet cfg codec conn p).ab_read ∧
    (player_put_packet cfg codec (player_put_packet cfg codec conn p) p2).ab_write
      = (player_put_packet cfg codec conn p).ab_write ∧
    (∀ i, slot_content
        ((player_put_packet cfg codec (player_put_packet cfg codec conn p) p2).audio_buffer i)
      = slot_content ((player_put_packet cfg codec conn p).audio_buffer i)) ∧
    ((player_put_packet cfg codec (player_put_packet cfg codec conn p) p2).audio_buffer
      (BUFIDX p.seqno)).ready = 1 ∧
    ((player_put_packet cfg codec (player_put_packet cfg codec conn p) p2).audio_buffer
      (BUFIDX p.seqno)).sequence_number = p.seqno ∧
    ((player_put_packet cfg codec (player_put_packet cfg codec conn p) p2).audio_buffer
      (BUFIDX p.seqno)).given_timestamp = p.actual_timestamp := by
  have hreach : put_reaches_buffer conn p = true := by
    unfold put_stores at h_stored
    simp only [Bool.and_eq_true] at h_stored
    exact h_stored.1.1
  have hreach2 := put_reaches_buffer_again cfg codec conn p p2 h_ts hreach
  obtain ⟨hsy, hpar, hr, hw, ⟨a, hslot⟩, k1, k2, k3⟩ :=
    put_stored_state cfg codec conn p h_synced h_stored
  generalize player_put_packet cfg codec conn p = c1 at *
  have hcl : put_classify c1 p2.seqno = .late ∨ put_classify c1 p2.seqno = .too_late := by
    rw [h_seq]
    rcases hw with hw | ⟨hw, hlate⟩
    · exact put_classify_behind c1 p.seqno hw (by rw [hr]; exact ne_of_lt h_edge.2)
    · left
      unfold put_classify at hlate ⊢
      rw [hr, hw]
      exact hlate
  have hidem : put_classify c1 p2.seqno = .late →
      slot_content (put_fill codec c1 (c1.audio_buffer (BUFIDX p2.seqno)) p2)
        = slot_content (c1.audio_buffer (BUFIDX p2.seqno)) := by
    intro _
    rw [h_seq]
    exact put_fill_content_idem codec conn c1 a _ p p2 hpar h_seq h_ts h_data h_len hslot
  obtain ⟨r2, w2, c2⟩ := put_again_frame cfg codec c1 p2 hsy hreach2 hcl hidem
  obtain ⟨f1, f2, f3, _, _⟩ := slot_content_fields _ _ (c2 (BUFIDX p.seqno))
  exact ⟨r2, w2, c2, f1.trans k1, f2.trans k2, f3.trans k3⟩

/-- C3 (amended) at a concrete call: the expected packet 7, two positions ahead of the
read cursor, is put twice. -/
theorem C3_witness :
    (0 ≤ ORDINATE (pkt 7 1000).seqno (conn_playing 5 7 (fun _ => slot0)).ab_read ∧
      ORDINATE (pkt 7 1000).seqno (conn_playing 5 7 (fun _ => slot0)).ab_read < 32766) ∧
    (player_put_packet cfg0 codec0
      (player_put_packet cfg0 codec0 (conn_playing 5 7 (fun _ => slot0)) (pkt 7 1000))
      (pkt 7 1000)).ab_write
      = (player_put_packet cfg0 codec0 (conn_playing 5 7 (fun _ => slot0)) (pkt 7 1000)).ab_write ∧
    ((player_put_packet cfg0 codec0
      (player_put_packet cfg0 codec0 (conn_playing 5 7 (fun _ => slot0)) (pkt 7 1000))
      (pkt 7 1000)).audio_buffer (BUFIDX (pkt 7 1000).seqno)).ready = 1 :=
  have h := C3_put_twice_is_noop cfg0 codec0 (conn_playing 5 7 (fun _ => slot0)) (pkt 7 1000)
    (pkt 7 1000) (by decide) (by decide) (by decide) rfl rfl rfl rfl
  ⟨by decide, h.2.1, h.2.2.2.1⟩

/-! ## One iteration of `buffer_get_frame` -/

theorem get_check_output_frame (cfg : config_t) (e : iter_env) (c : rtsp_conn_info) :
    (get_check_output cfg e c).audio_buffer = c.audio_buffer ∧
    (get_check_output cfg e c).ab_read = c.ab_read ∧
    (get_check_output cfg e c).ab_write = c.ab_write ∧
    (get_check_output cfg e c).ab_synced = c.ab_synced ∧
    (get_check_output cfg e c).ab_buffering = c.ab_buffering ∧
    (get_check_output cfg e c).flush_rtp_timestamp = c.flush_rtp_timestamp ∧
    (get_check_output cfg e c).input_rate = c.input_rate ∧
    (get_check_output cfg e c).missing_packets = c.missing_packets ∧
    ((get_check_output cfg e c).flush_requested = c.flush_requested ∨
      (get_check_output cfg e c).flush_requested = 1) := by
  unfold get_check_output
  simp only
  split_ifs <;> exact ⟨rfl, rfl, rfl, rfl, rfl, rfl, rfl, rfl, by simp⟩

theorem get_flush_of_requested (c : rtsp_conn_info) (h : c.flush_requested = 1) :
    (get_flush c).ab_synced = 0 ∧ (get_flush c).ab_buffering = 1 := by
  unfold get_flush
  rw [if_pos h]
  exact ⟨rfl, rfl⟩

theorem get_flush_of_not_requested (c : rtsp_conn_info) (h : c.flush_requested ≠ 1) :
    get_flush c = c := by
  unfold get_flush
  rw [if_neg h]

theorem get_flush_unsynced (c : rtsp_conn_info) (h : c.ab_synced = 0) :
    (get_flush c).ab_synced = 0 := by
  unfold get_flush
  split_ifs
  · rfl
  · exact h

/-- The last step of an iteration changes nothing in the ring, and lets the loop end
only from a synced, non-empty buffer that is no longer buffering. -/
theorem get_decide_wait_frame (cfg : config_t) (e : iter_env) (c : rtsp_conn_info)
    (loc : get_locals) :
    (get_decide_wait cfg e c loc).conn.audio_buffer = c.audio_buffer ∧
    (get_decide_wait cfg e c loc).conn.ab_read = c.ab_read ∧
    (get_decide_wait cfg e c loc).conn.ab_write = c.ab_write ∧
    (get_decide_wait cfg e c loc).conn.ab_synced = c.ab_synced ∧
    (get_decide_wait cfg e c loc).conn.ab_buffering = c.ab_buffering ∧
    (get_decide_wait cfg e c loc).conn.flush_rtp_timestamp = c.flush_rtp_timestamp ∧
    (get_decide_wait cfg e c loc).conn.flush_requested = c.flush_requested ∧
    (get_decide_wait cfg e c loc).conn.input_rate = c.input_rate ∧
    (get_decide_wait cfg e c loc).conn.missing_packets = c.missing_packets ∧
    (get_decide_wait cfg e c loc).loc.curframe = loc.curframe ∧
    ((get_decide_wait cfg e c loc).wait = false →
      c.ab_buffering = 0 ∧ c.ab_synced ≠ 0 ∧ c.ab_read ≠ c.ab_write ∧
      get_do_wait_time cfg e c loc = 0) := by
  unfold get_decide_wait reset_input_flow_metrics
  simp only
  split_ifs with h1 h2
  · exact ⟨rfl, rfl, rfl, rfl, rfl, rfl, rfl, rfl, rfl, rfl, by simp⟩
  · exact ⟨rfl, rfl, rfl, rfl, rfl, rfl, rfl, rfl, rfl, rfl, by simp⟩
  · refine ⟨rfl, rfl, rfl, rfl, rfl, rfl, rfl, rfl, rfl, rfl, ?_⟩
    intro hw
    simp only [decide_eq_false_iff_not, not_or, not_not, ne_eq] at hw
    refine ⟨hw.1, hw.2.2, ?_, hw.2.1⟩
    intro heq
    exact h1 ⟨hw.2.1, hw.2.2, heq⟩

/-- An unsynced buffer makes the iteration wait. -/
theorem get_decide_wait_unsynced (cfg : config_t) (e : iter_env) (c : rtsp_conn_info)
    (loc : get_locals) (h : c.ab_synced = 0) :
    (get_decide_wait cfg e c loc).wait = true := by
  cases hw : (get_decide_wait cfg e c loc).wait
  · exact absurd h ((get_decide_wait_frame cfg e c loc).2.2.2.2.2.2.2.2.2.2 hw).2.1
  · rfl

theorem ring_kept_refl (a : rtsp_conn_info) : ring_kept a a := ⟨rfl, rfl, rfl, rfl, rfl, rfl⟩

theorem ring_kept_trans (a b c : rtsp_conn_info) (h1 : ring_kept a b) (h2 : ring_kept b c) :
    ring_kept a c :=
  ⟨h2.1.trans h1.1, h2.2.1.trans h1.2.1, h2.2.2.1.trans h1.2.2.1,
    h2.2.2.2.1.trans h1.2.2.2.1, h2.2.2.2.2.1.trans h1.2.2.2.2.1,
    h2.2.2.2.2.2.trans h1.2.2.2.2.2⟩

theorem flush_kept_refl (a : rtsp_conn_info) : flush_kept a a := Or.inr ⟨rfl, rfl⟩

theorem flush_kept_trans (a b c : rtsp_conn_info) (h1 : flush_kept a b) (h2 : flush_kept b c)
    (h : b.flush_requested = 1 → c.flush_requested = 1) : flush_kept a c := by
  unfold flush_kept at *
  rcases h2 with h2 | ⟨h2, h2'⟩
  · exact Or.inl h2
  · rcases h1 with h1 | ⟨h1, h1'⟩
    · exact Or.inl (h h1)
    · exact Or.inr ⟨h2.trans h1, h2'.trans h1'⟩

theorem get_first_frame_frame (cfg : config_t) (e : iter_env) (c : rtsp_conn_info)
    (slot : abuf_t) :
    ring_kept c (get_first_frame cfg e c slot).1 ∧
    flush_kept c (get_first_frame cfg e c slot).1 ∧
    (get_first_frame cfg e c slot).1.ab_buffering = c.ab_buffering ∧
    (c.flush_requested = 1 → (get_first_frame cfg e c slot).1.flush_requested = 1) := by
  unfold get_first_frame do_flush reset_input_flow_metrics ring_kept flush_kept
  simp only
  split_ifs
  · exact ⟨⟨rfl, rfl, rfl, rfl, rfl, rfl⟩, Or.inl rfl, rfl, fun _ => rfl⟩
  · exact ⟨⟨rfl, rfl, rfl, rfl, rfl, rfl⟩, Or.inr ⟨rfl, rfl⟩, rfl, fun h => h⟩
  · exact ⟨⟨rfl, rfl, rfl, rfl, rfl, rfl⟩, Or.inr ⟨rfl, rfl⟩, rfl, fun h => h⟩

theorem get_prefill_with_delay_frame (cfg : config_t) (e : iter_env) (c : rtsp_conn_info)
    (hs : Int) (m : Int) :
    (get_prefill_with_delay cfg e c hs m).ab_synced = 0 ∨
    (ring_kept c (get_prefill_with_delay cfg e c hs m) ∧
      (get_prefill_with_delay cfg e c hs m).flush_requested = c.flush_requested ∧
      (get_prefill_with_delay cfg e c hs m).flush_rtp_timestamp = c.flush_rtp_timestamp) := by
  unfold get_prefill_with_delay ab_resync ring_kept
  simp only
  split_ifs <;>
    first
    | exact Or.inl rfl
    | exact Or.inr ⟨⟨rfl, rfl, rfl, rfl, rfl, rfl⟩, rfl, rfl⟩

theorem get_prefill_frame (cfg : config_t) (e : iter_env) (c : rtsp_conn_info) (hs : Int) :
    (get_prefill cfg e c hs).ab_synced = 0 ∨
    (ring_kept c (get_prefill cfg e c hs) ∧
      (get_prefill cfg e c hs).flush_requested = c.flush_requested ∧
      (get_prefill cfg e c hs).flush_rtp_timestamp = c.flush_rtp_timestamp) := by
  unfold get_prefill
  simp only
  split_ifs <;>
    first
    | exact Or.inr ⟨⟨rfl, rfl, rfl, rfl, rfl, rfl⟩, rfl, rfl⟩
    | exact get_prefill_with_delay_frame cfg e _ hs _

/-- The buffering logic either resynchronises (leaving the buffer unsynced) or keeps the
ring; it never changes `curframe`, and does nothing at all once buffering is over. -/
theorem get_buffering_frame (cfg : config_t) (e : iter_env) (c : rtsp_conn_info)
    (loc : get_locals) :
    (get_buffering cfg e c loc).2.curframe = loc.curframe ∧
    (c.ab_buffering = 0 → (get_buffering cfg e c loc).1 = c) ∧
    ((get_buffering cfg e c loc).1.ab_synced = 0 ∨
      (ring_kept c (get_buffering cfg e c loc).1 ∧
        flush_kept c (get_buffering cfg e c loc).1)) := by
  unfold get_buffering
  cases hcf : loc.curframe with
  | none => exact ⟨hcf, fun _ => rfl, Or.inr ⟨ring_kept_refl c, flush_kept_refl c⟩⟩
  | some i =>
    simp only
    split_ifs with h1 h2
    · refine ⟨rfl, fun h => absurd h h2, ?_⟩
      obtain ⟨f1, f2, _, f4⟩ := get_first_frame_frame cfg e c (c.audio_buffer i)
      rcases get_prefill_frame cfg e (get_first_frame cfg e c (c.audio_buffer i)).1
        (get_first_frame cfg e c (c.audio_buffer i)).2 with g | ⟨g1, g2, g3⟩
      · exact Or.inl g
      · refine Or.inr ⟨ring_kept_trans _ _ _ f1 g1, ?_⟩
        exact flush_kept_trans _ _ _ f2 (Or.inr ⟨g2, g3⟩) (fun h => g2.trans h)
    · exact ⟨rfl, fun _ => rfl, Or.inr ⟨ring_kept_refl c, flush_kept_refl c⟩⟩
    · exact ⟨hcf, fun _ => rfl, Or.inr ⟨ring_kept_refl c, flush_kept_refl c⟩⟩

theorem get_alias_frame (c : rtsp_conn_info) (slot : abuf_t) :
    (get_alias c slot).audio_buffer = c.audio_buffer ∧
    (get_alias c slot).ab_write = c.ab_write ∧
    (get_alias c slot).ab_synced = c.ab_synced ∧
    (get_alias c slot).ab_buffering = c.ab_buffering ∧
    (get_alias c slot).input_rate = c.input_rate ∧
    (get_alias c slot).missing_packets = c.missing_packets ∧
    (get_alias c slot).flush_requested = c.flush_requested ∧
    (get_alias c slot).flush_rtp_timestamp = c.flush_rtp_timestamp ∧
    BUFIDX (get_alias c slot).ab_read = BUFIDX c.ab_read ∧
    (slot.sequence_number = c.ab_read → (get_alias c slot).ab_read = c.ab_read) := by
  unfold get_alias
  split_ifs with h1 h2 h3
  · exact ⟨rfl, rfl, rfl, rfl, rfl, rfl, rfl, rfl, h2, fun h => h⟩
  · exact ⟨rfl, rfl, rfl, rfl, rfl, rfl, rfl, rfl, rfl, fun _ => rfl⟩
  · exact ⟨rfl, rfl, rfl, rfl, rfl, rfl, rfl, rfl, rfl, fun _ => rfl⟩
  · exact ⟨rfl, rfl, rfl, rfl, rfl, rfl, rfl, rfl, rfl, fun _ => rfl⟩

/-- The aliasing check reads only the read cursor, and applying it at the cursor it
produced changes nothing more. -/
theorem get_alias_stable (c c1 : rtsp_conn_info) (slot : abuf_t)
    (h : c1.ab_read = (get_alias c slot).ab_read) :
    (get_alias c1 slot).ab_read = c1.ab_read := by
  unfold get_alias at h ⊢
  split_ifs at h with h1 h2 h3
  · rw [if_neg (by rw [h]; simp)]
  · rw [if_pos (by rw [h]; exact h1), if_pos (by rw [h]; exact h2),
      if_neg (by rw [h]; exact h3)]
  · rw [if_pos (by rw [h]; exact h1), if_neg (by rw [h]; exact h2)]
  · rw [if_neg (by rw [h]; exact h1)]

theorem get_alias_congr (c c1 : rtsp_conn_info) (slot : abuf_t) (h : c1.ab_read = c.ab_read) :
    (get_alias c1 slot).ab_read = (get_alias c slot).ab_read := by
  unfold get_alias
  rw [h]
  split_ifs <;> first | rfl | exact h

/-- What the selection step does to the ring. -/
theorem get_select_frame (c : rtsp_conn_info) :
    (get_select c).1.ab_write = c.ab_write ∧
    (get_select c).1.ab_synced = c.ab_synced ∧
    (get_select c).1.ab_buffering = c.ab_buffering ∧
    (get_select c).1.input_rate = c.input_rate ∧
    (get_select c).1.missing_packets = c.missing_packets ∧
    (get_select c).1.flush_requested = c.flush_requested ∧
    ((get_select c).1.flush_rtp_timestamp = c.flush_rtp_timestamp ∨
      (get_select c).1.flush_rtp_timestamp = 0) ∧
    (get_select c).1.ab_read =
      (if c.ab_read ≠ c.ab_write ∧ (c.audio_buffer (BUFIDX c.ab_read)).ready ≠ 0
       then (get_alias c (c.audio_buffer (BUFIDX c.ab_read))).ab_read else c.ab_read) ∧
    (((get_select c).2 = some (BUFIDX c.ab_read) ∧
        (get_select c).1.audio_buffer = c.audio_buffer) ∨
      ((get_select c).2 = none ∧
        (get_select c).1.audio_buffer = set_slot c.audio_buffer (BUFIDX c.ab_read)
          { c.audio_buffer (BUFIDX c.ab_read) with ready := 0, resend_level := 0 } ∧
        c.ab_read ≠ c.ab_write ∧ (c.audio_buffer (BUFIDX c.ab_read)).ready ≠ 0 ∧
        flush_drops c (c.audio_buffer (BUFIDX c.ab_read)).given_timestamp = true)) := by
  obtain ⟨a1, a2, a3, a4, a5, a6, a7, a8, _, _⟩ :=
    get_alias_frame c (c.audio_buffer (BUFIDX c.ab_read))
  have hfd : flush_drops (get_alias c (c.audio_buffer (BUFIDX c.ab_read)))
      (c.audio_buffer (BUFIDX c.ab_read)).given_timestamp
      = flush_drops c (c.audio_buffer (BUFIDX c.ab_read)).given_timestamp := by
    unfold flush_drops
    rw [a8, a5]
  unfold get_select
  simp only
  split_ifs with h1 h2 h3
  · refine ⟨a2, a3, a4, a5, a6, a7, Or.inl a8, rfl, Or.inr ⟨rfl, ?_, h1.1, h1.2, ?_⟩⟩
    · show set_slot (get_alias c _).audio_buffer _ _ = _
      rw [a1]
    · rw [← hfd]; exact h2
  · exact ⟨a2, a3, a4, a5, a6, a7, Or.inr rfl, rfl, Or.inl ⟨rfl, a1⟩⟩
  · exact ⟨a2, a3, a4, a5, a6, a7, Or.inl a8, rfl, Or.inl ⟨rfl, a1⟩⟩
  · exact ⟨rfl, rfl, rfl, rfl, rfl, rfl, Or.inl rfl, rfl, Or.inl ⟨rfl, rfl⟩⟩

/-- One iteration either leaves the buffer unsynced and waits, or it started synced with
no flush requested and changed the ring only through the selection step. -/
theorem buffer_get_frame_iter_frame (cfg : config_t) (e : iter_env) (c : rtsp_conn_info)
    (loc : get_locals) :
    ((buffer_get_frame_iter cfg e c loc).conn.ab_synced = 0 ∧
      (buffer_get_frame_iter cfg e c loc).wait = true) ∨
    (c.ab_synced ≠ 0 ∧ (get_check_output cfg e c).flush_requested ≠ 1 ∧
      ring_kept (get_select (get_check_output cfg e c)).1
        (buffer_get_frame_iter cfg e c loc).conn ∧
      flush_kept (get_select (get_check_output cfg e c)).1
        (buffer_get_frame_iter cfg e c loc).conn ∧
      (buffer_get_frame_iter cfg e c loc).loc.curframe
        = (get_select (get_check_output cfg e c)).2 ∧
      ((buffer_get_frame_iter cfg e c loc).wait = false →
        (buffer_get_frame_iter cfg e c loc).conn.ab_buffering = 0 ∧
        (buffer_get_frame_iter cfg e c loc).conn.ab_read
          ≠ (buffer_get_frame_iter cfg e c loc).conn.ab_write)) := by
  obtain ⟨_, _, _, k4, _⟩ := get_check_output_frame cfg e c
  unfold buffer_get_frame_iter
  simp only
  by_cases hf : (get_check_output cfg e c).flush_requested = 1
  · left
    have hu := (get_flush_of_requested _ hf).1
    rw [if_neg (by rw [hu]; simp)]
    exact ⟨((get_decide_wait_frame cfg e _ loc).2.2.2.1).trans hu,
      get_decide_wait_unsynced cfg e _ loc hu⟩
  · rw [get_flush_of_not_requested _ hf]
    by_cases hs : (get_check_output cfg e c).ab_synced ≠ 0
    · rw [if_pos hs]
      obtain ⟨b1, _, b3⟩ := get_buffering_frame cfg e (get_select (get_check_output cfg e c)).1
        { loc with curframe := (get_select (get_check_output cfg e c)).2 }
      generalize get_buffering cfg e (get_select (get_check_output cfg e c)).1
        { loc with curframe := (get_select (get_check_output cfg e c)).2 } = bf at *
      obtain ⟨d1, d2, d3, d4, d5, d6, d7, d8, d9, d10, d11⟩ :=
        get_decide_wait_frame cfg e bf.1 bf.2
      rcases b3 with b3 | ⟨b3, b4⟩
      · left
        exact ⟨d4.trans b3, get_decide_wait_unsynced cfg e _ _ b3⟩
      · right
        refine ⟨by rw [← k4]; exact hs, hf, ?_, ?_, d10.trans b1, ?_⟩
        · exact ring_kept_trans _ _ _ b3 ⟨d1, d2, d3, d4, d8, d9⟩
        · exact flush_kept_trans _ _ _ b4 (Or.inr ⟨d7, d6⟩) (fun h => d7.trans h)
        · intro hw
          obtain ⟨w1, _, w3, _⟩ := d11 hw
          exact ⟨d5.trans w1, by rw [d2, d3]; exact w3⟩
    · rw [if_neg hs]
      left
      have hu : (get_check_output cfg e c).ab_synced = 0 := by
        by_contra h; exact hs h
      exact ⟨((get_decide_wait_frame cfg e _ loc).2.2.2.1).trans hu,
        get_decide_wait_unsynced cfg e _ loc hu⟩

/-! ## The read cursor across a call of `buffer_get_frame` (C6) -/

/-- The read cursor the selection step leaves depends only on the cursors and slots. -/
theorem get_select_read_congr (a b : rtsp_conn_info) (h1 : b.audio_buffer = a.audio_buffer)
    (h2 : b.ab_read = a.ab_read) (h3 : b.ab_write = a.ab_write) :
    (get_select b).1.ab_read = (get_select a).1.ab_read := by
  rw [(get_select_frame b).2.2.2.2.2.2.2.1, (get_select_frame a).2.2.2.2.2.2.2.1,
    h1, h2, h3]
  split_ifs
  · exact get_alias_congr a b _ h2
  · rfl

/-- Once the selection step has run, running it again on the ring it left does not move
the read cursor any further. -/
theorem get_select_read_stable (c c1 : rtsp_conn_info)
    (h : ring_kept (get_select c).1 c1) : (get_select c1).1.ab_read = c1.ab_read := by
  obtain ⟨hb, hr, hw, _, _, _⟩ := h
  obtain ⟨s1, _, _, _, _, _, _, s8, s9⟩ := get_select_frame c
  obtain ⟨_, _, _, _, _, _, _, _, aidx, _⟩ :=
    get_alias_frame c (c.audio_buffer (BUFIDX c.ab_read))
  rw [(get_select_frame c1).2.2.2.2.2.2.2.1]
  split_ifs with hc
  · obtain ⟨hne, hready⟩ := hc
    have hidx : BUFIDX c1.ab_read = BUFIDX c.ab_read := by
      rw [hr, s8]
      split_ifs
      · exact aidx
      · rfl
    rw [hidx, hb] at hready ⊢
    rcases s9 with ⟨_, sb⟩ | ⟨_, sb, _, _, _⟩
    · rw [sb] at hready ⊢
      by_cases horig : c.ab_read ≠ c.ab_write ∧ (c.audio_buffer (BUFIDX c.ab_read)).ready ≠ 0
      · rw [if_pos horig] at s8
        exact get_alias_stable c c1 _ (hr.trans s8)
      · rw [if_neg horig] at s8
        exfalso
        apply horig
        refine ⟨?_, hready⟩
        rw [← s8, ← hr, ← s1, ← hw]
        exact hne
    · rw [sb, set_slot_same] at hready
      exact absurd rfl hready
  · rfl

/-- From an unsynced buffer the loop never ends (no other thread puts a packet here). -/
theorem buffer_get_frame_loop_unsynced (cfg : config_t) (envs : List iter_env) :
    ∀ (c : rtsp_conn_info) (loc : get_locals), c.ab_synced = 0 →
      buffer_get_frame_loop cfg envs c loc = none := by
  induction envs with
  | nil => intro c loc _; rfl
  | cons e es ih =>
    intro c loc hc
    unfold buffer_get_frame_loop
    simp only
    rcases buffer_get_frame_iter_frame cfg e c loc with ⟨h1, h2⟩ | ⟨h1, _⟩
    · rw [h2]
      simp only [if_true]
      exact ih _ _ h1
    · exact absurd hc h1

/-- When the loop ends, the read cursor is where the selection step of the first
iteration put it. -/
theorem buffer_get_frame_loop_read (cfg : config_t) (envs : List iter_env) :
    ∀ (c : rtsp_conn_info) (loc : get_locals) (r : rtsp_conn_info × get_locals),
      buffer_get_frame_loop cfg envs c loc = some r →
      r.1.ab_read = (get_select c).1.ab_read := by
  induction envs with
  | nil => intro c loc r h; cases h
  | cons e es ih =>
    intro c loc r h
    unfold buffer_get_frame_loop at h
    simp only at h
    obtain ⟨k1, k2, k3, _⟩ := get_check_output_frame cfg e c
    have hT := get_select_read_congr c (get_check_output cfg e c) k1 k2 k3
    rcases buffer_get_frame_iter_frame cfg e c loc with ⟨h1, h2⟩ | ⟨_, _, hk, _, _, _⟩
    · rw [h2] at h
      simp only [if_true] at h
      rw [buffer_get_frame_loop_unsynced cfg es _ _ h1] at h
      cases h
    · cases hw : (buffer_get_frame_iter cfg e c loc).wait
      · rw [hw] at h
        simp only [Bool.false_eq_true, if_false, Option.some.injEq] at h
        rw [← h]
        exact hk.2.1.trans hT
      · rw [hw] at h
        simp only [if_true] at h
        rw [ih _ _ r h, get_select_read_stable _ _ hk]
        exact hk.2.1.trans hT

theorem get_release_ab_read (c : rtsp_conn_info) (cf : Option Nat) :
    (get_release c cf).1.ab_read = SUCCESSOR c.ab_read := by
  unfold get_release
  cases cf with
  | none => rfl
  | some i =>
    simp only
    split_ifs <;> rfl

theorem get_select_read_eq (c : rtsp_conn_info) :
    (get_select c).1.ab_read =
      if read_cursor_aliased c = true
      then (c.audio_buffer (BUFIDX c.ab_read)).sequence_number else c.ab_read := by
  rw [(get_select_frame c).2.2.2.2.2.2.2.1]
  unfold read_cursor_aliased get_alias
  by_cases h1 : c.ab_read ≠ c.ab_write ∧ (c.audio_buffer (BUFIDX c.ab_read)).ready ≠ 0
  · rw [if_pos h1]
    by_cases h2 : (c.audio_buffer (BUFIDX c.ab_read)).sequence_number ≠ c.ab_read
    · by_cases h3 : BUFIDX (c.audio_buffer (BUFIDX c.ab_read)).sequence_number
          = BUFIDX c.ab_read
      · by_cases h4 : seq_order c.ab_read (c.audio_buffer (BUFIDX c.ab_read)).sequence_number
            c.ab_read = true
        · simp [h1, h2, h3, h4]
        · simp [h1, h2, h3, h4]
      · simp [h1, h2, h3]
    · simp [h1, h2]
  · rw [if_neg h1]
    have : ¬ (c.ab_read ≠ c.ab_write ∧
        (c.audio_buffer (BUFIDX c.ab_read)).ready ≠ 0 ∧
        (c.audio_buffer (BUFIDX c.ab_read)).sequence_number ≠ c.ab_read ∧
        BUFIDX (c.audio_buffer (BUFIDX c.ab_read)).sequence_number = BUFIDX c.ab_read ∧
        seq_order c.ab_read (c.audio_buffer (BUFIDX c.ab_read)).sequence_number
          c.ab_read = true) := fun h => h1 ⟨h.1, h.2.1⟩
    simp [this]

set_option maxRecDepth 100000 in
/-- C6, as stated, fails: a fresh connection receives packets 0 and 1024 (the second
overwrites slot 0 and moves the write cursor to 1025); the next call of
`buffer_get_frame`, with the play time reached, finds the read cursor at 0 pointing at a
slot that holds 1024, resets the read cursor to 1024 and returns with the read cursor at
1025, not at `SUCCESSOR(0) = 1`. -/
theorem C6_counterexample :
    (player_put_packet cfg0 codec0 (player_put_packet cfg0 codec0 conn0 (pkt 0 1000))
      (pkt 1024 361448)).ab_read = 0 ∧
    (buffer_get_frame cfg0 [env0 1000 1000]
      (player_put_packet cfg0 codec0 (player_put_packet cfg0 codec0 conn0 (pkt 0 1000))
        (pkt 1024 361448))).map (fun r => r.1.ab_read) = some 1025 ∧
    SUCCESSOR 0 ≠ 1025 := by
  decide

/-- C6, amended. For every state from which a call of `buffer_get_frame` (run alone)
returns, the read cursor after the call is `SUCCESSOR(r)`, where `r` is the read cursor
before the call, whether or not the slot at the read cursor was ready, except when the
aliasing check applies (buffer not empty, slot at the read cursor ready and holding a
sequence number `s` different from the read cursor, with the same ring index and after
it): then the read cursor is first reset to `s` and is `SUCCESSOR(s)` after the call. -/
theorem C6_read_cursor_advances (cfg : config_t) (envs : List iter_env)
    (conn : rtsp_conn_info) (r : rtsp_conn_info × Option Nat)
    (h : buffer_get_frame cfg envs conn = some r) :
    (read_cursor_aliased conn = false → r.1.ab_read = SUCCESSOR conn.ab_read) ∧
    (read_cursor_aliased conn = true →
      r.1.ab_read = SUCCESSOR (conn.audio_buffer (BUFIDX conn.ab_read)).sequence_number) := by
  unfold buffer_get_frame at h
  cases hl : buffer_get_frame_loop cfg envs conn ⟨none, 0⟩ with
  | none => rw [hl] at h; cases h
  | some q =>
    rw [hl] at h
    simp only [Option.some.injEq] at h
    have hq := buffer_get_frame_loop_read cfg envs conn ⟨none, 0⟩ q hl
    rw [get_select_read_eq] at hq
    rw [← h, get_release_ab_read, hq]
    constructor
    · intro ha
      rw [ha]
      simp
    · intro ha
      rw [ha]
      simp

/-- C6 (amended) at a concrete call: a playing connection with the cursors at 3 and 9
and slot 3 holding sequence number 3. -/
theorem C6_witness :
    buffer_get_frame cfg0 [env0 1000 1000] (conn_playing 3 9 (buf_one 3 (slot_ready 3 500)))
      = some (get_release (buffer_get_frame_iter cfg0 (env0 1000 1000)
          (conn_playing 3 9 (buf_one 3 (slot_ready 3 500))) ⟨none, 0⟩).conn (some 3)) ∧
    (get_release (buffer_get_frame_iter cfg0 (env0 1000 1000)
      (conn_playing 3 9 (buf_one 3 (slot_ready 3 500))) ⟨none, 0⟩).conn (some 3)).1.ab_read
      = SUCCESSOR (conn_playing 3 9 (buf_one 3 (slot_ready 3 500))).ab_read :=
  have h0 : buffer_get_frame cfg0 [env0 1000 1000]
      (conn_playing 3 9 (buf_one 3 (slot_ready 3 500)))
      = some (get_release (buffer_get_frame_iter cfg0 (env0 1000 1000)
          (conn_playing 3 9 (buf_one 3 (slot_ready 3 500))) ⟨none, 0⟩).conn (some 3)) := by
    rfl
  ⟨h0, (C6_read_cursor_advances cfg0 [env0 1000 1000]
    (conn_playing 3 9 (buf_one 3 (slot_ready 3 500))) _ h0).1 (by decide)⟩

/-! ## The flush filter on release (C5) -/

theorem get_select_of_drop (c : rtsp_conn_info) (h1 : c.ab_read ≠ c.ab_write)
    (h2 : (c.audio_buffer (BUFIDX c.ab_read)).ready ≠ 0)
    (h3 : flush_drops c (c.audio_buffer (BUFIDX c.ab_read)).given_timestamp = true) :
    (get_select c).2 = none ∧
    (get_select c).1.audio_buffer = set_slot c.audio_buffer (BUFIDX c.ab_read)
      { c.audio_buffer (BUFIDX c.ab_read) with ready := 0, resend_level := 0 } := by
  rcases (get_select_frame c).2.2.2.2.2.2.2.2 with ⟨hsome, _⟩ | ⟨hnone, hbuf, _⟩
  · exfalso
    obtain ⟨_, _, _, _, a5, _, _, a8, _, _⟩ :=
      get_alias_frame c (c.audio_buffer (BUFIDX c.ab_read))
    have hfd : flush_drops (get_alias c (c.audio_buffer (BUFIDX c.ab_read)))
        (c.audio_buffer (BUFIDX c.ab_read)).given_timestamp = true := by
      unfold flush_drops at h3 ⊢
      rw [a8, a5]
      exact h3
    unfold get_select at hsome
    simp only at hsome
    rw [if_pos ⟨h1, h2⟩, if_pos hfd] at hsome
    cases hsome
  · exact ⟨hnone, hbuf⟩

theorem get_buffering_none (cfg : config_t) (e : iter_env) (c : rtsp_conn_info)
    (loc : get_locals) (h : loc.curframe = none) : get_buffering cfg e c loc = (c, loc) := by
  unfold get_buffering
  rw [h]

theorem get_decide_wait_none (cfg : config_t) (e : iter_env) (c : rtsp_conn_info)
    (loc : get_locals) (h : loc.curframe = none) (hs : c.ab_synced ≠ 0)
    (hne : c.ab_read ≠ c.ab_write) (hb : c.ab_buffering = 0) :
    get_decide_wait cfg e c loc = ⟨c, loc, false⟩ := by
  have h0 : get_do_wait_time cfg e c loc = 0 := by
    unfold get_do_wait_time
    rw [h]
  unfold get_decide_wait
  simp only [h0]
  rw [if_neg (fun hh => hne hh.2.2)]
  simp [hb, hs]

theorem flush_drops_iff (c : rtsp_conn_info) (ts : Nat) (h_ts : ts < 4294967296)
    (h_target : c.flush_rtp_timestamp < 4294967296) (h_rate : c.input_rate * 10 < 4294967296) :
    flush_drops c ts = true ↔
      (c.flush_rtp_timestamp ≠ 0 ∧ ts ≠ c.flush_rtp_timestamp ∧
        (c.flush_rtp_timestamp + 4294967296 - ts) % 4294967296 < 10 * c.input_rate) := by
  unfold flush_drops
  rw [modulo_32_offset_eq _ _ h_ts h_target]
  have hm : c.input_rate * 10 % 4294967296 = 10 * c.input_rate := by omega
  rw [hm]
  simp

/-- An iteration that starts synced with no flush requested, a non-empty buffer and a
ready slot at the read cursor that the flush filter drops: the iteration is the
selection step followed by the decision to wait or not. -/
theorem buffer_get_frame_iter_of_drop (cfg : config_t) (e : iter_env) (conn : rtsp_conn_info)
    (loc : get_locals)
    (h_synced : conn.ab_synced ≠ 0)
    (h_noflush : (get_check_output cfg e conn).flush_requested ≠ 1)
    (h_nonempty : conn.ab_read ≠ conn.ab_write)
    (h_ready : (conn.audio_buffer (BUFIDX conn.ab_read)).ready ≠ 0)
    (h_drop : flush_drops conn (conn.audio_buffer (BUFIDX conn.ab_read)).given_timestamp
      = true) :
    buffer_get_frame_iter cfg e conn loc
      = get_decide_wait cfg e (get_select (get_check_output cfg e conn)).1
          { loc with curframe := none } ∧
    (get_select (get_check_output cfg e conn)).1.audio_buffer
      = set_slot conn.audio_buffer (BUFIDX conn.ab_read)
          { conn.audio_buffer (BUFIDX conn.ab_read) with ready := 0, resend_level := 0 } ∧
    (get_select (get_check_output cfg e conn)).1.ab_read
      = (if read_cursor_aliased conn = true
         then (conn.audio_buffer (BUFIDX conn.ab_read)).sequence_number else conn.ab_read) ∧
    (get_select (get_check_output cfg e conn)).1.ab_write = conn.ab_write ∧
    (get_select (get_check_output cfg e conn)).1.ab_synced = conn.ab_synced ∧
    (get_select (get_check_output cfg e conn)).1.ab_buffering = conn.ab_buffering := by
  obtain ⟨k1, k2, k3, k4, k5, k6, k7, _, _⟩ := get_check_output_frame cfg e conn
  have hs1 : (get_check_output cfg e conn).ab_synced ≠ 0 := by rw [k4]; exact h_synced
  have hdrop1 : flush_drops (get_check_output cfg e conn)
      ((get_check_output cfg e conn).audio_buffer
        (BUFIDX (get_check_output cfg e conn).ab_read)).given_timestamp = true := by
    unfold flush_drops at h_drop ⊢
    rw [k1, k2, k6, k7]
    exact h_drop
  obtain ⟨hsel, hbuf⟩ := get_select_of_drop (get_check_output cfg e conn)
    (by rw [k2, k3]; exact h_nonempty) (by rw [k1, k2]; exact h_ready) hdrop1
  obtain ⟨s1, s2, s3, _⟩ := get_select_frame (get_check_output cfg e conn)
  refine ⟨?_, ?_, ?_, s1.trans k3, s2.trans k4, s3.trans k5⟩
  · unfold buffer_get_frame_iter
    simp only
    rw [get_flush_of_not_requested _ h_noflush, if_pos hs1, hsel,
      get_buffering_none cfg e _ _ rfl]
  · rw [hbuf, k1, k2]
  · rw [get_select_read_congr conn (get_check_output cfg e conn) k1 k2 k3,
      get_select_read_eq]

/-- C5, amended. Flush filter on release: in an iteration of `buffer_get_frame` that
starts with the buffer synced and not empty (read cursor different from the write
cursor) and no flush requested, whenever the slot at the read cursor is ready and its
timestamp differs from a non-zero flush target and precedes it by less than
`10 * input_rate` frames (mod `2^32`), that frame is not handed to the player: `curframe`
is `NULL` and the slot is not ready with `resend_level = 0` at the end of the iteration;
and when the buffer is not in the buffering state and the read cursor, as the aliasing
check leaves it, differs from the write cursor, the call returns no frame, with the read
cursor one past that position and the slot still not ready. -/
theorem C5_flush_filter_on_release (cfg : config_t) (e : iter_env) (es : List iter_env)
    (conn : rtsp_conn_info) (loc : get_locals)
    (h_synced : conn.ab_synced ≠ 0)
    (h_noflush : (get_check_output cfg e conn).flush_requested ≠ 1)
    (h_nonempty : conn.ab_read ≠ conn.ab_write)
    (h_ready : (conn.audio_buffer (BUFIDX conn.ab_read)).ready ≠ 0)
    (h_ts : (conn.audio_buffer (BUFIDX conn.ab_read)).given_timestamp < 4294967296)
    (h_target_lt : conn.flush_rtp_timestamp < 4294967296)
    (h_rate : conn.input_rate * 10 < 4294967296)
    (h_target : conn.flush_rtp_timestamp ≠ 0)
    (h_differs : (conn.audio_buffer (BUFIDX conn.ab_read)).given_timestamp
      ≠ conn.flush_rtp_timestamp)
    (h_window : (conn.flush_rtp_timestamp + 4294967296
        - (conn.audio_buffer (BUFIDX conn.ab_read)).given_timestamp) % 4294967296
      < 10 * conn.input_rate) :
    (buffer_get_frame_iter cfg e conn loc).loc.curframe = none ∧
    ((buffer_get_frame_iter cfg e conn loc).conn.audio_buffer (BUFIDX conn.ab_read)).ready
      = 0 ∧
    ((buffer_get_frame_iter cfg e conn loc).conn.audio_buffer
      (BUFIDX conn.ab_read)).resend_level = 0 ∧
    (conn.ab_buffering = 0 →
      (if read_cursor_aliased conn = true
        then (conn.audio_buffer (BUFIDX conn.ab_read)).sequence_number else conn.ab_read)
        ≠ conn.ab_write →
      ∃ c, buffer_get_frame cfg (e :: es) conn = some (c, none) ∧
        c.ab_read = SUCCESSOR
          (if read_cursor_aliased conn = true
            then (conn.audio_buffer (BUFIDX conn.ab_read)).sequence_number
            else conn.ab_read) ∧
        (c.audio_buffer (BUFIDX conn.ab_read)).ready = 0 ∧
        (c.audio_buffer (BUFIDX conn.ab_read)).resend_level = 0) := by
  have h_drop := (flush_drops_iff conn _ h_ts h_target_lt h_rate).mpr
    ⟨h_target, h_differs, h_window⟩
  have hslot : ∀ b : Nat → abuf_t,
      b = set_slot conn.audio_buffer (BUFIDX conn.ab_read)
        { conn.audio_buffer (BUFIDX conn.ab_read) with ready := 0, resend_level := 0 } →
      (b (BUFIDX conn.ab_read)).ready = 0 ∧ (b (BUFIDX conn.ab_read)).resend_level = 0 := by
    intro b hb
    rw [hb, set_slot_same]
    exact ⟨rfl, rfl⟩
  refine ⟨?_, ?_, ?_, ?_⟩
  · obtain ⟨hit, _⟩ := buffer_get_frame_iter_of_drop cfg e conn loc h_synced h_noflush
      h_nonempty h_ready h_drop
    rw [hit]
    exact (get_decide_wait_frame cfg e _ _).2.2.2.2.2.2.2.2.2.1
  · obtain ⟨hit, hbuf, _⟩ := buffer_get_frame_iter_of_drop cfg e conn loc h_synced h_noflush
      h_nonempty h_ready h_drop
    rw [hit]
    exact (hslot _ ((get_decide_wait_frame cfg e _ _).1.trans hbuf)).1
  · obtain ⟨hit, hbuf, _⟩ := buffer_get_frame_iter_of_drop cfg e conn loc h_synced h_noflush
      h_nonempty h_ready h_drop
    rw [hit]
    exact (hslot _ ((get_decide_wait_frame cfg e _ _).1.trans hbuf)).2
  · intro hnb hne
    obtain ⟨hit, hbuf, hrd, hwr, hsy, hbf⟩ := buffer_get_frame_iter_of_drop cfg e conn
      ⟨none, 0⟩ h_synced h_noflush h_nonempty h_ready h_drop
    have hdw := get_decide_wait_none cfg e (get_select (get_check_output cfg e conn)).1
      { (⟨none, 0⟩ : get_locals) with curframe := none } rfl (by rw [hsy]; exact h_synced)
      (by rw [hrd, hwr]; exact hne) (by rw [hbf]; exact hnb)
    rw [hdw] at hit
    refine ⟨(get_release (get_select (get_check_output cfg e conn)).1 none).1, ?_, ?_, ?_⟩
    · unfold buffer_get_frame buffer_get_frame_loop
      simp only [hit]
      rfl
    · rw [get_release_ab_read, hrd]
    · exact hslot _ hbuf

set_option maxRecDepth 100000 in
/-- C5, as stated, fails on an empty buffer. A fresh connection receives packets 0, 1 and
1024 (timestamps 1000, 1352 and 361448); the first call of `buffer_get_frame` resets the
aliased read cursor from 0 to 1024 and returns with both cursors at 1025, where slot 1
still holds packet 1, ready. With the flush target then set to 5000 (as the hard
correction of `player_thread_func` does), the slot at the read cursor is ready and its
timestamp 1352 precedes the target by less than `10 * input_rate`, yet the next iteration
leaves the slot ready and waits: the filter is skipped because the cursors are equal. -/
theorem C5_counterexample :
    (buffer_get_frame cfg0 [env0 1000 1000]
      (player_put_packet cfg0 codec0 (player_put_packet cfg0 codec0
        (player_put_packet cfg0 codec0 conn0 (pkt 0 1000)) (pkt 1 1352))
        (pkt 1024 361448))).map
      (fun r =>
        (r.1.ab_synced, r.1.ab_buffering, r.1.ab_read, r.1.ab_write,
          (r.1.audio_buffer (BUFIDX r.1.ab_read)).ready,
          (r.1.audio_buffer (BUFIDX r.1.ab_read)).given_timestamp,
          flush_drops (with_flush_target r.1 5000)
            (r.1.audio_buffer (BUFIDX r.1.ab_read)).given_timestamp,
          ((buffer_get_frame_iter cfg0 (env0 2000 1000) (with_flush_target r.1 5000)
            ⟨none, 0⟩).conn.audio_buffer (BUFIDX r.1.ab_read)).ready,
          (buffer_get_frame_iter cfg0 (env0 2000 1000) (with_flush_target r.1 5000)
            ⟨none, 0⟩).wait))
      = some (1, 0, 1025, 1025, 1, 1352, true, 1, true) := by
  rfl

/-- C5 (amended) at a concrete call: cursors at 3 and 9, slot 3 ready with timestamp
4000, flush target 5000 at 44100 Hz. -/
theorem C5_witness :
    (buffer_get_frame_iter cfg0 (env0 1000 1000)
      (with_flush_target (conn_playing 3 9 (buf_one 3 (slot_ready 3 4000))) 5000)
      ⟨none, 0⟩).loc.curframe = none ∧
    ∃ c, buffer_get_frame cfg0 (env0 1000 1000 :: [])
        (with_flush_target (conn_playing 3 9 (buf_one 3 (slot_ready 3 4000))) 5000)
        = some (c, none) ∧
      c.ab_read = SUCCESSOR
        (if read_cursor_aliased
            (with_flush_target (conn_playing 3 9 (buf_one 3 (slot_ready 3 4000))) 5000) = true
          then ((with_flush_target (conn_playing 3 9 (buf_one 3 (slot_ready 3 4000)))
            5000).audio_buffer (BUFIDX (with_flush_target
              (conn_playing 3 9 (buf_one 3 (slot_ready 3 4000))) 5000).ab_read)).sequence_number
          else (with_flush_target (conn_playing 3 9 (buf_one 3 (slot_ready 3 4000)))
            5000).ab_read) ∧
      (c.audio_buffer (BUFIDX (with_flush_target
        (conn_playing 3 9 (buf_one 3 (slot_ready 3 4000))) 5000).ab_read)).ready = 0 ∧
      (c.audio_buffer (BUFIDX (with_flush_target
        (conn_playing 3 9 (buf_one 3 (slot_ready 3 4000))) 5000).ab_read)).resend_level = 0 :=
  have h := C5_flush_filter_on_release cfg0 (env0 1000 1000) []
    (with_flush_target (conn_playing 3 9 (buf_one 3 (slot_ready 3 4000))) 5000) ⟨none, 0⟩
    (by decide) (by decide) (by decide) (by decide) (by decide) (by decide) (by decide)
    (by decide) (by decide) (by decide)
  ⟨h.1, h.2.2.2 (by decide) (by decide)⟩

/-! ## Release order (C1): the packets are put -/

/-- Which branch a packet inside the window takes, by its position `k`. -/
theorem put_classify_window (c : rtsp_conn_info) (f m k s : Nat) (hr : c.ab_read = f)
    (hw : c.ab_write = (f + m + 1) % 65536) (hm : m < 1024) (hk : k < 1024)
    (hs : s = (f + k) % 65536) :
    (k = m + 1 → put_classify c s = .expected) ∧
    (m + 1 < k → put_classify c s = .newer ∧
      (seq_diff c.ab_write s c.ab_read).toNat = k - (m + 1)) ∧
    (1 ≤ k → k ≤ m → put_classify c s = .late) ∧
    (k = 0 → put_classify c s = .too_late) := by
  refine ⟨?_, ?_, ?_, ?_⟩
  · intro h
    apply put_classify_expected
    rw [hw, hs, h, Nat.add_assoc]
  · intro h
    have hso : seq_order c.ab_write s c.ab_read = true := by
      unfold seq_order ORDINATE
      rw [hr, hw, hs]
      simp only [decide_eq_true_eq]
      split_ifs <;> omega
    refine ⟨put_classify_newer c s hso, ?_⟩
    unfold seq_diff ORDINATE
    rw [hr, hw, hs]
    simp only
    split_ifs <;> omega
  · intro h1 h2
    apply put_classify_late
    · rw [hw, hs]; omega
    · unfold seq_order ORDINATE
      rw [hr, hw, hs]
      simp only [decide_eq_false_iff_not]
      split_ifs <;> omega
    · unfold seq_order ORDINATE
      rw [hr, hs]
      simp only [decide_eq_true_eq]
      split_ifs <;> omega
  · intro h
    have h1 : c.ab_write ≠ s := by rw [hw, hs]; omega
    have h2 : seq_order c.ab_write s c.ab_read = false := by
      unfold seq_order ORDINATE
      rw [hr, hw, hs]
      simp only [decide_eq_false_iff_not]
      split_ifs <;> omega
    have h3 : seq_order c.ab_read s c.ab_read = false := by
      unfold seq_order ORDINATE
      rw [hr, hs]
      simp only [decide_eq_false_iff_not]
      split_ifs <;> omega
    unfold put_classify
    rw [if_neg h1, h2, h3]
    simp

/-- The gap loop either leaves a slot alone or clears it, and it clears only slots of
positions inside the gap. -/
theorem clear_gap_slots_window (buf : Nat → abuf_t) (f m n k1 : Nat)
    (hm : m < 1024) (hn : m + 1 + n ≤ 1024) (hk1 : k1 < 1024) :
    clear_gap_slots buf ((f + m + 1) % 65536) n ((f + k1) % 1024) = buf ((f + k1) % 1024) ∨
    (m < k1 ∧ k1 < m + 1 + n ∧
      clear_gap_slots buf ((f + m + 1) % 65536) n ((f + k1) % 1024)
        = cleared_slot (buf ((f + k1) % 1024))) := by
  by_cases h : ∃ i, i < n ∧ BUFIDX (seq_sum ((f + m + 1) % 65536) (i % 65536)) = (f + k1) % 1024
  · right
    obtain ⟨i, hi, hidx⟩ := h
    have hk : k1 = m + 1 + i := by
      rw [BUFIDX_eq] at hidx
      unfold seq_sum at hidx
      omega
    exact ⟨by omega, by omega, clear_gap_slots_hit buf _ n _ ⟨i, hi, hidx⟩⟩
  · left
    apply clear_gap_slots_miss
    intro i hi heq
    exact h ⟨i, hi, heq⟩

theorem put_reaches_of_no_target (c : rtsp_conn_info) (p : packet_t)
    (hout : c.connection_state_to_output ≠ 0) (htarget : c.flush_rtp_timestamp = 0) :
    put_reaches_buffer c p = true ∧
    filter_params (put_count (put_ignore_early_flush c) p)
      = (c.connection_state_to_output, 0, c.input_rate) := by
  unfold put_reaches_buffer flush_drops put_count put_ignore_early_flush filter_params
  split_ifs <;> simp [hout, htarget]

/-- What one more packet inside the window does to the ring. -/
theorem put_step_ring (cfg : config_t) (codec : codec_t) (c : rtsp_conn_info) (p : packet_t)
    (f m k : Nat) (ps : List packet_t)
    (hinv : ring_inv f ps m 0 c) (hf : f < 65536)
    (hout : c.connection_state_to_output ≠ 0) (htarget : c.flush_rtp_timestamp = 0)
    (hk : k < 1024) (hseq : p.seqno = (f + k) % 65536)
    (hdec : packet_decodes codec c p = true) :
    (player_put_packet cfg codec c p).ab_synced ≠ 0 ∧
    (player_put_packet cfg codec c p).ab_read = f ∧
    (player_put_packet cfg codec c p).ab_write = (f + max m k + 1) % 65536 ∧
    (k ≠ 0 →
      ((player_put_packet cfg codec c p).audio_buffer ((f + k) % 1024)).ready = 1 ∧
      ((player_put_packet cfg codec c p).audio_buffer ((f + k) % 1024)).sequence_number
        = (f + k) % 65536) ∧
    (∀ k1, k1 < 1024 → (k1 ≠ k ∨ k = 0) →
      slot_content ((player_put_packet cfg codec c p).audio_buffer ((f + k1) % 1024))
        = slot_content (c.audio_buffer ((f + k1) % 1024)) ∨
      (m < k1 ∧
        ((player_put_packet cfg codec c p).audio_buffer ((f + k1) % 1024)).ready = 0)) := by
  obtain ⟨hs, hr, hw, hm, _, _, _⟩ := hinv
  have hr' : c.ab_read = f := by rw [hr]; omega
  obtain ⟨hreach, _⟩ := put_reaches_of_no_target c p hout htarget
  obtain ⟨cr, cw⟩ := player_put_packet_cursors cfg codec c p hs
  obtain ⟨_, hcont, _, _⟩ := player_put_packet_content cfg codec c p hreach
  obtain ⟨_, _, _, hb⟩ := put_buffer_prep codec c p hs
  obtain ⟨w1, w2, w3, w4⟩ := put_classify_window c f m k p.seqno hr' hw hm hk hseq
  have hsy : (player_put_packet cfg codec c p).ab_synced ≠ 0 := by
    rw [player_put_packet_of_reaches cfg codec c p hreach, put_process_ab_synced]
    exact put_sync_ab_synced _ _
  have hidx : BUFIDX p.seqno = (f + k) % 1024 := by rw [BUFIDX_eq, hseq]; omega
  have hfill : ∀ a, (put_fill codec c a p).ready = 1 ∧
      (put_fill codec c a p).sequence_number = (f + k) % 65536 := fun a =>
    ⟨(put_fill_of_decodes codec c c a p rfl hdec).1,
      ((put_fill_of_decodes codec c c a p rfl hdec).2.1).trans hseq⟩
  have hother : ∀ k1, k1 < 1024 → k1 ≠ k → (f + k1) % 1024 ≠ BUFIDX p.seqno := by
    intro k1 hk1 hne
    rw [hidx]; omega
  refine ⟨hsy, cr.trans hr', ?_, ?_, ?_⟩
  · rw [cw]
    rcases Nat.lt_trichotomy k (m + 1) with h | h | h
    · have hmax : max m k = m := by omega
      rw [hmax, ← hw]
      by_cases hk0 : k = 0
      · rw [w4 hk0]; simp
      · rw [w3 (by omega) (by omega)]; simp
    · have hmax : max m k = k := by omega
      rw [hmax, w1 h, if_pos ⟨hreach, Or.inl rfl⟩, hseq]
      unfold SUCCESSOR; omega
    · have hmax : max m k = k := by omega
      rw [hmax, (w2 h).1, if_pos ⟨hreach, Or.inr rfl⟩, hseq]
      unfold SUCCESSOR; omega
  · intro hk0
    have hc := slot_content_fields _ _ (hcont ((f + k) % 1024))
    rw [← hidx]
    rcases Nat.lt_trichotomy k (m + 1) with h | h | h
    · rw [w3 (by omega) (by omega)] at hb
      obtain ⟨_, hbuf, _, _⟩ := hb
      rw [hbuf, ← hidx, set_slot_same] at hc
      exact ⟨hc.1.trans (hfill _).1, hc.2.1.trans (hfill _).2⟩
    · rw [w1 h] at hb
      obtain ⟨_, hbuf, _, _⟩ := hb
      rw [hbuf, ← hidx, set_slot_same] at hc
      exact ⟨hc.1.trans (hfill _).1, hc.2.1.trans (hfill _).2⟩
    · rw [(w2 h).1] at hb
      obtain ⟨_, hbuf, _, _⟩ := hb
      rw [hbuf, ← hidx, set_slot_same] at hc
      exact ⟨hc.1.trans (hfill _).1, hc.2.1.trans (hfill _).2⟩
  · intro k1 hk1 hne
    rw [hcont ((f + k1) % 1024)]
    by_cases hk0 : k = 0
    · rw [w4 hk0] at hb
      obtain ⟨_, hbuf, _, _⟩ := hb
      rw [hbuf]
      exact Or.inl rfl
    · have hne' : k1 ≠ k := by
        rcases hne with h | h
        · exact h
        · exact absurd h hk0
      have hoth := hother k1 hk1 hne'
      rcases Nat.lt_trichotomy k (m + 1) with h | h | h
      · rw [w3 (by omega) (by omega)] at hb
        obtain ⟨_, hbuf, _, _⟩ := hb
        rw [hbuf, set_slot_other _ _ _ _ hoth]
        exact Or.inl rfl
      · rw [w1 h] at hb
        obtain ⟨_, hbuf, _, _⟩ := hb
        rw [hbuf, set_slot_other _ _ _ _ hoth]
        exact Or.inl rfl
      · rw [(w2 h).1] at hb
        obtain ⟨_, hbuf, _, _⟩ := hb
        rw [hbuf, set_slot_other _ _ _ _ hoth, (w2 h).2, hw]
        rcases clear_gap_slots_window c.audio_buffer f m (k - (m + 1)) k1 hm (by omega) hk1
          with hsame | ⟨hlt, _, hcl⟩
        · rw [hsame]
          exact Or.inl rfl
        · right
          refine ⟨hlt, ?_⟩
          have hc := slot_content_fields _ _ (hcont ((f + k1) % 1024))
          rw [hbuf, set_slot_other _ _ _ _ hoth, (w2 h).2, hw, hcl] at hc
          exact hc.1

theorem packet_decodes_congr (codec : codec_t) (a b : rtsp_conn_info) (p : packet_t)
    (h : decode_params a = decode_params b) :
    packet_decodes codec a p = packet_decodes codec b p := by
  have h1 : a.max_frames_per_packet = b.max_frames_per_packet := by
    unfold decode_params at h
    simp only [Prod.mk.injEq] at h
    exact h.1
  unfold packet_decodes
  rw [audio_packet_decode_congr codec a b h, h1]

theorem stored_in_cons (p : packet_t) (ps : List packet_t) (s : Nat) :
    stored_in (p :: ps) s ↔ p.seqno = s ∨ stored_in ps s := by
  unfold stored_in
  constructor
  · rintro ⟨q, hq, hs⟩
    rcases List.mem_cons.mp hq with h | h
    · left; rw [← h]; exact hs
    · right; exact ⟨q, h, hs⟩
  · rintro (h | ⟨q, hq, hs⟩)
    · exact ⟨p, List.mem_cons_self _ _, h⟩
    · exact ⟨q, List.mem_cons_of_mem _ hq, hs⟩

/-- The state after a call that reaches the buffer keeps what decoding and the arrival
tests read. -/
theorem player_put_packet_params (cfg : config_t) (codec : codec_t) (c : rtsp_conn_info)
    (p : packet_t) (hout : c.connection_state_to_output ≠ 0)
    (htarget : c.flush_rtp_timestamp = 0) :
    (player_put_packet cfg codec c p).connection_state_to_output ≠ 0 ∧
    (player_put_packet cfg codec c p).flush_rtp_timestamp = 0 ∧
    decode_params (player_put_packet cfg codec c p) = decode_params c := by
  obtain ⟨hreach, hfp⟩ := put_reaches_of_no_target c p hout htarget
  obtain ⟨hf, _⟩ := put_process_filter cfg codec (put_count (put_ignore_early_flush c) p) p
  rw [hfp] at hf
  rw [player_put_packet_of_reaches cfg codec c p hreach]
  unfold filter_params at hf
  simp only [Prod.mk.injEq] at hf
  refine ⟨by rw [hf.1]; exact hout, hf.2.1, ?_⟩
  unfold put_process
  refine (put_lookback_frame cfg _ _).2.2.2.1.trans ?_
  have h2 : decode_params (put_buffer codec (put_count (put_ignore_early_flush c) p) p)
      = decode_params (put_count (put_ignore_early_flush c) p) := by
    unfold put_buffer put_place
    have hs : decode_params (put_set_resend_interval
        (put_sync (put_count (put_ignore_early_flush c) p) p.seqno))
        = decode_params (put_count (put_ignore_early_flush c) p) := by
      unfold put_set_resend_interval put_sync decode_params
      split_ifs <;> rfl
    generalize put_set_resend_interval
      (put_sync (put_count (put_ignore_early_flush c) p) p.seqno) = c' at hs ⊢
    have hn : decode_params (put_note_reception c' p) = decode_params c' := by
      unfold put_note_reception decode_params
      simp only
      split_ifs <;> rfl
    cases put_classify c' p.seqno
    · exact hn.trans hs
    · exact hs
    · exact hs
    · exact hs
  exact h2.trans (put_prep_params c p).1

/-- One more packet inside the window keeps the description of the ring. -/
theorem put_step (cfg : config_t) (codec : codec_t) (c : rtsp_conn_info) (p : packet_t)
    (f m k : Nat) (ps : List packet_t)
    (hinv : ring_inv f ps m 0 c) (h0 : stored_in ps f) (hf : f < 65536)
    (hout : c.connection_state_to_output ≠ 0) (htarget : c.flush_rtp_timestamp = 0)
    (hk : k < 1024) (hseq : p.seqno = (f + k) % 65536)
    (hdec : packet_decodes codec c p = true) :
    ring_inv f (p :: ps) (max m k) 0 (player_put_packet cfg codec c p) := by
  obtain ⟨q1, q2, q3, q4, q5⟩ := put_step_ring cfg codec c p f m k ps hinv hf hout htarget
    hk hseq hdec
  obtain ⟨_, _, _, hm, _, hslots, hps⟩ := hinv
  refine ⟨q1, by rw [q2]; omega, q3, by omega, by omega, ?_, ?_⟩
  · intro k1 _ hk1
    have hiff : p.seqno = (f + k1) % 65536 ↔ k1 = k := by rw [hseq]; omega
    obtain ⟨o1, o2⟩ := hslots k1 (by omega) hk1
    rw [stored_in_cons]
    by_cases hkk : k1 = k
    · subst hkk
      by_cases hk0 : k1 = 0
      · have hst : stored_in ps ((f + k1) % 65536) := by
          rw [hk0]
          have : (f + 0) % 65536 = f := by omega
          rw [this]; exact h0
        rcases q5 k1 hk1 (Or.inr hk0) with hsame | ⟨hlt, _⟩
        · obtain ⟨e1, e2, _⟩ := slot_content_fields _ _ hsame
          exact ⟨fun _ => ⟨e1.trans (o1 hst).1, e2.trans (o1 hst).2⟩,
            fun hn => absurd (Or.inr hst) hn⟩
        · omega
      · exact ⟨fun _ => q4 hk0, fun hn => absurd (Or.inl hseq) hn⟩
    · have hnp : ¬ p.seqno = (f + k1) % 65536 := fun h => hkk (hiff.mp h)
      rcases q5 k1 hk1 (Or.inl hkk) with hsame | ⟨hlt, hz⟩
      · obtain ⟨e1, e2, _⟩ := slot_content_fields _ _ hsame
        constructor
        · rintro (h | h)
          · exact absurd h hnp
          · exact ⟨e1.trans (o1 h).1, e2.trans (o1 h).2⟩
        · intro hn
          exact e1.trans (o2 (fun h => hn (Or.inr h)))
      · constructor
        · rintro (h | ⟨q, hq, hqs⟩)
          · exact absurd h hnp
          · exfalso
            obtain ⟨kq, hkq, hqk⟩ := hps q hq
            rw [hqk] at hqs
            omega
        · intro _
          exact hz
  · intro q hq
    rcases List.mem_cons.mp hq with h | h
    · exact ⟨k, by omega, by rw [h]; exact hseq⟩
    · obtain ⟨kq, hkq, hqk⟩ := hps q h
      exact ⟨kq, by omega, hqk⟩

theorem put_sync_idem (c : rtsp_conn_info) (s : Nat) : put_sync (put_sync c s) s = put_sync c s := by
  unfold put_sync
  split_ifs with h1 h2
  · simp at h2
  · rfl
  · rfl

theorem put_buffer_sync (codec : codec_t) (c : rtsp_conn_info) (p : packet_t) :
    put_buffer codec c p = put_buffer codec (put_sync c p.seqno) p := by
  unfold put_buffer
  rw [put_sync_idem]

/-- The first packet to reach a cleared, unsynced buffer. -/
theorem put_first_inv (cfg : config_t) (codec : codec_t) (conn : rtsp_conn_info)
    (first : packet_t)
    (h_unsynced : conn.ab_synced = 0)
    (h_clear : ∀ i, (conn.audio_buffer i).ready = 0)
    (hout : conn.connection_state_to_output ≠ 0) (htarget : conn.flush_rtp_timestamp = 0)
    (hf : first.seqno < 65536)
    (hdec : packet_decodes codec conn first = true) :
    ring_inv first.seqno [first] 0 0 (player_put_packet cfg codec conn first) := by
  obtain ⟨hreach, _⟩ := put_reaches_of_no_target conn first hout htarget
  obtain ⟨ur, uw, us⟩ := player_put_packet_unsynced cfg codec conn first h_unsynced hreach
  obtain ⟨_, hcont, _, _⟩ := player_put_packet_content cfg codec conn first hreach
  obtain ⟨_, _, qs, qb⟩ := put_prep_ring conn first
  obtain ⟨qp, _⟩ := put_prep_params conn first
  have hu : (put_count (put_ignore_early_flush conn) first).ab_synced = 0 := by
    rw [qs]; exact h_unsynced
  obtain ⟨s1, s2, s3⟩ := put_sync_of_unsynced _ first.seqno hu
  have hsb : (put_sync (put_count (put_ignore_early_flush conn) first) first.seqno).audio_buffer
      = conn.audio_buffer := by
    unfold put_sync
    rw [if_pos hu]
    exact qb
  have hsp : decode_params (put_sync (put_count (put_ignore_early_flush conn) first)
      first.seqno) = decode_params conn := by
    unfold put_sync
    rw [if_pos hu]
    exact qp
  obtain ⟨_, _, _, _, hb⟩ := put_buffer_synced codec
    (put_sync (put_count (put_ignore_early_flush conn) first) first.seqno) first
    (by rw [s3]; decide)
  rw [put_classify_expected _ _ s2, ← put_buffer_sync] at hb
  obtain ⟨_, hbuf, _, _⟩ := hb
  rw [hsb] at hbuf
  obtain ⟨d1, d2, _, _⟩ := put_fill_of_decodes codec conn
    (put_sync (put_count (put_ignore_early_flush conn) first) first.seqno)
    (conn.audio_buffer (BUFIDX first.seqno)) first hsp hdec
  have hidx : BUFIDX first.seqno = first.seqno % 1024 := by rw [BUFIDX_eq]
  refine ⟨by rw [us]; decide, by rw [ur]; omega, by rw [uw]; unfold SUCCESSOR; omega,
    by omega, by omega, ?_, ?_⟩
  · intro k _ hk
    have hc := slot_content_fields _ _ (hcont ((first.seqno + k) % 1024))
    rw [hbuf] at hc
    have hst : stored_in [first] ((first.seqno + k) % 65536) ↔ k = 0 := by
      unfold stored_in
      constructor
      · rintro ⟨q, hq, hqs⟩
        rw [List.mem_singleton] at hq
        rw [hq] at hqs
        omega
      · intro h
        exact ⟨first, List.mem_singleton.mpr rfl, by rw [h]; omega⟩
    by_cases hk0 : k = 0
    · subst hk0
      have hi : (first.seqno + 0) % 1024 = BUFIDX first.seqno := by rw [hidx]; rfl
      rw [hi, set_slot_same] at hc
      rw [hi]
      refine ⟨fun _ => ⟨hc.1.trans d1, ?_⟩, fun hn => absurd (hst.mpr rfl) hn⟩
      rw [hc.2.1, d2]
      omega
    · have hne : (first.seqno + k) % 1024 ≠ BUFIDX first.seqno := by rw [hidx]; omega
      rw [set_slot_other _ _ _ _ hne] at hc
      exact ⟨fun h => absurd (hst.mp h) hk0, fun _ => hc.1.trans (h_clear _)⟩
  · intro q hq
    rw [List.mem_singleton] at hq
    exact ⟨0, le_refl 0, by rw [hq]; omega⟩


theorem ring_inv_congr (f : Nat) (ps qs : List packet_t) (m j : Nat) (c : rtsp_conn_info)
    (h : ∀ x, x ∈ qs ↔ x ∈ ps) (hinv : ring_inv f ps m j c) : ring_inv f qs m j c := by
  have hst : ∀ s, stored_in qs s ↔ stored_in ps s := by
    intro s
    unfold stored_in
    constructor
    · rintro ⟨p, hp, hs⟩; exact ⟨p, (h p).mp hp, hs⟩
    · rintro ⟨p, hp, hs⟩; exact ⟨p, (h p).mpr hp, hs⟩
  obtain ⟨i1, i2, i3, i4, i5, i6, i7⟩ := hinv
  refine ⟨i1, i2, i3, i4, i5, ?_, fun p hp => i7 p ((h p).mp hp)⟩
  intro k hk1 hk2
  rw [hst]
  exact i6 k hk1 hk2

/-- All further packets inside the window keep the description of the ring. -/
theorem put_all_inv (cfg : config_t) (codec : codec_t) (f : Nat) (hf : f < 65536) :
    ∀ (rest : List packet_t) (c : rtsp_conn_info) (ps : List packet_t) (m : Nat),
      ring_inv f ps m 0 c → stored_in ps f →
      c.connection_state_to_output ≠ 0 → c.flush_rtp_timestamp = 0 →
      (∀ p, p ∈ rest → ∃ k, k < 1024 ∧ p.seqno = (f + k) % 65536) →
      (∀ p, p ∈ rest → packet_decodes codec c p = true) →
      ∃ m1, ring_inv f (rest.reverse ++ ps) m1 0 (put_all cfg codec c rest) ∧
        (put_all cfg codec c rest).flush_rtp_timestamp = 0 := by
  intro rest
  induction rest with
  | nil =>
    intro c ps m hinv _ _ ht _ _
    exact ⟨m, hinv, ht⟩
  | cons p rest ih =>
    intro c ps m hinv h0 hout ht hwin hdec
    obtain ⟨k, hk, hseq⟩ := hwin p (List.mem_cons_self _ _)
    have hstep := put_step cfg codec c p f m k ps hinv h0 hf hout ht hk hseq
      (hdec p (List.mem_cons_self _ _))
    obtain ⟨n1, n2, n3⟩ := player_put_packet_params cfg codec c p hout ht
    obtain ⟨m1, hm1, ht1⟩ := ih (player_put_packet cfg codec c p) (p :: ps) (max m k) hstep
      ((stored_in_cons p ps f).mpr (Or.inr h0)) n1 n2
      (fun q hq => hwin q (List.mem_cons_of_mem _ hq))
      (fun q hq => by
        rw [packet_decodes_congr codec _ c q n3]
        exact hdec q (List.mem_cons_of_mem _ hq))
    refine ⟨m1, ?_, ht1⟩
    have hl : (p :: rest).reverse ++ ps = rest.reverse ++ (p :: ps) := by simp
    rw [hl]
    exact hm1

/-- The ring after the first packet and all the others of the window. -/
theorem put_all_window (cfg : config_t) (codec : codec_t) (conn : rtsp_conn_info)
    (first : packet_t) (rest : List packet_t)
    (h_unsynced : conn.ab_synced = 0)
    (h_clear : ∀ i, (conn.audio_buffer i).ready = 0)
    (hout : conn.connection_state_to_output ≠ 0) (htarget : conn.flush_rtp_timestamp = 0)
    (hf : first.seqno < 65536)
    (hwin : ∀ p, p ∈ rest → ∃ k, k < 1024 ∧ p.seqno = (first.seqno + k) % 65536)
    (hdec : ∀ p, p ∈ first :: rest → packet_decodes codec conn p = true) :
    ∃ m, ring_inv first.seqno (first :: rest) m 0 (put_all cfg codec conn (first :: rest)) ∧
      (put_all cfg codec conn (first :: rest)).flush_rtp_timestamp = 0 := by
  have h1 := put_first_inv cfg codec conn first h_unsynced h_clear hout htarget hf
    (hdec first (List.mem_cons_self _ _))
  obtain ⟨n1, n2, n3⟩ := player_put_packet_params cfg codec conn first hout htarget
  obtain ⟨m, hm, ht⟩ := put_all_inv cfg codec first.seqno hf rest
    (player_put_packet cfg codec conn first) [first] 0 h1
    ⟨first, List.mem_singleton.mpr rfl, rfl⟩ n1 n2 hwin
    (fun q hq => by
      rw [packet_decodes_congr codec _ conn q n3]
      exact hdec q (List.mem_cons_of_mem _ hq))
  refine ⟨m, ring_inv_congr _ _ _ _ _ _ ?_ hm, ht⟩
  intro x
  simp only [List.mem_append, List.mem_reverse, List.mem_singleton, List.mem_cons]
  tauto


/-! ## Release order (C1): the frames are released -/

theorem ring_inv_of_ring_kept (f : Nat) (ps : List packet_t) (m j : Nat)
    (a b : rtsp_conn_info) (h : ring_kept a b) (hinv : ring_inv f ps m j a) :
    ring_inv f ps m j b := by
  obtain ⟨k1, k2, k3, k4, _, _⟩ := h
  obtain ⟨i1, i2, i3, i4, i5, i6, i7⟩ := hinv
  refine ⟨by rw [k4]; exact i1, k2.trans i2, k3.trans i3, i4, i5, ?_, i7⟩
  intro k hk1 hk2
  rw [k1]
  exact i6 k hk1 hk2

/-- With no flush target, the selection step on the described ring picks the slot at the
read cursor and changes nothing. -/
theorem get_select_inv (f : Nat) (ps : List packet_t) (m j : Nat) (c : rtsp_conn_info)
    (hinv : ring_inv f ps m j c) (ht : c.flush_rtp_timestamp = 0) :
    get_select c = (c, some ((f + j) % 1024)) := by
  obtain ⟨_, i2, i3, i4, i5, i6, _⟩ := hinv
  have hidx : BUFIDX c.ab_read = (f + j) % 1024 := by rw [BUFIDX_eq, i2]; omega
  have hfd : ∀ x ts, x.flush_rtp_timestamp = 0 → flush_drops x ts = false := by
    intro x ts hx
    unfold flush_drops
    simp [hx]
  unfold get_select
  simp only
  rw [hidx]
  by_cases hc : c.ab_read ≠ c.ab_write ∧ (c.audio_buffer ((f + j) % 1024)).ready ≠ 0
  · rw [if_pos hc]
    have hj : j < 1024 := by
      have := hc.1
      rw [i2, i3] at this
      by_contra hcon
      have : j = m + 1 := by omega
      subst this
      apply hc.1
      rw [i2, i3]
      congr 1
    obtain ⟨o1, o2⟩ := i6 j (le_refl j) hj
    have hseq : (c.audio_buffer ((f + j) % 1024)).sequence_number = c.ab_read := by
      by_cases hst : stored_in ps ((f + j) % 65536)
      · rw [(o1 hst).2, i2]
      · exact absurd (o2 hst) hc.2
    have hal : get_alias c (c.audio_buffer ((f + j) % 1024)) = c := by
      unfold get_alias
      rw [if_neg (by rw [hseq]; simp)]
    rw [hal, hfd c _ ht]
    simp [ht]
  · rw [if_neg hc]

theorem get_check_output_flush (cfg : config_t) (e : iter_env) (c : rtsp_conn_info)
    (h : (get_check_output cfg e c).flush_requested ≠ 1) : c.flush_requested ≠ 1 := by
  intro hc
  apply h
  unfold get_check_output
  simp only
  split_ifs <;> first | rfl | exact hc

/-- One iteration on the described ring: it ends unsynced and waiting, or it keeps the
ring and has picked the slot at the read cursor. -/
theorem iter_inv (cfg : config_t) (e : iter_env) (c : rtsp_conn_info) (loc : get_locals)
    (f : Nat) (ps : List packet_t) (m j : Nat) (hinv : ring_inv f ps m j c)
    (hfl : c.flush_rtp_timestamp = 0 ∨ c.flush_requested = 1) :
    ((buffer_get_frame_iter cfg e c loc).conn.ab_synced = 0 ∧
      (buffer_get_frame_iter cfg e c loc).wait = true) ∨
    (ring_kept c (buffer_get_frame_iter cfg e c loc).conn ∧
      ((buffer_get_frame_iter cfg e c loc).conn.flush_rtp_timestamp = 0 ∨
        (buffer_get_frame_iter cfg e c loc).conn.flush_requested = 1) ∧
      (buffer_get_frame_iter cfg e c loc).loc.curframe = some ((f + j) % 1024) ∧
      ((buffer_get_frame_iter cfg e c loc).wait = false →
        (buffer_get_frame_iter cfg e c loc).conn.ab_buffering = 0 ∧
        (buffer_get_frame_iter cfg e c loc).conn.ab_read
          ≠ (buffer_get_frame_iter cfg e c loc).conn.ab_write)) := by
  rcases buffer_get_frame_iter_frame cfg e c loc with h | ⟨_, h2, h3, h4, h5, h6⟩
  · exact Or.inl h
  · right
    obtain ⟨k1, k2, k3, k4, _, k6, k7, k8, _⟩ := get_check_output_frame cfg e c
    have hc1 : c.flush_requested ≠ 1 := get_check_output_flush cfg e c h2
    have ht : c.flush_rtp_timestamp = 0 := by
      rcases hfl with h | h
      · exact h
      · exact absurd h hc1
    have hk : ring_kept c (get_check_output cfg e c) := ⟨k1, k2, k3, k4, k7, k8⟩
    have hsel := get_select_inv f ps m j (get_check_output cfg e c)
      (ring_inv_of_ring_kept f ps m j _ _ hk hinv) (k6.trans ht)
    rw [hsel] at h3 h4 h5
    refine ⟨ring_kept_trans _ _ _ hk h3, ?_, h5, h6⟩
    rcases h4 with h4 | ⟨_, h4⟩
    · exact Or.inr h4
    · exact Or.inl (h4.trans (k6.trans ht))

/-- When the loop ends on the described ring, the ring is as it was, `curframe` is the
slot at the read cursor, buffering is over and the buffer is not empty. -/
theorem loop_inv (cfg : config_t) (f : Nat) (ps : List packet_t) (m j : Nat)
    (envs : List iter_env) :
    ∀ (c : rtsp_conn_info) (loc : get_locals) (q : rtsp_conn_info × get_locals),
      ring_inv f ps m j c → (c.flush_rtp_timestamp = 0 ∨ c.flush_requested = 1) →
      buffer_get_frame_loop cfg envs c loc = some q →
      ring_kept c q.1 ∧ (q.1.flush_rtp_timestamp = 0 ∨ q.1.flush_requested = 1) ∧
      q.2.curframe = some ((f + j) % 1024) ∧ q.1.ab_buffering = 0 ∧
      q.1.ab_read ≠ q.1.ab_write := by
  induction envs with
  | nil => intro c loc q _ _ h; cases h
  | cons e es ih =>
    intro c loc q hinv hfl h
    unfold buffer_get_frame_loop at h
    simp only at h
    rcases iter_inv cfg e c loc f ps m j hinv hfl with ⟨h1, h2⟩ | ⟨h1, h2, h3, h4⟩
    · rw [h2] at h
      simp only [if_true] at h
      rw [buffer_get_frame_loop_unsynced cfg es _ _ h1] at h
      cases h
    · cases hw : (buffer_get_frame_iter cfg e c loc).wait
      · rw [hw] at h
        simp only [Bool.false_eq_true, if_false, Option.some.injEq] at h
        rw [← h]
        exact ⟨h1, h2, h3, (h4 hw).1, (h4 hw).2⟩
      · rw [hw] at h
        simp only [if_true] at h
        obtain ⟨g1, g2, g3, g4, g5⟩ := ih _ _ q (ring_inv_of_ring_kept f ps m j _ _ h1 hinv)
          h2 h
        exact ⟨ring_kept_trans _ _ _ h1 g1, g2, g3, g4, g5⟩


/-- The release of the slot at the read cursor of the described ring. -/
theorem release_inv (f : Nat) (ps : List packet_t) (m j : Nat) (c : rtsp_conn_info)
    (hinv : ring_inv f ps m j c) (hne : c.ab_read ≠ c.ab_write) :
    ring_inv f ps m (j + 1) (get_release c (some ((f + j) % 1024))).1 ∧
    (get_release c (some ((f + j) % 1024))).2 = some ((f + j) % 1024) ∧
    (get_release c (some ((f + j) % 1024))).1.flush_rtp_timestamp = c.flush_rtp_timestamp ∧
    (get_release c (some ((f + j) % 1024))).1.flush_requested = c.flush_requested ∧
    (stored_in ps ((f + j) % 65536) →
      (c.audio_buffer ((f + j) % 1024)).ready = 1 ∧
      ((get_release c (some ((f + j) % 1024))).1.audio_buffer
        ((f + j) % 1024)).sequence_number = (f + j) % 65536 ∧
      ((get_release c (some ((f + j) % 1024))).1.audio_buffer
        ((f + j) % 1024)).given_timestamp = (c.audio_buffer ((f + j) % 1024)).given_timestamp ∧
      (get_release c (some ((f + j) % 1024))).1.missing_packets = c.missing_packets) ∧
    (¬ stored_in ps ((f + j) % 65536) →
      (c.audio_buffer ((f + j) % 1024)).ready = 0 ∧
      ((get_release c (some ((f + j) % 1024))).1.audio_buffer
        ((f + j) % 1024)).given_timestamp = 0 ∧
      (get_release c (some ((f + j) % 1024))).1.missing_packets
        = (c.missing_packets + 1) % 18446744073709551616) := by
  obtain ⟨i1, i2, i3, i4, i5, i6, i7⟩ := hinv
  have hj : j ≤ m := by
    by_contra hcon
    have : j = m + 1 := by omega
    subst this
    apply hne
    rw [i2, i3]
    congr 1
  obtain ⟨o1, o2⟩ := i6 j (le_refl j) (by omega)
  have hother : ∀ k, j + 1 ≤ k → k < 1024 → (f + k) % 1024 ≠ (f + j) % 1024 := by
    intro k hk1 hk2
    omega
  by_cases hr : (c.audio_buffer ((f + j) % 1024)).ready = 0
  · have hrel : get_release c (some ((f + j) % 1024)) =
        ({ c with
            missing_packets := (c.missing_packets + 1) % 18446744073709551616
            audio_buffer := set_slot (set_slot c.audio_buffer ((f + j) % 1024)
                { c.audio_buffer ((f + j) % 1024) with given_timestamp := 0 })
              ((f + j) % 1024)
              { c.audio_buffer ((f + j) % 1024) with
                given_timestamp := 0, ready := 0, resend_level := 0 }
            ab_read := SUCCESSOR c.ab_read }, some ((f + j) % 1024)) := by
      unfold get_release
      simp only [hr, if_true, set_slot_same]
    rw [hrel]
    refine ⟨⟨i1, ?_, i3, i4, by omega, ?_, i7⟩, rfl, rfl, rfl, ?_, ?_⟩
    · show SUCCESSOR c.ab_read = _
      rw [i2]; unfold SUCCESSOR; omega
    · intro k hk1 hk2
      show (_ → (set_slot _ _ _ _).ready = 1 ∧ (set_slot _ _ _ _).sequence_number = _) ∧
        (_ → (set_slot _ _ _ _).ready = 0)
      rw [set_slot_other _ _ _ _ (hother k hk1 hk2),
        set_slot_other _ _ _ _ (hother k hk1 hk2)]
      exact i6 k (by omega) hk2
    · intro hst
      have := (o1 hst).1
      rw [hr] at this
      cases this
    · intro _
      refine ⟨hr, ?_, rfl⟩
      show (set_slot _ _ _ _).given_timestamp = 0
      rw [set_slot_same]
  · have hrel : get_release c (some ((f + j) % 1024)) =
        ({ c with
            audio_buffer := set_slot c.audio_buffer ((f + j) % 1024)
              { c.audio_buffer ((f + j) % 1024) with ready := 0, resend_level := 0 }
            ab_read := SUCCESSOR c.ab_read }, some ((f + j) % 1024)) := by
      unfold get_release
      simp only [hr, if_false]
    rw [hrel]
    refine ⟨⟨i1, ?_, i3, i4, by omega, ?_, i7⟩, rfl, rfl, rfl, ?_, ?_⟩
    · show SUCCESSOR c.ab_read = _
      rw [i2]; unfold SUCCESSOR; omega
    · intro k hk1 hk2
      show (_ → (set_slot _ _ _ _).ready = 1 ∧ (set_slot _ _ _ _).sequence_number = _) ∧
        (_ → (set_slot _ _ _ _).ready = 0)
      rw [set_slot_other _ _ _ _ (hother k hk1 hk2)]
      exact i6 k (by omega) hk2
    · intro hst
      refine ⟨(o1 hst).1, ?_, ?_, rfl⟩
      · show (set_slot _ _ _ _).sequence_number = _
        rw [set_slot_same]
        exact (o1 hst).2
      · show (set_slot _ _ _ _).given_timestamp = _
        rw [set_slot_same]
    · intro hst
      exact absurd (o2 hst) hr

/-- A call that returns on the described ring. -/
theorem call_inv (cfg : config_t) (f : Nat) (ps : List packet_t) (m j : Nat)
    (envs : List iter_env) (c : rtsp_conn_info) (r : rtsp_conn_info × Option Nat)
    (hinv : ring_inv f ps m j c)
    (hfl : c.flush_rtp_timestamp = 0 ∨ c.flush_requested = 1)
    (h : buffer_get_frame cfg envs c = some r) :
    ∃ q : rtsp_conn_info,
      ring_kept c q ∧ q.ab_read ≠ q.ab_write ∧ ring_inv f ps m j q ∧
      (q.flush_rtp_timestamp = 0 ∨ q.flush_requested = 1) ∧
      r = get_release q (some ((f + j) % 1024)) := by
  unfold buffer_get_frame at h
  cases hl : buffer_get_frame_loop cfg envs c ⟨none, 0⟩ with
  | none => rw [hl] at h; cases h
  | some q =>
    rw [hl] at h
    simp only [Option.some.injEq] at h
    obtain ⟨g1, g2, g3, _, g5⟩ := loop_inv cfg f ps m j envs c _ q hinv hfl hl
    rw [g3] at h
    exact ⟨q.1, g1, g5, ring_inv_of_ring_kept f ps m j _ _ g1 hinv, g2, h.symm⟩

/-- After `n` calls that return, the described ring has moved on by `n` positions. -/
theorem get_all_inv (cfg : config_t) (f : Nat) (ps : List packet_t) (m : Nat) :
    ∀ (calls : List (List iter_env)) (j : Nat) (c c1 : rtsp_conn_info),
      ring_inv f ps m j c → (c.flush_rtp_timestamp = 0 ∨ c.flush_requested = 1) →
      get_all cfg calls c = some c1 →
      ring_inv f ps m (j + calls.length) c1 ∧
      (c1.flush_rtp_timestamp = 0 ∨ c1.flush_requested = 1) := by
  intro calls
  induction calls with
  | nil =>
    intro j c c1 hinv hfl h
    unfold get_all at h
    simp only [Option.some.injEq] at h
    rw [← h]
    exact ⟨hinv, hfl⟩
  | cons envs rest ih =>
    intro j c c1 hinv hfl h
    unfold get_all at h
    cases hb : buffer_get_frame cfg envs c with
    | none => rw [hb] at h; cases h
    | some r =>
      rw [hb] at h
      simp only at h
      obtain ⟨q, _, q2, q3, q4, q5⟩ := call_inv cfg f ps m j envs c r hinv hfl hb
      obtain ⟨r1, _, r3, r4, _, _⟩ := release_inv f ps m j q q3 q2
      rw [← q5] at r1 r3 r4
      have hfl1 : r.1.flush_rtp_timestamp = 0 ∨ r.1.flush_requested = 1 := by
        rw [r3, r4]; exact q4
      obtain ⟨t1, t2⟩ := ih (j + 1) r.1 c1 r1 hfl1 h
      refine ⟨?_, t2⟩
      have hlen : j + (envs :: rest).length = j + 1 + rest.length := by
        simp only [List.length_cons]; omega
      rw [hlen]
      exact t1


/-- With buffering over, a synced non-empty buffer and the play time of the frame
reached, the last step of the iteration does not wait. -/
theorem get_decide_wait_due (cfg : config_t) (e : iter_env) (c : rtsp_conn_info)
    (loc : get_locals) (hs : c.ab_synced ≠ 0) (hb : c.ab_buffering = 0)
    (hne : c.ab_read ≠ c.ab_write) (htim : e.have_timing = true)
    (hdue : ∀ t, e.frame_to_local_time t ≤ e.local_time_now) :
    get_decide_wait cfg e c loc = ⟨c, loc, false⟩ := by
  have h0 : get_do_wait_time cfg e c loc = 0 := by
    unfold get_do_wait_time
    cases loc.curframe with
    | none => rfl
    | some i =>
      simp only [htim, if_true]
      split_ifs with h1 h2
      · rfl
      · exact absurd (hdue _) h2
      · rfl
  unfold get_decide_wait
  simp only [h0]
  rw [if_neg (fun hh => hne hh.2.2)]
  simp [hb, hs]

/-- On the described ring, with buffering over, no flush pending, the output state
unchanged and the play time reached, one iteration is enough and the call returns. -/
theorem call_returns (cfg : config_t) (e : iter_env) (c : rtsp_conn_info)
    (f : Nat) (ps : List packet_t) (m j : Nat) (hinv : ring_inv f ps m j c)
    (ht : c.flush_rtp_timestamp = 0) (hfr : c.flush_requested ≠ 1)
    (hb : c.ab_buffering = 0) (hne : c.ab_read ≠ c.ab_write)
    (hrco : e.rco = c.connection_state_to_output)
    (hrun : cfg.output_has_is_running = false ∨ e.is_running = 0)
    (htim : e.have_timing = true)
    (hdue : ∀ t, e.frame_to_local_time t ≤ e.local_time_now) :
    buffer_get_frame cfg [e] c = some (get_release c (some ((f + j) % 1024))) := by
  have hco : get_check_output cfg e c = c := by
    have hnr : ¬ (cfg.output_has_is_running = true ∧ e.is_running ≠ 0) := by
      rintro ⟨h1, h2⟩
      rcases hrun with h | h
      · rw [h] at h1; cases h1
      · exact h2 h
    have hnc : ¬ (c.connection_state_to_output ≠ e.rco) := by
      rw [hrco]; simp
    unfold get_check_output
    simp only
    rw [if_neg hnr, if_neg hnc]
  have hsel := get_select_inv f ps m j c hinv ht
  have hit : buffer_get_frame_iter cfg e c ⟨none, 0⟩
      = ⟨c, (get_buffering cfg e c ⟨some ((f + j) % 1024), 0⟩).2, false⟩ := by
    unfold buffer_get_frame_iter
    simp only
    rw [hco, get_flush_of_not_requested _ hfr, if_pos hinv.1, hsel]
    simp only
    obtain ⟨_, b2, _⟩ := get_buffering_frame cfg e c ⟨some ((f + j) % 1024), 0⟩
    rw [b2 hb]
    exact get_decide_wait_due cfg e c _ hinv.1 hb hne htim hdue
  have hcf : (get_buffering cfg e c ⟨some ((f + j) % 1024), 0⟩).2.curframe
      = some ((f + j) % 1024) := (get_buffering_frame cfg e c _).1
  unfold buffer_get_frame buffer_get_frame_loop
  simp only [hit, Bool.false_eq_true, if_false, hcf]

theorem seq_order_window (f i j : Nat) (h1 : i < j) (h2 : j < 1024) :
    seq_order ((f + i) % 65536) ((f + j) % 65536) ((f + i) % 65536) = true := by
  unfold seq_order ORDINATE
  simp only [decide_eq_true_eq]
  split_ifs <;> omega


/-- C1. Release order. A cleared, unsynced buffer (output enabled, no flush target
pending) receives a first packet and then, in any order, packets whose sequence numbers
lie fewer than `BUFFER_FRAMES` positions after the first one, every decode succeeding.
After any number `n` of calls of `buffer_get_frame` that have returned, the read cursor
is at position `first + n` (mod `2^16`), and every further call that returns hands out
exactly that position and moves the read cursor one step: the returned pointer is the
slot of `first + n`; if a packet with that sequence number was put, the slot was ready
and the released frame carries that sequence number (which is after the sequence number
of every earlier position), its timestamp untouched and `missing_packets` unchanged; if
none was put, the slot was not ready and is released as a missing frame, with timestamp
0 and `missing_packets` incremented. Timing waits aside, the call does return: once
buffering is over, with no flush requested, the output state unchanged, the play time
reached and a packet stored at or after the position, a single iteration returns. -/
theorem C1_release_order (cfg : config_t) (codec : codec_t) (conn : rtsp_conn_info)
    (first : packet_t) (rest : List packet_t) (calls : List (List iter_env))
    (conn_n : rtsp_conn_info)
    (h_unsynced : conn.ab_synced = 0)
    (h_clear : ∀ i, (conn.audio_buffer i).ready = 0)
    (h_out : conn.connection_state_to_output ≠ 0)
    (h_no_target : conn.flush_rtp_timestamp = 0)
    (h_first : first.seqno < 65536)
    (h_window : ∀ p, p ∈ rest →
      ∃ k, k < BUFFER_FRAMES ∧ p.seqno = (first.seqno + k) % 65536)
    (h_decode : ∀ p, p ∈ first :: rest → packet_decodes codec conn p = true)
    (h_calls : get_all cfg calls (put_all cfg codec conn (first :: rest)) = some conn_n) :
    conn_n.ab_read = (first.seqno + calls.length) % 65536 ∧
    (∀ (envs : List iter_env) (r : rtsp_conn_info × Option Nat),
      buffer_get_frame cfg envs conn_n = some r →
      r.2 = some (BUFIDX ((first.seqno + calls.length) % 65536)) ∧
      r.1.ab_read = SUCCESSOR ((first.seqno + calls.length) % 65536) ∧
      (∀ i, i < calls.length →
        seq_order ((first.seqno + i) % 65536) ((first.seqno + calls.length) % 65536)
          ((first.seqno + i) % 65536) = true) ∧
      (stored_in (first :: rest) ((first.seqno + calls.length) % 65536) →
        (conn_n.audio_buffer (BUFIDX ((first.seqno + calls.length) % 65536))).ready = 1 ∧
        (r.1.audio_buffer (BUFIDX ((first.seqno + calls.length) % 65536))).sequence_number
          = (first.seqno + calls.length) % 65536 ∧
        (r.1.audio_buffer (BUFIDX ((first.seqno + calls.length) % 65536))).given_timestamp
          = (conn_n.audio_buffer
              (BUFIDX ((first.seqno + calls.length) % 65536))).given_timestamp ∧
        r.1.missing_packets = conn_n.missing_packets) ∧
      (¬ stored_in (first :: rest) ((first.seqno + calls.length) % 65536) →
        (conn_n.audio_buffer (BUFIDX ((first.seqno + calls.length) % 65536))).ready = 0 ∧
        (r.1.audio_buffer (BUFIDX ((first.seqno + calls.length) % 65536))).given_timestamp
          = 0 ∧
        r.1.missing_packets = (conn_n.missing_packets + 1) % 18446744073709551616)) ∧
    (∀ e : iter_env,
      conn_n.ab_buffering = 0 → conn_n.flush_requested ≠ 1 →
      e.rco = conn_n.connection_state_to_output →
      (cfg.output_has_is_running = false ∨ e.is_running = 0) →
      e.have_timing = true → (∀ t, e.frame_to_local_time t ≤ e.local_time_now) →
      (∃ p k, p ∈ first :: rest ∧ calls.length ≤ k ∧ k < BUFFER_FRAMES ∧
        p.seqno = (first.seqno + k) % 65536) →
      buffer_get_frame cfg [e] conn_n
        = some (get_release conn_n
            (some (BUFIDX ((first.seqno + calls.length) % 65536))))) := by
  obtain ⟨m, hput, htput⟩ := put_all_window cfg codec conn first rest h_unsynced h_clear
    h_out h_no_target h_first h_window h_decode
  obtain ⟨hinv, hfl⟩ := get_all_inv cfg first.seqno (first :: rest) m calls 0 _ conn_n hput
    (Or.inl htput) h_calls
  rw [Nat.zero_add] at hinv
  have hidx : BUFIDX ((first.seqno + calls.length) % 65536)
      = (first.seqno + calls.length) % 1024 := by rw [BUFIDX_eq]; omega
  rw [hidx]
  refine ⟨hinv.2.1, ?_, ?_⟩
  · intro envs r hr
    obtain ⟨q, q1, q2, q3, _, q5⟩ := call_inv cfg first.seqno (first :: rest) m calls.length
      envs conn_n r hinv hfl hr
    obtain ⟨r1, r2, _, _, r5, r6⟩ := release_inv first.seqno (first :: rest) m calls.length
      q q3 q2
    rw [← q5] at r1 r2 r5 r6
    obtain ⟨k1, _, _, _, _, k6⟩ := q1
    rw [k1, k6] at r5 r6
    have hlen : calls.length < 1024 := by
      have h5 := r1.2.2.2.2.1
      have h4 := r1.2.2.2.1
      omega
    refine ⟨r2, r1.2.1.trans (by unfold SUCCESSOR; omega), ?_, r5, r6⟩
    intro i hi
    exact seq_order_window first.seqno i calls.length hi hlen
  · intro e hb hfr hrco hrun htim hdue ⟨p, k, hp, hk1, hk2, hpk⟩
    have ht : conn_n.flush_rtp_timestamp = 0 := by
      rcases hfl with h | h
      · exact h
      · exact absurd h hfr
    have hne : conn_n.ab_read ≠ conn_n.ab_write := by
      obtain ⟨_, i2, i3, i4, _, _, i7⟩ := hinv
      obtain ⟨kp, hkp, hkq⟩ := i7 p hp
      have hk2' : k < 1024 := hk2
      rw [i2, i3]
      rw [hpk] at hkq
      omega
    exact call_returns cfg e conn_n first.seqno (first :: rest) m calls.length hinv ht hfr hb
      hne hrco hrun htim hdue


set_option maxRecDepth 100000 in
/-- C1 at a concrete run: packets 10, 13, 11 are put into a fresh connection and two
frames are released; the read cursor is then at 12, whose packet never arrived, and the
third call returns at once and releases position 12 as a missing frame. -/
theorem C1_witness :
    conn_after_two.ab_read
      = ((pkt 10 1000).seqno + [[env0 1000 1000], [env0 1000 1000]].length) % 65536 ∧
    buffer_get_frame cfg0 [env0 1000 1000] conn_after_two
      = some (get_release conn_after_two (some (BUFIDX
          (((pkt 10 1000).seqno + [[env0 1000 1000], [env0 1000 1000]].length) % 65536)))) ∧
    (get_release conn_after_two (some (BUFIDX
        (((pkt 10 1000).seqno + [[env0 1000 1000], [env0 1000 1000]].length) % 65536)))).1.missing_packets
      = (conn_after_two.missing_packets + 1) % 18446744073709551616 :=
  have h := C1_release_order cfg0 codec0 conn0 (pkt 10 1000) [pkt 13 2056, pkt 11 1352]
    [[env0 1000 1000], [env0 1000 1000]] conn_after_two rfl (fun _ => rfl) (by decide) rfl
    (by decide)
    (fun p hp => by
      simp only [List.mem_cons, List.mem_singleton, List.not_mem_nil, or_false] at hp
      rcases hp with hp | hp
      · exact ⟨3, by decide, by rw [hp]; rfl⟩
      · exact ⟨1, by decide, by rw [hp]; rfl⟩)
    (fun p hp => by
      simp only [List.mem_cons, List.mem_singleton, List.not_mem_nil, or_false] at hp
      rcases hp with hp | hp | hp <;> rw [hp] <;> rfl)
    rfl
  have hret := h.2.2 (env0 1000 1000) (by decide) (by decide) (by decide)
    (Or.inl rfl) rfl (fun _ => Nat.le_refl 1000)
    ⟨pkt 13 2056, 3, by simp, by decide, by decide, rfl⟩
  ⟨h.1, hret, ((h.2.1 [env0 1000 1000] _ hret).2.2.2.2 (by
    unfold stored_in
    rintro ⟨p, hp, hs⟩
    simp only [List.mem_cons, List.mem_singleton, List.not_mem_nil, or_false] at hp
    rcases hp with hp | hp | hp <;> rw [hp] at hs <;> revert hs <;> decide)).2.2⟩

theorem lookback_check_slot (cfg : config_t) (ri : Int) (c : rtsp_conn_info) (j k : Int)
    (i : Nat) :
    (lookback_check cfg ri c j k).audio_buffer i =
      if (ri * (j * j) + k < seq_diff c.ab_read c.ab_write c.ab_read ∧
          (c.audio_buffer (BUFIDX (lookback_next ri c j k))).ready = 0 ∧
          (c.audio_buffer (BUFIDX (lookback_next ri c j k))).resend_level < j) ∧
          i = BUFIDX (lookback_next ri c j k)
      then { c.audio_buffer i with resend_level := j } else c.audio_buffer i := by
  unfold lookback_check lookback_next
  simp only
  split_ifs with h1 h2 h3 h4 h5 h6 h7 <;>
    first
    | rfl
    | (obtain ⟨_, hi⟩ := ‹_ ∧ i = _›; subst hi; show set_slot _ _ _ _ = _;
       exact set_slot_same _ _ _)
    | (show set_slot _ _ _ _ = _; exact set_slot_other _ _ _ _ (by tauto))
    | (exfalso; tauto)

theorem lookback_check_calls (cfg : config_t) (ri : Int) (c : rtsp_conn_info) (j k : Int) :
    (lookback_check cfg ri c j k).resend_calls =
      (if lookback_emits cfg ri c j k = true then [(lookback_next ri c j k, 1)] else [])
        ++ c.resend_calls ∧
    (lookback_check cfg ri c j k).resend_requests =
      if lookback_emits cfg ri c j k = true
      then (c.resend_requests + 1) % 18446744073709551616 else c.resend_requests := by
  unfold lookback_emits lookback_check lookback_next
  simp only [decide_eq_true_eq]
  split_ifs with h1 h2 h3 h4 h5 h6 h7 <;>
    first
    | exact ⟨rfl, rfl⟩
    | (exfalso; tauto)

theorem lookback_run_append (cfg : config_t) (ri : Int) (c : rtsp_conn_info)
    (s1 s2 : List (Int × Int)) :
    lookback_run cfg ri c (s1 ++ s2) = lookback_run cfg ri (lookback_run cfg ri c s1) s2 := by
  unfold lookback_run
  exact List.foldl_append _ _ _ _

theorem lookback_passes_eq_run (cfg : config_t) (ri : Int) (js : List Int) :
    ∀ c : rtsp_conn_info, js.foldl (fun c j => lookback_pass cfg ri c j) c
      = lookback_run cfg ri c (js.flatMap (fun j => [(j, -1), (j, 0), (j, 1)])) := by
  induction js with
  | nil => intro c; rfl
  | cons j rest ih =>
    intro c
    rw [List.foldl_cons, ih, List.flatMap_cons, lookback_run_append]
    rfl

theorem put_lookback_eq_run (cfg : config_t) (ri : Int) (c : rtsp_conn_info) :
    put_lookback cfg ri c =
      if c.ab_buffering = 0 then lookback_run cfg ri c lookback_steps else c := by
  unfold put_lookback
  rw [lookback_passes_eq_run]
  rfl

theorem slot_levels_append (i : Nat) (a b : List (Nat × Int)) :
    slot_levels i (a ++ b) = slot_levels i a ++ slot_levels i b := by
  unfold slot_levels
  rw [List.filter_append, List.map_append]

theorem lookback_check_level_mono (cfg : config_t) (ri : Int) (c : rtsp_conn_info) (j k : Int)
    (i : Nat) :
    (c.audio_buffer i).resend_level ≤ ((lookback_check cfg ri c j k).audio_buffer i).resend_level ∧
    ((c.audio_buffer i).resend_level ≤ 8 → j ≤ 8 →
      ((lookback_check cfg ri c j k).audio_buffer i).resend_level ≤ 8) := by
  rw [lookback_check_slot]
  split_ifs with h
  · obtain ⟨⟨_, _, h3⟩, h4⟩ := h
    rw [← h4] at h3
    exact ⟨le_of_lt h3, fun _ hj => hj⟩
  · exact ⟨le_refl _, fun h _ => h⟩

theorem lookback_emits_level (cfg : config_t) (ri : Int) (c : rtsp_conn_info) (j k : Int)
    (h : lookback_emits cfg ri c j k = true) :
    ri * (j * j) + k < seq_diff c.ab_read c.ab_write c.ab_read ∧
    (c.audio_buffer (BUFIDX (lookback_next ri c j k))).ready = 0 ∧
    (c.audio_buffer (BUFIDX (lookback_next ri c j k))).resend_level < j ∧
    cfg.disable_resend_requests = 0 ∧
    ((lookback_check cfg ri c j k).audio_buffer (BUFIDX (lookback_next ri c j k))).resend_level
      = j := by
  unfold lookback_emits at h
  simp only [decide_eq_true_eq] at h
  refine ⟨h.1, h.2.1, h.2.2.1, h.2.2.2, ?_⟩
  rw [lookback_check_slot, if_pos ⟨⟨h.1, h.2.1, h.2.2.1⟩, rfl⟩]

/-- The levels of the requests made for one slot by a stretch of the look-back are
strictly increasing, above the level the slot had and at most the level it ends with. -/
theorem lookback_requests_levels (cfg : config_t) (ri : Int) (i : Nat) :
    ∀ (steps : List (Int × Int)) (c : rtsp_conn_info),
      (slot_levels i (lookback_requests cfg ri c steps)).Pairwise (· < ·) ∧
      (∀ l, l ∈ slot_levels i (lookback_requests cfg ri c steps) →
        (c.audio_buffer i).resend_level < l ∧
        l ≤ ((lookback_run cfg ri c steps).audio_buffer i).resend_level) ∧
      (c.audio_buffer i).resend_level
        ≤ ((lookback_run cfg ri c steps).audio_buffer i).resend_level := by
  intro steps
  induction steps with
  | nil =>
    intro c
    refine ⟨List.Pairwise.nil, ?_, le_refl _⟩
    intro l hl
    cases hl
  | cons s rest ih =>
    intro c
    obtain ⟨g1, g2, g3⟩ := ih (lookback_check cfg ri c s.1 s.2)
    have hmono := (lookback_check_level_mono cfg ri c s.1 s.2 i).1
    have hrun : lookback_run cfg ri c (s :: rest)
        = lookback_run cfg ri (lookback_check cfg ri c s.1 s.2) rest := rfl
    have hreq : lookback_requests cfg ri c (s :: rest)
        = (if lookback_emits cfg ri c s.1 s.2 = true
            then [(lookback_next ri c s.1 s.2, s.1)] else [])
          ++ lookback_requests cfg ri (lookback_check cfg ri c s.1 s.2) rest := rfl
    rw [hrun, hreq, slot_levels_append]
    by_cases he : lookback_emits cfg ri c s.1 s.2 = true ∧ BUFIDX (lookback_next ri c s.1 s.2) = i
    · obtain ⟨he1, he2⟩ := he
      obtain ⟨_, _, e3, _, e5⟩ := lookback_emits_level cfg ri c s.1 s.2 he1
      rw [he2] at e3 e5
      have hhead : slot_levels i (if lookback_emits cfg ri c s.1 s.2 = true
          then [(lookback_next ri c s.1 s.2, s.1)] else []) = [s.1] := by
        rw [if_pos he1]
        unfold slot_levels
        simp [he2]
      rw [hhead]
      refine ⟨?_, ?_, le_trans hmono g3⟩
      · rw [List.singleton_append, List.pairwise_cons]
        refine ⟨?_, g1⟩
        intro l hl
        have := (g2 l hl).1
        omega
      · intro l hl
        rw [List.singleton_append, List.mem_cons] at hl
        rcases hl with hl | hl
        · subst hl
          exact ⟨e3, by omega⟩
        · have := g2 l hl
          omega
    · have hhead : slot_levels i (if lookback_emits cfg ri c s.1 s.2 = true
          then [(lookback_next ri c s.1 s.2, s.1)] else []) = [] := by
        unfold slot_levels
        split_ifs with h1
        · have : ¬ BUFIDX (lookback_next ri c s.1 s.2) = i := fun h => he ⟨h1, h⟩
          simp [this]
        · rfl
      rw [hhead, List.nil_append]
      refine ⟨g1, ?_, le_trans hmono g3⟩
      intro l hl
      have := g2 l hl
      omega

/-- The calls of `rtp_request_resend` recorded in the state are the requests listed, newest
first. -/
theorem lookback_requests_calls (cfg : config_t) (ri : Int) :
    ∀ (steps : List (Int × Int)) (c : rtsp_conn_info),
      (lookback_run cfg ri c steps).resend_calls
        = ((lookback_requests cfg ri c steps).map (fun r => (r.1, 1))).reverse
            ++ c.resend_calls := by
  intro steps
  induction steps with
  | nil => intro c; rfl
  | cons s rest ih =>
    intro c
    have hrun : lookback_run cfg ri c (s :: rest)
        = lookback_run cfg ri (lookback_check cfg ri c s.1 s.2) rest := rfl
    have hreq : lookback_requests cfg ri c (s :: rest)
        = (if lookback_emits cfg ri c s.1 s.2 = true
            then [(lookback_next ri c s.1 s.2, s.1)] else [])
          ++ lookback_requests cfg ri (lookback_check cfg ri c s.1 s.2) rest := rfl
    rw [hrun, hreq, ih, (lookback_check_calls cfg ri c s.1 s.2).1, List.map_append,
      List.reverse_append, List.append_assoc]
    congr 1
    split_ifs <;> rfl

theorem clear_gap_slots_level (buf : Nat → abuf_t) (w : Nat) :
    ∀ n k, (clear_gap_slots buf w n k).resend_level = (buf k).resend_level ∨
      (clear_gap_slots buf w n k).resend_level = 0 := by
  intro n
  induction n with
  | zero => intro k; exact Or.inl rfl
  | succ n ih =>
    intro k
    show (set_slot _ _ _ k).resend_level = _ ∨ (set_slot _ _ _ k).resend_level = 0
    by_cases hk : k = BUFIDX (seq_sum w (n % 65536))
    · subst hk
      rw [set_slot_same]
      exact Or.inr rfl
    · rw [set_slot_other _ _ _ _ hk]
      exact ih k

theorem put_fill_level (codec : codec_t) (c : rtsp_conn_info) (slot : abuf_t) (p : packet_t) :
    (put_fill codec c slot p).resend_level = slot.resend_level ∨
    (put_fill codec c slot p).resend_level = 0 := by
  unfold put_fill
  simp only
  split_ifs
  · exact Or.inl rfl
  · exact Or.inr rfl

theorem put_place_requests (c : rtsp_conn_info) (p : packet_t) :
    (put_place c p).1.resend_calls = c.resend_calls ∧
    (put_place c p).1.resend_requests = c.resend_requests ∧
    ∀ k, ((put_place c p).1.audio_buffer k).resend_level = (c.audio_buffer k).resend_level ∨
      ((put_place c p).1.audio_buffer k).resend_level = 0 := by
  unfold put_place
  cases put_classify c p.seqno
  · simp only
    refine ⟨?_, ?_, fun k => Or.inl ?_⟩
    · unfold put_note_reception; simp only; split_ifs <;> rfl
    · unfold put_note_reception; simp only; split_ifs <;> rfl
    · show ((put_note_reception c p).audio_buffer k).resend_level = _
      rw [(put_note_reception_ring c p).2.2.2.1]
  · exact ⟨rfl, rfl, fun k => clear_gap_slots_level _ _ _ k⟩
  · exact ⟨rfl, rfl, fun k => Or.inl rfl⟩
  · exact ⟨rfl, rfl, fun k => Or.inl rfl⟩

theorem put_store_requests (codec : codec_t) (c : rtsp_conn_info) (a : Option Nat)
    (p : packet_t) :
    (put_store codec c a p).resend_calls = c.resend_calls ∧
    (put_store codec c a p).resend_requests = c.resend_requests ∧
    ∀ k, ((put_store codec c a p).audio_buffer k).resend_level
        = (c.audio_buffer k).resend_level ∨
      ((put_store codec c a p).audio_buffer k).resend_level = 0 := by
  unfold put_store
  cases a with
  | none => exact ⟨rfl, rfl, fun k => Or.inl rfl⟩
  | some i =>
    refine ⟨rfl, rfl, fun k => ?_⟩
    show (set_slot _ _ _ k).resend_level = _ ∨ (set_slot _ _ _ k).resend_level = 0
    by_cases hk : k = i
    · subst hk
      rw [set_slot_same]
      exact put_fill_level codec c _ p
    · rw [set_slot_other _ _ _ _ hk]
      exact Or.inl rfl

theorem put_sync_requests (c : rtsp_conn_info) (s : Nat) :
    (put_set_resend_interval (put_sync c s)).resend_calls = c.resend_calls ∧
    (put_set_resend_interval (put_sync c s)).resend_requests = c.resend_requests ∧
    (put_set_resend_interval (put_sync c s)).audio_buffer = c.audio_buffer := by
  unfold put_set_resend_interval put_sync
  split_ifs <;> exact ⟨rfl, rfl, rfl⟩

theorem put_buffer_requests (codec : codec_t) (c : rtsp_conn_info) (p : packet_t) :
    (put_buffer codec c p).resend_calls = c.resend_calls ∧
    (put_buffer codec c p).resend_requests = c.resend_requests ∧
    ∀ k, ((put_buffer codec c p).audio_buffer k).resend_level = (c.audio_buffer k).resend_level ∨
      ((put_buffer codec c p).audio_buffer k).resend_level = 0 := by
  unfold put_buffer
  obtain ⟨a1, a2, a3⟩ := put_sync_requests c p.seqno
  obtain ⟨b1, b2, b3⟩ := put_place_requests (put_set_resend_interval (put_sync c p.seqno)) p
  obtain ⟨c1, c2, c3⟩ := put_store_requests codec
    (put_place (put_set_resend_interval (put_sync c p.seqno)) p).1
    (put_place (put_set_resend_interval (put_sync c p.seqno)) p).2 p
  refine ⟨c1.trans (b1.trans a1), c2.trans (b2.trans a2), fun k => ?_⟩
  have hb := b3 k
  rw [a3] at hb
  rcases c3 k with h | h
  · rcases hb with h2 | h2
    · exact Or.inl (h.trans h2)
    · exact Or.inr (h.trans h2)
  · exact Or.inr h

theorem put_prep_requests (conn : rtsp_conn_info) (p : packet_t) :
    (put_count (put_ignore_early_flush conn) p).resend_calls = conn.resend_calls ∧
    (put_count (put_ignore_early_flush conn) p).resend_requests = conn.resend_requests ∧
    (put_count (put_ignore_early_flush conn) p).audio_buffer = conn.audio_buffer := by
  unfold put_count put_ignore_early_flush
  split_ifs <;> exact ⟨rfl, rfl, rfl⟩

/-- Before the look-back a call has made no request and has left every slot's level as it
was or set it to 0. -/
theorem put_before_lookback_requests (cfg : config_t) (codec : codec_t)
    (conn : rtsp_conn_info) (p : packet_t) :
    (put_before_lookback cfg codec conn p).resend_calls = conn.resend_calls ∧
    (put_before_lookback cfg codec conn p).resend_requests = conn.resend_requests ∧
    ∀ k, ((put_before_lookback cfg codec conn p).audio_buffer k).resend_level
        = (conn.audio_buffer k).resend_level ∨
      ((put_before_lookback cfg codec conn p).audio_buffer k).resend_level = 0 := by
  obtain ⟨a1, a2, a3⟩ := put_prep_requests conn p
  unfold put_before_lookback
  split_ifs with h
  · obtain ⟨b1, b2, b3⟩ := put_buffer_requests codec (put_count (put_ignore_early_flush conn) p) p
    refine ⟨b1.trans a1, b2.trans a2, fun k => ?_⟩
    have := b3 k
    rw [a3] at this
    exact this
  · unfold put_reaches_buffer at h
    simp only [Bool.and_eq_true, decide_eq_true_eq, Bool.not_eq_true', not_and,
      Bool.not_eq_false] at h
    unfold player_put_packet
    simp only
    split_ifs with h1 h2
    · exact ⟨a1, a2, fun k => Or.inl (by show (_ : abuf_t).resend_level = _; rw [← a3])⟩
    · exact absurd (h h1) (by simpa using h2)
    · exact ⟨a1, a2, fun k => Or.inl (by rw [a3])⟩

theorem player_put_packet_eq_lookback (cfg : config_t) (codec : codec_t)
    (conn : rtsp_conn_info) (p : packet_t) :
    player_put_packet cfg codec conn p =
      if put_reaches_buffer conn p = true
      then put_lookback cfg (put_resend_interval conn) (put_before_lookback cfg codec conn p)
      else put_before_lookback cfg codec conn p := by
  unfold put_before_lookback
  split_ifs with h
  · exact (player_put_packet_content cfg codec conn p h).1
  · rfl

theorem lookback_steps_bounds : ∀ s, s ∈ lookback_steps → 1 ≤ s.1 ∧ s.1 ≤ 8 ∧ -1 ≤ s.2 ∧ s.2 ≤ 1 := by
  decide

theorem lookback_run_level_le (cfg : config_t) (ri : Int) (i : Nat) :
    ∀ (steps : List (Int × Int)) (c : rtsp_conn_info), (∀ s, s ∈ steps → s.1 ≤ 8) →
      (c.audio_buffer i).resend_level ≤ 8 →
      ((lookback_run cfg ri c steps).audio_buffer i).resend_level ≤ 8 := by
  intro steps
  induction steps with
  | nil => intro c _ h; exact h
  | cons s rest ih =>
    intro c hs h
    have hrun : lookback_run cfg ri c (s :: rest)
        = lookback_run cfg ri (lookback_check cfg ri c s.1 s.2) rest := rfl
    rw [hrun]
    apply ih _ (fun t ht => hs t (List.mem_cons_of_mem _ ht))
    exact (lookback_check_level_mono cfg ri c s.1 s.2 i).2 h (hs s (List.mem_cons_self _ _))

/-- One call: what it requests for a slot that its store stage leaves alone. -/
theorem put_requests_levels (cfg : config_t) (codec : codec_t) (conn : rtsp_conn_info)
    (p : packet_t) (i : Nat)
    (h_keep : (put_before_lookback cfg codec conn p).audio_buffer i = conn.audio_buffer i) :
    (slot_levels i (put_requests cfg codec conn p)).Pairwise (· < ·) ∧
    (∀ l, l ∈ slot_levels i (put_requests cfg codec conn p) →
      (conn.audio_buffer i).resend_level < l ∧
      l ≤ ((player_put_packet cfg codec conn p).audio_buffer i).resend_level) ∧
    (conn.audio_buffer i).resend_level
      ≤ ((player_put_packet cfg codec conn p).audio_buffer i).resend_level := by
  rw [player_put_packet_eq_lookback, put_lookback_eq_run]
  unfold put_requests
  by_cases hr : put_reaches_buffer conn p = true
  · by_cases hb : (put_before_lookback cfg codec conn p).ab_buffering = 0
    · rw [if_pos hr, if_pos hb, if_pos ⟨hr, hb⟩]
      have := lookback_requests_levels cfg (put_resend_interval conn) i lookback_steps
        (put_before_lookback cfg codec conn p)
      rw [h_keep] at this
      exact this
    · rw [if_pos hr, if_neg hb, if_neg (fun h => hb h.2), h_keep]
      exact ⟨List.Pairwise.nil, fun l hl => absurd hl (List.not_mem_nil l), le_refl _⟩
  · rw [if_neg hr, if_neg (fun h => hr h.1), h_keep]
    exact ⟨List.Pairwise.nil, fun l hl => absurd hl (List.not_mem_nil l), le_refl _⟩

theorem put_requests_calls (cfg : config_t) (codec : codec_t) (conn : rtsp_conn_info)
    (p : packet_t) :
    (player_put_packet cfg codec conn p).resend_calls
      = ((put_requests cfg codec conn p).map (fun r => (r.1, 1))).reverse
          ++ conn.resend_calls := by
  obtain ⟨a1, _, _⟩ := put_before_lookback_requests cfg codec conn p
  rw [player_put_packet_eq_lookback, put_lookback_eq_run]
  unfold put_requests
  by_cases hr : put_reaches_buffer conn p = true
  · by_cases hb : (put_before_lookback cfg codec conn p).ab_buffering = 0
    · rw [if_pos hr, if_pos hb, if_pos ⟨hr, hb⟩, lookback_requests_calls, a1]
    · rw [if_pos hr, if_neg hb, if_neg (fun h => hb h.2), a1]
      rfl
  · rw [if_neg hr, if_neg (fun h => hr h.1), a1]
    rfl

theorem player_put_packet_levels (cfg : config_t) (codec : codec_t) (conn : rtsp_conn_info)
    (p : packet_t)
    (h : ∀ k, 0 ≤ (conn.audio_buffer k).resend_level ∧ (conn.audio_buffer k).resend_level ≤ 8) :
    ∀ k, 0 ≤ ((player_put_packet cfg codec conn p).audio_buffer k).resend_level ∧
      ((player_put_packet cfg codec conn p).audio_buffer k).resend_level ≤ 8 := by
  intro k
  obtain ⟨_, _, a3⟩ := put_before_lookback_requests cfg codec conn p
  have hb : 0 ≤ ((put_before_lookback cfg codec conn p).audio_buffer k).resend_level ∧
      ((put_before_lookback cfg codec conn p).audio_buffer k).resend_level ≤ 8 := by
    rcases a3 k with h1 | h1
    · rw [h1]; exact h k
    · rw [h1]; exact ⟨le_refl _, by decide⟩
  rw [player_put_packet_eq_lookback, put_lookback_eq_run]
  split_ifs
  · refine ⟨le_trans hb.1 (lookback_requests_levels cfg _ k lookback_steps _).2.2, ?_⟩
    exact lookback_run_level_le cfg _ k lookback_steps _
      (fun s hs => (lookback_steps_bounds s hs).2.1) hb.2
  · exact hb
  · exact hb

theorem put_all_cons (cfg : config_t) (codec : codec_t) (conn : rtsp_conn_info) (p : packet_t)
    (ps : List packet_t) :
    put_all cfg codec conn (p :: ps) = put_all cfg codec (player_put_packet cfg codec conn p) ps :=
  rfl

theorem run_requests_levels (cfg : config_t) (codec : codec_t) (i : Nat) :
    ∀ (ps : List packet_t) (conn : rtsp_conn_info), run_keeps_slot cfg codec i conn ps →
      (slot_levels i (run_requests cfg codec conn ps)).Pairwise (· < ·) ∧
      (∀ l, l ∈ slot_levels i (run_requests cfg codec conn ps) →
        (conn.audio_buffer i).resend_level < l ∧
        l ≤ ((put_all cfg codec conn ps).audio_buffer i).resend_level) ∧
      (conn.audio_buffer i).resend_level
        ≤ ((put_all cfg codec conn ps).audio_buffer i).resend_level := by
  intro ps
  induction ps with
  | nil =>
    intro conn _
    exact ⟨List.Pairwise.nil, fun l hl => absurd hl (List.not_mem_nil l), le_refl _⟩
  | cons p rest ih =>
    intro conn hk
    obtain ⟨hk1, hk2⟩ := hk
    obtain ⟨a1, a2, a3⟩ := put_requests_levels cfg codec conn p i hk1
    obtain ⟨b1, b2, b3⟩ := ih (player_put_packet cfg codec conn p) hk2
    have hreq : run_requests cfg codec conn (p :: rest)
        = put_requests cfg codec conn p
          ++ run_requests cfg codec (player_put_packet cfg codec conn p) rest := rfl
    rw [hreq, slot_levels_append, put_all_cons]
    refine ⟨?_, ?_, le_trans a3 b3⟩
    · rw [List.pairwise_append]
      refine ⟨a1, b1, ?_⟩
      intro x hx y hy
      have := (a2 x hx).2
      have := (b2 y hy).1
      omega
    · intro l hl
      rw [List.mem_append] at hl
      rcases hl with hl | hl
      · have := a2 l hl
        omega
      · have := b2 l hl
        omega

theorem run_requests_calls (cfg : config_t) (codec : codec_t) :
    ∀ (ps : List packet_t) (conn : rtsp_conn_info),
      (put_all cfg codec conn ps).resend_calls
        = ((run_requests cfg codec conn ps).map (fun r => (r.1, 1))).reverse
            ++ conn.resend_calls := by
  intro ps
  induction ps with
  | nil => intro conn; rfl
  | cons p rest ih =>
    intro conn
    have hreq : run_requests cfg codec conn (p :: rest)
        = put_requests cfg codec conn p
          ++ run_requests cfg codec (player_put_packet cfg codec conn p) rest := rfl
    rw [put_all_cons, ih, put_requests_calls, hreq, List.map_append, List.reverse_append,
      List.append_assoc]

theorem put_all_levels (cfg : config_t) (codec : codec_t) :
    ∀ (ps : List packet_t) (conn : rtsp_conn_info),
      (∀ k, 0 ≤ (conn.audio_buffer k).resend_level ∧ (conn.audio_buffer k).resend_level ≤ 8) →
      ∀ k, 0 ≤ ((put_all cfg codec conn ps).audio_buffer k).resend_level ∧
        ((put_all cfg codec conn ps).audio_buffer k).resend_level ≤ 8 := by
  intro ps
  induction ps with
  | nil => intro conn h; exact h
  | cons p rest ih =>
    intro conn h
    rw [put_all_cons]
    exact ih _ (player_put_packet_levels cfg codec conn p h)

theorem pairwise_lt_count (l : List Int) (h : l.Pairwise (· < ·)) (x : Int) : l.count x ≤ 1 := by
  have hn : l.Nodup := h.imp (fun hab => ne_of_lt hab)
  exact List.nodup_iff_count_le_one.mp hn x

theorem put_resend_interval_eq (c : rtsp_conn_info)
    (h2 : 8 * c.max_frames_per_packet < 4294967296) :
    put_resend_interval c = max 31 ((c.latency / (8 * c.max_frames_per_packet) : Nat) : Int) := by
  unfold put_resend_interval
  simp only
  have h31 : ((250 * 44100 / 352 / 1000 : Int)) = 31 := by decide
  rw [h31, Nat.mod_eq_of_lt h2]
  split_ifs with h
  · exact (max_eq_right (le_of_lt h)).symm
  · exact (max_eq_left (not_lt.mp h)).symm

theorem seq_diff_occupancy_le (r w : Nat) : seq_diff r w r ≤ 32766 := by
  unfold seq_diff ORDINATE
  simp only
  split_ifs <;> omega

theorem lookback_check_outside (cfg : config_t) (ri : Int) (c : rtsp_conn_info) (j k : Int)
    (h : ¬ ri * (j * j) + k < seq_diff c.ab_read c.ab_write c.ab_read) :
    lookback_check cfg ri c j k = c := by
  unfold lookback_check
  simp only
  rw [if_neg h]

theorem lookback_next_behind (ri : Int) (c : rtsp_conn_info) (j k : Int)
    (hw : c.ab_write < 65536) (hri : 31 ≤ ri) (hj : 1 ≤ j) (hk : -1 ≤ k) :
    30 ≤ ri * (j * j) + k ∧ lookback_next ri c j k < 65536 ∧
    seq_sum (lookback_next ri c j k) (ri * (j * j) + k).toNat = c.ab_write := by
  have hjj : 1 ≤ j * j := by nlinarith
  have hb : 31 ≤ ri * (j * j) := by nlinarith
  unfold lookback_next seq_sum
  generalize ri * (j * j) = b at *
  refine ⟨by omega, by omega, ?_⟩
  omega

/-- With a divisor that is not 0 and look-back distances within `int`, the arithmetic of
the call is defined. -/
theorem put_arithmetic_defined_of_bounds (cfg : config_t) (codec : codec_t)
    (conn : rtsp_conn_info) (p : packet_t)
    (h_mfpp : 0 < conn.max_frames_per_packet ∧ 8 * conn.max_frames_per_packet < 4294967296)
    (h_int : put_resend_interval conn * 64 < INT_MAX) :
    put_arithmetic_defined cfg codec conn p = true := by
  have hri := put_resend_interval_ge conn
  have hb : ∀ j : Int, 1 ≤ j → j ≤ 8 →
      back_step_defined (put_resend_interval conn) j = true := by
    intro j h1 h8
    have hjj : 1 ≤ j * j ∧ j * j ≤ 64 := by constructor <;> nlinarith
    have hlo : 31 ≤ put_resend_interval conn * (j * j) := by nlinarith
    have hhi : put_resend_interval conn * (j * j) ≤ put_resend_interval conn * 64 := by
      nlinarith
    unfold back_step_defined
    rw [decide_eq_true_eq]
    exact ⟨by omega, by omega⟩
  have hd : resend_divisor conn ≠ 0 := by
    unfold resend_divisor
    omega
  unfold put_arithmetic_defined
  split_ifs with h1 h2
  · simp only [decide_eq_true hd, Bool.true_and, List.all_cons, List.all_nil, Bool.and_true,
      hb 1 (by decide) (by decide), hb 2 (by decide) (by decide),
      hb 3 (by decide) (by decide), hb 4 (by decide) (by decide),
      hb 5 (by decide) (by decide), hb 6 (by decide) (by decide),
      hb 7 (by decide) (by decide), hb 8 (by decide) (by decide)]
  · simp only [decide_eq_true hd, Bool.and_self]
  · rfl

/-- With 16 or more frames per packet every latency of 32 bits keeps the look-back
distances within `int`. -/
theorem back_step_in_range_of_packet_size (conn : rtsp_conn_info)
    (h16 : 16 ≤ conn.max_frames_per_packet) (h32 : 8 * conn.max_frames_per_packet < 4294967296)
    (hl : conn.latency < 4294967296) :
    put_resend_interval conn * 64 < INT_MAX := by
  rw [put_resend_interval_eq conn h32]
  have h1 : conn.latency / (8 * conn.max_frames_per_packet) ≤ conn.latency / 128 :=
    Nat.div_le_div_left (by omega) (by decide)
  have h2 : conn.latency / 128 < 33554432 := by omega
  have h3 : ((conn.latency / (8 * conn.max_frames_per_packet) : Nat) : Int) < 33554432 := by
    exact_mod_cast lt_of_le_of_lt h1 h2
  unfold INT_MAX
  rcases max_cases (31 : Int) ((conn.latency / (8 * conn.max_frames_per_packet) : Nat) : Int)
    with ⟨e, _⟩ | ⟨e, _⟩ <;> rw [e] <;> omega

/-- What the loop body does with a candidate whose distance is within the frames in use:
a slot that is not ready and not yet flagged at this level is flagged, and requested when
resend requests are enabled; any other slot is left alone, and so is everything else. -/
theorem lookback_check_examined (cfg : config_t) (ri : Int) (c : rtsp_conn_info) (j k : Int)
    (h_in : ri * (j * j) + k < seq_diff c.ab_read c.ab_write c.ab_read) :
    ((c.audio_buffer (BUFIDX (lookback_next ri c j k))).ready = 0 →
      (c.audio_buffer (BUFIDX (lookback_next ri c j k))).resend_level < j →
      (lookback_check cfg ri c j k).audio_buffer (BUFIDX (lookback_next ri c j k))
        = { c.audio_buffer (BUFIDX (lookback_next ri c j k)) with resend_level := j } ∧
      (cfg.disable_resend_requests = 0 →
        (lookback_check cfg ri c j k).resend_calls
          = (lookback_next ri c j k, 1) :: c.resend_calls ∧
        (lookback_check cfg ri c j k).resend_requests
          = (c.resend_requests + 1) % 18446744073709551616) ∧
      (cfg.disable_resend_requests ≠ 0 →
        (lookback_check cfg ri c j k).resend_calls = c.resend_calls ∧
        (lookback_check cfg ri c j k).resend_requests = c.resend_requests)) ∧
    (¬ ((c.audio_buffer (BUFIDX (lookback_next ri c j k))).ready = 0 ∧
        (c.audio_buffer (BUFIDX (lookback_next ri c j k))).resend_level < j) →
      lookback_check cfg ri c j k = c) := by
  constructor
  · intro hr hl
    obtain ⟨q1, q2⟩ := lookback_check_calls cfg ri c j k
    refine ⟨?_, ?_, ?_⟩
    · rw [lookback_check_slot, if_pos ⟨⟨h_in, hr, hl⟩, rfl⟩]
    · intro hd
      have he : lookback_emits cfg ri c j k = true := by
        unfold lookback_emits
        rw [decide_eq_true_eq]
        exact ⟨h_in, hr, hl, hd⟩
      rw [q1, q2, if_pos he, if_pos he]
      exact ⟨rfl, rfl⟩
    · intro hd
      have he : ¬ lookback_emits cfg ri c j k = true := by
        unfold lookback_emits
        rw [decide_eq_true_eq]
        exact fun h => hd h.2.2.2
      rw [q1, q2, if_neg he, if_neg he]
      exact ⟨rfl, rfl⟩
  · intro hn
    have hn2 : ¬ ((c.audio_buffer (BUFIDX
        ((((c.ab_write : Int) - (ri * (j * j) + k)) % 65536).toNat))).ready = 0 ∧
        (c.audio_buffer (BUFIDX
          ((((c.ab_write : Int) - (ri * (j * j) + k)) % 65536).toNat))).resend_level < j) := hn
    unfold lookback_check
    simp only
    rw [if_pos h_in, if_neg hn2]

/-- C13, where the arithmetic of the call is defined (a packet size that is not 0 and
whose eightfold fits an `unsigned int`, and `resend_interval * 64` below `INT_MAX`): the
base interval of the look-back is `max(31, latency div (8 * max_frames_per_packet))`
packets, so never below 31; the look-back of a call that gets past the store runs the loop
body for the pairs `(j, k)` with `j = 1 .. 8` and `k = -1, 0, 1`; for each pair
`back_step = resend_interval * j^2` is an `int`, the candidate is the sequence number
`back_step + k` packets behind the write cursor, and it is examined exactly when that
distance is strictly smaller than `seq_diff(ab_read, ab_write, ab_read)`: then its slot, if
not ready and not yet flagged at level `j`, is flagged with `resend_level = j` and
requested with `rtp_request_resend(next, 1, conn)` when resend requests are enabled, and
nothing else changes; a candidate at a larger distance changes nothing. -/
theorem C13_lookback_distances (cfg : config_t) (codec : codec_t) (conn : rtsp_conn_info)
    (p : packet_t)
    (h_mfpp : 0 < conn.max_frames_per_packet ∧ 8 * conn.max_frames_per_packet < 4294967296)
    (h_int : put_resend_interval conn * 64 < INT_MAX) :
    put_resend_interval conn
      = max 31 ((conn.latency / (8 * conn.max_frames_per_packet) : Nat) : Int) ∧
    31 ≤ put_resend_interval conn ∧
    player_put_packet_checked cfg codec conn p = some (player_put_packet cfg codec conn p) ∧
    player_put_packet cfg codec conn p =
      (if put_reaches_buffer conn p = true then
        if (put_before_lookback cfg codec conn p).ab_buffering = 0 then
          lookback_run cfg (put_resend_interval conn) (put_before_lookback cfg codec conn p)
            lookback_steps
        else put_before_lookback cfg codec conn p
      else put_before_lookback cfg codec conn p) ∧
    lookback_steps
      = ([1, 2, 3, 4, 5, 6, 7, 8] : List Int).flatMap (fun j => [(j, -1), (j, 0), (j, 1)]) ∧
    ∀ (c : rtsp_conn_info) (j k : Int), (j, k) ∈ lookback_steps →
      (30 ≤ put_resend_interval conn * (j * j) + k ∧
        put_resend_interval conn * (j * j) + k ≤ INT_MAX) ∧
      (c.ab_write < 65536 →
        lookback_next (put_resend_interval conn) c j k < 65536 ∧
        seq_sum (lookback_next (put_resend_interval conn) c j k)
          (put_resend_interval conn * (j * j) + k).toNat = c.ab_write) ∧
      (¬ put_resend_interval conn * (j * j) + k < seq_diff c.ab_read c.ab_write c.ab_read →
        lookback_check cfg (put_resend_interval conn) c j k = c) ∧
      (put_resend_interval conn * (j * j) + k < seq_diff c.ab_read c.ab_write c.ab_read →
        ((c.audio_buffer (BUFIDX (lookback_next (put_resend_interval conn) c j k))).ready = 0 →
          (c.audio_buffer
            (BUFIDX (lookback_next (put_resend_interval conn) c j k))).resend_level < j →
          (lookback_check cfg (put_resend_interval conn) c j k).audio_buffer
              (BUFIDX (lookback_next (put_resend_interval conn) c j k))
            = { c.audio_buffer (BUFIDX (lookback_next (put_resend_interval conn) c j k)) with
                resend_level := j } ∧
          (cfg.disable_resend_requests = 0 →
            (lookback_check cfg (put_resend_interval conn) c j k).resend_calls
              = (lookback_next (put_resend_interval conn) c j k, 1) :: c.resend_calls ∧
            (lookback_check cfg (put_resend_interval conn) c j k).resend_requests
              = (c.resend_requests + 1) % 18446744073709551616) ∧
          (cfg.disable_resend_requests ≠ 0 →
            (lookback_check cfg (put_resend_interval conn) c j k).resend_calls
              = c.resend_calls ∧
            (lookback_check cfg (put_resend_interval conn) c j k).resend_requests
              = c.resend_requests)) ∧
        (¬ ((c.audio_buffer
              (BUFIDX (lookback_next (put_resend_interval conn) c j k))).ready = 0 ∧
            (c.audio_buffer
              (BUFIDX (lookback_next (put_resend_interval conn) c j k))).resend_level < j) →
          lookback_check cfg (put_resend_interval conn) c j k = c)) ∧
      (∀ i, i ≠ BUFIDX (lookback_next (put_resend_interval conn) c j k) →
        (lookback_check cfg (put_resend_interval conn) c j k).audio_buffer i
          = c.audio_buffer i) := by
  have hdef := put_arithmetic_defined_of_bounds cfg codec conn p h_mfpp h_int
  refine ⟨put_resend_interval_eq conn h_mfpp.2, put_resend_interval_ge conn, ?_, ?_, rfl, ?_⟩
  · unfold player_put_packet_checked
    rw [if_pos hdef]
  · rw [player_put_packet_eq_lookback, put_lookback_eq_run]
  · intro c j k hjk
    obtain ⟨hj1, hj8, hk1, hk2⟩ := lookback_steps_bounds (j, k) hjk
    have hri := put_resend_interval_ge conn
    have hjj : 1 ≤ j * j ∧ j * j ≤ 64 := by
      constructor <;> nlinarith
    have hlo : 31 ≤ put_resend_interval conn * (j * j) := by nlinarith
    have hhi : put_resend_interval conn * (j * j) ≤ put_resend_interval conn * 64 := by
      nlinarith
    refine ⟨⟨by omega, by unfold INT_MAX at *; omega⟩, ?_,
      lookback_check_outside cfg _ c j k,
      lookback_check_examined cfg _ c j k, ?_⟩
    · intro hw
      exact (lookback_next_behind _ c j k hw hri hj1 hk1).2
    · intro i hi
      rw [lookback_check_slot, if_neg (fun h => hi h.2)]

set_option maxRecDepth 100000 in
/-- C13 at a playing connection with cursors 0 and 42, empty slots and a latency of 88200
frames: the base interval is 31, and the loop body of pass 1 at offset 0 takes the
sequence number 11, which is 31 packets behind the write cursor and within the 42 frames
in use, finds its slot not ready, flags it at level 1 and requests it. -/
theorem C13_witness :
    ((0 < (conn_playing 0 42 (fun _ => slot0)).max_frames_per_packet ∧
        8 * (conn_playing 0 42 (fun _ => slot0)).max_frames_per_packet < 4294967296) ∧
      put_resend_interval (conn_playing 0 42 (fun _ => slot0)) * 64 < INT_MAX) ∧
    put_resend_interval (conn_playing 0 42 (fun _ => slot0)) = 31 ∧
    lookback_next (put_resend_interval (conn_playing 0 42 (fun _ => slot0)))
      (conn_playing 0 42 (fun _ => slot0)) 1 0 = 11 ∧
    (lookback_check cfg0 (put_resend_interval (conn_playing 0 42 (fun _ => slot0)))
        (conn_playing 0 42 (fun _ => slot0)) 1 0).resend_calls
      = (lookback_next (put_resend_interval (conn_playing 0 42 (fun _ => slot0)))
          (conn_playing 0 42 (fun _ => slot0)) 1 0, 1)
        :: (conn_playing 0 42 (fun _ => slot0)).resend_calls ∧
    (lookback_check cfg0 31 (conn_playing 0 42 (fun _ => slot0)) 1 0).resend_calls
      = [(11, 1)] ∧
    ((lookback_check cfg0 31 (conn_playing 0 42 (fun _ => slot0)) 1 0).audio_buffer
      11).resend_level = 1 :=
  ⟨⟨⟨by decide, by decide⟩, by decide⟩, by decide, by decide,
   (((((C13_lookback_distances cfg0 codec0 (conn_playing 0 42 (fun _ => slot0))
      (pkt 42 15784) ⟨by decide, by decide⟩ (by decide)).2.2.2.2.2
      (conn_playing 0 42 (fun _ => slot0)) 1 0 (by decide)).2.2.2.1 (by decide)).1
      (by decide) (by decide)).2.1 (by decide)).1,
   by decide, by decide⟩

set_option maxRecDepth 100000 in
/-- C13, the failing input: with a latency of 4,294,967,295 frames and one frame per
packet the base interval is `max(31, 4294967295 div 8) = 536870911`; the distances of
passes 1 and 2, 536,870,911 and 2,147,483,644, are `int` values, but the distance
`536870911 * 9 = 4831838199` of pass 3 is beyond `INT_MAX`, so the conversion of line 586
has no defined result and the candidate is not the sequence number that far behind the
write cursor. With no frames per packet the call divides by 0 at line 487. -/
theorem C13_counterexample :
    put_resend_interval conn_huge_latency
      = max 31 ((conn_huge_latency.latency / (8 * conn_huge_latency.max_frames_per_packet)
          : Nat) : Int) ∧
    put_resend_interval conn_huge_latency = 536870911 ∧
    put_resend_interval conn_huge_latency * (2 * 2) = 2147483644 ∧
    put_resend_interval conn_huge_latency * (3 * 3) = 4831838199 ∧
    put_resend_interval conn_huge_latency * (3 * 3) > INT_MAX ∧
    back_step_defined (put_resend_interval conn_huge_latency) 3 = false ∧
    (player_put_packet_checked cfg0 codec0 conn_huge_latency (pkt 5 1000)).isNone = true ∧
    resend_divisor { conn0 with max_frames_per_packet := 0 } = 0 ∧
    (player_put_packet_checked cfg0 codec0 { conn0 with max_frames_per_packet := 0 }
      (pkt 0 1000)).isNone = true := by
  have hd : put_arithmetic_defined cfg0 codec0 conn_huge_latency (pkt 5 1000) = false := by
    decide
  have hz : put_arithmetic_defined cfg0 codec0 { conn0 with max_frames_per_packet := 0 }
      (pkt 0 1000) = false := by
    decide
  refine ⟨by decide, by decide, by decide, by decide, by decide, by decide, ?_, by decide, ?_⟩
  · unfold player_put_packet_checked
    rw [hd]
    rfl
  · unfold player_put_packet_checked
    rw [hz]
    rfl

/-- C11 (amended): a resend request at pass level `j` is made only for a slot that is not
ready and whose `resend_level` is below `j`, and making it sets `resend_level = j`; across
every sequence of `player_put_packet` calls whose part before the look-back (gap loop and
decoding into the chosen slot) leaves slot `i` as it was, the levels at which slot `i` is
requested are strictly increasing and lie in `1 .. 8`, so each level occurs at most once;
and the `resend_level` of every slot stays within `0 .. 8`. -/
theorem C11_resend_levels_increase (cfg : config_t) (codec : codec_t) (conn : rtsp_conn_info)
    (ps : List packet_t) (i : Nat)
    (h_levels : ∀ k, 0 ≤ (conn.audio_buffer k).resend_level ∧
      (conn.audio_buffer k).resend_level ≤ 8)
    (h_keep : run_keeps_slot cfg codec i conn ps) :
    (∀ (c : rtsp_conn_info) (ri j k : Int), lookback_emits cfg ri c j k = true →
      (c.audio_buffer (BUFIDX (lookback_next ri c j k))).ready = 0 ∧
      (c.audio_buffer (BUFIDX (lookback_next ri c j k))).resend_level < j ∧
      ((lookback_check cfg ri c j k).audio_buffer
        (BUFIDX (lookback_next ri c j k))).resend_level = j ∧
      (lookback_check cfg ri c j k).resend_calls
        = (lookback_next ri c j k, 1) :: c.resend_calls) ∧
    (∀ (c : rtsp_conn_info) (ri j k : Int), lookback_emits cfg ri c j k = false →
      (lookback_check cfg ri c j k).resend_calls = c.resend_calls) ∧
    (put_all cfg codec conn ps).resend_calls
      = ((run_requests cfg codec conn ps).map (fun r => (r.1, 1))).reverse
          ++ conn.resend_calls ∧
    (slot_levels i (run_requests cfg codec conn ps)).Pairwise (· < ·) ∧
    (∀ l, l ∈ slot_levels i (run_requests cfg codec conn ps) → 1 ≤ l ∧ l ≤ 8) ∧
    (∀ l, (slot_levels i (run_requests cfg codec conn ps)).count l ≤ 1) ∧
    (∀ k, 0 ≤ ((put_all cfg codec conn ps).audio_buffer k).resend_level ∧
      ((put_all cfg codec conn ps).audio_buffer k).resend_level ≤ 8) := by
  obtain ⟨g1, g2, _⟩ := run_requests_levels cfg codec i ps conn h_keep
  have hfin := put_all_levels cfg codec ps conn h_levels
  refine ⟨?_, ?_, run_requests_calls cfg codec ps conn, g1, ?_, pairwise_lt_count _ g1, hfin⟩
  · intro c ri j k h
    obtain ⟨_, e2, e3, _, e5⟩ := lookback_emits_level cfg ri c j k h
    refine ⟨e2, e3, e5, ?_⟩
    rw [(lookback_check_calls cfg ri c j k).1, if_pos h]
    rfl
  · intro c ri j k h
    rw [(lookback_check_calls cfg ri c j k).1, if_neg (by rw [h]; decide)]
    rfl
  · intro l hl
    have h1 := g2 l hl
    have h2 := h_levels i
    have h3 := hfin i
    omega

set_option maxRecDepth 100000 in
/-- C11 at a playing connection with cursors 0 and 1: packets 41 and 42 arrive, slot 12
is left alone by both calls and is requested once, at level 1. -/
theorem C11_witness :
    run_keeps_slot cfg0 codec0 12 (conn_playing 0 1 (fun _ => slot0))
      [pkt 41 15432, pkt 42 15784] ∧
    (slot_levels 12 (run_requests cfg0 codec0 (conn_playing 0 1 (fun _ => slot0))
      [pkt 41 15432, pkt 42 15784])).Pairwise (· < ·) ∧
    slot_levels 12 (run_requests cfg0 codec0 (conn_playing 0 1 (fun _ => slot0))
      [pkt 41 15432, pkt 42 15784]) = [1] :=
  ⟨⟨by decide, by decide, trivial⟩,
   (C11_resend_levels_increase cfg0 codec0 (conn_playing 0 1 (fun _ => slot0))
      [pkt 41 15432, pkt 42 15784] 12 (fun _ => ⟨le_refl _, (by decide : (0 : Int) ≤ 8)⟩)
      ⟨by decide, by decide, trivial⟩).2.2.2.1,
   by decide⟩

set_option maxRecDepth 100000 in
/-- C11 as stated fails: with cursors 0 and 1, packet 41 opens a gap and slot 11 is
requested at level 1; then packet 11 arrives late but is rejected by the decoder, which
resets the level of slot 11, and the look-back of that call requests it at level 1 again.
Slot 11 is not ready before, between and after the two calls. -/
theorem C11_counterexample :
    ((conn_playing 0 1 (fun _ => slot0)).audio_buffer (BUFIDX 11)).ready = 0 ∧
    ((put_all cfg0 codec0 (conn_playing 0 1 (fun _ => slot0))
      [pkt 41 15432]).audio_buffer (BUFIDX 11)).ready = 0 ∧
    ((put_all cfg0 codec0 (conn_playing 0 1 (fun _ => slot0))
      [pkt 41 15432, pkt_bad 11 4872]).audio_buffer (BUFIDX 11)).ready = 0 ∧
    put_requests cfg0 codec0 (conn_playing 0 1 (fun _ => slot0)) (pkt 41 15432)
      = [(12, 1), (11, 1), (10, 1)] ∧
    put_requests cfg0 codec0
      (player_put_packet cfg0 codec0 (conn_playing 0 1 (fun _ => slot0)) (pkt 41 15432))
      (pkt_bad 11 4872) = [(11, 1)] ∧
    slot_levels 11 (run_requests cfg0 codec0 (conn_playing 0 1 (fun _ => slot0))
      [pkt 41 15432, pkt_bad 11 4872]) = [1, 1] ∧
    (slot_levels 11 (run_requests cfg0 codec0 (conn_playing 0 1 (fun _ => slot0))
      [pkt 41 15432, pkt_bad 11 4872])).count 1 = 2 ∧
    (put_all cfg0 codec0 (conn_playing 0 1 (fun _ => slot0))
      [pkt 41 15432, pkt_bad 11 4872]).resend_calls
      = [(11, 1), (10, 1), (11, 1), (12, 1)] := by
  decide

theorem put_sync_prep (conn : rtsp_conn_info) (p : packet_t) (s : Nat) :
    (put_sync (put_count (put_ignore_early_flush conn) p) s).ab_read = (put_sync conn s).ab_read ∧
    (put_sync (put_count (put_ignore_early_flush conn) p) s).ab_write
      = (put_sync conn s).ab_write ∧
    (put_sync (put_count (put_ignore_early_flush conn) p) s).ab_synced
      = (put_sync conn s).ab_synced ∧
    (put_sync (put_count (put_ignore_early_flush conn) p) s).audio_buffer = conn.audio_buffer ∧
    decode_params (put_sync (put_count (put_ignore_early_flush conn) p) s)
      = decode_params conn := by
  unfold put_sync put_count put_ignore_early_flush decode_params
  split_ifs <;> exact ⟨rfl, rfl, rfl, rfl, rfl⟩

theorem get_check_output_counts (cfg : config_t) (e : iter_env) (c : rtsp_conn_info) :
    request_counts (get_check_output cfg e c) = request_counts c := by
  unfold get_check_output request_counts
  simp only
  split_ifs <;> rfl

theorem ab_resync_counts (c : rtsp_conn_info) : request_counts (ab_resync c) = request_counts c :=
  rfl

theorem get_flush_counts (c : rtsp_conn_info) : request_counts (get_flush c) = request_counts c := by
  unfold get_flush
  split_ifs <;> rfl

theorem get_select_counts (c : rtsp_conn_info) :
    request_counts (get_select c).1 = request_counts c := by
  unfold get_select get_alias request_counts
  simp only
  split_ifs <;> rfl

theorem get_first_frame_counts (cfg : config_t) (e : iter_env) (c : rtsp_conn_info)
    (slot : abuf_t) : request_counts (get_first_frame cfg e c slot).1 = request_counts c := by
  unfold get_first_frame
  simp only
  split_ifs <;> rfl

theorem get_prefill_with_delay_counts (cfg : config_t) (e : iter_env) (c : rtsp_conn_info)
    (hs m : Int) : request_counts (get_prefill_with_delay cfg e c hs m) = request_counts c := by
  unfold get_prefill_with_delay
  simp only
  split_ifs <;> rfl

theorem get_prefill_counts (cfg : config_t) (e : iter_env) (c : rtsp_conn_info) (hs : Int) :
    request_counts (get_prefill cfg e c hs) = request_counts c := by
  unfold get_prefill
  simp only
  split_ifs <;> first | rfl | exact get_prefill_with_delay_counts cfg e _ _ _

theorem get_buffering_counts (cfg : config_t) (e : iter_env) (c : rtsp_conn_info)
    (loc : get_locals) : request_counts (get_buffering cfg e c loc).1 = request_counts c := by
  unfold get_buffering
  cases loc.curframe with
  | none => rfl
  | some i =>
    simp only
    split_ifs
    · exact (get_prefill_counts cfg e _ _).trans (get_first_frame_counts cfg e c _)
    · rfl
    · rfl

theorem get_decide_wait_counts (cfg : config_t) (e : iter_env) (c : rtsp_conn_info)
    (loc : get_locals) : request_counts (get_decide_wait cfg e c loc).conn = request_counts c := by
  unfold get_decide_wait
  simp only
  split_ifs <;> rfl

theorem buffer_get_frame_iter_counts (cfg : config_t) (e : iter_env) (c : rtsp_conn_info)
    (loc : get_locals) :
    request_counts (buffer_get_frame_iter cfg e c loc).conn = request_counts c := by
  have h1 : request_counts (get_flush (get_check_output cfg e c)) = request_counts c :=
    (get_flush_counts _).trans (get_check_output_counts cfg e c)
  unfold buffer_get_frame_iter
  simp only
  split_ifs
  · rw [get_decide_wait_counts, get_buffering_counts, get_select_counts]
    exact h1
  · rw [get_decide_wait_counts]
    exact h1

theorem buffer_get_frame_loop_counts (cfg : config_t) (envs : List iter_env) :
    ∀ (c : rtsp_conn_info) (loc : get_locals) (q : rtsp_conn_info × get_locals),
      buffer_get_frame_loop cfg envs c loc = some q → request_counts q.1 = request_counts c := by
  induction envs with
  | nil => intro c loc q h; cases h
  | cons e es ih =>
    intro c loc q h
    unfold buffer_get_frame_loop at h
    simp only at h
    split_ifs at h with hw
    · exact (ih _ _ q h).trans (buffer_get_frame_iter_counts cfg e c loc)
    · simp only [Option.some.injEq] at h
      rw [← h]
      exact buffer_get_frame_iter_counts cfg e c loc

theorem get_release_counts (c : rtsp_conn_info) (cf : Option Nat) :
    request_counts (get_release c cf).1 = request_counts c := by
  unfold get_release request_counts
  cases cf with
  | none => rfl
  | some i =>
    simp only
    split_ifs <;> rfl

theorem buffer_get_frame_counts (cfg : config_t) (envs : List iter_env) (c : rtsp_conn_info)
    (r : rtsp_conn_info × Option Nat) (h : buffer_get_frame cfg envs c = some r) :
    request_counts r.1 = request_counts c := by
  unfold buffer_get_frame at h
  cases hl : buffer_get_frame_loop cfg envs c ⟨none, 0⟩ with
  | none => rw [hl] at h; cases h
  | some q =>
    rw [hl] at h
    simp only [Option.some.injEq] at h
    rw [← h, get_release_counts]
    exact buffer_get_frame_loop_counts cfg envs c _ q hl

theorem window_ready_of_ring (a b : rtsp_conn_info) (h1 : b.audio_buffer = a.audio_buffer)
    (h2 : b.ab_read = a.ab_read) (h3 : b.ab_write = a.ab_write) (h4 : b.ab_synced = a.ab_synced)
    (h : window_ready a) : window_ready b := by
  unfold window_ready at *
  rw [h1, h2, h3, h4]
  exact h

theorem window_ready_unsynced (c : rtsp_conn_info) (h : c.ab_synced = 0) : window_ready c := by
  intro hs
  exact absurd h hs

/-- On an in-order window the selection step keeps the read cursor and at most marks the
slot at the read cursor as not ready. -/
theorem get_select_window (c : rtsp_conn_info) (hs : c.ab_synced ≠ 0) (hw : window_ready c) :
    window_ready (get_select c).1 ∧ (get_select c).1.ab_read = c.ab_read ∧
    ((get_select c).2 = none ∨ (get_select c).2 = some (BUFIDX c.ab_read)) := by
  obtain ⟨g1, g2, _, _, _, _, _, g8, g9⟩ := get_select_frame c
  obtain ⟨hr, d, hd, hwr, hseq, hready⟩ := hw hs
  have hread : (get_select c).1.ab_read = c.ab_read := by
    rw [g8]
    split_ifs with h
    · have hd0 : 0 < d := by
        rcases Nat.eq_zero_or_pos d with h0 | h0
        · exfalso
          apply h.1
          rw [hwr, h0]
          omega
        · exact h0
      have hidx : ((c.ab_read + 0) % 65536) % 1024 = BUFIDX c.ab_read := by
        rw [BUFIDX_eq]; omega
      have := hseq 0 hd0 (by rw [hidx]; exact h.2)
      rw [hidx] at this
      apply (get_alias_frame c _).2.2.2.2.2.2.2.2.2
      rw [this]
      omega
    · rfl
  refine ⟨?_, hread, ?_⟩
  · intro _
    rw [hread, g1]
    refine ⟨hr, d, hd, hwr, ?_, ?_⟩
    · intro m hm
      rcases g9 with ⟨_, hbuf⟩ | ⟨_, hbuf, _, _, _⟩
      · rw [hbuf]; exact hseq m hm
      · rw [hbuf]
        by_cases hm0 : ((c.ab_read + m) % 65536) % 1024 = BUFIDX c.ab_read
        · rw [hm0, set_slot_same]
          intro hc
          exact absurd rfl hc
        · rw [set_slot_other _ _ _ _ hm0]
          exact hseq m hm
    · intro m hm1 hm2
      rcases g9 with ⟨_, hbuf⟩ | ⟨_, hbuf, _, _, _⟩
      · rw [hbuf]; exact hready m hm1 hm2
      · rw [hbuf]
        have hm0 : ((c.ab_read + m) % 65536) % 1024 ≠ BUFIDX c.ab_read := by
          rw [BUFIDX_eq]; omega
        rw [set_slot_other _ _ _ _ hm0]
        exact hready m hm1 hm2
  · rcases g9 with ⟨h, _⟩ | ⟨h, _⟩
    · exact Or.inr h
    · exact Or.inl h

/-- One iteration keeps the in-order window; when it does not wait, the buffer is synced and
not empty and `curframe` is `NULL` or the slot at the read cursor. -/
theorem iter_window (cfg : config_t) (e : iter_env) (c : rtsp_conn_info) (loc : get_locals)
    (hw : window_ready c) :
    window_ready (buffer_get_frame_iter cfg e c loc).conn ∧
    ((buffer_get_frame_iter cfg e c loc).wait = false →
      (buffer_get_frame_iter cfg e c loc).conn.ab_synced ≠ 0 ∧
      (buffer_get_frame_iter cfg e c loc).conn.ab_read
        ≠ (buffer_get_frame_iter cfg e c loc).conn.ab_write ∧
      ((buffer_get_frame_iter cfg e c loc).loc.curframe = none ∨
        (buffer_get_frame_iter cfg e c loc).loc.curframe
          = some (BUFIDX (buffer_get_frame_iter cfg e c loc).conn.ab_read))) := by
  rcases buffer_get_frame_iter_frame cfg e c loc with ⟨h1, h2⟩ | ⟨h1, _, h3, _, h5, h6⟩
  · refine ⟨window_ready_unsynced _ h1, ?_⟩
    intro hwf
    rw [h2] at hwf
    cases hwf
  · obtain ⟨k1, k2, k3, k4, _⟩ := get_check_output_frame cfg e c
    have hw1 : window_ready (get_check_output cfg e c) :=
      window_ready_of_ring c _ k1 k2 k3 k4 hw
    have hs1 : (get_check_output cfg e c).ab_synced ≠ 0 := by rw [k4]; exact h1
    obtain ⟨s1, s2, s3⟩ := get_select_window _ hs1 hw1
    obtain ⟨r1, r2, r3, r4, _, _⟩ := h3
    have hsy : (buffer_get_frame_iter cfg e c loc).conn.ab_synced ≠ 0 := by
      rw [r4, (get_select_frame _).2.1]
      exact hs1
    refine ⟨window_ready_of_ring _ _ r1 r2 r3 r4 s1, ?_⟩
    intro hwf
    refine ⟨hsy, (h6 hwf).2, ?_⟩
    rw [h5, r2, s2]
    exact s3

theorem loop_window (cfg : config_t) (envs : List iter_env) :
    ∀ (c : rtsp_conn_info) (loc : get_locals) (q : rtsp_conn_info × get_locals),
      window_ready c → buffer_get_frame_loop cfg envs c loc = some q →
      window_ready q.1 ∧ q.1.ab_synced ≠ 0 ∧ q.1.ab_read ≠ q.1.ab_write ∧
      (q.2.curframe = none ∨ q.2.curframe = some (BUFIDX q.1.ab_read)) := by
  induction envs with
  | nil => intro c loc q _ h; cases h
  | cons e es ih =>
    intro c loc q hw h
    obtain ⟨i1, i2⟩ := iter_window cfg e c loc hw
    unfold buffer_get_frame_loop at h
    simp only at h
    split_ifs at h with hwait
    · exact ih _ _ q i1 h
    · simp only [Option.some.injEq] at h
      have hwf : (buffer_get_frame_iter cfg e c loc).wait = false := by
        cases hx : (buffer_get_frame_iter cfg e c loc).wait
        · rfl
        · exact absurd hx hwait
      rw [← h]
      exact ⟨i1, i2 hwf⟩

theorem get_release_frame (c : rtsp_conn_info) (cf : Option Nat) :
    (get_release c cf).1.ab_write = c.ab_write ∧
    (get_release c cf).1.ab_synced = c.ab_synced ∧
    (get_release c cf).1.ab_read = SUCCESSOR c.ab_read ∧
    ∀ k, cf ≠ some k → (get_release c cf).1.audio_buffer k = c.audio_buffer k := by
  unfold get_release
  cases cf with
  | none => exact ⟨rfl, rfl, rfl, fun _ _ => rfl⟩
  | some i =>
    simp only
    split_ifs
    · refine ⟨rfl, rfl, rfl, ?_⟩
      intro k hk
      have hki : k ≠ i := fun h => hk (by rw [h])
      show set_slot (set_slot _ _ _) _ _ k = _
      rw [set_slot_other _ _ _ _ hki, set_slot_other _ _ _ _ hki]
    · refine ⟨rfl, rfl, rfl, ?_⟩
      intro k hk
      have hki : k ≠ i := fun h => hk (by rw [h])
      show set_slot _ _ _ k = _
      rw [set_slot_other _ _ _ _ hki]

/-- Releasing the slot at the read cursor of a non-empty in-order window leaves an in-order
window. -/
theorem release_window (c : rtsp_conn_info) (cf : Option Nat) (hw : window_ready c)
    (hs : c.ab_synced ≠ 0) (hne : c.ab_read ≠ c.ab_write)
    (hcf : cf = none ∨ cf = some (BUFIDX c.ab_read)) :
    window_ready (get_release c cf).1 := by
  obtain ⟨f1, f2, f3, f4⟩ := get_release_frame c cf
  obtain ⟨hr, d, hd, hwr, hseq, hready⟩ := hw hs
  have hd0 : 0 < d := by
    rcases Nat.eq_zero_or_pos d with h0 | h0
    · exfalso
      apply hne
      rw [hwr, h0]
      omega
    · exact h0
  have hother : ∀ m, m < d - 1 →
      (get_release c cf).1.audio_buffer (((SUCCESSOR c.ab_read + m) % 65536) % 1024)
        = c.audio_buffer (((c.ab_read + (m + 1)) % 65536) % 1024) := by
    intro m hm
    have hidx : ((SUCCESSOR c.ab_read + m) % 65536) % 1024
        = ((c.ab_read + (m + 1)) % 65536) % 1024 := by
      unfold SUCCESSOR; omega
    rw [hidx]
    apply f4
    rcases hcf with h | h
    · rw [h]; exact fun hc => by cases hc
    · rw [h, BUFIDX_eq]
      intro hc
      simp only [Option.some.injEq] at hc
      omega
  intro _
  rw [f1, f3]
  refine ⟨by unfold SUCCESSOR; omega, d - 1, by omega, ?_, ?_, ?_⟩
  · rw [hwr]; unfold SUCCESSOR; omega
  · intro m hm
    rw [hother m hm]
    intro hrd
    rw [hseq (m + 1) (by omega) hrd]
    unfold SUCCESSOR; omega
  · intro m _ hm
    rw [hother m hm]
    exact hready (m + 1) (by omega) (by omega)

/-- A call of `buffer_get_frame` that returns keeps the in-order window. -/
theorem buffer_get_frame_window (cfg : config_t) (envs : List iter_env) (c : rtsp_conn_info)
    (r : rtsp_conn_info × Option Nat) (hw : window_ready c)
    (h : buffer_get_frame cfg envs c = some r) : window_ready r.1 := by
  unfold buffer_get_frame at h
  cases hl : buffer_get_frame_loop cfg envs c ⟨none, 0⟩ with
  | none => rw [hl] at h; cases h
  | some q =>
    rw [hl] at h
    simp only [Option.some.injEq] at h
    obtain ⟨q1, q2, q3, q4⟩ := loop_window cfg envs c _ q hw hl
    rw [← h]
    exact release_window q.1 _ q1 q2 q3 q4

theorem lookback_check_ready (cfg : config_t) (ri : Int) (c : rtsp_conn_info) (j k : Int)
    (h : (c.audio_buffer (BUFIDX (lookback_next ri c j k))).ready ≠ 0) :
    lookback_check cfg ri c j k = c := by
  unfold lookback_next at h
  unfold lookback_check
  simp only
  split_ifs with h1 h2
  · exact absurd h2.1 h
  · exact absurd h2.1 h
  · rfl
  · rfl

theorem seq_diff_window (r w d : Nat) (hd : d ≤ 1024)
    (hw : w = (r + d) % 65536) : seq_diff r w r = d := by
  unfold seq_diff ORDINATE
  simp only
  subst hw
  split_ifs <;> omega

/-- On an in-order window the look-back changes nothing: every candidate it examines is
ready. -/
theorem put_lookback_window (cfg : config_t) (ri : Int) (c : rtsp_conn_info) (hri : 31 ≤ ri)
    (hs : c.ab_synced ≠ 0) (hw : window_ready c) : put_lookback cfg ri c = c := by
  obtain ⟨_, d, hd, hwr, _, hready⟩ := hw hs
  have hocc := seq_diff_window c.ab_read c.ab_write d (by omega) hwr
  refine put_lookback_induct (fun x => x = c) cfg ri ?_ c rfl
  intro x j k hj1 _ hk _ hx
  subst hx
  by_cases hin : ri * (j * j) + k < seq_diff x.ab_read x.ab_write x.ab_read
  · apply lookback_check_ready
    have hjj : 1 ≤ j * j := by nlinarith
    have hb : 31 ≤ ri * (j * j) := by nlinarith
    rw [hocc] at hin
    have hidx : BUFIDX (lookback_next ri x j k)
        = ((x.ab_read + (d - (ri * (j * j) + k).toNat)) % 65536) % 1024 := by
      rw [BUFIDX_eq]
      unfold lookback_next
      generalize ri * (j * j) = b at *
      omega
    rw [hidx]
    apply hready
    · generalize ri * (j * j) = b at *
      omega
    · generalize ri * (j * j) = b at *
      omega
  · exact lookback_check_outside cfg ri x j k hin

theorem player_put_packet_dropped (cfg : config_t) (codec : codec_t) (conn : rtsp_conn_info)
    (p : packet_t) (h : put_reaches_buffer conn p = false) :
    (player_put_packet cfg codec conn p).audio_buffer = conn.audio_buffer ∧
    (player_put_packet cfg codec conn p).ab_read = conn.ab_read ∧
    (player_put_packet cfg codec conn p).ab_write = conn.ab_write ∧
    (player_put_packet cfg codec conn p).ab_synced = conn.ab_synced ∧
    request_counts (player_put_packet cfg codec conn p) = request_counts conn := by
  obtain ⟨a1, a2, a3, a4⟩ := put_prep_ring conn p
  obtain ⟨_, b2, b3, _⟩ := put_prep_params conn p
  obtain ⟨c1, c2, _⟩ := put_prep_requests conn p
  have hcount : request_counts (put_count (put_ignore_early_flush conn) p)
      = request_counts conn := by
    unfold request_counts
    rw [b2, b3, c1, c2]
  have h2 := h
  unfold put_reaches_buffer at h2
  simp only [Bool.and_eq_false_iff, decide_eq_false_iff_not, Bool.not_eq_false',
    not_not] at h2
  unfold player_put_packet
  simp only
  split_ifs with h3 h4
  · exact ⟨a4, a1, a2, a3, hcount⟩
  · rcases h2 with h2 | h2
    · exact absurd h2 h3
    · exact absurd h2 h4
  · exact ⟨a4, a1, a2, a3, hcount⟩

/-- The expected packet, decoded, on an in-order window: the window grows by one slot and
no counter moves. -/
theorem put_window (cfg : config_t) (codec : codec_t) (c : rtsp_conn_info) (p : packet_t)
    (hw : window_ready c) (hseqno : p.seqno < 65536)
    (hord : c.ab_synced ≠ 0 → p.seqno = c.ab_write)
    (hdec : packet_decodes codec c p = true)
    (hocc : seq_diff (player_put_packet cfg codec c p).ab_read
      (player_put_packet cfg codec c p).ab_write (player_put_packet cfg codec c p).ab_read
        < (BUFFER_FRAMES : Int)) :
    window_ready (player_put_packet cfg codec c p) ∧
    request_counts (player_put_packet cfg codec c p) = request_counts c := by
  by_cases hreach : put_reaches_buffer c p = true
  · obtain ⟨s1, s2, s3, s4, s5⟩ := put_sync_prep c p p.seqno
    have hYs : (put_sync (put_count (put_ignore_early_flush c) p) p.seqno).ab_synced ≠ 0 :=
      put_sync_ab_synced _ _
    have hYw : (put_sync (put_count (put_ignore_early_flush c) p) p.seqno).ab_write = p.seqno := by
      rw [s2]
      by_cases hcs : c.ab_synced = 0
      · exact (put_sync_of_unsynced c p.seqno hcs).2.1
      · rw [put_sync_of_synced c p.seqno hcs]
        exact (hord hcs).symm
    obtain ⟨b1, b2, _, _, b5⟩ := put_buffer_synced codec
      (put_sync (put_count (put_ignore_early_flush c) p) p.seqno) p hYs
    rw [put_classify_expected _ _ hYw, ← put_buffer_sync] at b5
    rw [← put_buffer_sync] at b1 b2
    obtain ⟨b5w, b5b, b5l, b5t⟩ := b5
    rw [s4] at b5b
    obtain ⟨f1, f2, _, _⟩ := put_fill_of_decodes codec c
      (put_sync (put_count (put_ignore_early_flush c) p) p.seqno)
      (c.audio_buffer (BUFIDX p.seqno)) p s5 hdec
    have hpbl : put_before_lookback cfg codec c p
        = put_buffer codec (put_count (put_ignore_early_flush c) p) p := by
      unfold put_before_lookback
      rw [if_pos hreach]
    have hppp := player_put_packet_eq_lookback cfg codec c p
    rw [if_pos hreach, hpbl] at hppp
    have hpr : (player_put_packet cfg codec c p).ab_read
        = (put_buffer codec (put_count (put_ignore_early_flush c) p) p).ab_read := by
      rw [hppp, put_lookback_ab_read]
    have hpw : (player_put_packet cfg codec c p).ab_write
        = (put_buffer codec (put_count (put_ignore_early_flush c) p) p).ab_write := by
      rw [hppp, put_lookback_ab_write]
    rw [hpr, hpw, b1, b5w, s1] at hocc
    have hbs : (put_buffer codec (put_count (put_ignore_early_flush c) p) p).ab_synced ≠ 0 := by
      rw [b2]; exact hYs
    have hwin : window_ready (put_buffer codec (put_count (put_ignore_early_flush c) p) p) := by
      intro _
      rw [b1, b5w, b5b, s1]
      by_cases hcs : c.ab_synced = 0
      · rw [(put_sync_of_unsynced c p.seqno hcs).1]
        refine ⟨hseqno, 1, by omega, by unfold SUCCESSOR; omega, ?_, ?_⟩
        · intro m hm _
          have hm0 : m = 0 := by omega
          subst hm0
          have hidx : ((p.seqno + 0) % 65536) % 1024 = BUFIDX p.seqno := by
            rw [BUFIDX_eq]; omega
          rw [hidx, set_slot_same, f2]
          omega
        · intro m h1 h2
          omega
      · rw [put_sync_of_synced c p.seqno hcs] at hocc ⊢
        obtain ⟨hr, d, hd, hwr, hseq, hready⟩ := hw hcs
        have hsw : p.seqno = (c.ab_read + d) % 65536 := (hord hcs).trans hwr
        have hd1 : d + 1 < 1024 := by
          have := seq_diff_window c.ab_read (SUCCESSOR p.seqno) (d + 1) (by omega)
            (by rw [hsw]; unfold SUCCESSOR; omega)
          rw [this] at hocc
          unfold BUFFER_FRAMES at hocc
          omega
        refine ⟨hr, d + 1, hd1, by rw [hsw]; unfold SUCCESSOR; omega, ?_, ?_⟩
        · intro m hm
          by_cases hmd : m = d
          · subst hmd
            have hidx : ((c.ab_read + m) % 65536) % 1024 = BUFIDX p.seqno := by
              rw [BUFIDX_eq, hsw]
            rw [hidx, set_slot_same, f2]
            intro _
            exact hsw
          · have hidx : ((c.ab_read + m) % 65536) % 1024 ≠ BUFIDX p.seqno := by
              rw [BUFIDX_eq, hsw]; omega
            rw [set_slot_other _ _ _ _ hidx]
            exact hseq m (by omega)
        · intro m hm1 hm2
          by_cases hmd : m = d
          · subst hmd
            have hidx : ((c.ab_read + m) % 65536) % 1024 = BUFIDX p.seqno := by
              rw [BUFIDX_eq, hsw]
            rw [hidx, set_slot_same, f1]
            decide
          · have hidx : ((c.ab_read + m) % 65536) % 1024 ≠ BUFIDX p.seqno := by
              rw [BUFIDX_eq, hsw]; omega
            rw [set_slot_other _ _ _ _ hidx]
            exact hready m hm1 (by omega)
    have hid : player_put_packet cfg codec c p
        = put_buffer codec (put_count (put_ignore_early_flush c) p) p := by
      rw [hppp]
      exact put_lookback_window cfg _ _ (put_resend_interval_ge c) hbs hwin
    rw [hid]
    refine ⟨hwin, ?_⟩
    obtain ⟨q1, q2, _⟩ := put_before_lookback_requests cfg codec c p
    rw [hpbl] at q1 q2
    obtain ⟨_, p2, p3, _⟩ := put_prep_params c p
    have hl : (put_sync (put_count (put_ignore_early_flush c) p) p.seqno).late_packets
        = c.late_packets := by
      unfold put_sync; split_ifs <;> exact p2
    have ht : (put_sync (put_count (put_ignore_early_flush c) p) p.seqno).too_late_packets
        = c.too_late_packets := by
      unfold put_sync; split_ifs <;> exact p3
    unfold request_counts
    rw [q1, q2, b5l, b5t, hl, ht]
  · have hf : put_reaches_buffer c p = false := by
      cases hx : put_reaches_buffer c p
      · rfl
      · exact absurd hx hreach
    obtain ⟨d1, d2, d3, d4, d5⟩ := player_put_packet_dropped cfg codec c p hf
    exact ⟨window_ready_of_ring c _ d1 d2 d3 d4 hw, d5⟩

/-- Along an in-order run every state has an in-order window and the counters of the
start. -/
theorem run_states_window (cfg : config_t) (codec : codec_t) :
    ∀ (calls : List ring_call) (c : rtsp_conn_info), window_ready c →
      in_order_run cfg codec c calls →
      ∀ x, x ∈ run_states cfg codec c calls →
        window_ready x ∧ request_counts x = request_counts c := by
  intro calls
  induction calls with
  | nil =>
    intro c _ _ x hx
    cases hx
  | cons call rest ih =>
    intro c hw hrun x hx
    cases call with
    | put p =>
      obtain ⟨h1, h2, h3, _, h4, h5⟩ := hrun
      obtain ⟨w1, w2⟩ := put_window cfg codec c p hw h1 h2 h3 h4
      have hst : run_states cfg codec c (ring_call.put p :: rest)
          = player_put_packet cfg codec c p
            :: run_states cfg codec (player_put_packet cfg codec c p) rest := rfl
      rw [hst, List.mem_cons] at hx
      rcases hx with hx | hx
      · rw [hx]; exact ⟨w1, w2⟩
      · obtain ⟨r1, r2⟩ := ih _ w1 h5 x hx
        exact ⟨r1, r2.trans w2⟩
    | get envs =>
      have hst : run_states cfg codec c (ring_call.get envs :: rest)
          = match buffer_get_frame cfg envs c with
            | none => []
            | some r => r.1 :: run_states cfg codec r.1 rest := rfl
      have hrn : in_order_run cfg codec c (ring_call.get envs :: rest)
          = match buffer_get_frame cfg envs c with
            | none => True
            | some r => in_order_run cfg codec r.1 rest := rfl
      rw [hst] at hx
      rw [hrn] at hrun
      cases hb : buffer_get_frame cfg envs c with
      | none => rw [hb] at hx; cases hx
      | some r =>
        rw [hb] at hx hrun
        simp only [List.mem_cons] at hx
        have w1 := buffer_get_frame_window cfg envs c r hw hb
        have w2 := buffer_get_frame_counts cfg envs c r hb
        rcases hx with hx | hx
        · rw [hx]; exact ⟨w1, w2⟩
        · obtain ⟨r1, r2⟩ := ih _ w1 hrun x hx
          exact ⟨r1, r2.trans w2⟩

/-- C12, where the arithmetic of every call is defined: along every run of
`player_put_packet` and `buffer_get_frame` calls that starts from an in-order window (any
unsynced buffer is one) with the three counters at 0, and in which every packet put carries
the sequence number of the write cursor, decodes, is handled without a division by 0 at
line 487 and with look-back distances within `int`, and leaves fewer than `BUFFER_FRAMES`
packets between the cursors, every state reached has `resend_requests`, `late_packets` and
`too_late_packets` equal to 0 and no resend request recorded, and every slot strictly
between the read and the write cursor is ready. -/
theorem C12_in_order_no_resend (cfg : config_t) (codec : codec_t) (conn : rtsp_conn_info)
    (calls : List ring_call)
    (h_window : window_ready conn)
    (h_counts : conn.resend_requests = 0 ∧ conn.late_packets = 0 ∧ conn.too_late_packets = 0)
    (h_run : in_order_run cfg codec conn calls) :
    ∀ c, c ∈ run_states cfg codec conn calls →
      c.resend_requests = 0 ∧ c.late_packets = 0 ∧ c.too_late_packets = 0 ∧
      c.resend_calls = conn.resend_calls ∧
      (c.ab_synced ≠ 0 →
        seq_diff c.ab_read c.ab_write c.ab_read < (BUFFER_FRAMES : Int) ∧
        ∀ m : Nat, 0 < m → (m : Int) < seq_diff c.ab_read c.ab_write c.ab_read →
          (c.audio_buffer (BUFIDX (seq_sum c.ab_read m))).ready ≠ 0) := by
  intro c hc
  obtain ⟨w1, w2⟩ := run_states_window cfg codec calls conn h_window h_run c hc
  unfold request_counts at w2
  simp only [Prod.mk.injEq] at w2
  obtain ⟨e1, e2, e3, e4⟩ := w2
  refine ⟨e1.trans h_counts.1, e2.trans h_counts.2.1, e3.trans h_counts.2.2, e4, ?_⟩
  intro hs
  obtain ⟨_, d, hd, hwr, _, hready⟩ := w1 hs
  have hocc := seq_diff_window c.ab_read c.ab_write d (by omega) hwr
  rw [hocc]
  refine ⟨by unfold BUFFER_FRAMES; omega, ?_⟩
  intro m hm1 hm2
  have hidx : BUFIDX (seq_sum c.ab_read m) = ((c.ab_read + m) % 65536) % 1024 := by
    rw [BUFIDX_eq]; unfold seq_sum; omega
  rw [hidx]
  exact hready m hm1 (by omega)

set_option maxRecDepth 100000 in
theorem in_order_run_example : in_order_run cfg0 codec0 conn0
      [.put (pkt 0 1000), .put (pkt 1 1352), .get [env0 1000 1000], .put (pkt 2 1704)] := by
  refine ⟨by decide, by decide, by decide, by decide, by decide, by decide, by decide,
    by decide, by decide, by decide, ?_⟩
  have hget : buffer_get_frame cfg0 [env0 1000 1000]
      (player_put_packet cfg0 codec0 (player_put_packet cfg0 codec0 conn0 (pkt 0 1000))
        (pkt 1 1352)) = some (get_release (buffer_get_frame_iter cfg0 (env0 1000 1000)
          (player_put_packet cfg0 codec0 (player_put_packet cfg0 codec0 conn0 (pkt 0 1000))
        (pkt 1 1352)) ⟨none, 0⟩).conn (some 0)) := by rfl
  show (match buffer_get_frame cfg0 [env0 1000 1000]
      (player_put_packet cfg0 codec0 (player_put_packet cfg0 codec0 conn0 (pkt 0 1000))
        (pkt 1 1352)) with
    | none => True
    | some r => in_order_run cfg0 codec0 r.1 [.put (pkt 2 1704)])
  rw [hget]
  exact ⟨by decide, by decide, by decide, by decide, by decide, trivial⟩

set_option maxRecDepth 100000 in
/-- C12 on a fresh connection: packets 0 and 1, one frame released, then packet 2; after
the second packet nothing has been requested and nothing counted late. -/
theorem C12_witness :
    window_ready conn0 ∧
    in_order_run cfg0 codec0 conn0
      [.put (pkt 0 1000), .put (pkt 1 1352), .get [env0 1000 1000], .put (pkt 2 1704)] ∧
    (player_put_packet cfg0 codec0 (player_put_packet cfg0 codec0 conn0 (pkt 0 1000))
      (pkt 1 1352)).resend_requests = 0 ∧
    (player_put_packet cfg0 codec0 (player_put_packet cfg0 codec0 conn0 (pkt 0 1000))
      (pkt 1 1352)).late_packets = 0 :=
  ⟨window_ready_unsynced conn0 rfl, in_order_run_example,
   (C12_in_order_no_resend cfg0 codec0 conn0
      [.put (pkt 0 1000), .put (pkt 1 1352), .get [env0 1000 1000], .put (pkt 2 1704)]
      (window_ready_unsynced conn0 rfl) ⟨rfl, rfl, rfl⟩ in_order_run_example
      (player_put_packet cfg0 codec0 (player_put_packet cfg0 codec0 conn0 (pkt 0 1000))
        (pkt 1 1352))
      (List.mem_cons_of_mem _ (List.mem_cons_self _ _))).1,
   (C12_in_order_no_resend cfg0 codec0 conn0
      [.put (pkt 0 1000), .put (pkt 1 1352), .get [env0 1000 1000], .put (pkt 2 1704)]
      (window_ready_unsynced conn0 rfl) ⟨rfl, rfl, rfl⟩ in_order_run_example
      (player_put_packet cfg0 codec0 (player_put_packet cfg0 codec0 conn0 (pkt 0 1000))
        (pkt 1 1352))
      (List.mem_cons_of_mem _ (List.mem_cons_self _ _))).2.1⟩

set_option maxRecDepth 100000 in
/-- C12, the failing input: on a playing connection with a latency of 4,294,967,295
frames and one frame per packet the packet at the write cursor decodes and leaves one
packet between the cursors, as the claim requires; the base interval is 536,870,911, so
passes 1 and 2 stay within `int` but pass 3 converts `536870911 * 9 = 4831838199` to
`int` at line 586, beyond `INT_MAX`: the call has no defined result, and nothing keeps
`resend_requests` at 0. -/
theorem C12_counterexample :
    window_ready conn_huge_latency ∧
    (conn_huge_latency.resend_requests = 0 ∧ conn_huge_latency.late_packets = 0 ∧
      conn_huge_latency.too_late_packets = 0) ∧
    ((pkt 5 1000).seqno < 65536 ∧ (pkt 5 1000).seqno = conn_huge_latency.ab_write ∧
      packet_decodes codec0 conn_huge_latency (pkt 5 1000) = true ∧
      seq_diff (player_put_packet cfg0 codec0 conn_huge_latency (pkt 5 1000)).ab_read
        (player_put_packet cfg0 codec0 conn_huge_latency (pkt 5 1000)).ab_write
        (player_put_packet cfg0 codec0 conn_huge_latency (pkt 5 1000)).ab_read
        < (BUFFER_FRAMES : Int)) ∧
    put_resend_interval conn_huge_latency = 536870911 ∧
    back_step_defined (put_resend_interval conn_huge_latency) 1 = true ∧
    back_step_defined (put_resend_interval conn_huge_latency) 2 = true ∧
    put_resend_interval conn_huge_latency * (3 * 3) > INT_MAX ∧
    back_step_defined (put_resend_interval conn_huge_latency) 3 = false ∧
    put_arithmetic_defined cfg0 codec0 conn_huge_latency (pkt 5 1000) = false ∧
    (player_put_packet_checked cfg0 codec0 conn_huge_latency (pkt 5 1000)).isNone = true ∧
    ¬ in_order_run cfg0 codec0 conn_huge_latency [.put (pkt 5 1000)] := by
  have hd : put_arithmetic_defined cfg0 codec0 conn_huge_latency (pkt 5 1000) = false := by
    decide
  refine ⟨?_, ⟨rfl, rfl, rfl⟩, ⟨by decide, rfl, by decide, by decide⟩, by decide, by decide,
    by decide, by decide, by decide, hd, ?_, ?_⟩
  · intro _
    refine ⟨by decide, 0, by decide, by decide, ?_, ?_⟩
    · intro m hm
      exact absurd hm (Nat.not_lt_zero m)
    · intro m _ hm
      exact absurd hm (Nat.not_lt_zero m)
  · unfold player_put_packet_checked
    rw [hd]
    rfl
  · intro h
    have h4 := h.2.2.2.1
    rw [hd] at h4
    cases h4

theorem to_int32_of_range (x : Int) (h1 : -2147483648 ≤ x) (h2 : x < 2147483648) :
    to_int32 x = x := by
  unfold to_int32
  omega

theorem tdiv_two_range (x : Int) (h1 : -4294967296 ≤ x) (h2 : x < 4294967296) :
    -2147483648 ≤ Int.tdiv x 2 ∧ Int.tdiv x 2 < 2147483648 := by
  by_cases h : 0 ≤ x
  · rw [Int.tdiv_eq_ediv h (by decide)]
    omega
  · have hx : x = -(-x) := by omega
    rw [hx, Int.neg_tdiv, Int.tdiv_eq_ediv (by omega) (by decide)]
    omega

/-- For `int32_t` arguments `mean_32` is the mean truncated towards zero. -/
theorem mean_32_eq (a b : Int) (ha1 : -2147483648 ≤ a) (ha2 : a < 2147483648)
    (hb1 : -2147483648 ≤ b) (hb2 : b < 2147483648) : mean_32 a b = Int.tdiv (a + b) 2 := by
  unfold mean_32
  simp only
  obtain ⟨h1, h2⟩ := tdiv_two_range (a + b) (by omega) (by omega)
  exact to_int32_of_range _ h1 h2

theorem drop_two (l : List Int) (pos : Nat) (h : pos + 2 ≤ l.length) :
    l.drop pos = l.getD pos 0 :: l.getD (pos + 1) 0 :: l.drop (pos + 2) := by
  rw [List.drop_eq_getElem_cons (by omega : pos < l.length),
    List.drop_eq_getElem_cons (by omega : pos + 1 < l.length),
    List.getD_eq_getElem l 0 (by omega : pos < l.length),
    List.getD_eq_getElem l 0 (by omega : pos + 1 < l.length)]

/-- The copying loop hands the next `2 * n` samples of the input to `process_sample`, in
order. -/
theorem process_frames_eq {σ : Type} (ps : σ → Int → σ) (inptr : List Int) :
    ∀ (n : Nat) (st : σ × Nat), st.2 + 2 * n ≤ inptr.length →
      process_frames ps inptr n st
        = (((inptr.drop st.2).take (2 * n)).foldl ps st.1, st.2 + 2 * n) := by
  intro n
  induction n with
  | zero => intro st _; rfl
  | succ n ih =>
    intro st h
    have hstep : process_frames ps inptr (n + 1) st
        = process_frames ps inptr n
            (ps (ps st.1 (inptr.getD st.2 0)) (inptr.getD (st.2 + 1) 0), st.2 + 2) := rfl
    rw [hstep, ih _ (by simp only; omega), drop_two inptr st.2 (by omega)]
    have h2 : 2 * (n + 1) = (2 * n + 1) + 1 := by omega
    rw [h2, List.take_succ_cons, List.take_succ_cons, List.foldl_cons, List.foldl_cons]
    simp only
    congr 1
    omega

theorem stuffsamp_eq (rand : Nat) (length : Int) (h : 100 ≤ length) :
    Int.tmod (rand : Int) (length - 2) + 1 = ((rand % (length.toNat - 2) + 1 : Nat) : Int) ∧
    1 ≤ rand % (length.toNat - 2) + 1 ∧ rand % (length.toNat - 2) + 1 ≤ length.toNat - 2 := by
  have hL : length = (length.toNat : Int) := by omega
  have h2 : length - 2 = ((length.toNat - 2 : Nat) : Int) := by omega
  have hpos : 0 < length.toNat - 2 := by omega
  have hlt := Nat.mod_lt rand hpos
  refine ⟨?_, by omega, by omega⟩
  rw [h2, ← Int.ofNat_tmod]
  push_cast
  rfl

/-- With no frame to insert or remove, every input sample is handed to `process_sample`
once, in order. -/
theorem stuff_buffer_basic_32_none {σ : Type} (ps : σ → Int → σ) (inptr : List Int)
    (length stuff : Int) (rand : Nat) (out : σ) (h_len : inptr.length = 2 * length.toNat)
    (h : stuff > 1 ∨ stuff < -1 ∨ length < 100 ∨ stuff = 0) :
    stuff_buffer_basic_32 ps inptr length stuff rand out = ⟨inptr.foldl ps out, 0, length⟩ := by
  have ht : (if stuff > 1 ∨ stuff < -1 ∨ length < 100 then (0 : Int) else stuff) = 0 := by
    split_ifs with h1
    · rfl
    · rcases h with h | h | h | h
      · exact absurd (Or.inl h) h1
      · exact absurd (Or.inr (Or.inl h)) h1
      · exact absurd (Or.inr (Or.inr h)) h1
      · exact h
  unfold stuff_buffer_basic_32
  simp only [ht, ne_eq, not_true_eq_false, if_false, add_zero]
  rw [process_frames_eq ps inptr _ _ (by simp only; omega)]
  simp only [List.drop_zero]
  rw [List.take_of_length_le (by omega)]

/-- Inserting a frame: the frames before position `p`, the interpolated frame, then the
frames from `p` on. -/
theorem stuff_buffer_basic_32_insert {σ : Type} (ps : σ → Int → σ) (inptr : List Int)
    (length : Int) (rand : Nat) (out : σ) (h_len : inptr.length = 2 * length.toNat)
    (h100 : 100 ≤ length) :
    stuff_buffer_basic_32 ps inptr length 1 rand out =
      ⟨(inptr.take (2 * (rand % (length.toNat - 2) + 1))
          ++ [mean_32 (inptr.getD (2 * (rand % (length.toNat - 2) + 1) - 2) 0)
                (inptr.getD (2 * (rand % (length.toNat - 2) + 1)) 0),
              mean_32 (inptr.getD (2 * (rand % (length.toNat - 2) + 1) - 1) 0)
                (inptr.getD (2 * (rand % (length.toNat - 2) + 1) + 1) 0)]
          ++ inptr.drop (2 * (rand % (length.toNat - 2) + 1))).foldl ps out,
        1, length + 1⟩ := by
  obtain ⟨hp, hp1, hp2⟩ := stuffsamp_eq rand length h100
  have ht : (if (1 : Int) > 1 ∨ (1 : Int) < -1 ∨ length < 100 then (0 : Int) else 1) = 1 := by
    rw [if_neg (by omega)]
  unfold stuff_buffer_basic_32
  simp only [ht, ne_eq, one_ne_zero, not_false_eq_true, if_true, hp, Int.toNat_ofNat]
  have hlt : ¬ ((1 : Int) < 0) := by decide
  simp only [hlt, if_false]
  have hcount : (length - ((rand % (length.toNat - 2) + 1 : Nat) : Int)).toNat
      = length.toNat - (rand % (length.toNat - 2) + 1) := by omega
  rw [hcount, process_frames_eq ps inptr _ (out, 0) (by simp only; omega)]
  simp only [List.drop_zero, Nat.zero_add]
  rw [process_frames_eq ps inptr _ _ (by simp only; omega)]
  simp only
  have htake : List.take (2 * (length.toNat - (rand % (length.toNat - 2) + 1)))
      (List.drop (2 * (rand % (length.toNat - 2) + 1)) inptr)
      = List.drop (2 * (rand % (length.toNat - 2) + 1)) inptr :=
    List.take_of_length_le (by rw [List.length_drop]; omega)
  rw [htake, List.foldl_append, List.foldl_append]
  rfl

/-- Removing a frame: the frames before position `p`, then the frames after `p`. -/
theorem stuff_buffer_basic_32_remove {σ : Type} (ps : σ → Int → σ) (inptr : List Int)
    (length : Int) (rand : Nat) (out : σ) (h_len : inptr.length = 2 * length.toNat)
    (h100 : 100 ≤ length) :
    stuff_buffer_basic_32 ps inptr length (-1) rand out =
      ⟨(inptr.take (2 * (rand % (length.toNat - 2) + 1))
          ++ inptr.drop (2 * (rand % (length.toNat - 2) + 1) + 2)).foldl ps out,
        -1, length + -1⟩ := by
  obtain ⟨hp, hp1, hp2⟩ := stuffsamp_eq rand length h100
  have ht : (if (-1 : Int) > 1 ∨ (-1 : Int) < -1 ∨ length < 100 then (0 : Int) else -1)
      = -1 := by
    rw [if_neg (by omega)]
  unfold stuff_buffer_basic_32
  have hne : ¬ ((-1 : Int) = 0) := by decide
  have hne1 : ¬ ((-1 : Int) = 1) := by decide
  have hlt : (-1 : Int) < 0 := by decide
  simp only [ht, ne_eq, hne, hne1, hlt, not_false_eq_true, if_true, if_false, hp,
    Int.toNat_ofNat]
  have hcount : (length + -1 - ((rand % (length.toNat - 2) + 1 : Nat) : Int)).toNat
      = length.toNat - 1 - (rand % (length.toNat - 2) + 1) := by omega
  rw [hcount, process_frames_eq ps inptr _ (out, 0) (by simp only; omega)]
  simp only [List.drop_zero, Nat.zero_add]
  rw [process_frames_eq ps inptr _ _ (by simp only; omega)]
  simp only
  have htake : List.take (2 * (length.toNat - 1 - (rand % (length.toNat - 2) + 1)))
      (List.drop (2 * (rand % (length.toNat - 2) + 1) + 2) inptr)
      = List.drop (2 * (rand % (length.toNat - 2) + 1) + 2) inptr :=
    List.take_of_length_le (by rw [List.length_drop]; omega)
  rw [htake, List.foldl_append]

theorem foldl_snoc (l : List Int) : ∀ acc : List Int,
    l.foldl (fun (acc : List Int) s => acc ++ [s]) acc = acc ++ l := by
  induction l with
  | nil => intro acc; simp
  | cons x rest ih =>
    intro acc
    rw [List.foldl_cons, ih]
    simp

theorem getD_range (inptr : List Int)
    (h_range : ∀ s, s ∈ inptr → -2147483648 ≤ s ∧ s < 2147483648) (i : Nat)
    (hi : i < inptr.length) :
    -2147483648 ≤ inptr.getD i 0 ∧ inptr.getD i 0 < 2147483648 := by
  rw [List.getD_eq_getElem inptr 0 hi]
  exact h_range _ (List.getElem_mem hi)

/-- C14: for an input of `length` stereo frames whose samples are `int32_t` values, the
output of `stuff_buffer_basic_32` is `process_sample` applied in order to the samples
listed by `stuffed_samples`; for `length >= 100` and `stuff` in `{-1, 0, 1}` there are
`length + stuff` frames of them, the return value is `length + stuff` and `amountStuffed`
is `stuff`; with `stuff = 0` they are the input; with `stuff = 1` they are the input with
one frame inserted at a position `p`, `1 <= p <= length - 2`, each channel the truncated
mean of that channel in frames `p - 1` and `p`; with `stuff = -1` they are the input
without frame `p`; for any other `stuff` or `length < 100` they are the input. -/
theorem C14_stuffing_one_frame {σ : Type} (ps : σ → Int → σ) (inptr : List Int)
    (length stuff : Int) (rand : Nat) (out : σ)
    (h_len : inptr.length = 2 * length.toNat)
    (h_range : ∀ s, s ∈ inptr → -2147483648 ≤ s ∧ s < 2147483648) :
    (stuff_buffer_basic_32 ps inptr length stuff rand out).out
      = (stuffed_samples inptr length stuff rand).foldl ps out ∧
    ((stuff > 1 ∨ stuff < -1 ∨ length < 100 ∨ stuff = 0) →
      stuffed_samples inptr length stuff rand = inptr ∧
      (stuff_buffer_basic_32 ps inptr length stuff rand out).amountStuffed = 0 ∧
      (stuff_buffer_basic_32 ps inptr length stuff rand out).reply = length) ∧
    (100 ≤ length → -1 ≤ stuff → stuff ≤ 1 →
      (stuff_buffer_basic_32 ps inptr length stuff rand out).reply = length + stuff ∧
      (stuff_buffer_basic_32 ps inptr length stuff rand out).amountStuffed = stuff ∧
      (stuffed_samples inptr length stuff rand).length = 2 * (length + stuff).toNat ∧
      1 ≤ rand % (length.toNat - 2) + 1 ∧ rand % (length.toNat - 2) + 1 ≤ length.toNat - 2 ∧
      (stuff = 1 →
        stuffed_samples inptr length stuff rand =
          inptr.take (2 * (rand % (length.toNat - 2) + 1))
          ++ [Int.tdiv (inptr.getD (2 * (rand % (length.toNat - 2) + 1) - 2) 0
                + inptr.getD (2 * (rand % (length.toNat - 2) + 1)) 0) 2,
              Int.tdiv (inptr.getD (2 * (rand % (length.toNat - 2) + 1) - 1) 0
                + inptr.getD (2 * (rand % (length.toNat - 2) + 1) + 1) 0) 2]
          ++ inptr.drop (2 * (rand % (length.toNat - 2) + 1))) ∧
      (stuff = -1 →
        stuffed_samples inptr length stuff rand =
          inptr.take (2 * (rand % (length.toNat - 2) + 1))
          ++ inptr.drop (2 * (rand % (length.toNat - 2) + 1) + 2))) := by
  have hnone : (stuff > 1 ∨ stuff < -1 ∨ length < 100 ∨ stuff = 0) →
      ∀ (τ : Type) (f : τ → Int → τ) (o : τ),
        stuff_buffer_basic_32 f inptr length stuff rand o = ⟨inptr.foldl f o, 0, length⟩ :=
    fun h τ f o => stuff_buffer_basic_32_none f inptr length stuff rand o h_len h
  refine ⟨?_, ?_, ?_⟩
  · by_cases h0 : stuff > 1 ∨ stuff < -1 ∨ length < 100 ∨ stuff = 0
    · unfold stuffed_samples
      rw [hnone h0, hnone h0]
      simp only [foldl_snoc, List.nil_append]
    · have h100 : 100 ≤ length := by omega
      have hs : stuff = 1 ∨ stuff = -1 := by omega
      unfold stuffed_samples
      rcases hs with hs | hs
      · subst hs
        rw [stuff_buffer_basic_32_insert _ inptr length rand _ h_len h100,
          stuff_buffer_basic_32_insert _ inptr length rand _ h_len h100]
        simp only [foldl_snoc, List.nil_append]
      · subst hs
        rw [stuff_buffer_basic_32_remove _ inptr length rand _ h_len h100,
          stuff_buffer_basic_32_remove _ inptr length rand _ h_len h100]
        simp only [foldl_snoc, List.nil_append]
  · intro h0
    unfold stuffed_samples
    rw [hnone h0, hnone h0]
    simp only [foldl_snoc, List.nil_append, and_self]
  · intro h100 hs1 hs2
    obtain ⟨_, hp1, hp2⟩ := stuffsamp_eq rand length h100
    have hcases : stuff = 0 ∨ stuff = 1 ∨ stuff = -1 := by omega
    unfold stuffed_samples
    rcases hcases with hs | hs | hs
    · subst hs
      rw [hnone (Or.inr (Or.inr (Or.inr rfl))), hnone (Or.inr (Or.inr (Or.inr rfl)))]
      simp only [foldl_snoc, List.nil_append, add_zero]
      refine ⟨trivial, trivial, h_len, hp1, hp2, ?_, ?_⟩
      · intro h; exact absurd h (by decide)
      · intro h; exact absurd h (by decide)
    · subst hs
      rw [stuff_buffer_basic_32_insert _ inptr length rand _ h_len h100,
        stuff_buffer_basic_32_insert _ inptr length rand _ h_len h100]
      simp only [foldl_snoc, List.nil_append]
      obtain ⟨a1, a2⟩ := getD_range inptr h_range (2 * (rand % (length.toNat - 2) + 1) - 2)
        (by omega)
      obtain ⟨b1, b2⟩ := getD_range inptr h_range (2 * (rand % (length.toNat - 2) + 1))
        (by omega)
      obtain ⟨c1, c2⟩ := getD_range inptr h_range (2 * (rand % (length.toNat - 2) + 1) - 1)
        (by omega)
      obtain ⟨d1, d2⟩ := getD_range inptr h_range (2 * (rand % (length.toNat - 2) + 1) + 1)
        (by omega)
      rw [mean_32_eq _ _ a1 a2 b1 b2, mean_32_eq _ _ c1 c2 d1 d2]
      refine ⟨trivial, trivial, ?_, hp1, hp2, fun _ => rfl, ?_⟩
      · simp only [List.length_append, List.length_take, List.length_drop, List.length_cons,
          List.length_nil]
        omega
      · intro h; exact absurd h (by decide)
    · subst hs
      rw [stuff_buffer_basic_32_remove _ inptr length rand _ h_len h100,
        stuff_buffer_basic_32_remove _ inptr length rand _ h_len h100]
      simp only [foldl_snoc, List.nil_append]
      refine ⟨trivial, trivial, ?_, hp1, hp2, ?_, fun _ => trivial⟩
      · simp only [List.length_append, List.length_take, List.length_drop]
        omega
      · intro h; exact absurd h (by decide)

set_option maxRecDepth 1000000 in
/-- C14 on 100 frames holding the samples 0 .. 199, with `stuff = 1` and `rand()`
returning 5: 101 frames come out, the new one at position 6. -/
theorem C14_witness :
    frames_100.length = 2 * (100 : Int).toNat ∧
    (∀ s, s ∈ frames_100 → -2147483648 ≤ s ∧ s < 2147483648) ∧
    (stuff_buffer_basic_32 (fun (acc : List Int) s => acc ++ [s]) frames_100 100 1 5 []).reply
      = 100 + 1 ∧
    (stuffed_samples frames_100 100 1 5).take 16
      = [0, 1, 2, 3, 4, 5, 6, 7, 8, 9, 10, 11, 11, 12, 12, 13] :=
  ⟨by decide, by decide,
   ((C14_stuffing_one_frame (fun (acc : List Int) s => acc ++ [s]) frames_100 100 1 5 []
      (by decide) (by decide)).2.2 (by decide) (by decide) (by decide)).1,
   by decide⟩

theorem maximum_latency_eq (conn : rtsp_conn_info) (offset_frames : Int)
    (h1 : -2147483648 ≤ (conn.latency : Int) + offset_frames)
    (h2 : (conn.latency : Int) + offset_frames < 2147483648) :
    maximum_latency conn offset_frames = (conn.latency : Int) + offset_frames := by
  unfold maximum_latency to_int32
  omega

theorem latency_check_fails_iff (conn : rtsp_conn_info) (offset_frames : Int)
    (h1 : -2147483648 ≤ (conn.latency : Int) + offset_frames)
    (h2 : (conn.latency : Int) + offset_frames + 351 < 2147483648) :
    (latency_check_fails conn offset_frames
      = some (decide (Int.tdiv ((conn.latency : Int) + offset_frames + 351) 352 + 10
          > (BUFFER_FRAMES : Int)))) ∧
    (Int.tdiv ((conn.latency : Int) + offset_frames + 351) 352 + 10 > (BUFFER_FRAMES : Int) ↔
      (conn.latency : Int) + offset_frames > 356928) := by
  have hm := maximum_latency_eq conn offset_frames h1 (by omega)
  constructor
  · unfold latency_check_fails INT_MAX
    rw [hm, if_neg (by omega)]
    rfl
  · unfold BUFFER_FRAMES
    by_cases hx : 0 ≤ (conn.latency : Int) + offset_frames + 351
    · rw [Int.tdiv_eq_ediv hx (by decide)]
      omega
    · have hneg : (conn.latency : Int) + offset_frames + 351
          = -(-((conn.latency : Int) + offset_frames + 351)) := by omega
      rw [hneg, Int.neg_tdiv, Int.tdiv_eq_ediv (by omega) (by decide)]
      omega

/-- C19, where the `int` arithmetic of the check does what the claim's formula says: with
`L = latency + offset` (the latency defaulting to 88,200 when it is 0, the offset being
`trunc(audio_backend_latency_offset * output_rate)`) such that `L` and `L + 351` are `int`
values, the test has a defined result, `player_thread_func` dies if and only if
`(L + 351) div 352 + 10 > BUFFER_FRAMES`, which is exactly when `L > 356,928`, and for
every smaller `L`, negative ones included, the session proceeds. -/
theorem C19_latency_check (conn : rtsp_conn_info) (offset_frames : Int)
    (h_low : -2147483648 ≤ ((default_latency conn).latency : Int) + offset_frames)
    (h_high : ((default_latency conn).latency : Int) + offset_frames + 351 < 2147483648) :
    (default_latency conn).latency = (if conn.latency = 0 then 88200 else conn.latency) ∧
    maximum_latency (default_latency conn) offset_frames
      = ((default_latency conn).latency : Int) + offset_frames ∧
    player_thread_latency_check conn offset_frames ≠ .undefined ∧
    (player_thread_latency_check conn offset_frames = .dies ↔
      Int.tdiv (((default_latency conn).latency : Int) + offset_frames + 351) 352 + 10
        > (BUFFER_FRAMES : Int)) ∧
    (player_thread_latency_check conn offset_frames = .dies ↔
      ((default_latency conn).latency : Int) + offset_frames > 356928) ∧
    (((default_latency conn).latency : Int) + offset_frames ≤ 356928 →
      player_thread_latency_check conn offset_frames = .proceeds (default_latency conn)) := by
  obtain ⟨f1, f2⟩ := latency_check_fails_iff (default_latency conn) offset_frames h_low h_high
  have hcases : (player_thread_latency_check conn offset_frames = .dies ∧
        Int.tdiv (((default_latency conn).latency : Int) + offset_frames + 351) 352 + 10
          > (BUFFER_FRAMES : Int)) ∨
      (player_thread_latency_check conn offset_frames = .proceeds (default_latency conn) ∧
        ¬ Int.tdiv (((default_latency conn).latency : Int) + offset_frames + 351) 352 + 10
          > (BUFFER_FRAMES : Int)) := by
    unfold player_thread_latency_check
    rw [f1]
    by_cases h : Int.tdiv (((default_latency conn).latency : Int) + offset_frames + 351) 352
        + 10 > (BUFFER_FRAMES : Int)
    · left
      rw [decide_eq_true h]
      exact ⟨rfl, h⟩
    · right
      rw [decide_eq_false h]
      exact ⟨rfl, h⟩
  have hdies : player_thread_latency_check conn offset_frames = .dies ↔
      Int.tdiv (((default_latency conn).latency : Int) + offset_frames + 351) 352 + 10
        > (BUFFER_FRAMES : Int) := by
    rcases hcases with ⟨e, h⟩ | ⟨e, h⟩
    · exact ⟨fun _ => h, fun _ => e⟩
    · rw [e]
      exact ⟨fun hc => (by cases hc), fun hc => absurd hc h⟩
  refine ⟨?_, maximum_latency_eq _ _ h_low (by omega), ?_, hdies, hdies.trans f2, ?_⟩
  · unfold default_latency
    split_ifs <;> rfl
  · rcases hcases with ⟨e, _⟩ | ⟨e, _⟩ <;> rw [e] <;> exact fun hc => (by cases hc)
  · intro hle
    rcases hcases with ⟨_, h⟩ | ⟨e, _⟩
    · have := f2.mp h
      omega
    · exact e

/-- C19 at the default latency: no latency given and no offset, so `L = 88,200` and the
session proceeds; a latency of 356,929 frames is refused. -/
theorem C19_witness :
    (-2147483648 ≤ ((default_latency { conn0 with latency := 0 }).latency : Int) + 0 ∧
      ((default_latency { conn0 with latency := 0 }).latency : Int) + 0 + 351 < 2147483648) ∧
    (default_latency { conn0 with latency := 0 }).latency = 88200 ∧
    player_thread_latency_check { conn0 with latency := 0 } 0
      = .proceeds (default_latency { conn0 with latency := 0 }) ∧
    player_thread_latency_check { conn0 with latency := 356929 } 0 = .dies :=
  ⟨⟨by decide, by decide⟩,
   (C19_latency_check { conn0 with latency := 0 } 0 (by decide) (by decide)).1,
   (C19_latency_check { conn0 with latency := 0 } 0 (by decide) (by decide)).2.2.2.2.2
      (by decide),
   rfl⟩

/-- C19, the failing inputs: a latency of 4,294,967,295 frames, or of 2,147,483,648, with
no offset is far above 356,928, yet as an `int` the sum `maximum_latency` is negative
(-1, or -2,147,483,648), the test of line 1707 is false and the session proceeds; and for
a latency of 2,147,483,647 the sum `maximum_latency + 351` overflows the `int`, so the
test has no defined result. -/
theorem C19_counterexample :
    ((4294967295 : Int) + 0 > 356928 ∧
      maximum_latency (default_latency { conn0 with latency := 4294967295 }) 0 = -1 ∧
      player_thread_latency_check { conn0 with latency := 4294967295 } 0
        = .proceeds (default_latency { conn0 with latency := 4294967295 })) ∧
    ((2147483648 : Int) + 0 > 356928 ∧
      maximum_latency (default_latency { conn0 with latency := 2147483648 }) 0
        = -2147483648 ∧
      player_thread_latency_check { conn0 with latency := 2147483648 } 0
        = .proceeds (default_latency { conn0 with latency := 2147483648 })) ∧
    (maximum_latency (default_latency { conn0 with latency := 2147483647 }) 0 = 2147483647 ∧
      player_thread_latency_check { conn0 with latency := 2147483647 } 0 = .undefined) :=
  ⟨⟨by decide, by decide, rfl⟩, ⟨by decide, by decide, rfl⟩, by decide, rfl⟩

/-- What a call of `activity_monitor_signify_activity` does: the player state, the
monitor state, and the hook it calls, if any. -/
theorem signify_activity_effect (cfg : am_config) (m : monitor_t) (active : Int) :
    (activity_monitor_signify_activity cfg m active).player_state
      = (if active = 0 then ps_state.ps_inactive else ps_state.ps_active) ∧
    (activity_monitor_signify_activity cfg m active).state = m.state ∧
    (activity_monitor_signify_activity cfg m active).hooks =
      m.hooks ++
        (if m.state = .am_inactive ∧ active ≠ 0 then [hook_call.going_active cfg.cmd_blocking]
         else if m.state = .am_active ∧ active = 0 ∧ cfg.active_state_timeout_is_zero = true
           then [hook_call.going_inactive cfg.cmd_blocking]
         else []) := by
  unfold activity_monitor_signify_activity
  simp only
  by_cases ha : active = 0 <;> cases hs : m.state <;>
    cases ht : cfg.active_state_timeout_is_zero <;> simp [ha]

theorem wait_wake_timing_out (cfg : am_config) (w : wake_t) :
    ∀ m : monitor_t, m.state = .am_timing_out →
      (wait_wake cfg m w).state = .am_timing_out ∧ (wait_wake cfg m w).hooks = m.hooks := by
  unfold wait_wake
  induction w.signals with
  | nil => intro m h; exact ⟨h, rfl⟩
  | cons a rest ih =>
    intro m h
    obtain ⟨_, e2, e3⟩ := signify_activity_effect cfg m a
    rw [h] at e3
    have e3b : (activity_monitor_signify_activity cfg m a).hooks = m.hooks := by
      rw [e3]
      simp
    rw [List.foldl_cons]
    obtain ⟨i1, i2⟩ := ih _ (e2.trans h)
    exact ⟨i1, i2.trans e3b⟩

/-- The timed loop of `am_timing_out`: it ends with the player active or with a time-out,
no hook is called while it runs, and a time-out it ends with is the return value of the
last wait. -/
theorem wait_timing_out_spec (cfg : am_config) :
    ∀ (ws : List wake_t) (m : monitor_t) (rc : Int) (q : monitor_t × Int × List wake_t),
      m.state = .am_timing_out → wait_timing_out cfg m rc ws = some q →
      q.1.state = .am_timing_out ∧ q.1.hooks = m.hooks ∧
      (q.1.player_state = .ps_active ∨ q.2.1 = ETIMEDOUT) ∧
      (rc ≠ ETIMEDOUT → q.1.player_state ≠ .ps_active →
        ∃ pre w, ws = pre ++ w :: q.2.2 ∧ w.rc = ETIMEDOUT) := by
  intro ws
  induction ws with
  | nil =>
    intro m rc q hm h
    unfold wait_timing_out at h
    split_ifs at h with hc
    simp only [Option.some.injEq] at h
    rw [← h]
    refine ⟨hm, rfl, ?_, ?_⟩
    · by_cases hp : m.player_state = .ps_active
      · exact Or.inl hp
      · right
        by_contra hrc
        exact hc ⟨hp, hrc⟩
    · intro hrc hp
      exact absurd ⟨hp, hrc⟩ hc
  | cons w rest ih =>
    intro m rc q hm h
    unfold wait_timing_out at h
    split_ifs at h with hc
    · obtain ⟨s1, s2⟩ := wait_wake_timing_out cfg w m hm
      obtain ⟨i1, i2, i3, i4⟩ := ih _ _ q s1 h
      refine ⟨i1, i2.trans s2, i3, ?_⟩
      intro _ hp
      by_cases hw : w.rc = ETIMEDOUT
      · have hq : q = (wait_wake cfg m w, w.rc, rest) := by
          cases rest with
          | nil =>
            unfold wait_timing_out at h
            rw [if_neg (fun hx => hx.2 hw)] at h
            simp only [Option.some.injEq] at h
            exact h.symm
          | cons w2 rest2 =>
            unfold wait_timing_out at h
            rw [if_neg (fun hx => hx.2 hw)] at h
            simp only [Option.some.injEq] at h
            exact h.symm
        refine ⟨[], w, ?_, hw⟩
        rw [hq]
        rfl
      · obtain ⟨pre, w2, e1, e2⟩ := i4 hw hp
        exact ⟨w :: pre, w2, by rw [e1]; rfl, e2⟩
    · simp only [Option.some.injEq] at h
      rw [← h]
      refine ⟨hm, rfl, ?_, ?_⟩
      · by_cases hp : m.player_state = .ps_active
        · exact Or.inl hp
        · right
          by_contra hrc
          exact hc ⟨hp, hrc⟩
      · intro hrc hp
        exact absurd ⟨hp, hrc⟩ hc

/-- The timed loop ends if the player is already active or if one of the waits to come
times out. -/
theorem wait_timing_out_returns (cfg : am_config) :
    ∀ (ws : List wake_t) (m : monitor_t) (rc : Int),
      (m.player_state = .ps_active ∨ rc = ETIMEDOUT ∨ ∃ w, w ∈ ws ∧ w.rc = ETIMEDOUT) →
      ∃ q, wait_timing_out cfg m rc ws = some q := by
  intro ws
  induction ws with
  | nil =>
    intro m rc h
    unfold wait_timing_out
    split_ifs with hc
    · rcases h with h | h | ⟨w, hw, _⟩
      · exact absurd h hc.1
      · exact absurd h hc.2
      · cases hw
    · exact ⟨_, rfl⟩
  | cons w rest ih =>
    intro m rc h
    unfold wait_timing_out
    split_ifs with hc
    · apply ih
      rcases h with h | h | ⟨w2, hw2, hr⟩
      · exact absurd h hc.1
      · exact absurd h hc.2
      · rw [List.mem_cons] at hw2
        rcases hw2 with hw2 | hw2
        · right; left
          rw [← hw2]; exact hr
        · right; right
          exact ⟨w2, hw2, hr⟩
    · exact ⟨_, rfl⟩

theorem wait_wake_state (cfg : am_config) (w : wake_t) :
    ∀ m : monitor_t, (wait_wake cfg m w).state = m.state := by
  unfold wait_wake
  induction w.signals with
  | nil => intro m; rfl
  | cons a rest ih =>
    intro m
    rw [List.foldl_cons, ih]
    exact (signify_activity_effect cfg m a).2.1

/-- The untimed loops: they end with the player in the state waited for and leave the
monitor state alone; they end at once if the player is already in that state. -/
theorem wait_for_player_spec (cfg : am_config) (t : ps_state) :
    ∀ (ws : List wake_t) (m : monitor_t),
      (∀ q, wait_for_player cfg t m ws = some q →
        q.1.player_state = t ∧ q.1.state = m.state) ∧
      (m.player_state = t → wait_for_player cfg t m ws = some (m, ws)) := by
  intro ws
  induction ws with
  | nil =>
    intro m
    unfold wait_for_player
    refine ⟨?_, fun h => by rw [if_neg (not_not.mpr h)]⟩
    intro q h
    split_ifs at h with hc
    simp only [Option.some.injEq] at h
    rw [← h]
    exact ⟨not_not.mp hc, rfl⟩
  | cons w rest ih =>
    intro m
    unfold wait_for_player
    refine ⟨?_, fun h => by rw [if_neg (not_not.mpr h)]⟩
    intro q h
    split_ifs at h with hc
    · obtain ⟨i1, i2⟩ := (ih (wait_wake cfg m w)).1 q h
      exact ⟨i1, i2.trans (wait_wake_state cfg w m)⟩
    · simp only [Option.some.injEq] at h
      rw [← h]
      exact ⟨not_not.mp hc, rfl⟩

/-- C17: in state `am_timing_out`, a pass of the monitor thread that ends with the player
active moves to `am_active` and calls no hook; one that ends with the player still
inactive moves to `am_inactive` and calls `going_inactive(0)` exactly once, and then the
last wait returned `ETIMEDOUT`; the pass ends if the player is active or a wait times out,
and at once if the player is already active. -/
theorem C17_leaving_timing_out (cfg : am_config) (m : monitor_t) (ws : List wake_t)
    (h_state : m.state = .am_timing_out) :
    (∀ r, activity_monitor_thread_step cfg m ws = some r →
      (r.1.player_state = .ps_active → r.1.state = .am_active ∧ r.1.hooks = m.hooks) ∧
      (r.1.player_state ≠ .ps_active →
        r.1.state = .am_inactive ∧
        r.1.hooks = m.hooks ++ [hook_call.going_inactive 0] ∧
        ∃ pre w, ws = pre ++ w :: r.2 ∧ w.rc = ETIMEDOUT)) ∧
    ((m.player_state = .ps_active ∨ ∃ w, w ∈ ws ∧ w.rc = ETIMEDOUT) →
      ∃ r, activity_monitor_thread_step cfg m ws = some r) ∧
    (m.player_state = .ps_active →
      activity_monitor_thread_step cfg m ws = some ({ m with state := .am_active }, ws)) := by
  have hstep : activity_monitor_thread_step cfg m ws =
      match wait_timing_out cfg m 0 ws with
      | none => none
      | some q =>
        if q.1.player_state = .ps_active then some ({ q.1 with state := .am_active }, q.2.2)
        else if q.2.1 = ETIMEDOUT then
          some ({ q.1 with state := .am_inactive,
                           hooks := q.1.hooks ++ [hook_call.going_inactive 0] }, q.2.2)
        else some (q.1, q.2.2) := by
    unfold activity_monitor_thread_step
    rw [h_state]
  refine ⟨?_, ?_, ?_⟩
  · intro r hr
    rw [hstep] at hr
    cases hq : wait_timing_out cfg m 0 ws with
    | none => rw [hq] at hr; cases hr
    | some q =>
      rw [hq] at hr
      simp only at hr
      obtain ⟨_, s2, s3, s4⟩ := wait_timing_out_spec cfg ws m 0 q h_state hq
      by_cases hp : q.1.player_state = .ps_active
      · rw [if_pos hp] at hr
        simp only [Option.some.injEq] at hr
        rw [← hr]
        exact ⟨fun _ => ⟨rfl, s2⟩, fun hc => absurd hp hc⟩
      · have hrc : q.2.1 = ETIMEDOUT := by
          rcases s3 with h | h
          · exact absurd h hp
          · exact h
        rw [if_neg hp, if_pos hrc] at hr
        simp only [Option.some.injEq] at hr
        rw [← hr]
        refine ⟨fun hc => absurd hc hp, fun _ => ⟨rfl, ?_, s4 (by decide) hp⟩⟩
        show q.1.hooks ++ _ = _
        rw [s2]
  · intro h
    obtain ⟨q, hq⟩ := wait_timing_out_returns cfg ws m 0 (by
      rcases h with h | h
      · exact Or.inl h
      · exact Or.inr (Or.inr h))
    rw [hstep, hq]
    simp only
    split_ifs <;> exact ⟨_, rfl⟩
  · intro hp
    have hq : wait_timing_out cfg m 0 ws = some (m, 0, ws) := by
      cases ws with
      | nil => unfold wait_timing_out; rw [if_neg (fun h => h.1 hp)]
      | cons w rest => unfold wait_timing_out; rw [if_neg (fun h => h.1 hp)]
    rw [hstep, hq]
    simp only
    rw [if_pos hp]

/-- C17 while timing out with the player inactive: a first wait returns early, during the
second the player signals activity; the monitor is back in `am_active` and no hook has been
added. -/
theorem C17_witness :
    monitor_timing_out.state = .am_timing_out ∧
    activity_monitor_thread_step am_cfg0 monitor_timing_out
        [⟨[], 0⟩, ⟨[1], 0⟩, ⟨[], 110⟩]
      = some (⟨.am_active, .ps_active, [hook_call.going_active 1]⟩, [⟨[], 110⟩]) ∧
    activity_monitor_thread_step am_cfg0 monitor_timing_out [⟨[], 0⟩, ⟨[0], 110⟩]
      = some (⟨.am_inactive, .ps_inactive,
          [hook_call.going_active 1, hook_call.going_inactive 0]⟩, []) ∧
    ((⟨.am_active, .ps_active, [hook_call.going_active 1]⟩ : monitor_t).player_state
        = .ps_active →
      (⟨.am_active, .ps_active, [hook_call.going_active 1]⟩ : monitor_t).state = .am_active ∧
      (⟨.am_active, .ps_active, [hook_call.going_active 1]⟩ : monitor_t).hooks
        = monitor_timing_out.hooks) :=
  ⟨rfl, by decide, by decide,
   ((C17_leaving_timing_out am_cfg0 monitor_timing_out [⟨[], 0⟩, ⟨[1], 0⟩, ⟨[], 110⟩] rfl).1
      (⟨.am_active, .ps_active, [hook_call.going_active 1]⟩, [⟨[], 110⟩]) (by decide)).1⟩

/-- C18: `activity_monitor_signify_activity(a)` records the player state, leaves the
monitor state alone, calls `going_active(cmd_blocking)` exactly when the monitor is
`am_inactive` and `a != 0`, calls `going_inactive(cmd_blocking)` exactly when the monitor
is `am_active`, `a == 0` and the timeout is zero, and calls no hook otherwise; a pass of
the monitor thread from `am_inactive` waits for the player to be active and moves to
`am_active`, and from `am_active` waits for the player to be inactive and moves to
`am_inactive` when the timeout is zero and to `am_timing_out` otherwise, calling no hook
itself. -/
theorem C18_signal_handling (cfg : am_config) (m : monitor_t) (a : Int) (ws : List wake_t) :
    (activity_monitor_signify_activity cfg m a).player_state
      = (if a = 0 then ps_state.ps_inactive else ps_state.ps_active) ∧
    (activity_monitor_signify_activity cfg m a).state = m.state ∧
    (m.state = .am_inactive ∧ a ≠ 0 →
      (activity_monitor_signify_activity cfg m a).hooks
        = m.hooks ++ [hook_call.going_active cfg.cmd_blocking]) ∧
    (m.state = .am_active ∧ a = 0 ∧ cfg.active_state_timeout_is_zero = true →
      (activity_monitor_signify_activity cfg m a).hooks
        = m.hooks ++ [hook_call.going_inactive cfg.cmd_blocking]) ∧
    (¬ (m.state = .am_inactive ∧ a ≠ 0) →
      ¬ (m.state = .am_active ∧ a = 0 ∧ cfg.active_state_timeout_is_zero = true) →
      (activity_monitor_signify_activity cfg m a).hooks = m.hooks) ∧
    (m.state = .am_inactive →
      activity_monitor_thread_step cfg m ws
        = (wait_for_player cfg .ps_active m ws).map
            (fun q => ({ q.1 with state := am_state.am_active }, q.2)) ∧
      (∀ r, activity_monitor_thread_step cfg m ws = some r →
        r.1.state = .am_active ∧ r.1.player_state = .ps_active) ∧
      (m.player_state = .ps_active →
        activity_monitor_thread_step cfg m ws = some ({ m with state := .am_active }, ws))) ∧
    (m.state = .am_active →
      activity_monitor_thread_step cfg m ws
        = (wait_for_player cfg .ps_inactive m ws).map
            (fun q => ({ q.1 with state :=
              if cfg.active_state_timeout_is_zero = true then am_state.am_inactive
              else am_state.am_timing_out }, q.2)) ∧
      (∀ r, activity_monitor_thread_step cfg m ws = some r →
        r.1.player_state = .ps_inactive ∧
        r.1.state = (if cfg.active_state_timeout_is_zero = true then am_state.am_inactive
                     else am_state.am_timing_out)) ∧
      (m.player_state = .ps_inactive →
        activity_monitor_thread_step cfg m ws
          = some ({ m with state :=
              if cfg.active_state_timeout_is_zero = true then am_state.am_inactive
              else am_state.am_timing_out }, ws))) := by
  obtain ⟨e1, e2, e3⟩ := signify_activity_effect cfg m a
  refine ⟨e1, e2, ?_, ?_, ?_, ?_, ?_⟩
  · intro h
    rw [e3, if_pos h]
  · intro h
    rw [e3, if_neg (fun hc => by rw [h.1] at hc; cases hc.1), if_pos h]
  · intro h1 h2
    rw [e3, if_neg h1, if_neg h2, List.append_nil]
  · intro hs
    have hstep : activity_monitor_thread_step cfg m ws
        = (wait_for_player cfg .ps_active m ws).map
            (fun q => ({ q.1 with state := am_state.am_active }, q.2)) := by
      unfold activity_monitor_thread_step
      rw [hs]
      cases wait_for_player cfg ps_state.ps_active m ws <;> rfl
    obtain ⟨w1, w2⟩ := wait_for_player_spec cfg .ps_active ws m
    refine ⟨hstep, ?_, ?_⟩
    · intro r hr
      rw [hstep] at hr
      cases hq : wait_for_player cfg ps_state.ps_active m ws with
      | none => rw [hq] at hr; cases hr
      | some q =>
        rw [hq] at hr
        simp only [Option.map_some', Option.some.injEq] at hr
        rw [← hr]
        exact ⟨rfl, (w1 q hq).1⟩
    · intro hp
      rw [hstep, w2 hp]
      rfl
  · intro hs
    have hstep : activity_monitor_thread_step cfg m ws
        = (wait_for_player cfg .ps_inactive m ws).map
            (fun q => ({ q.1 with state :=
              if cfg.active_state_timeout_is_zero = true then am_state.am_inactive
              else am_state.am_timing_out }, q.2)) := by
      unfold activity_monitor_thread_step
      rw [hs]
      cases wait_for_player cfg ps_state.ps_inactive m ws with
      | none => rfl
      | some q =>
        simp only [Option.map_some']
        split_ifs <;> rfl
    obtain ⟨w1, w2⟩ := wait_for_player_spec cfg .ps_inactive ws m
    refine ⟨hstep, ?_, ?_⟩
    · intro r hr
      rw [hstep] at hr
      cases hq : wait_for_player cfg ps_state.ps_inactive m ws with
      | none => rw [hq] at hr; cases hr
      | some q =>
        rw [hq] at hr
        simp only [Option.map_some', Option.some.injEq] at hr
        rw [← hr]
        exact ⟨(w1 q hq).1, rfl⟩
    · intro hp
      rw [hstep, w2 hp]
      rfl

theorem to_int64_of_range (x : Int) (h1 : -9223372036854775808 ≤ x)
    (h2 : x < 9223372036854775808) : to_int64 x = x := by
  unfold to_int64
  omega

theorem stat_sum_cons (f : stats_t → Int) (r : stats_t) (w : List stats_t) :
    stat_sum f (r :: w) = f r + stat_sum f w := by
  unfold stat_sum
  rw [List.map_cons, List.sum_cons]

theorem stat_sum_append (f : stats_t → Int) (w : List stats_t) (r : stats_t) :
    stat_sum f (w ++ [r]) = stat_sum f w + f r := by
  unfold stat_sum
  rw [List.map_append, List.sum_append]
  simp

theorem stat_sum_bound (f : stats_t → Int) (B : Int) :
    ∀ w : List stats_t, (∀ r, r ∈ w → -B ≤ f r ∧ f r ≤ B) →
      -((w.length : Int) * B) ≤ stat_sum f w ∧ stat_sum f w ≤ (w.length : Int) * B := by
  intro w
  induction w with
  | nil => intro _; simp [stat_sum]
  | cons r w ih =>
    intro h
    have h1 := h r (List.mem_cons_self _ _)
    have h2 := ih (fun x hx => h x (List.mem_cons_of_mem _ hx))
    have h3 : (((r :: w).length : Nat) : Int) * B = (w.length : Int) * B + B := by
      rw [List.length_cons]
      push_cast
      ring
    rw [stat_sum_cons, h3]
    omega

theorem abs_correction_range (r : stats_t) (h : record_in_range r) :
    -2147483648 ≤ |r.correction| ∧ |r.correction| ≤ 2147483648 := by
  obtain ⟨_, ⟨h1, h2⟩, _⟩ := h
  constructor
  · have := abs_nonneg r.correction
    omega
  · exact abs_le.mpr ⟨h1, h2⟩

/-- The sums over a window of at most `trend_interval` in-range records are far from the
ends of the `int64_t` range. -/
theorem window_sums_bound (w : List stats_t) (h_len : w.length ≤ trend_interval)
    (h : ∀ r, r ∈ w → record_in_range r) :
    (-4517110426252607488 ≤ stat_sum (fun r => r.sync_error) w ∧
      stat_sum (fun r => r.sync_error) w ≤ 4517110426252607488) ∧
    (-4517110426252607488 ≤ stat_sum (fun r => r.correction) w ∧
      stat_sum (fun r => r.correction) w ≤ 4517110426252607488) ∧
    (-4517110426252607488 ≤ stat_sum (fun r => |r.correction|) w ∧
      stat_sum (fun r => |r.correction|) w ≤ 4517110426252607488) ∧
    (-4517110426252607488 ≤ stat_sum (fun r => r.drift) w ∧
      stat_sum (fun r => r.drift) w ≤ 4517110426252607488) := by
  unfold trend_interval at h_len
  have b1 := stat_sum_bound (fun r => r.sync_error) 1125899906842624 w (fun r hr => (h r hr).1)
  have b2 := stat_sum_bound (fun r => r.correction) 2147483648 w (fun r hr => (h r hr).2.1)
  have b3 := stat_sum_bound (fun r => |r.correction|) 2147483648 w
    (fun r hr => abs_correction_range r (h r hr))
  have b4 := stat_sum_bound (fun r => r.drift) 4503599627370496 w (fun r hr => (h r hr).2.2)
  omega

theorem remove_abs (t c : Int) :
    (if c > 0 then to_int64 (t - c) else to_int64 (t + c)) = to_int64 (t - |c|) := by
  split_ifs with h
  · rw [abs_of_pos h]
  · rw [abs_of_nonpos (not_lt.mp h)]
    exact congrArg to_int64 (by omega)

theorem add_abs (t c : Int) :
    (if c > 0 then to_int64 (t + c) else to_int64 (t - c)) = to_int64 (t + |c|) := by
  split_ifs with h
  · rw [abs_of_pos h]
  · rw [abs_of_nonpos (not_lt.mp h)]
    exact congrArg to_int64 (by omega)

/-- Taking the oldest record out of a full window. -/
theorem stats_inv_remove (s : statistics_t) (r : stats_t) (t : List stats_t)
    (h : stats_inv s (r :: t)) : stats_inv (statistics_remove_oldest s) t := by
  have ho : s.statistics s.oldest_statistic = r := by
    have := h.slots 0 (by simp)
    rw [Nat.add_zero, Nat.mod_eq_of_lt h.oldest] at this
    exact this
  have hlen := h.len
  rw [List.length_cons] at hlen
  have hrange : ∀ x, x ∈ t → record_in_range x :=
    fun x hx => h.range x (List.mem_cons_of_mem _ hx)
  obtain ⟨b1, b2, b3, b4⟩ := window_sums_bound t (by omega) hrange
  have hnum := h.number
  have hnew := h.newest
  have hold := h.oldest
  rw [List.length_cons] at hnum hnew
  unfold trend_interval at hlen hnew hold
  refine
    { number := ?_, len := by unfold trend_interval; omega, oldest := ?_, newest := ?_,
      slots := ?_,
      sum_se := ?_, sum_c := ?_, sum_abs := ?_, sum_d := ?_, range := hrange,
      prev := h.prev }
  · show s.number_of_statistics - 1 = t.length
    omega
  · show (s.oldest_statistic + 1) % trend_interval < trend_interval
    exact Nat.mod_lt _ (by decide)
  · show s.newest_statistic = ((s.oldest_statistic + 1) % trend_interval + t.length)
        % trend_interval
    unfold trend_interval
    omega
  · intro k hk
    show s.statistics (((s.oldest_statistic + 1) % trend_interval + k) % trend_interval) = _
    have h1 := h.slots (k + 1) (by rw [List.length_cons]; omega)
    have h2 : ((s.oldest_statistic + 1) % trend_interval + k) % trend_interval
        = (s.oldest_statistic + (k + 1)) % trend_interval := by
      unfold trend_interval
      omega
    rw [h2, h1]
    rfl
  · show to_int64 (s.tsum_of_sync_errors - (s.statistics s.oldest_statistic).sync_error) = _
    rw [ho, h.sum_se, stat_sum_cons]
    exact (congrArg to_int64 (by ring)).trans (to_int64_of_range _ (by omega) (by omega))
  · show to_int64 (s.tsum_of_corrections - (s.statistics s.oldest_statistic).correction) = _
    rw [ho, h.sum_c, stat_sum_cons]
    exact (congrArg to_int64 (by ring)).trans (to_int64_of_range _ (by omega) (by omega))
  · show (if (s.statistics s.oldest_statistic).correction > 0 then
        to_int64 (s.tsum_of_insertions_and_deletions
          - (s.statistics s.oldest_statistic).correction)
      else to_int64 (s.tsum_of_insertions_and_deletions
          + (s.statistics s.oldest_statistic).correction)) = _
    rw [remove_abs, ho, h.sum_abs, stat_sum_cons]
    exact (congrArg to_int64 (by ring)).trans (to_int64_of_range _ (by omega) (by omega))
  · show to_int64 (s.tsum_of_drifts - (s.statistics s.oldest_statistic).drift) = _
    rw [ho, h.sum_d, stat_sum_cons]
    exact (congrArg to_int64 (by ring)).trans (to_int64_of_range _ (by omega) (by omega))

/-- The drift stored with a new sample: 0 into an empty window, and otherwise the
sample's `sync_error` minus the previous `sync_error` minus the previous correction. -/
theorem new_drift_eq (s : statistics_t) (w : List stats_t) (h : stats_inv s w)
    (se : Int) (h1 : -1125899906842624 ≤ se) (h2 : se ≤ 1125899906842624) :
    new_drift s se
      = (if w.length = 0 then 0 else se - s.previous_sync_error - s.previous_correction) ∧
    -4503599627370496 ≤ new_drift s se ∧ new_drift s se ≤ 4503599627370496 := by
  obtain ⟨⟨p1, p2⟩, p3, p4⟩ := h.prev
  unfold new_drift
  rw [h.number]
  split_ifs with h0
  · exact ⟨rfl, by decide, by decide⟩
  · rw [to_int64_of_range _ (by omega) (by omega)]
    exact ⟨rfl, by omega, by omega⟩

/-- Adding a record to a window that is not full. -/
theorem stats_inv_add (s : statistics_t) (w : List stats_t) (h : stats_inv s w)
    (h_room : w.length < trend_interval) (se a : Int) (h_in : sample_in_range (se, a)) :
    stats_inv (statistics_add_newest s se a) (w ++ [⟨se, a, new_drift s se⟩]) := by
  obtain ⟨i1, i2, i3, i4⟩ := h_in
  simp only at i1 i2 i3 i4
  obtain ⟨_, d1, d2⟩ := new_drift_eq s w h se i1 i2
  obtain ⟨b1, b2, b3, b4⟩ := window_sums_bound w h.len h.range
  have hnew := h.newest
  have hold := h.oldest
  have habs : -2147483648 ≤ |a| ∧ |a| ≤ 2147483648 :=
    ⟨by have := abs_nonneg a; omega, abs_le.mpr ⟨i3, by omega⟩⟩
  unfold trend_interval at h_room hnew hold
  refine
    { number := ?_, len := ?_, oldest := h.oldest, newest := ?_, slots := ?_,
      sum_se := ?_, sum_c := ?_, sum_abs := ?_, sum_d := ?_, range := ?_,
      prev := ⟨⟨i1, i2⟩, i3, i4⟩ }
  · show s.number_of_statistics + 1 = _
    rw [List.length_append, h.number]
    rfl
  · rw [List.length_append]
    unfold trend_interval
    simp only [List.length_singleton]
    omega
  · rw [List.length_append]
    show (s.newest_statistic + 1) % trend_interval
        = (s.oldest_statistic + (w.length + 1)) % trend_interval
    unfold trend_interval
    omega
  · intro k hk
    rw [List.length_append] at hk
    simp only [List.length_singleton] at hk
    show (if (s.oldest_statistic + k) % trend_interval = s.newest_statistic then _
      else s.statistics ((s.oldest_statistic + k) % trend_interval)) = _
    by_cases hkw : k < w.length
    · rw [if_neg (by unfold trend_interval; omega), h.slots k hkw,
        List.getD_append _ _ _ _ hkw]
    · have hk2 : k = w.length := by omega
      rw [if_pos (by unfold trend_interval; omega), hk2,
        List.getD_append_right _ _ _ _ (le_refl _), Nat.sub_self]
      rfl
  · show to_int64 (s.tsum_of_sync_errors + se) = _
    rw [h.sum_se, stat_sum_append]
    exact to_int64_of_range _ (by omega) (by omega)
  · show to_int64 (s.tsum_of_corrections + a) = _
    rw [h.sum_c, stat_sum_append]
    exact to_int64_of_range _ (by omega) (by omega)
  · show (if a > 0 then to_int64 (s.tsum_of_insertions_and_deletions + a)
      else to_int64 (s.tsum_of_insertions_and_deletions - a)) = _
    rw [add_abs, h.sum_abs, stat_sum_append]
    exact to_int64_of_range _ (by omega) (by omega)
  · show to_int64 (s.tsum_of_drifts + new_drift s se) = _
    rw [h.sum_d, stat_sum_append]
    exact to_int64_of_range _ (by omega) (by omega)
  · intro r hr
    rcases List.mem_append.mp hr with hr | hr
    · exact h.range r hr
    · rw [List.mem_singleton] at hr
      rw [hr]
      refine ⟨⟨i1, i2⟩, ⟨i3, ?_⟩, d1, d2⟩
      show a ≤ 2147483648
      omega

theorem last_sample_append (x : Int × Int) :
    ∀ (rs : List (Int × Int)) (prev : Option (Int × Int)),
      last_sample prev (rs ++ [x]) = some x := by
  intro rs
  induction rs with
  | nil => intro prev; rfl
  | cons y ys ih => intro prev; exact ih (some y)

theorem last_sample_cons_ne (y : Int × Int) :
    ∀ (ys : List (Int × Int)) (prev : Option (Int × Int)),
      last_sample prev (y :: ys) ≠ none := by
  intro ys
  induction ys generalizing y with
  | nil => intro prev h; cases h
  | cons z zs ih => intro prev; exact ih z (some y)

theorem spec_records_from_append (x : Int × Int) :
    ∀ (rs : List (Int × Int)) (prev : Option (Int × Int)),
      spec_records_from prev (rs ++ [x])
        = spec_records_from prev rs
          ++ [⟨x.1, x.2, match last_sample prev rs with
                         | none => 0
                         | some p => x.1 - p.1 - p.2⟩] := by
  intro rs
  induction rs with
  | nil => intro prev; rfl
  | cons y ys ih =>
    intro prev
    show _ :: spec_records_from (some y) (ys ++ [x]) = _
    rw [ih (some y)]
    rfl

theorem spec_records_from_length :
    ∀ (rs : List (Int × Int)) (prev : Option (Int × Int)),
      (spec_records_from prev rs).length = rs.length := by
  intro rs
  induction rs with
  | nil => intro prev; rfl
  | cons y ys ih =>
    intro prev
    show (_ :: spec_records_from (some y) ys).length = _
    rw [List.length_cons, List.length_cons, ih]

theorem spec_records_length (rs : List (Int × Int)) :
    (spec_records rs).length = rs.length :=
  spec_records_from_length rs none

theorem most_recent_length {α : Type} (m : Nat) (l : List α) :
    (most_recent m l).length = min l.length m := by
  unfold most_recent
  rw [List.length_drop]
  omega

theorem most_recent_min {α : Type} (m : Nat) (l : List α) :
    most_recent (min l.length m) l = most_recent m l := by
  unfold most_recent
  congr 1
  omega

/-- The window after one more record. -/
theorem most_recent_append {α : Type} (m : Nat) (l : List α) (r : α) :
    most_recent (m + 1) (l ++ [r]) = most_recent m l ++ [r] := by
  unfold most_recent
  have h1 : l.length + 1 - (m + 1) ≤ l.length := by omega
  rw [List.length_append, List.length_singleton, List.drop_append_of_le_length h1]
  congr 2
  omega

/-- A full window without its oldest record. -/
theorem most_recent_tail {α : Type} (m : Nat) (l : List α) (r : α) (t : List α)
    (hm : m < l.length) (h : most_recent (m + 1) l = r :: t) : most_recent m l = t := by
  unfold most_recent at h ⊢
  have h1 : l.length - m = l.length - (m + 1) + 1 := by omega
  rw [h1, ← List.drop_drop, h]
  rfl

/-- The statistics invariant along the recorded samples: the window is the most recent
`trend_interval` records of the specification, and the previous sample is remembered. -/
theorem record_samples_inv (arr : Nat → stats_t) :
    ∀ rs : List (Int × Int), (∀ p, p ∈ rs → sample_in_range p ∧ p.1 ≠ -1) →
      stats_inv (record_samples (statistics_init arr) rs)
        (most_recent trend_interval (spec_records rs)) ∧
      (∀ p, last_sample none rs = some p →
        (record_samples (statistics_init arr) rs).previous_sync_error = p.1 ∧
        (record_samples (statistics_init arr) rs).previous_correction = p.2) := by
  intro rs
  induction rs using List.reverseRecOn with
  | nil =>
    intro _
    refine ⟨?_, fun p hp => by cases hp⟩
    exact
      { number := rfl, len := Nat.zero_le _,
        oldest := (by decide : (0 : Nat) < trend_interval), newest := rfl,
        slots := fun k hk => absurd hk (Nat.not_lt_zero k),
        sum_se := rfl, sum_c := rfl, sum_abs := rfl, sum_d := rfl,
        range := fun r hr => absurd hr (List.not_mem_nil r),
        prev := (by decide :
          ((-1125899906842624 : Int) ≤ 0 ∧ (0 : Int) ≤ 1125899906842624) ∧
          ((-2147483648 : Int) ≤ 0 ∧ (0 : Int) ≤ 2147483647)) }
  | append_singleton rs x ih =>
    intro h
    obtain ⟨hinv, hprev⟩ := ih (fun p hp => h p (List.mem_append_left _ hp))
    obtain ⟨hx, hx1⟩ := h x (List.mem_append_right _ (List.mem_singleton_self x))
    have hrun : record_samples (statistics_init arr) (rs ++ [x])
        = update_statistics (record_samples (statistics_init arr) rs) x.1 x.2 := by
      unfold record_samples
      rw [List.foldl_append]
      rfl
    have hrecs : spec_records (rs ++ [x])
        = spec_records rs ++ [⟨x.1, x.2, match last_sample none rs with
                                          | none => 0
                                          | some p => x.1 - p.1 - p.2⟩] :=
      spec_records_from_append x rs none
    rw [hrun, hrecs]
    generalize record_samples (statistics_init arr) rs = s at hinv hprev ⊢
    have hupd : update_statistics s x.1 x.2
        = statistics_add_newest
            (if s.number_of_statistics = trend_interval then statistics_remove_oldest s
             else s) x.1 x.2 := by
      unfold update_statistics
      rw [if_pos hx1]
    have hwlen := most_recent_length trend_interval (spec_records rs)
    rw [spec_records_length] at hwlen
    -- the state the record is added to, and its window
    have hmid : ∃ w, stats_inv (if s.number_of_statistics = trend_interval then
          statistics_remove_oldest s else s) w ∧
        w.length < trend_interval ∧ (w.length = 0 ↔ rs = []) ∧
        most_recent trend_interval (spec_records rs ++
          [⟨x.1, x.2, match last_sample none rs with
                       | none => 0
                       | some p => x.1 - p.1 - p.2⟩])
          = w ++ [⟨x.1, x.2, match last_sample none rs with
                             | none => 0
                             | some p => x.1 - p.1 - p.2⟩] := by
      by_cases hfull : s.number_of_statistics = trend_interval
      · rw [if_pos hfull]
        have hlen2 : (most_recent trend_interval (spec_records rs)).length
            = trend_interval := by rw [← hinv.number, hfull]
        cases hw : most_recent trend_interval (spec_records rs) with
        | nil => rw [hw] at hlen2; cases hlen2
        | cons r t =>
          rw [hw] at hinv hlen2
          rw [List.length_cons] at hlen2
          have htail : most_recent 1002 (spec_records rs) = t := by
            refine most_recent_tail 1002 _ r t ?_ hw
            rw [spec_records_length]
            rw [hw, List.length_cons] at hwlen
            unfold trend_interval at hwlen hlen2
            omega
          unfold trend_interval at hlen2
          refine ⟨t, stats_inv_remove s r t hinv, by unfold trend_interval; omega, ?_, ?_⟩
          · constructor
            · intro h0
              omega
            · intro h0
              rw [hw, h0] at hwlen
              cases hwlen
          · rw [← htail]
            exact most_recent_append 1002 _ _
      · rw [if_neg hfull]
        have hn := hinv.number
        have hl := hinv.len
        have hroom : rs.length < trend_interval := by
          rw [hwlen] at hn hl
          unfold trend_interval at hfull hl hn ⊢
          omega
        have hw : most_recent trend_interval (spec_records rs) = spec_records rs := by
          unfold most_recent
          rw [spec_records_length, Nat.sub_eq_zero_of_le (le_of_lt hroom)]
          rfl
        rw [hw] at hinv
        refine ⟨spec_records rs, hinv, by rw [spec_records_length]; exact hroom, ?_, ?_⟩
        · rw [spec_records_length]
          exact List.length_eq_zero
        · unfold most_recent
          rw [List.length_append, List.length_singleton, spec_records_length,
            Nat.sub_eq_zero_of_le (by omega)]
          rfl
    obtain ⟨w, hw1, hw2, hw3, hw4⟩ := hmid
    have hprev2 : (if s.number_of_statistics = trend_interval then
          statistics_remove_oldest s else s).previous_sync_error = s.previous_sync_error ∧
        (if s.number_of_statistics = trend_interval then
          statistics_remove_oldest s else s).previous_correction = s.previous_correction := by
      split_ifs <;> exact ⟨rfl, rfl⟩
    have hdrift : new_drift (if s.number_of_statistics = trend_interval then
          statistics_remove_oldest s else s) x.1
        = match last_sample none rs with
          | none => 0
          | some p => x.1 - p.1 - p.2 := by
      rw [(new_drift_eq _ w hw1 x.1 hx.1 hx.2.1).1, hprev2.1, hprev2.2]
      cases rs with
      | nil => rw [if_pos (hw3.mpr rfl)]; rfl
      | cons y ys =>
        rw [if_neg (fun h0 => by cases hw3.mp h0)]
        cases hl : last_sample none (y :: ys) with
        | none => exact absurd hl (last_sample_cons_ne y ys none)
        | some p =>
          obtain ⟨e1, e2⟩ := hprev p hl
          rw [e1, e2]
    rw [hupd, hw4, ← hdrift]
    refine ⟨stats_inv_add _ w hw1 hw2 x.1 x.2 hx, ?_⟩
    intro p hp
    rw [last_sample_append] at hp
    cases hp
    exact ⟨rfl, rfl⟩

/-- A frame without a sync reading leaves the statistics alone. -/
theorem record_samples_recorded :
    ∀ (samples : List (Int × Int)) (s : statistics_t),
      record_samples s samples = record_samples s (recorded_samples samples) := by
  intro samples
  induction samples with
  | nil => intro s; rfl
  | cons p ps ih =>
    intro s
    by_cases hp : p.1 = -1
    · have hf : recorded_samples (p :: ps) = recorded_samples ps := by
        unfold recorded_samples
        rw [List.filter_cons_of_neg (by simp [hp])]
      have hu : update_statistics s p.1 p.2 = s := by
        unfold update_statistics
        rw [if_neg (not_not.mpr hp)]
      rw [hf, ← ih s]
      show record_samples (update_statistics s p.1 p.2) ps = _
      rw [hu]
    · have hf : recorded_samples (p :: ps) = p :: recorded_samples ps := by
        unfold recorded_samples
        rw [List.filter_cons_of_pos (by simp [hp])]
      rw [hf]
      show record_samples (update_statistics s p.1 p.2) ps
        = record_samples (update_statistics s p.1 p.2) (recorded_samples ps)
      exact ih _

/-- C16: for samples in range (a `sync_error` of at most `2^50` frames either way, where
the `int64_t` sums cannot overflow), with `n` the number of recorded samples (those whose
`sync_error` is not -1): `number_of_statistics = min(n, 1003)`; the four running sums are
the sums of `sync_error`, correction, `|correction|` and drift over the most recent
`min(n, 1003)` records, the drift being as the specification defines it; the array holds
those records from `oldest_statistic` on; and when the window is full the next recorded
sample first takes the oldest record out, leaving the sums over the most recent 1002, and
then adds the newest, while a window that is not full only has the newest added. -/
theorem C16_statistics_window (arr : Nat → stats_t) (samples : List (Int × Int))
    (h_range : ∀ p, p ∈ samples → sample_in_range p) :
    (record_samples (statistics_init arr) samples).number_of_statistics
      = min (recorded_samples samples).length trend_interval ∧
    (record_samples (statistics_init arr) samples).tsum_of_sync_errors
      = stat_sum (fun r => r.sync_error)
          (most_recent (min (recorded_samples samples).length trend_interval)
            (spec_records (recorded_samples samples))) ∧
    (record_samples (statistics_init arr) samples).tsum_of_corrections
      = stat_sum (fun r => r.correction)
          (most_recent (min (recorded_samples samples).length trend_interval)
            (spec_records (recorded_samples samples))) ∧
    (record_samples (statistics_init arr) samples).tsum_of_insertions_and_deletions
      = stat_sum (fun r => |r.correction|)
          (most_recent (min (recorded_samples samples).length trend_interval)
            (spec_records (recorded_samples samples))) ∧
    (record_samples (statistics_init arr) samples).tsum_of_drifts
      = stat_sum (fun r => r.drift)
          (most_recent (min (recorded_samples samples).length trend_interval)
            (spec_records (recorded_samples samples))) ∧
    (∀ k, k < min (recorded_samples samples).length trend_interval →
      (record_samples (statistics_init arr) samples).statistics
          (((record_samples (statistics_init arr) samples).oldest_statistic + k)
            % trend_interval)
        = (most_recent (min (recorded_samples samples).length trend_interval)
            (spec_records (recorded_samples samples))).getD k ⟨0, 0, 0⟩) ∧
    (∀ se a, se ≠ -1 → (recorded_samples samples).length < trend_interval →
      update_statistics (record_samples (statistics_init arr) samples) se a
        = statistics_add_newest (record_samples (statistics_init arr) samples) se a) ∧
    (trend_interval ≤ (recorded_samples samples).length →
      (∀ se a, se ≠ -1 →
        update_statistics (record_samples (statistics_init arr) samples) se a
          = statistics_add_newest
              (statistics_remove_oldest (record_samples (statistics_init arr) samples))
              se a) ∧
      (statistics_remove_oldest
          (record_samples (statistics_init arr) samples)).number_of_statistics
        = trend_interval - 1 ∧
      (statistics_remove_oldest
          (record_samples (statistics_init arr) samples)).tsum_of_sync_errors
        = stat_sum (fun r => r.sync_error)
            (most_recent (trend_interval - 1) (spec_records (recorded_samples samples))) ∧
      (statistics_remove_oldest
          (record_samples (statistics_init arr) samples)).tsum_of_corrections
        = stat_sum (fun r => r.correction)
            (most_recent (trend_interval - 1) (spec_records (recorded_samples samples))) ∧
      (statistics_remove_oldest
          (record_samples (statistics_init arr) samples)).tsum_of_insertions_and_deletions
        = stat_sum (fun r => |r.correction|)
            (most_recent (trend_interval - 1) (spec_records (recorded_samples samples))) ∧
      (statistics_remove_oldest
          (record_samples (statistics_init arr) samples)).tsum_of_drifts
        = stat_sum (fun r => r.drift)
            (most_recent (trend_interval - 1)
              (spec_records (recorded_samples samples)))) := by
  have hrs : ∀ p, p ∈ recorded_samples samples → sample_in_range p ∧ p.1 ≠ -1 := by
    intro p hp
    unfold recorded_samples at hp
    obtain ⟨h1, h2⟩ := List.mem_filter.mp hp
    exact ⟨h_range p h1, of_decide_eq_true h2⟩
  obtain ⟨hinv, _⟩ := record_samples_inv arr (recorded_samples samples) hrs
  have hmin : most_recent (min (recorded_samples samples).length trend_interval)
      (spec_records (recorded_samples samples))
      = most_recent trend_interval (spec_records (recorded_samples samples)) := by
    have := most_recent_min trend_interval (spec_records (recorded_samples samples))
    rw [spec_records_length] at this
    exact this
  have hlen := most_recent_length trend_interval (spec_records (recorded_samples samples))
  rw [spec_records_length] at hlen
  rw [record_samples_recorded samples, hmin]
  generalize record_samples (statistics_init arr) (recorded_samples samples) = s at hinv ⊢
  have hnum : s.number_of_statistics = min (recorded_samples samples).length trend_interval :=
    hinv.number.trans hlen
  refine ⟨hnum, hinv.sum_se, hinv.sum_c, hinv.sum_abs, hinv.sum_d, ?_, ?_, ?_⟩
  · intro k hk
    exact hinv.slots k (by rw [hlen]; exact hk)
  · intro se a hse hn
    unfold update_statistics
    rw [if_pos hse, if_neg]
    rw [hnum]
    unfold trend_interval at hn ⊢
    omega
  · intro hn
    have hfull : s.number_of_statistics = trend_interval := by
      rw [hnum]
      exact min_eq_right hn
    have hupd : ∀ se a, se ≠ -1 →
        update_statistics s se a
          = statistics_add_newest (statistics_remove_oldest s) se a := by
      intro se a hse
      unfold update_statistics
      rw [if_pos hse, if_pos hfull]
    cases hw : most_recent trend_interval (spec_records (recorded_samples samples)) with
    | nil =>
      rw [hw] at hlen
      unfold trend_interval at hn hlen
      have : (0 : Nat) = min (recorded_samples samples).length 1003 := hlen
      omega
    | cons r t =>
      rw [hw] at hinv
      have htail : most_recent (trend_interval - 1)
          (spec_records (recorded_samples samples)) = t := by
        refine most_recent_tail 1002 _ r t ?_ hw
        rw [spec_records_length]
        unfold trend_interval at hn
        omega
      have hinv2 := stats_inv_remove s r t hinv
      rw [htail]
      refine ⟨hupd, ?_, hinv2.sum_se, hinv2.sum_c, hinv2.sum_abs, hinv2.sum_d⟩
      show s.number_of_statistics - 1 = trend_interval - 1
      rw [hfull]

/-- C16 on four frames, one of them without a sync reading: three records, with drifts
0, 1 and -2; and on a full window of 1003 records the next sample has the oldest removed
first. -/
theorem C16_witness :
    (∀ p, p ∈ samples_4 → sample_in_range p) ∧
    (record_samples (statistics_init (fun _ => ⟨0, 0, 0⟩)) samples_4).number_of_statistics
      = min (recorded_samples samples_4).length trend_interval ∧
    (record_samples (statistics_init (fun _ => ⟨0, 0, 0⟩)) samples_4).number_of_statistics
      = 3 ∧
    (record_samples (statistics_init (fun _ => ⟨0, 0, 0⟩)) samples_4).tsum_of_sync_errors
      = 16 ∧
    (record_samples (statistics_init (fun _ => ⟨0, 0, 0⟩)) samples_4).tsum_of_corrections
      = 0 ∧
    (record_samples (statistics_init
        (fun _ => ⟨0, 0, 0⟩)) samples_4).tsum_of_insertions_and_deletions = 2 ∧
    (record_samples (statistics_init (fun _ => ⟨0, 0, 0⟩)) samples_4).tsum_of_drifts
      = -1 ∧
    spec_records (recorded_samples samples_4) = [⟨5, 1, 0⟩, ⟨7, -1, 1⟩, ⟨4, 0, -2⟩] ∧
    (∀ p, p ∈ samples_full → sample_in_range p) ∧
    trend_interval ≤ (recorded_samples samples_full).length ∧
    update_statistics (record_samples (statistics_init (fun _ => ⟨0, 0, 0⟩)) samples_full)
        7 1
      = statistics_add_newest
          (statistics_remove_oldest
            (record_samples (statistics_init (fun _ => ⟨0, 0, 0⟩)) samples_full)) 7 1 :=
  have h_full : ∀ p, p ∈ samples_full → sample_in_range p := fun p hp => by
    rw [List.eq_of_mem_replicate hp]
    decide
  have h_len : trend_interval ≤ (recorded_samples samples_full).length := by
    unfold recorded_samples samples_full
    rw [List.filter_replicate_of_pos (by decide), List.length_replicate]
    exact le_refl _
  ⟨by decide,
   (C16_statistics_window (fun _ => ⟨0, 0, 0⟩) samples_4 (by decide)).1,
   by decide, by decide, by decide, by decide, by decide, by decide,
   h_full, h_len,
   ((C16_statistics_window (fun _ => ⟨0, 0, 0⟩) samples_full h_full).2.2.2.2.2.2.2
      h_len).1 7 1 (by decide)⟩

theorem int64_to_double_exact (x : Int) (h_lo : -9007199254740992 ≤ x)
    (h_hi : x ≤ 9007199254740992) : int64_to_double x = x := by
  unfold int64_to_double
  simp only
  rw [if_pos (by omega)]

/-- The `double` product of a positive threshold and the rate is not negative, and lies
between the exact product less `2^-53` of it and the exact product plus `2^-53` of it. -/
theorem threshold_frames_bounds (cfg : resync_config) (hp : is_double_product cfg)
    (hr : cfg.resyncthreshold > 0) :
    0 ≤ cfg.threshold_frames ∧
    cfg.resyncthreshold * cfg.output_rate * (1 - 1 / 9007199254740992) ≤ cfg.threshold_frames ∧
    cfg.threshold_frames ≤ cfg.resyncthreshold * cfg.output_rate * (1 + 1 / 9007199254740992) := by
  have he : (0 : ℚ) ≤ cfg.resyncthreshold * cfg.output_rate :=
    mul_nonneg (le_of_lt hr) (Nat.cast_nonneg _)
  unfold is_double_product at hp
  rw [abs_of_nonneg he, abs_le] at hp
  obtain ⟨h1, h2⟩ := hp
  refine ⟨?_, ?_, ?_⟩
  · have : cfg.resyncthreshold * cfg.output_rate / 9007199254740992
        ≤ cfg.resyncthreshold * cfg.output_rate :=
      div_le_self he (by norm_num)
    linarith
  · linarith
  · linarith

/-- The local `filler_length` is the threshold rounded down. -/
theorem filler_length_le (cfg : resync_config) (h0 : 0 ≤ cfg.threshold_frames) :
    0 ≤ filler_length cfg ∧ ((filler_length cfg : Int) : ℚ) ≤ resync_threshold cfg := by
  have h1 : 0 ≤ resync_threshold cfg := h0
  unfold filler_length
  rw [Int.tdiv_eq_ediv (Rat.num_nonneg.mpr h1) (by exact_mod_cast Nat.zero_le _),
    ← Rat.floor_def']
  exact ⟨Int.floor_nonneg.mpr h1, Int.floor_le _⟩

/-- An out-of-bounds `sync_error` is beyond `filler_length` on one side or the other. -/
theorem out_of_bounds_sign (cfg : resync_config) (f : played_frame)
    (h : out_of_bounds cfg f) (h0 : 0 ≤ cfg.threshold_frames)
    (h_lo : -9007199254740992 ≤ f.sync_error) (h_hi : f.sync_error ≤ 9007199254740992) :
    (0 < f.sync_error ∧ f.sync_error > filler_length cfg) ∨
    (f.sync_error < 0 ∧ to_int64 (-f.sync_error) = -f.sync_error ∧
      -f.sync_error > filler_length cfg) := by
  obtain ⟨_, _, _, h4⟩ := h
  have hf := (filler_length_le cfg h0).2
  have h1 : 0 ≤ resync_threshold cfg := h0
  have hex : int64_to_double (abs_sync_error f.sync_error) = abs_sync_error f.sync_error := by
    apply int64_to_double_exact
    · unfold abs_sync_error to_int64
      split_ifs <;> omega
    · unfold abs_sync_error to_int64
      split_ifs <;> omega
  rw [hex] at h4
  have habs_pos : (0 : Int) < abs_sync_error f.sync_error := by
    have : ((0 : Int) : ℚ) < ((abs_sync_error f.sync_error : Int) : ℚ) := by
      rw [Int.cast_zero]
      exact lt_of_le_of_lt h1 h4
    exact Int.cast_lt.mp this
  have habs_gt : filler_length cfg < abs_sync_error f.sync_error :=
    Int.cast_lt.mp (lt_of_le_of_lt hf h4)
  unfold abs_sync_error at habs_pos habs_gt
  by_cases hneg : f.sync_error < 0
  · rw [if_pos hneg] at habs_pos habs_gt
    have he : to_int64 (-f.sync_error) = -f.sync_error := by
      unfold to_int64 at habs_pos ⊢
      omega
    rw [he] at habs_gt
    exact Or.inr ⟨hneg, he, habs_gt⟩
  · rw [if_neg hneg] at habs_pos habs_gt
    exact Or.inl ⟨habs_pos, habs_gt⟩

/-- The counter after one iteration, for a counter between 0 and 3. -/
theorem play_frame_counter (cfg : resync_config) (c : Int) (f : played_frame)
    (h0 : 0 ≤ c) (h3 : c ≤ 3) :
    (play_frame cfg c f).sync_error_out_of_bounds
      = if sync_checked f then
          if out_of_bounds cfg f then (if c = 3 then 0 else c + 1) else 0
        else c := by
  have hc : to_int32 (c + 1) = c + 1 := by unfold to_int32; omega
  by_cases hk : sync_checked f
  · rw [if_pos hk]
    obtain ⟨k1, k2, k3⟩ := hk
    unfold play_frame
    simp only [if_neg k1, if_neg k2, if_pos k3]
    by_cases ho : out_of_bounds cfg f
    · simp only [if_pos ho, hc]
      by_cases hc3 : c = 3
      · have h4 : c + 1 > 3 := by omega
        simp only [if_pos h4, if_pos hc3]
        unfold hard_correction
        split_ifs <;> rfl
      · have h4 : ¬ c + 1 > 3 := by omega
        simp only [if_neg h4, if_neg hc3]
    · have h4 : ¬ (0 : Int) > 3 := by decide
      simp only [if_neg ho, if_neg h4]
  · rw [if_neg hk]
    unfold play_frame
    simp only
    by_cases h1 : f.given_timestamp = 0
    · rw [if_pos h1]
    · rw [if_neg h1]
      by_cases h2 : to_int32 (f.play_number_after_flush + 1) < 10
      · rw [if_pos h2]
      · rw [if_neg h2, if_neg (fun h4 => hk ⟨h1, h2, h4⟩)]

theorem counter_after_append (cfg : resync_config) (frames : List played_frame)
    (f : played_frame) :
    counter_after cfg (frames ++ [f])
      = (play_frame cfg (counter_after cfg frames) f).sync_error_out_of_bounds := by
  unfold counter_after
  rw [List.foldl_append]
  rfl

/-- The counter is between 0 and 3 at the start of every iteration, and is the number of
out-of-bounds frames in a row, among the frames whose sync was checked, modulo 4. -/
theorem counter_after_streak (cfg : resync_config) :
    ∀ frames : List played_frame,
      (0 ≤ counter_after cfg frames ∧ counter_after cfg frames ≤ 3) ∧
      counter_after cfg frames = ((oob_streak cfg frames.reverse % 4 : Nat) : Int) := by
  intro frames
  induction frames using List.reverseRecOn with
  | nil => exact ⟨⟨le_refl _, (by decide : (0 : Int) ≤ 3)⟩, rfl⟩
  | append_singleton frames f ih =>
    obtain ⟨⟨i0, i3⟩, ih2⟩ := ih
    rw [counter_after_append, play_frame_counter cfg _ f i0 i3, List.reverse_append]
    show _ ∧ _ = ((oob_streak cfg (f :: frames.reverse) % 4 : Nat) : Int)
    have hs : oob_streak cfg (f :: frames.reverse)
        = if sync_checked f then
            if out_of_bounds cfg f then oob_streak cfg frames.reverse + 1 else 0
          else oob_streak cfg frames.reverse := rfl
    rw [hs]
    split_ifs <;> omega

/-- What an iteration does with a frame whose sync is not checked, and with a checked one
that does not take the counter past 3. -/
theorem play_frame_no_correction (cfg : resync_config) (c : Int) (f : played_frame)
    (h0 : 0 ≤ c) (h3 : c ≤ 3) :
    (¬ sync_checked f → is_hard_correction (play_frame cfg c f).action = false) ∧
    (sync_checked f → (¬ out_of_bounds cfg f ∨ c < 3) →
      (play_frame cfg c f).action = .played) := by
  have hc : to_int32 (c + 1) = c + 1 := by unfold to_int32; omega
  constructor
  · intro hk
    unfold play_frame
    simp only
    by_cases h1 : f.given_timestamp = 0
    · rw [if_pos h1]
      rfl
    · rw [if_neg h1]
      by_cases h2 : to_int32 (f.play_number_after_flush + 1) < 10
      · rw [if_pos h2]
        rfl
      · rw [if_neg h2, if_neg (fun h4 => hk ⟨h1, h2, h4⟩)]
        rfl
  · intro hk hor
    obtain ⟨k1, k2, k3⟩ := hk
    unfold play_frame
    simp only [if_neg k1, if_neg k2, if_pos k3]
    by_cases ho : out_of_bounds cfg f
    · have h4 : ¬ c + 1 > 3 := by
        rcases hor with h | h
        · exact absurd ho h
        · omega
      simp only [if_pos ho, hc, if_neg h4]
    · have h4 : ¬ (0 : Int) > 3 := by decide
      simp only [if_neg ho, if_neg h4]

/-- The fourth out-of-bounds frame goes to the hard correction. -/
theorem play_frame_hard (cfg : resync_config) (f : played_frame)
    (hk : sync_checked f) (ho : out_of_bounds cfg f) :
    play_frame cfg 3 f = hard_correction cfg f (to_int32 (f.play_number_after_flush + 1)) := by
  obtain ⟨k1, k2, k3⟩ := hk
  have hc : to_int32 ((3 : Int) + 1) > 3 := by decide
  unfold play_frame
  simp only [if_neg k1, if_neg k2, if_pos k3, if_pos ho, if_pos hc]

/-- What the hard correction does for an out-of-bounds `sync_error`. -/
theorem hard_correction_spec (cfg : resync_config) (f : played_frame) (pn : Int)
    (ho : out_of_bounds cfg f) (h0 : 0 ≤ cfg.threshold_frames)
    (h5 : filler_length cfg * 5 < 9223372036854775808)
    (h_lo : -9007199254740992 ≤ f.sync_error) (h_hi : f.sync_error ≤ 9007199254740992) :
    f.sync_error ≠ 0 ∧
    (0 < f.sync_error →
      hard_correction cfg f pn
        = ⟨0, 0, .flush_target
            ((f.given_timestamp
              + (Int.tdiv f.sync_error cfg.output_sample_ratio % 4294967296).toNat)
              % 4294967296)⟩) ∧
    (f.sync_error < 0 →
      hard_correction cfg f pn
        = ⟨0, 0,
            if f.malloc_ok = true then
              .long_silence (if -f.sync_error > filler_length cfg * 5 then
                filler_length cfg * 5 else -f.sync_error)
            else
              .no_silence (if -f.sync_error > filler_length cfg * 5 then
                filler_length cfg * 5 else -f.sync_error)⟩) := by
  have hfl := (filler_length_le cfg h0).1
  have h64 : to_int64 (filler_length cfg * 5) = filler_length cfg * 5 := by
    unfold to_int64
    omega
  rcases out_of_bounds_sign cfg f ho h0 h_lo h_hi with ⟨s1, s2⟩ | ⟨s1, s2, s3⟩
  · refine ⟨by omega, fun _ => ?_, fun h => by omega⟩
    unfold hard_correction
    rw [if_pos ⟨s1, s2⟩]
  · refine ⟨by omega, fun h => by omega, fun _ => ?_⟩
    unfold hard_correction
    rw [if_neg (fun h => by omega), s2, if_pos ⟨s1, s3⟩, h64]

theorem abs_sync_error_eq (x : Int) (h_lo : -9223372036854775808 < x)
    (h_hi : x < 9223372036854775808) : abs_sync_error x = |x| := by
  unfold abs_sync_error
  split_ifs with h
  · rw [abs_of_neg h]
    unfold to_int64
    omega
  · rw [abs_of_nonneg (not_lt.mp h)]

/-- Where the conversion to `double` is exact, a frame is out of bounds exactly when
`|sync_error|` exceeds the `double` product. -/
theorem out_of_bounds_iff (cfg : resync_config) (f : played_frame)
    (h_lo : -9007199254740992 ≤ f.sync_error) (h_hi : f.sync_error ≤ 9007199254740992) :
    out_of_bounds cfg f ↔
      cfg.no_sync = 0 ∧ f.given_timestamp ≠ 0 ∧ cfg.resyncthreshold > 0 ∧
        ((|f.sync_error| : Int) : ℚ) > cfg.threshold_frames := by
  have hex : int64_to_double (abs_sync_error f.sync_error) = |f.sync_error| := by
    rw [abs_sync_error_eq f.sync_error (by omega) (by omega)]
    apply int64_to_double_exact
    · have := abs_nonneg f.sync_error
      omega
    · exact abs_le.mpr ⟨by omega, h_hi⟩
  unfold out_of_bounds resync_threshold
  rw [hex]

theorem late_frame_out_of_bounds (n : Int) : out_of_bounds resync_cfg0 (late_frame n) := by
  have h_lo : -9007199254740992 ≤ (late_frame n).sync_error :=
    (by decide : (-9007199254740992 : Int) ≤ 100000)
  have h_hi : (late_frame n).sync_error ≤ 9007199254740992 :=
    (by decide : (100000 : Int) ≤ 9007199254740992)
  have h_ts : (late_frame n).given_timestamp ≠ 0 := (by decide : (1000 : Nat) ≠ 0)
  rw [out_of_bounds_iff _ _ h_lo h_hi]
  refine ⟨rfl, h_ts, ?_, ?_⟩
  · show (1 / 20 : ℚ) > 0
    norm_num
  · show ((|(100000 : Int)| : Int) : ℚ) > (2205 : ℚ)
    norm_num

theorem resync_cfg0_is_double_product : is_double_product resync_cfg0 := by
  unfold is_double_product resync_cfg0
  norm_num

theorem silent_frame_in_bounds (n : Int) : ¬ out_of_bounds resync_cfg0 (silent_frame n) :=
  fun h => h.2.1 rfl

theorem silent_frame_unchecked (n : Int) : ¬ sync_checked (silent_frame n) :=
  fun h => h.1 rfl

theorem filler_length_cfg0 : filler_length resync_cfg0 = 2205 := by
  unfold filler_length resync_threshold resync_cfg0
  norm_num

/-- At a threshold of 0.3 s and 44,100 frames per second a `sync_error` of 13,230 is not
out of bounds and one of 13,231 is, and `filler_length` is 13,230, five times which is
66,150. -/
theorem resync_cfg1_threshold :
    is_double_product resync_cfg1 ∧
    resync_cfg1.resyncthreshold * resync_cfg1.output_rate < 13230 ∧
    ¬ out_of_bounds resync_cfg1
      { play_number_after_flush := 20, given_timestamp := 1000, resp := 0,
        sync_error := 13230, malloc_ok := true } ∧
    out_of_bounds resync_cfg1
      { play_number_after_flush := 20, given_timestamp := 1000, resp := 0,
        sync_error := 13231, malloc_ok := true } ∧
    filler_length resync_cfg1 = 13230 ∧ filler_length resync_cfg1 * 5 = 66150 := by
  have hf : filler_length resync_cfg1 = 13230 := by
    unfold filler_length resync_threshold resync_cfg1
    norm_num
  refine ⟨?_, ?_, ?_, ?_, hf, by rw [hf]; rfl⟩
  · have he : (0 : ℚ) ≤ resync_cfg1.resyncthreshold * resync_cfg1.output_rate := by
      unfold resync_cfg1
      norm_num
    unfold is_double_product
    rw [abs_of_nonneg he, abs_le]
    unfold resync_cfg1
    constructor <;> norm_num
  · unfold resync_cfg1
    norm_num
  · rw [out_of_bounds_iff _ _ (by decide) (by decide)]
    intro h
    have h4 : ((|(13230 : Int)| : Int) : ℚ) > (13230 : ℚ) := h.2.2.2
    norm_num at h4
  · rw [out_of_bounds_iff _ _ (by decide) (by decide)]
    refine ⟨rfl, by decide, ?_, ?_⟩
    · show (5404319552844595 / 18014398509481984 : ℚ) > 0
      norm_num
    · show ((|(13231 : Int)| : Int) : ℚ) > (13230 : ℚ)
      norm_num

/-- Three late frames, a silent frame and a fourth late frame: the silent frame leaves
the counter at 3, and the late frame after it is answered with a flush target. -/
theorem resync_example :
    counter_after resync_cfg0 [late_frame 20, late_frame 21, late_frame 22] = 3 ∧
    counter_after resync_cfg0
      [late_frame 20, late_frame 21, late_frame 22, silent_frame 23] = 3 ∧
    play_frame resync_cfg0 3 (late_frame 24) = ⟨0, 0, .flush_target 101000⟩ := by
  have e1 : counter_after resync_cfg0 [late_frame 20, late_frame 21, late_frame 22] = 3 := by
    rw [(counter_after_streak resync_cfg0 _).2]
    simp [oob_streak, late_frame_out_of_bounds]
    decide
  have h0 : (0 : ℚ) ≤ resync_cfg0.threshold_frames := by
    show (0 : ℚ) ≤ 2205
    norm_num
  refine ⟨e1, ?_, ?_⟩
  · have := counter_after_append resync_cfg0
      [late_frame 20, late_frame 21, late_frame 22] (silent_frame 23)
    rw [e1, play_frame_counter _ _ _ (by decide) (by decide),
      if_neg (silent_frame_unchecked 23)] at this
    exact this
  · rw [play_frame_hard _ _ (by decide) (late_frame_out_of_bounds 24),
      (hard_correction_spec _ _ _ (late_frame_out_of_bounds 24) h0
        (by rw [filler_length_cfg0]; decide) (by decide) (by decide)).2.1 (by decide)]
    rfl

/-- C15, amended: at the start of every iteration the counter `sync_error_out_of_bounds`
is between 0 and 3 and is the number of out-of-bounds frames in a row, among the frames
whose sync was checked, modulo 4. A frame whose sync is not checked (a silent frame, one
of the first nine after a flush, or one without a delay reading) leaves the counter alone
and gets no hard correction; a checked frame in bounds resets the counter to 0 and is
played; a checked frame out of bounds is played and counted while the counter stays at or
below 3; on the fourth the counter goes back to 0 and the hard correction is made: a flush
target of `given_timestamp + sync_error / output_sample_ratio` for a positive `sync_error`,
a silence of `min(-sync_error, 5 * filler_length)` frames for a negative one, played if it
can be allocated, with `play_number_after_flush` reset. So a hard correction is made
exactly on a checked out-of-bounds frame that completes a row of four. A frame is out of
bounds when sync is enabled, its timestamp is not 0, `resyncthreshold > 0` and
`|sync_error|` exceeds the `double` product `resyncthreshold * output_rate`, which is the
exact product up to one part in `2^53`. The values are those for which the C arithmetic
is defined and the conversion of `sync_error` to `double` exact: five times the integer
part of the product fits an `int64_t`, `output_sample_ratio` is positive, and the frames
are in range. -/
theorem C15_hard_correction (cfg : resync_config) (before : List played_frame)
    (f : played_frame)
    (h_product : is_double_product cfg)
    (h_filler : filler_length cfg * 5 < 9223372036854775808)
    (_h_ratio : 0 < cfg.output_sample_ratio)
    (_h_before : ∀ g ∈ before, frame_in_range g)
    (_h_range : frame_in_range f)
    (h_lo : -9007199254740992 ≤ f.sync_error)
    (h_hi : f.sync_error ≤ 9007199254740992) :
    (0 ≤ counter_after cfg before ∧ counter_after cfg before ≤ 3) ∧
    counter_after cfg before = ((oob_streak cfg before.reverse % 4 : Nat) : Int) ∧
    (out_of_bounds cfg f ↔
      cfg.no_sync = 0 ∧ f.given_timestamp ≠ 0 ∧ cfg.resyncthreshold > 0 ∧
        ((|f.sync_error| : Int) : ℚ) > cfg.threshold_frames) ∧
    (out_of_bounds cfg f →
      ((|f.sync_error| : Int) : ℚ)
        > cfg.resyncthreshold * cfg.output_rate * (1 - 1 / 9007199254740992)) ∧
    (cfg.no_sync = 0 → f.given_timestamp ≠ 0 → cfg.resyncthreshold > 0 →
      ((|f.sync_error| : Int) : ℚ)
        > cfg.resyncthreshold * cfg.output_rate * (1 + 1 / 9007199254740992) →
      out_of_bounds cfg f) ∧
    (¬ sync_checked f →
      (play_frame cfg (counter_after cfg before) f).sync_error_out_of_bounds
        = counter_after cfg before ∧
      is_hard_correction (play_frame cfg (counter_after cfg before) f).action = false) ∧
    (sync_checked f → ¬ out_of_bounds cfg f →
      (play_frame cfg (counter_after cfg before) f).sync_error_out_of_bounds = 0 ∧
      (play_frame cfg (counter_after cfg before) f).action = .played) ∧
    (sync_checked f → out_of_bounds cfg f → counter_after cfg before < 3 →
      (play_frame cfg (counter_after cfg before) f).sync_error_out_of_bounds
        = counter_after cfg before + 1 ∧
      (play_frame cfg (counter_after cfg before) f).action = .played) ∧
    (sync_checked f → out_of_bounds cfg f → counter_after cfg before = 3 →
      (play_frame cfg (counter_after cfg before) f).sync_error_out_of_bounds = 0 ∧
      (play_frame cfg (counter_after cfg before) f).play_number_after_flush = 0 ∧
      is_hard_correction (play_frame cfg (counter_after cfg before) f).action = true ∧
      f.sync_error ≠ 0 ∧
      (0 < f.sync_error →
        (play_frame cfg (counter_after cfg before) f).action
          = .flush_target
              ((f.given_timestamp
                + (Int.tdiv f.sync_error cfg.output_sample_ratio % 4294967296).toNat)
                % 4294967296)) ∧
      (f.sync_error < 0 →
        (play_frame cfg (counter_after cfg before) f).action
          = if f.malloc_ok = true then
              .long_silence (if -f.sync_error > filler_length cfg * 5 then
                filler_length cfg * 5 else -f.sync_error)
            else
              .no_silence (if -f.sync_error > filler_length cfg * 5 then
                filler_length cfg * 5 else -f.sync_error))) ∧
    (is_hard_correction (play_frame cfg (counter_after cfg before) f).action = true ↔
      sync_checked f ∧ out_of_bounds cfg f ∧
        oob_streak cfg (f :: before.reverse) % 4 = 0) := by
  obtain ⟨⟨c0, c3⟩, cs⟩ := counter_after_streak cfg before
  have hcount := play_frame_counter cfg (counter_after cfg before) f c0 c3
  obtain ⟨n1, n2⟩ := play_frame_no_correction cfg (counter_after cfg before) f c0 c3
  have hfour : sync_checked f → out_of_bounds cfg f → counter_after cfg before = 3 →
      (play_frame cfg (counter_after cfg before) f).sync_error_out_of_bounds = 0 ∧
      (play_frame cfg (counter_after cfg before) f).play_number_after_flush = 0 ∧
      is_hard_correction (play_frame cfg (counter_after cfg before) f).action = true ∧
      f.sync_error ≠ 0 ∧
      (0 < f.sync_error →
        (play_frame cfg (counter_after cfg before) f).action
          = .flush_target
              ((f.given_timestamp
                + (Int.tdiv f.sync_error cfg.output_sample_ratio % 4294967296).toNat)
                % 4294967296)) ∧
      (f.sync_error < 0 →
        (play_frame cfg (counter_after cfg before) f).action
          = if f.malloc_ok = true then
              .long_silence (if -f.sync_error > filler_length cfg * 5 then
                filler_length cfg * 5 else -f.sync_error)
            else
              .no_silence (if -f.sync_error > filler_length cfg * 5 then
                filler_length cfg * 5 else -f.sync_error)) := by
    intro hk ho h3
    have h_thr := (threshold_frames_bounds cfg h_product ho.2.2.1).1
    obtain ⟨z, p, q⟩ := hard_correction_spec cfg f
      (to_int32 (f.play_number_after_flush + 1)) ho h_thr h_filler h_lo h_hi
    rw [h3, play_frame_hard cfg f hk ho]
    by_cases hpos : 0 < f.sync_error
    · rw [p hpos]
      exact ⟨rfl, rfl, rfl, z, fun _ => rfl, fun h => by omega⟩
    · have hneg : f.sync_error < 0 := by omega
      rw [q hneg]
      refine ⟨rfl, rfl, ?_, z, fun h => by omega, fun _ => rfl⟩
      show is_hard_correction (if f.malloc_ok = true then _ else _) = true
      split_ifs <;> rfl
  have hiff := out_of_bounds_iff cfg f h_lo h_hi
  refine ⟨⟨c0, c3⟩, cs, hiff, ?_, ?_, ?_, ?_, ?_, hfour, ?_⟩
  · intro ho
    have hb := (threshold_frames_bounds cfg h_product ho.2.2.1).2.1
    exact lt_of_le_of_lt hb (hiff.mp ho).2.2.2
  · intro h1 h2 h3 h4
    have hb := (threshold_frames_bounds cfg h_product h3).2.2
    exact hiff.mpr ⟨h1, h2, h3, lt_of_le_of_lt hb h4⟩
  · intro hk
    rw [hcount, if_neg hk]
    exact ⟨rfl, n1 hk⟩
  · intro hk ho
    rw [hcount, if_pos hk, if_neg ho]
    exact ⟨rfl, n2 hk (Or.inl ho)⟩
  · intro hk ho h3
    rw [hcount, if_pos hk, if_pos ho, if_neg (by omega)]
    exact ⟨rfl, n2 hk (Or.inr h3)⟩
  · have hs : oob_streak cfg (f :: before.reverse)
        = if sync_checked f then
            if out_of_bounds cfg f then oob_streak cfg before.reverse + 1 else 0
          else oob_streak cfg before.reverse := rfl
    constructor
    · intro hh
      by_cases hk : sync_checked f
      · by_cases ho : out_of_bounds cfg f
        · by_cases h3 : counter_after cfg before = 3
          · refine ⟨hk, ho, ?_⟩
            rw [hs, if_pos hk, if_pos ho]
            omega
          · rw [n2 hk (Or.inr (by omega))] at hh
            cases hh
        · rw [n2 hk (Or.inl ho)] at hh
          cases hh
      · rw [n1 hk] at hh
        cases hh
    · rintro ⟨hk, ho, h4⟩
      rw [hs, if_pos hk, if_pos ho] at h4
      exact (hfour hk ho (by omega)).2.2.1

theorem resync_frames_in_range :
    ∀ g ∈ [late_frame 20, late_frame 21, late_frame 22, silent_frame 23],
      frame_in_range g := by
  decide

/-- C15 on three late frames, a silent frame and a fourth late frame: the counter is 3
when the fourth late frame arrives, and that frame is answered with a flush target 100,000
frames ahead. -/
theorem C15_witness :
    (is_double_product resync_cfg0 ∧
      filler_length resync_cfg0 * 5 < 9223372036854775808 ∧
      0 < resync_cfg0.output_sample_ratio ∧
      (∀ g ∈ [late_frame 20, late_frame 21, late_frame 22, silent_frame 23],
        frame_in_range g) ∧
      frame_in_range (late_frame 24) ∧
      -9007199254740992 ≤ (late_frame 24).sync_error ∧
      (late_frame 24).sync_error ≤ 9007199254740992) ∧
    counter_after resync_cfg0
      [late_frame 20, late_frame 21, late_frame 22, silent_frame 23] = 3 ∧
    (play_frame resync_cfg0
        (counter_after resync_cfg0
          [late_frame 20, late_frame 21, late_frame 22, silent_frame 23])
        (late_frame 24)).sync_error_out_of_bounds = 0 ∧
    (play_frame resync_cfg0
        (counter_after resync_cfg0
          [late_frame 20, late_frame 21, late_frame 22, silent_frame 23])
        (late_frame 24)).action = .flush_target 101000 :=
  have h0 : is_double_product resync_cfg0 := resync_cfg0_is_double_product
  have h5 : filler_length resync_cfg0 * 5 < 9223372036854775808 := by
    rw [filler_length_cfg0]; decide
  ⟨⟨h0, h5, by decide, resync_frames_in_range, by decide, by decide, by decide⟩,
   resync_example.2.1,
   ((C15_hard_correction resync_cfg0
      [late_frame 20, late_frame 21, late_frame 22, silent_frame 23] (late_frame 24)
      h0 h5 (by decide) resync_frames_in_range (by decide) (by decide)
      (by decide)).2.2.2.2.2.2.2.2.1
        (by decide) (late_frame_out_of_bounds 24) resync_example.2.1).1,
   ((C15_hard_correction resync_cfg0
      [late_frame 20, late_frame 21, late_frame 22, silent_frame 23] (late_frame 24)
      h0 h5 (by decide) resync_frames_in_range (by decide) (by decide)
      (by decide)).2.2.2.2.2.2.2.2.1
        (by decide) (late_frame_out_of_bounds 24) resync_example.2.1).2.2.2.2.1
        (by decide)⟩

/-- C15 as stated fails: after three out-of-bounds frames a silent frame, which is not
out of bounds, leaves the counter at 3 instead of resetting it to 0, and the next
out-of-bounds frame is answered with a hard correction although it is the first
out-of-bounds frame after the silent one. -/
theorem C15_counterexample :
    ¬ out_of_bounds resync_cfg0 (silent_frame 23) ∧
    counter_after resync_cfg0 [late_frame 20, late_frame 21, late_frame 22] = 3 ∧
    (play_frame resync_cfg0 3 (silent_frame 23)).sync_error_out_of_bounds = 3 ∧
    (play_frame resync_cfg0 3 (silent_frame 23)).action = .silent_frame ∧
    (play_frame resync_cfg0
        (play_frame resync_cfg0 3 (silent_frame 23)).sync_error_out_of_bounds
        (late_frame 24)).action = .flush_target 101000 := by
  have h3 : (play_frame resync_cfg0 3 (silent_frame 23)).sync_error_out_of_bounds = 3 := rfl
  refine ⟨silent_frame_in_bounds 23, resync_example.1, h3, rfl, ?_⟩
  rw [h3, resync_example.2.2]

/-- C21, the failing input: 32767 positions after the base the code returns -32769, where
the comment inside `ORDINATE` (subtract when the result is greater than 32767) and the
claimed interval give 32767; the value is not above -32768. -/
theorem C21_counterexample :
    ORDINATE 32767 0 = -32769 ∧ ¬ (-32768 < ORDINATE 32767 0) ∧
    ORDINATE_documented 32767 0 = 32767 ∧
    ORDINATE 32767 0 ≠ ORDINATE_documented 32767 0 := by
  decide

/-- C21, the code against its comment: `ORDINATE(x, base)` is congruent to `x - base`
modulo 65536, as is the function the comment describes; the two agree except where
`(x - base) mod 65536` is 32767, the one value the test `t >= 32767` treats differently from
"greater than 32767": there the code returns -32769 and the comment asks for 32767. So the
code's values lie between -32769 and 32766 and those of the documented function between
-32768 and 32767. `seq_diff(a, b, base)` is the difference of the two ordinates and
`seq_order(a, b, base)` holds exactly when that difference is positive. -/
theorem C21_ordinate_range (x base a b : Nat) :
    (ORDINATE x base - ((x : Int) - (base : Int))) % 65536 = 0 ∧
    (ORDINATE_documented x base - ((x : Int) - (base : Int))) % 65536 = 0 ∧
    (((x : Int) - (base : Int)) % 65536 ≠ 32767 →
      ORDINATE x base = ORDINATE_documented x base) ∧
    (((x : Int) - (base : Int)) % 65536 = 32767 →
      ORDINATE x base = -32769 ∧ ORDINATE_documented x base = 32767) ∧
    (-32769 ≤ ORDINATE x base ∧ ORDINATE x base ≤ 32766) ∧
    (-32768 ≤ ORDINATE_documented x base ∧ ORDINATE_documented x base ≤ 32767) ∧
    ORDINATE x base
      = (if ((x : Int) - (base : Int)) % 65536 ≥ 32767
         then ((x : Int) - (base : Int)) % 65536 - 65536
         else ((x : Int) - (base : Int)) % 65536) ∧
    seq_diff a b base = ORDINATE b base - ORDINATE a base ∧
    (seq_order a b base = true ↔ seq_diff a b base > 0) := by
  refine ⟨?_, ?_, ?_, ?_, ⟨?_, ?_⟩, ⟨?_, ?_⟩, ?_, rfl, ?_⟩
  · unfold ORDINATE
    simp only
    split_ifs <;> omega
  · unfold ORDINATE_documented
    simp only
    split_ifs <;> omega
  · intro h
    unfold ORDINATE ORDINATE_documented
    simp only
    split_ifs <;> omega
  · intro h
    unfold ORDINATE ORDINATE_documented
    simp only
    constructor <;> split_ifs <;> omega
  · unfold ORDINATE
    simp only
    split_ifs <;> omega
  · unfold ORDINATE
    simp only
    split_ifs <;> omega
  · unfold ORDINATE_documented
    simp only
    split_ifs <;> omega
  · unfold ORDINATE_documented
    simp only
    split_ifs <;> omega
  · unfold ORDINATE
    simp only
    split_ifs <;> omega
  · unfold seq_order seq_diff
    exact decide_eq_true_iff

/-- An iteration that leaves the buffer synced keeps the write cursor and every slot's
sequence number, keeps the ring index of the read cursor, and leaves `curframe` null
or at the slot of the read cursor. -/
theorem buffer_get_frame_iter_keeps (cfg : config_t) (e : iter_env) (c : rtsp_conn_info)
    (loc : get_locals) (h : (buffer_get_frame_iter cfg e c loc).conn.ab_synced ≠ 0) :
    c.ab_synced ≠ 0 ∧
    (buffer_get_frame_iter cfg e c loc).conn.ab_write = c.ab_write ∧
    BUFIDX (buffer_get_frame_iter cfg e c loc).conn.ab_read = BUFIDX c.ab_read ∧
    (∀ i, ((buffer_get_frame_iter cfg e c loc).conn.audio_buffer i).sequence_number
      = (c.audio_buffer i).sequence_number) ∧
    ((buffer_get_frame_iter cfg e c loc).loc.curframe = none ∨
      (buffer_get_frame_iter cfg e c loc).loc.curframe
        = some (BUFIDX (buffer_get_frame_iter cfg e c loc).conn.ab_read)) := by
  rcases buffer_get_frame_iter_frame cfg e c loc with ⟨h1, _⟩ | ⟨hs, _, hk, _, hcf, _⟩
  · exact absurd h1 h
  · obtain ⟨k1, k2, k3, _⟩ := get_check_output_frame cfg e c
    obtain ⟨r1, r2, r3, _, _, _⟩ := hk
    obtain ⟨s1, _, _, _, _, _, _, s8, s9⟩ := get_select_frame (get_check_output cfg e c)
    obtain ⟨_, _, _, _, _, _, _, _, a9, _⟩ := get_alias_frame (get_check_output cfg e c)
      ((get_check_output cfg e c).audio_buffer (BUFIDX (get_check_output cfg e c).ab_read))
    have hidx : BUFIDX (get_select (get_check_output cfg e c)).1.ab_read = BUFIDX c.ab_read := by
      rw [s8]
      split_ifs
      · rw [a9, k2]
      · rw [k2]
    refine ⟨hs, by rw [r3, s1, k3], by rw [r2, hidx], ?_, ?_⟩
    · intro i
      rw [r1]
      rcases s9 with ⟨_, hb⟩ | ⟨_, hb, _⟩
      · rw [hb, k1]
      · rw [hb, k1]
        unfold set_slot
        split_ifs with hi
        · rw [hi, k2]
        · rfl
    · rw [hcf, r2, hidx]
      rcases s9 with ⟨hc, _⟩ | ⟨hc, _⟩
      · right
        rw [hc, k2]
      · left
        exact hc

/-- The state in which the loop of `buffer_get_frame` ends: synced, not buffering, not
empty, with the write cursor and the slots' sequence numbers it started with, the read
cursor in the slot it started in, and `curframe` null or at the slot of the read cursor. -/
theorem buffer_get_frame_loop_end (cfg : config_t) (envs : List iter_env) :
    ∀ (c : rtsp_conn_info) (loc : get_locals) (r : rtsp_conn_info × get_locals),
      buffer_get_frame_loop cfg envs c loc = some r →
      r.1.ab_synced ≠ 0 ∧ r.1.ab_buffering = 0 ∧ r.1.ab_read ≠ r.1.ab_write ∧
      c.ab_synced ≠ 0 ∧ r.1.ab_write = c.ab_write ∧
      BUFIDX r.1.ab_read = BUFIDX c.ab_read ∧
      (∀ i, (r.1.audio_buffer i).sequence_number = (c.audio_buffer i).sequence_number) ∧
      (r.2.curframe = none ∨ r.2.curframe = some (BUFIDX r.1.ab_read)) := by
  induction envs with
  | nil => intro c loc r h; cases h
  | cons e es ih =>
    intro c loc r h
    unfold buffer_get_frame_loop at h
    simp only at h
    cases hw : (buffer_get_frame_iter cfg e c loc).wait
    · rw [hw] at h
      simp only [Bool.false_eq_true, if_false, Option.some.injEq] at h
      rcases buffer_get_frame_iter_frame cfg e c loc with ⟨_, h2⟩ | ⟨hs, _, hk, _, _, hend⟩
      · rw [hw] at h2
        cases h2
      · obtain ⟨e1, e2⟩ := hend hw
        have hsy : (buffer_get_frame_iter cfg e c loc).conn.ab_synced ≠ 0 := by
          obtain ⟨_, _, _, r4, _, _⟩ := hk
          rw [r4, (get_select_frame _).2.1, (get_check_output_frame cfg e c).2.2.2.1]
          exact hs
        obtain ⟨_, k2, k3, k4, k5⟩ := buffer_get_frame_iter_keeps cfg e c loc hsy
        rw [← h]
        exact ⟨hsy, e1, e2, hs, k2, k3, k4, k5⟩
    · rw [hw] at h
      simp only [if_true] at h
      obtain ⟨i1, i2, i3, i4, i5, i6, i7, i8⟩ := ih _ _ r h
      obtain ⟨k1, k2, k3, k4, _⟩ := buffer_get_frame_iter_keeps cfg e c loc i4
      exact ⟨i1, i2, i3, k1, i5.trans k2, i6.trans k3, fun i => (i7 i).trans (k4 i), i8⟩

theorem get_release_ab_write (c : rtsp_conn_info) (cf : Option Nat) :
    (get_release c cf).1.ab_write = c.ab_write := by
  unfold get_release
  cases cf with
  | none => rfl
  | some i =>
    simp only
    split_ifs <;> rfl

/-- C24: the last step of an iteration sets the flag `wait` whenever the buffer is
unsynced, still buffering or empty, and so does every iteration that ends in such a
state; a call that returns therefore releases from a state `c` with `ab_synced` set,
`ab_buffering` clear and `ab_read != ab_write`, moves the read cursor to its successor
and leaves the write cursor, so the occupancy `(ab_write - ab_read) mod 2^16` goes down
by one from a value of at least 1 and is not 65535 afterwards. -/
theorem C24_never_consumes_empty (cfg : config_t) (envs : List iter_env)
    (conn : rtsp_conn_info) (r : rtsp_conn_info × Option Nat)
    (h : buffer_get_frame cfg envs conn = some r) :
    (∀ (e : iter_env) (c : rtsp_conn_info) (loc : get_locals),
      (c.ab_synced = 0 ∨ c.ab_buffering ≠ 0 ∨ c.ab_read = c.ab_write) →
      (get_decide_wait cfg e c loc).wait = true) ∧
    (∀ (e : iter_env) (c : rtsp_conn_info) (loc : get_locals),
      ((buffer_get_frame_iter cfg e c loc).conn.ab_synced = 0 ∨
        (buffer_get_frame_iter cfg e c loc).conn.ab_buffering ≠ 0 ∨
        (buffer_get_frame_iter cfg e c loc).conn.ab_read
          = (buffer_get_frame_iter cfg e c loc).conn.ab_write) →
      (buffer_get_frame_iter cfg e c loc).wait = true) ∧
    (∃ (c : rtsp_conn_info) (loc : get_locals),
      buffer_get_frame_loop cfg envs conn ⟨none, 0⟩ = some (c, loc) ∧
      r = get_release c loc.curframe ∧
      c.ab_synced ≠ 0 ∧ c.ab_buffering = 0 ∧ c.ab_read ≠ c.ab_write ∧
      r.1.ab_read = SUCCESSOR c.ab_read ∧ r.1.ab_write = c.ab_write ∧
      (c.ab_read < 65536 → c.ab_write < 65536 →
        1 ≤ (c.ab_write + 65536 - c.ab_read) % 65536 ∧
        (r.1.ab_write + 65536 - r.1.ab_read) % 65536
          = (c.ab_write + 65536 - c.ab_read) % 65536 - 1 ∧
        (r.1.ab_write + 65536 - r.1.ab_read) % 65536 ≠ 65535)) := by
  refine ⟨?_, ?_, ?_⟩
  · intro e c loc hc
    cases hw : (get_decide_wait cfg e c loc).wait
    · obtain ⟨w1, w2, w3, _⟩ := (get_decide_wait_frame cfg e c loc).2.2.2.2.2.2.2.2.2.2 hw
      rcases hc with hc | hc | hc
      · exact absurd hc w2
      · exact absurd w1 hc
      · exact absurd hc w3
    · rfl
  · intro e c loc hc
    cases hw : (buffer_get_frame_iter cfg e c loc).wait
    · rcases buffer_get_frame_iter_frame cfg e c loc with ⟨_, h2⟩ | ⟨hs, _, hk, _, _, hend⟩
      · rw [hw] at h2
        cases h2
      · obtain ⟨e1, e2⟩ := hend hw
        obtain ⟨_, _, _, r4, _, _⟩ := hk
        have hsy : (buffer_get_frame_iter cfg e c loc).conn.ab_synced ≠ 0 := by
          rw [r4, (get_select_frame _).2.1, (get_check_output_frame cfg e c).2.2.2.1]
          exact hs
        rcases hc with hc | hc | hc
        · exact absurd hc hsy
        · exact absurd e1 hc
        · exact absurd hc e2
    · rfl
  · unfold buffer_get_frame at h
    cases hl : buffer_get_frame_loop cfg envs conn ⟨none, 0⟩ with
    | none => rw [hl] at h; cases h
    | some q =>
      rw [hl] at h
      simp only [Option.some.injEq] at h
      obtain ⟨i1, i2, i3, _⟩ := buffer_get_frame_loop_end cfg envs conn ⟨none, 0⟩ q hl
      have hr := get_release_ab_read q.1 q.2.curframe
      have hw := get_release_ab_write q.1 q.2.curframe
      rw [h] at hr hw
      refine ⟨q.1, q.2, rfl, h.symm, i1, i2, i3, hr, hw, ?_⟩
      intro b1 b2
      rw [hr, hw]
      unfold SUCCESSOR
      omega

/-- C24 at a concrete call: a playing connection with the cursors at 3 and 9; the call
returns with the read cursor at 4 and an occupancy of 5. -/
theorem C24_witness :
    buffer_get_frame cfg0 [env0 1000 1000] (conn_playing 3 9 (buf_one 3 (slot_ready 3 500)))
      = some (get_release (buffer_get_frame_iter cfg0 (env0 1000 1000)
          (conn_playing 3 9 (buf_one 3 (slot_ready 3 500))) ⟨none, 0⟩).conn (some 3)) ∧
    (∀ (e : iter_env) (c : rtsp_conn_info) (loc : get_locals),
      (c.ab_synced = 0 ∨ c.ab_buffering ≠ 0 ∨ c.ab_read = c.ab_write) →
      (get_decide_wait cfg0 e c loc).wait = true) ∧
    (get_release (buffer_get_frame_iter cfg0 (env0 1000 1000)
      (conn_playing 3 9 (buf_one 3 (slot_ready 3 500))) ⟨none, 0⟩).conn (some 3)).1.ab_read
      = 4 :=
  have h0 : buffer_get_frame cfg0 [env0 1000 1000]
      (conn_playing 3 9 (buf_one 3 (slot_ready 3 500)))
      = some (get_release (buffer_get_frame_iter cfg0 (env0 1000 1000)
          (conn_playing 3 9 (buf_one 3 (slot_ready 3 500))) ⟨none, 0⟩).conn (some 3)) := by
    rfl
  ⟨h0, (C24_never_consumes_empty cfg0 [env0 1000 1000]
    (conn_playing 3 9 (buf_one 3 (slot_ready 3 500))) _ h0).1, by decide⟩

/-- The aliasing check on its own: it moves the read cursor to the slot's sequence
number exactly when that number differs from the cursor, has the same ring index and is
after the cursor, and otherwise leaves the state as it is. -/
theorem get_alias_eq (c : rtsp_conn_info) (slot : abuf_t) :
    (slot.sequence_number ≠ c.ab_read → BUFIDX slot.sequence_number = BUFIDX c.ab_read →
      seq_order c.ab_read slot.sequence_number c.ab_read = true →
      get_alias c slot = { c with ab_read := slot.sequence_number }) ∧
    ((BUFIDX slot.sequence_number ≠ BUFIDX c.ab_read ∨
        seq_order c.ab_read slot.sequence_number c.ab_read = false) →
      get_alias c slot = c) := by
  constructor
  · intro h1 h2 h3
    unfold get_alias
    rw [if_pos h1, if_pos h2, if_pos h3]
  · intro h
    unfold get_alias
    split_ifs with h1 h2 h3
    · rcases h with h | h
      · exact absurd h2 h
      · rw [h] at h3
        cases h3
    · rfl
    · rfl
    · rfl

/-- C23: for a call of `buffer_get_frame` that returns, started with the slot at the
read cursor ready and holding a sequence number `s` different from the read cursor: if
`s` has the ring index of the read cursor and is after it, the aliasing check sets the
read cursor to `s`, the loop ends with the read cursor at `s`, the frame handed out (if
any) is the slot of `s` and holds sequence number `s`, and the read cursor after the
call is `SUCCESSOR(s)`; if the ring indices differ or `s` is not after the read cursor,
the check changes nothing and the read cursor after the call is the successor of the
one before. -/
theorem C23_aliasing_corrected (cfg : config_t) (envs : List iter_env)
    (conn : rtsp_conn_info) (r : rtsp_conn_info × Option Nat)
    (h : buffer_get_frame cfg envs conn = some r)
    (h_ready : (conn.audio_buffer (BUFIDX conn.ab_read)).ready ≠ 0)
    (h_differs : (conn.audio_buffer (BUFIDX conn.ab_read)).sequence_number ≠ conn.ab_read) :
    (BUFIDX (conn.audio_buffer (BUFIDX conn.ab_read)).sequence_number = BUFIDX conn.ab_read →
      seq_order conn.ab_read (conn.audio_buffer (BUFIDX conn.ab_read)).sequence_number
        conn.ab_read = true →
      get_alias conn (conn.audio_buffer (BUFIDX conn.ab_read))
        = { conn with
            ab_read := (conn.audio_buffer (BUFIDX conn.ab_read)).sequence_number } ∧
      (∃ (c : rtsp_conn_info) (loc : get_locals),
        buffer_get_frame_loop cfg envs conn ⟨none, 0⟩ = some (c, loc) ∧
        r = get_release c loc.curframe ∧
        c.ab_read = (conn.audio_buffer (BUFIDX conn.ab_read)).sequence_number ∧
        (∀ i, loc.curframe = some i →
          i = BUFIDX c.ab_read ∧ (c.audio_buffer i).sequence_number = c.ab_read)) ∧
      r.1.ab_read = SUCCESSOR (conn.audio_buffer (BUFIDX conn.ab_read)).sequence_number) ∧
    ((BUFIDX (conn.audio_buffer (BUFIDX conn.ab_read)).sequence_number ≠ BUFIDX conn.ab_read ∨
        seq_order conn.ab_read (conn.audio_buffer (BUFIDX conn.ab_read)).sequence_number
          conn.ab_read = false) →
      get_alias conn (conn.audio_buffer (BUFIDX conn.ab_read)) = conn ∧
      r.1.ab_read = SUCCESSOR conn.ab_read) := by
  obtain ⟨al1, al2⟩ := get_alias_eq conn (conn.audio_buffer (BUFIDX conn.ab_read))
  unfold buffer_get_frame at h
  cases hl : buffer_get_frame_loop cfg envs conn ⟨none, 0⟩ with
  | none => rw [hl] at h; cases h
  | some q =>
    rw [hl] at h
    simp only [Option.some.injEq] at h
    obtain ⟨_, _, i3, _, i5, i6, i7, i8⟩ :=
      buffer_get_frame_loop_end cfg envs conn ⟨none, 0⟩ q hl
    have hq := buffer_get_frame_loop_read cfg envs conn ⟨none, 0⟩ q hl
    rw [get_select_read_eq] at hq
    have hne : conn.ab_read ≠ conn.ab_write := by
      intro heq
      have hna : read_cursor_aliased conn = false := by
        unfold read_cursor_aliased
        exact decide_eq_false (fun hc => hc.1 heq)
      rw [hna] at hq
      simp only [Bool.false_eq_true, if_false] at hq
      rw [hq, i5] at i3
      exact i3 heq
    have hr := get_release_ab_read q.1 q.2.curframe
    rw [h] at hr
    constructor
    · intro hidx hord
      have ha : read_cursor_aliased conn = true := by
        unfold read_cursor_aliased
        exact decide_eq_true ⟨hne, h_ready, h_differs, hidx, hord⟩
      rw [ha] at hq
      simp only [if_true] at hq
      refine ⟨al1 h_differs hidx hord, ⟨q.1, q.2, rfl, h.symm, hq, ?_⟩, by rw [hr, hq]⟩
      intro i hi
      rcases i8 with hc | hc
      · rw [hc] at hi
        cases hi
      · rw [hc] at hi
        simp only [Option.some.injEq] at hi
        refine ⟨hi.symm, ?_⟩
        rw [i7, ← hi, i6, hq]
    · intro hor
      have ha : read_cursor_aliased conn = false := by
        unfold read_cursor_aliased
        refine decide_eq_false (fun hc => ?_)
        rcases hor with h1 | h1
        · exact h1 hc.2.2.2.1
        · rw [h1] at hc
          exact absurd hc.2.2.2.2 (by decide)
      rw [ha] at hq
      simp only [Bool.false_eq_true, if_false] at hq
      exact ⟨al2 hor, by rw [hr, hq]⟩

/-- C23 at a concrete call: the read cursor is at 0, the write cursor at 1025, and slot
0 holds sequence number 1024; the call returns with the read cursor at 1025. -/
theorem C23_witness :
    buffer_get_frame cfg0 [env0 1000 1000]
        (conn_playing 0 1025 (buf_one 0 (slot_ready 1024 361448)))
      = some (get_release (buffer_get_frame_iter cfg0 (env0 1000 1000)
          (conn_playing 0 1025 (buf_one 0 (slot_ready 1024 361448))) ⟨none, 0⟩).conn
          (some 0)) ∧
    (get_release (buffer_get_frame_iter cfg0 (env0 1000 1000)
        (conn_playing 0 1025 (buf_one 0 (slot_ready 1024 361448))) ⟨none, 0⟩).conn
        (some 0)).1.ab_read = SUCCESSOR 1024 :=
  have h0 : buffer_get_frame cfg0 [env0 1000 1000]
      (conn_playing 0 1025 (buf_one 0 (slot_ready 1024 361448)))
      = some (get_release (buffer_get_frame_iter cfg0 (env0 1000 1000)
          (conn_playing 0 1025 (buf_one 0 (slot_ready 1024 361448))) ⟨none, 0⟩).conn
          (some 0)) := by
    rfl
  ⟨h0, ((C23_aliasing_corrected cfg0 [env0 1000 1000]
    (conn_playing 0 1025 (buf_one 0 (slot_ready 1024 361448))) _ h0
    (by decide) (by decide)).1 (by decide) (by decide)).2.2⟩

theorem ORDINATE_self (r : Nat) : ORDINATE r r = 0 := by
  unfold ORDINATE
  simp only
  split_ifs <;> omega

/-- With the write cursor after the read cursor, the sequence number at the read cursor
is too late, and every sequence number that is not too late is after the read cursor. -/
theorem put_classify_at_read (c : rtsp_conn_info) (h : 0 < ORDINATE c.ab_write c.ab_read) :
    put_classify c c.ab_read = .too_late ∧
    ∀ s, put_classify c s ≠ .too_late → 0 < ORDINATE s c.ab_read := by
  have h0 := ORDINATE_self c.ab_read
  constructor
  · have hne : c.ab_write ≠ c.ab_read := by
      intro heq
      rw [heq, h0] at h
      exact absurd h (by decide)
    unfold put_classify seq_order
    rw [if_neg hne, h0, if_neg (by rw [decide_eq_true_eq]; omega),
      if_neg (by rw [decide_eq_true_eq]; omega)]
  · intro s hs
    unfold put_classify seq_order at hs
    rw [h0] at hs
    by_cases h1 : c.ab_write = s
    · rw [← h1]
      exact h
    · rw [if_neg h1] at hs
      by_cases h2 : ORDINATE s c.ab_read - ORDINATE c.ab_write c.ab_read > 0
      · omega
      · rw [if_neg (by rw [decide_eq_true_eq]; exact h2)] at hs
        by_cases h3 : ORDINATE s c.ab_read - 0 > 0
        · omega
        · rw [if_neg (by rw [decide_eq_true_eq]; exact h3)] at hs
          exact absurd rfl hs

/-- C26 as stated fails: with the read cursor at 0 and the write cursor at 32767 (where a
packet 32766 leaves it), the buffer is synced and not empty, yet a packet with sequence
number 0 is taken for a newer packet: `too_late_packets` is not incremented and the write
cursor is set to 1. -/
theorem C26_counterexample :
    (conn_playing 0 32767 (fun _ => slot0)).ab_synced ≠ 0 ∧
    (conn_playing 0 32767 (fun _ => slot0)).ab_read
      ≠ (conn_playing 0 32767 (fun _ => slot0)).ab_write ∧
    (pkt 0 1000).seqno = (conn_playing 0 32767 (fun _ => slot0)).ab_read ∧
    put_classify (conn_playing 0 32767 (fun _ => slot0)) 0 = .newer ∧
    (player_put_packet cfg0 codec0 (conn_playing 0 32767 (fun _ => slot0))
      (pkt 0 1000)).too_late_packets = 0 ∧
    (player_put_packet cfg0 codec0 (conn_playing 0 32767 (fun _ => slot0))
      (pkt 0 1000)).ab_write = 1 := by
  have hcl : put_classify (conn_playing 0 32767 (fun _ => slot0)) 0 = .newer := by decide
  have hreach : put_reaches_buffer (conn_playing 0 32767 (fun _ => slot0)) (pkt 0 1000)
      = true := by decide
  have hsy : (conn_playing 0 32767 (fun _ => slot0)).ab_synced ≠ 0 := by decide
  refine ⟨hsy, by decide, rfl, hcl, ?_, ?_⟩
  · have hb := (put_buffer_prep codec0 (conn_playing 0 32767 (fun _ => slot0)) (pkt 0 1000)
      hsy).2.2.2
    rw [show (pkt 0 1000).seqno = 0 from rfl, hcl] at hb
    rw [(player_put_packet_content cfg0 codec0 _ _ hreach).2.2.2, hb.2.2.2]
    rfl
  · rw [(player_put_packet_cursors cfg0 codec0 _ (pkt 0 1000) hsy).2,
      if_pos ⟨hreach, Or.inr hcl⟩]
    rfl

/-- C26, amended: on a synced buffer whose write cursor is after the read cursor
(`ORDINATE(ab_write, ab_read) > 0`, so at most 32766 ahead), a packet that reaches the
buffer with the sequence number of the read cursor is too late: `too_late_packets` is
incremented by one (modulo `2^64`), `late_packets` and both cursors are unchanged and no
slot changes its content, whatever the slot at the read cursor holds; and a sequence
number that is not too late, so that its packet is stored, is strictly after the read
cursor. -/
theorem C26_packet_at_read_cursor (cfg : config_t) (codec : codec_t) (conn : rtsp_conn_info)
    (p : packet_t)
    (h_synced : conn.ab_synced ≠ 0)
    (h_reach : put_reaches_buffer conn p = true)
    (h_seq : p.seqno = conn.ab_read)
    (h_ahead : 0 < ORDINATE conn.ab_write conn.ab_read) :
    conn.ab_read ≠ conn.ab_write ∧
    put_classify conn p.seqno = .too_late ∧
    (put_place conn p).2 = none ∧
    (player_put_packet cfg codec conn p).too_late_packets
      = (conn.too_late_packets + 1) % 18446744073709551616 ∧
    (player_put_packet cfg codec conn p).late_packets = conn.late_packets ∧
    (player_put_packet cfg codec conn p).ab_read = conn.ab_read ∧
    (player_put_packet cfg codec conn p).ab_write = conn.ab_write ∧
    (∀ i, slot_content ((player_put_packet cfg codec conn p).audio_buffer i)
      = slot_content (conn.audio_buffer i)) ∧
    (∀ s, put_classify conn s ≠ .too_late → 0 < ORDINATE s conn.ab_read) := by
  obtain ⟨hcl, hall⟩ := put_classify_at_read conn h_ahead
  rw [← h_seq] at hcl
  have hne : conn.ab_read ≠ conn.ab_write := by
    intro heq
    rw [← heq, ORDINATE_self] at h_ahead
    exact absurd h_ahead (by decide)
  obtain ⟨_, c2, c3, c4⟩ := player_put_packet_content cfg codec conn p h_reach
  obtain ⟨d1, d2⟩ := player_put_packet_cursors cfg codec conn p h_synced
  have hb := (put_buffer_prep codec conn p h_synced).2.2.2
  rw [hcl] at hb
  obtain ⟨_, b2, b3, b4⟩ := hb
  refine ⟨hne, hcl, ?_, c4.trans b4, c3.trans b3, d1, ?_, ?_, hall⟩
  · unfold put_place
    rw [hcl]
  · rw [d2, if_neg]
    rintro ⟨_, h1 | h1⟩
    · rw [hcl] at h1
      cases h1
    · rw [hcl] at h1
      cases h1
  · intro i
    rw [c2 i, b2]

/-- C26 at a concrete call: the read cursor at 3, the write cursor at 9, slot 3 not yet
ready; a packet with sequence number 3 is counted as too late and not stored. -/
theorem C26_witness :
    (conn_playing 3 9 (fun _ => slot0)).ab_synced ≠ 0 ∧
    put_reaches_buffer (conn_playing 3 9 (fun _ => slot0)) (pkt 3 1000) = true ∧
    0 < ORDINATE (conn_playing 3 9 (fun _ => slot0)).ab_write
      (conn_playing 3 9 (fun _ => slot0)).ab_read ∧
    ((conn_playing 3 9 (fun _ => slot0)).audio_buffer (BUFIDX 3)).ready = 0 ∧
    (player_put_packet cfg0 codec0 (conn_playing 3 9 (fun _ => slot0))
      (pkt 3 1000)).too_late_packets
      = ((conn_playing 3 9 (fun _ => slot0)).too_late_packets + 1) % 18446744073709551616 :=
  ⟨by decide, by decide, by decide, by decide,
   (C26_packet_at_read_cursor cfg0 codec0 (conn_playing 3 9 (fun _ => slot0)) (pkt 3 1000)
      (by decide) (by decide) rfl (by decide)).2.2.2.1⟩

/-- With the output state unchanged, the back end running and no flush requested, the
first two steps of an iteration change nothing. -/
theorem get_flush_check_output_id (cfg : config_t) (e : iter_env) (c : rtsp_conn_info)
    (hrco : e.rco = c.connection_state_to_output)
    (hrun : cfg.output_has_is_running = false ∨ e.is_running = 0)
    (hfr : c.flush_requested ≠ 1) :
    get_flush (get_check_output cfg e c) = c := by
  have hnr : ¬ (cfg.output_has_is_running = true ∧ e.is_running ≠ 0) := by
    rintro ⟨h1, h2⟩
    rcases hrun with h | h
    · rw [h] at h1; cases h1
    · exact h2 h
  have hnc : ¬ (c.connection_state_to_output ≠ e.rco) := by
    rw [hrco]; simp
  have hco : get_check_output cfg e c = c := by
    unfold get_check_output
    simp only
    rw [if_neg hnr, if_neg hnc]
  rw [hco, get_flush_of_not_requested _ hfr]

/-- Without a flush target and with the slot at the read cursor holding the sequence
number of the read cursor, the selection step changes nothing. -/
theorem get_select_plain (c : rtsp_conn_info) (ht : c.flush_rtp_timestamp = 0)
    (hseq : (c.audio_buffer (BUFIDX c.ab_read)).sequence_number = c.ab_read) :
    get_select c = (c, some (BUFIDX c.ab_read)) := by
  have ha : get_alias c (c.audio_buffer (BUFIDX c.ab_read)) = c := by
    unfold get_alias
    rw [if_neg (not_not.mpr hseq)]
  have hd : flush_drops c (c.audio_buffer (BUFIDX c.ab_read)).given_timestamp = false := by
    unfold flush_drops
    exact decide_eq_false (fun h => h.1 ht)
  unfold get_select
  simp only
  by_cases h1 : c.ab_read ≠ c.ab_write ∧ (c.audio_buffer (BUFIDX c.ab_read)).ready ≠ 0
  · rw [if_pos h1, ha, hd]
    simp only [Bool.false_eq_true, if_false]
    rw [if_neg (fun h => h.1 ht)]
  · rw [if_neg h1]

/-- The first ready frame seen while buffering, when its play time has passed: the
timestamp and the play time are recorded and a flush is requested. -/
theorem get_first_frame_late (cfg : config_t) (e : iter_env) (c : rtsp_conn_info)
    (slot : abuf_t) (h_first : c.first_packet_timestamp = 0) (h_timing : e.have_timing = true)
    (h_late : e.local_time_now > e.frame_to_local_time
      (first_play_timestamp cfg
        { c with first_packet_timestamp := (slot.given_timestamp : Int) })) :
    get_first_frame cfg e c slot
      = (do_flush (((slot.given_timestamp : Int) + 5 * 4410) % 4294967296).toNat
          { c with
            first_packet_timestamp := (slot.given_timestamp : Int)
            first_packet_time_to_play := e.frame_to_local_time
              (first_play_timestamp cfg
                { c with first_packet_timestamp := (slot.given_timestamp : Int) }) }, 0) := by
  unfold get_first_frame
  simp only
  rw [if_pos ⟨h_first, h_timing⟩, if_pos h_late]

/-- The second timing check of the same iteration: it finds the start time passed and
ends the buffering state, unless the start time is 0. -/
theorem get_prefill_late (cfg : config_t) (e : iter_env) (c : rtsp_conn_info)
    (hs : Int)
    (h_same : e.frame_to_local_time (first_play_timestamp cfg c) = c.first_packet_time_to_play)
    (h_late : e.local_time_now > c.first_packet_time_to_play) :
    get_prefill cfg e c hs
      = if c.first_packet_time_to_play ≠ 0 then { c with ab_buffering := 0 } else c := by
  unfold get_prefill
  simp only
  by_cases h0 : c.first_packet_time_to_play ≠ 0
  · rw [if_pos h0, if_pos h0, h_same, if_pos h_late]
  · rw [if_neg h0, if_neg h0]

theorem get_do_wait_time_congr (cfg : config_t) (e : iter_env) (a b : rtsp_conn_info)
    (loc : get_locals) (h1 : b.audio_buffer = a.audio_buffer) (h2 : b.ab_synced = a.ab_synced)
    (h3 : b.latency = a.latency) :
    get_do_wait_time cfg e b loc = get_do_wait_time cfg e a loc := by
  unfold get_do_wait_time
  rw [h1, h2, h3]

/-- The state after the buffering logic when the first packet is late. -/
theorem first_frame_state_late (cfg : config_t) (e : iter_env) (conn : rtsp_conn_info)
    (h_first : conn.first_packet_timestamp = 0)
    (h_timing : e.have_timing = true)
    (h_late : e.local_time_now > first_frame_play_time cfg e conn) :
    (first_frame_state cfg e conn).flush_requested = 1 ∧
    (first_frame_state cfg e conn).flush_rtp_timestamp = late_flush_target conn ∧
    (first_frame_state cfg e conn).first_packet_timestamp
      = ((conn.audio_buffer (BUFIDX conn.ab_read)).given_timestamp : Int) ∧
    (first_frame_state cfg e conn).ab_buffering
      = (if first_frame_play_time cfg e conn ≠ 0 then 0 else conn.ab_buffering) ∧
    (first_frame_state cfg e conn).audio_buffer = conn.audio_buffer ∧
    (first_frame_state cfg e conn).ab_synced = conn.ab_synced ∧
    (first_frame_state cfg e conn).latency = conn.latency ∧
    (first_frame_state cfg e conn).ab_read = conn.ab_read ∧
    (first_frame_state cfg e conn).ab_write = conn.ab_write := by
  have hs : first_frame_state cfg e conn
      = if first_frame_play_time cfg e conn ≠ 0 then
          { do_flush (late_flush_target conn)
              { conn with
                first_packet_timestamp :=
                  ((conn.audio_buffer (BUFIDX conn.ab_read)).given_timestamp : Int)
                first_packet_time_to_play := first_frame_play_time cfg e conn }
            with ab_buffering := 0 }
        else
          do_flush (late_flush_target conn)
            { conn with
              first_packet_timestamp :=
                ((conn.audio_buffer (BUFIDX conn.ab_read)).given_timestamp : Int)
              first_packet_time_to_play := first_frame_play_time cfg e conn } := by
    unfold first_frame_state
    rw [get_first_frame_late cfg e conn _ h_first h_timing h_late]
    simp only
    rw [get_prefill_late cfg e _ 0 rfl h_late]
    rfl
  rw [hs]
  split_ifs <;> exact ⟨rfl, rfl, rfl, rfl, rfl, rfl, rfl, rfl, rfl⟩

/-- The iteration that sees a ready frame while buffering, step by step. -/
theorem buffer_get_frame_iter_buffering (cfg : config_t) (e : iter_env)
    (conn : rtsp_conn_info) (loc : get_locals)
    (h_rco : e.rco = conn.connection_state_to_output)
    (h_run : cfg.output_has_is_running = false ∨ e.is_running = 0)
    (h_no_flush : conn.flush_requested ≠ 1)
    (h_synced : conn.ab_synced ≠ 0)
    (h_no_target : conn.flush_rtp_timestamp = 0)
    (h_ready : (conn.audio_buffer (BUFIDX conn.ab_read)).ready ≠ 0)
    (h_seq : (conn.audio_buffer (BUFIDX conn.ab_read)).sequence_number = conn.ab_read)
    (h_buffering : conn.ab_buffering ≠ 0) :
    buffer_get_frame_iter cfg e conn loc
      = get_decide_wait cfg e (first_frame_state cfg e conn)
          ⟨some (BUFIDX conn.ab_read), 0⟩ := by
  unfold buffer_get_frame_iter
  simp only
  rw [get_flush_check_output_id cfg e conn h_rco h_run h_no_flush, if_pos h_synced,
    get_select_plain conn h_no_target h_seq]
  simp only
  unfold get_buffering
  simp only
  rw [if_pos h_ready, if_pos h_buffering]
  rfl

theorem get_decide_wait_first (cfg : config_t) (e : iter_env) (c : rtsp_conn_info)
    (loc : get_locals) :
    (get_decide_wait cfg e c loc).conn.first_packet_timestamp = c.first_packet_timestamp := by
  unfold get_decide_wait
  simp only
  split_ifs <;> rfl

set_option maxRecDepth 100000 in
/-- C22 as stated fails: a synced, buffering connection holds its first packet (sequence
number 7, timestamp 5000) at the read cursor, and the play time computed for it (1000)
is before the clock (1000000). The iteration requests the flush, but it also ends the
buffering state, and the call returns with the late frame handed out and the read cursor
moved on. -/
theorem C22_counterexample :
    conn_buffering.ab_buffering = 1 ∧ conn_buffering.first_packet_timestamp = 0 ∧
    (env0 1000000 1000).have_timing = true ∧
    (env0 1000000 1000).local_time_now
      > first_frame_play_time cfg0 (env0 1000000 1000) conn_buffering ∧
    (buffer_get_frame_iter cfg0 (env0 1000000 1000) conn_buffering
      ⟨none, 0⟩).conn.flush_requested = 1 ∧
    (buffer_get_frame_iter cfg0 (env0 1000000 1000) conn_buffering
      ⟨none, 0⟩).conn.flush_rtp_timestamp = 27050 ∧
    (buffer_get_frame_iter cfg0 (env0 1000000 1000) conn_buffering
      ⟨none, 0⟩).conn.ab_buffering = 0 ∧
    (buffer_get_frame_iter cfg0 (env0 1000000 1000) conn_buffering ⟨none, 0⟩).wait = false ∧
    (buffer_get_frame cfg0 [env0 1000000 1000] conn_buffering).map
      (fun r => (r.2, r.1.ab_read)) = some (some 7, 8) := by
  decide

/-- C22, amended: in an iteration of `buffer_get_frame` that starts synced and buffering
with no flush requested or pending, finds the slot at the read cursor ready as the first
packet with valid timing information, and computes for it a play time already earlier
than the clock: a flush is requested with target `first_packet_timestamp + 5 * 4410`
(mod `2^32`); the buffering state is kept only if the computed play time is 0, and is
ended otherwise by the second timing check of the same iteration; in that case the loop
ends exactly when the buffer is not empty and the frame's own release time has come, and
the call then hands the late frame out; the requested flush is carried out by the next
iteration, which leaves the buffer unsynced and buffering. -/
theorem C22_late_first_packet (cfg : config_t) (e : iter_env) (conn : rtsp_conn_info)
    (loc : get_locals)
    (h_rco : e.rco = conn.connection_state_to_output)
    (h_run : cfg.output_has_is_running = false ∨ e.is_running = 0)
    (h_no_flush : conn.flush_requested ≠ 1)
    (h_synced : conn.ab_synced ≠ 0)
    (h_no_target : conn.flush_rtp_timestamp = 0)
    (h_ready : (conn.audio_buffer (BUFIDX conn.ab_read)).ready ≠ 0)
    (h_seq : (conn.audio_buffer (BUFIDX conn.ab_read)).sequence_number = conn.ab_read)
    (h_buffering : conn.ab_buffering ≠ 0)
    (h_first : conn.first_packet_timestamp = 0)
    (h_timing : e.have_timing = true)
    (h_late : e.local_time_now > first_frame_play_time cfg e conn) :
    (buffer_get_frame_iter cfg e conn loc).conn.flush_requested = 1 ∧
    (buffer_get_frame_iter cfg e conn loc).conn.flush_rtp_timestamp
      = late_flush_target conn ∧
    late_flush_target conn
      = ((conn.audio_buffer (BUFIDX conn.ab_read)).given_timestamp + 22050) % 4294967296 ∧
    (buffer_get_frame_iter cfg e conn loc).conn.first_packet_timestamp
      = ((conn.audio_buffer (BUFIDX conn.ab_read)).given_timestamp : Int) ∧
    (buffer_get_frame_iter cfg e conn loc).loc.curframe = some (BUFIDX conn.ab_read) ∧
    (first_frame_play_time cfg e conn = 0 →
      (buffer_get_frame_iter cfg e conn loc).conn.ab_buffering = conn.ab_buffering ∧
      (buffer_get_frame_iter cfg e conn loc).wait = true) ∧
    (first_frame_play_time cfg e conn ≠ 0 →
      (buffer_get_frame_iter cfg e conn loc).conn.ab_buffering = 0 ∧
      ((buffer_get_frame_iter cfg e conn loc).wait = false ↔
        conn.ab_read ≠ conn.ab_write ∧
        get_do_wait_time cfg e conn ⟨some (BUFIDX conn.ab_read), 0⟩ = 0)) ∧
    ((buffer_get_frame_iter cfg e conn loc).wait = false →
      ∀ es, buffer_get_frame cfg (e :: es) conn
        = some (get_release (buffer_get_frame_iter cfg e conn loc).conn
            (some (BUFIDX conn.ab_read)))) ∧
    (∀ e2, (get_flush (get_check_output cfg e2
        (buffer_get_frame_iter cfg e conn loc).conn)).ab_synced = 0 ∧
      (get_flush (get_check_output cfg e2
        (buffer_get_frame_iter cfg e conn loc).conn)).ab_buffering = 1) := by
  have hit : ∀ l, buffer_get_frame_iter cfg e conn l
      = get_decide_wait cfg e (first_frame_state cfg e conn)
          ⟨some (BUFIDX conn.ab_read), 0⟩ := fun l =>
    buffer_get_frame_iter_buffering cfg e conn l h_rco h_run h_no_flush h_synced h_no_target
      h_ready h_seq h_buffering
  obtain ⟨s1, s2, s3, s4, s5, s6, s7, s8, s9⟩ :=
    first_frame_state_late cfg e conn h_first h_timing h_late
  rw [hit loc]
  obtain ⟨_, _, _, _, w5, w6, w7, _, _, w10, _⟩ := get_decide_wait_frame cfg e
    (first_frame_state cfg e conn) ⟨some (BUFIDX conn.ab_read), 0⟩
  have w1 := get_decide_wait_first cfg e (first_frame_state cfg e conn)
    ⟨some (BUFIDX conn.ab_read), 0⟩
  have hdw : get_do_wait_time cfg e (first_frame_state cfg e conn)
      ⟨some (BUFIDX conn.ab_read), 0⟩
      = get_do_wait_time cfg e conn ⟨some (BUFIDX conn.ab_read), 0⟩ :=
    get_do_wait_time_congr cfg e conn _ _ s5 s6 s7
  have hsy : (first_frame_state cfg e conn).ab_synced ≠ 0 := by rw [s6]; exact h_synced
  refine ⟨w7.trans s1, w6.trans s2, ?_, w1.trans s3, w10, ?_, ?_, ?_, ?_⟩
  · unfold late_flush_target
    omega
  · intro h0
    rw [w5, s4, if_neg (not_not.mpr h0)]
    refine ⟨rfl, ?_⟩
    have hb : (first_frame_state cfg e conn).ab_buffering ≠ 0 := by
      rw [s4, if_neg (not_not.mpr h0)]
      exact h_buffering
    unfold get_decide_wait
    simp only
    split_ifs with hc
    · rfl
    · exact decide_eq_true (Or.inl hb)
  · intro h0
    rw [w5, s4, if_pos h0]
    refine ⟨rfl, ?_⟩
    have hb : (first_frame_state cfg e conn).ab_buffering = 0 := by
      rw [s4, if_pos h0]
    unfold get_decide_wait
    simp only [hdw, s8, s9]
    by_cases hd : get_do_wait_time cfg e conn ⟨some (BUFIDX conn.ab_read), 0⟩ = 0
    · by_cases hrw : conn.ab_read = conn.ab_write
      · rw [if_pos ⟨hd, hsy, hrw⟩]
        constructor
        · intro hc; cases hc
        · intro hc; exact absurd hrw hc.1
      · rw [if_neg (fun hc => hrw hc.2.2)]
        constructor
        · intro _; exact ⟨hrw, hd⟩
        · intro _
          exact decide_eq_false (fun hc => by
            rcases hc with hc | hc | hc
            · exact hc hb
            · exact hc hd
            · exact hsy hc)
    · rw [if_neg (fun hc => hd hc.1)]
      constructor
      · intro hc
        have := of_decide_eq_false hc
        exact absurd (Or.inr (Or.inl hd)) this
      · intro hc; exact absurd hc.2 hd
  · intro hw es
    unfold buffer_get_frame buffer_get_frame_loop
    simp only [hit ⟨none, 0⟩, hw, Bool.false_eq_true, if_false, w10]
  · intro e2
    have hk := (get_check_output_frame cfg e2
      (get_decide_wait cfg e (first_frame_state cfg e conn)
        ⟨some (BUFIDX conn.ab_read), 0⟩).conn).2.2.2.2.2.2.2.2
    rw [w7, s1] at hk
    exact get_flush_of_requested _ (by rcases hk with h | h <;> exact h)

/-- C22 at the connection of the counterexample: the flush is requested and the
buffering state is ended in the same iteration. -/
theorem C22_witness :
    (env0 1000000 1000).local_time_now
      > first_frame_play_time cfg0 (env0 1000000 1000) conn_buffering ∧
    (buffer_get_frame_iter cfg0 (env0 1000000 1000) conn_buffering
      ⟨none, 0⟩).conn.flush_requested = 1 ∧
    (buffer_get_frame_iter cfg0 (env0 1000000 1000) conn_buffering
      ⟨none, 0⟩).conn.flush_rtp_timestamp = late_flush_target conn_buffering ∧
    (buffer_get_frame_iter cfg0 (env0 1000000 1000) conn_buffering
      ⟨none, 0⟩).conn.ab_buffering = 0 :=
  ⟨by decide,
   (C22_late_first_packet cfg0 (env0 1000000 1000) conn_buffering ⟨none, 0⟩ rfl
      (Or.inl rfl) (by decide) (by decide) rfl (by decide) rfl (by decide) rfl rfl
      (by decide)).1,
   (C22_late_first_packet cfg0 (env0 1000000 1000) conn_buffering ⟨none, 0⟩ rfl
      (Or.inl rfl) (by decide) (by decide) rfl (by decide) rfl (by decide) rfl rfl
      (by decide)).2.1,
   ((C22_late_first_packet cfg0 (env0 1000000 1000) conn_buffering ⟨none, 0⟩ rfl
      (Or.inl rfl) (by decide) (by decide) rfl (by decide) rfl (by decide) rfl rfl
      (by decide)).2.2.2.2.2.2.1 (by decide)).1⟩

/-- The soft correction in closed form. -/
theorem soft_correction_eq (cfg : resync_config) (sync_error s : Int) (now start : Nat) :
    soft_correction cfg sync_error s now start
      = if cfg.no_sync ≠ 0 ∨ within_first_seconds now start then 0
        else if sync_error < 0 ∧ sync_error < to_int64 (-s) then 1
        else if sync_error > 0 ∧ sync_error > s then -1
        else 0 := by
  unfold soft_correction within_first_seconds
  simp only
  generalize to_int64 (-s) = ns
  split_ifs <;> omega

/-- C25 as stated fails: half a second before `first_packet_time_to_play`, when no whole
second has passed since it, a frame that is 1000 frames late against a threshold of 100
still gets a frame removed; so does one played while `first_packet_time_to_play` is 0. -/
theorem C25_counterexample :
    (42949672960 : Nat) < 45097156608 ∧
    soft_correction resync_cfg0 1000 100 42949672960 45097156608 = -1 ∧
    soft_correction resync_cfg0 1000 100 42949672960 0 = -1 := by
  decide

/-- C25, amended: the amount chosen by the soft correction is -1, 0 or 1; it is -1 only
for a positive `sync_error`, 1 only for a negative one, and 0 for a `sync_error` of 0; it
is 0 when `no_sync` is set, and when `first_packet_time_to_play` is non-zero, has been
reached and fewer than 5 whole seconds have passed since; apart from these two cases it is
-1 exactly when `sync_error` is positive and above the threshold `s`, and 1 exactly when
it is negative and below `-s`. -/
theorem C25_soft_correction_direction (cfg : resync_config) (sync_error s : Int)
    (local_time_now first_packet_time_to_play : Nat) :
    (soft_correction cfg sync_error s local_time_now first_packet_time_to_play = -1 ∨
      soft_correction cfg sync_error s local_time_now first_packet_time_to_play = 0 ∨
      soft_correction cfg sync_error s local_time_now first_packet_time_to_play = 1) ∧
    (soft_correction cfg sync_error s local_time_now first_packet_time_to_play = -1 →
      sync_error > 0) ∧
    (soft_correction cfg sync_error s local_time_now first_packet_time_to_play = 1 →
      sync_error < 0) ∧
    (sync_error = 0 →
      soft_correction cfg sync_error s local_time_now first_packet_time_to_play = 0) ∧
    (cfg.no_sync ≠ 0 →
      soft_correction cfg sync_error s local_time_now first_packet_time_to_play = 0) ∧
    (first_packet_time_to_play ≠ 0 → local_time_now ≥ first_packet_time_to_play →
      (local_time_now - first_packet_time_to_play) / 4294967296 < 5 →
      soft_correction cfg sync_error s local_time_now first_packet_time_to_play = 0) ∧
    (soft_correction cfg sync_error s local_time_now first_packet_time_to_play = -1 ↔
      cfg.no_sync = 0 ∧ ¬ within_first_seconds local_time_now first_packet_time_to_play ∧
        sync_error > 0 ∧ sync_error > s) ∧
    (soft_correction cfg sync_error s local_time_now first_packet_time_to_play = 1 ↔
      cfg.no_sync = 0 ∧ ¬ within_first_seconds local_time_now first_packet_time_to_play ∧
        sync_error < 0 ∧ sync_error < to_int64 (-s)) := by
  rw [soft_correction_eq]
  unfold within_first_seconds
  generalize to_int64 (-s) = ns
  refine ⟨?_, ?_, ?_, ?_, ?_, ?_, ?_, ?_⟩
  · split_ifs <;> simp
  · split_ifs <;> intro h <;> first | omega | exact h.elim
  · split_ifs <;> intro h <;> first | omega | exact h.elim
  · intro h
    split_ifs <;> omega
  · intro h
    rw [if_pos (Or.inl h)]
  · intro h1 h2 h3
    rw [if_pos (Or.inr ⟨by omega, h1, h2, h3⟩)]
  · split_ifs <;> constructor <;> intro h <;> first | omega | exact h.elim
  · split_ifs <;> constructor <;> intro h <;> first | omega | exact h.elim

/-- The output switch stores as many bytes as the specification lists for the format. -/
theorem sample_bytes_length (big_endian : Bool) (format : sps_format_t) (hyper_sample : Int) :
    (sample_bytes big_endian format hyper_sample).map List.length = bytes_per_sample format := by
  unfold sample_bytes
  cases format <;> cases big_endian <;> rfl

theorem dither_mask_isSome (format : sps_format_t) :
    (dither_mask format).isSome = (bytes_per_sample format).isSome := by
  cases format <;> rfl

/-- A call of `process_sample` appends as many bytes as the format has per sample, and
dies exactly for the formats without a sample size. -/
theorem process_sample_length (big_endian : Bool) (loudness : Int) (format : sps_format_t)
    (volume dither r : Int) (st : out_state) (sample : Int) :
    (process_sample big_endian loudness format volume dither r st sample).map
        (fun t => t.out.length)
      = (bytes_per_sample format).map (fun n => st.out.length + n) := by
  unfold process_sample
  simp only
  split_ifs with hd
  · have hm := dither_mask_isSome format
    cases hmask : dither_mask format with
    | none =>
      rw [hmask] at hm
      cases hb : bytes_per_sample format with
      | none => rfl
      | some n => rw [hb] at hm; cases hm
    | some mask =>
      simp only
      have hl := sample_bytes_length big_endian format
        (add_dither (scale_sample loudness sample volume)
          (tpdf_value mask r st.previous_random_number))
      cases hs : sample_bytes big_endian format
          (add_dither (scale_sample loudness sample volume)
            (tpdf_value mask r st.previous_random_number)) with
      | none => rw [hs] at hl; rw [← hl]; rfl
      | some bs =>
        rw [hs] at hl
        rw [← hl]
        simp only [Option.map_some', List.length_append]
  · have hl := sample_bytes_length big_endian format (scale_sample loudness sample volume)
    cases hs : sample_bytes big_endian format (scale_sample loudness sample volume) with
    | none => rw [hs] at hl; rw [← hl]; rfl
    | some bs =>
      rw [hs] at hl
      rw [← hl]
      simp only [Option.map_some', List.length_append]

/-- C27, the failing input: for `SPS_FORMAT_S8` and `SPS_FORMAT_U8`, which the switch of
lines 1673-1691 does not list, the frame size chosen at session start is the default of
4 bytes, while `process_sample` writes one byte per sample, two per frame. -/
theorem C27_counterexample :
    output_bytes_per_frame .SPS_FORMAT_S8 = 4 ∧
    (sample_bytes false .SPS_FORMAT_S8 0).map List.length = some 1 ∧
    (process_sample false 0 .SPS_FORMAT_S8 65536 0 0 ⟨[], 0⟩ 0).map (fun t => t.out.length)
      = some 1 ∧
    output_bytes_per_frame .SPS_FORMAT_U8 = 4 ∧
    (sample_bytes false .SPS_FORMAT_U8 0).map List.length = some 1 ∧
    (4 : Int) ≠ 2 * 1 := by
  decide

/-- C27, the code case by case: `process_sample` writes per sample the number of bytes
the specification lists for the format (1 for S8 and U8, 2 for S16*, 3 for S24_3LE and
S24_3BE, 4 for S24, S24_LE, S24_BE and S32*), whatever the sample, on either byte order,
with or without dither; `output_bytes_per_frame` is twice that number for every format
the switch lists and for S16*, which take its default; only for S8 and U8, which take the
same default, it is 4 instead of 2. -/
theorem C27_output_frame_size (big_endian : Bool) (loudness : Int) (format : sps_format_t)
    (volume dither r : Int) (st : out_state) (sample hyper_sample : Int) :
    (sample_bytes big_endian format hyper_sample).map List.length = bytes_per_sample format ∧
    (process_sample big_endian loudness format volume dither r st sample).map
        (fun t => t.out.length)
      = (bytes_per_sample format).map (fun n => st.out.length + n) ∧
    (∀ n, bytes_per_sample format = some n →
      (format ≠ .SPS_FORMAT_S8 → format ≠ .SPS_FORMAT_U8 →
        output_bytes_per_frame format = 2 * (n : Int)) ∧
      ((format = .SPS_FORMAT_S8 ∨ format = .SPS_FORMAT_U8) →
        n = 1 ∧ output_bytes_per_frame format = 4) ∧
      2 * (n : Int) ≤ output_bytes_per_frame format) := by
  refine ⟨sample_bytes_length _ _ _, process_sample_length _ _ _ _ _ _ _ _, ?_⟩
  intro n hn
  cases format <;> simp only [bytes_per_sample, Option.some.injEq] at hn
  all_goals first | (subst hn; decide) | cases hn

/-- At full volume, without loudness, a widened 16-bit sample ends up in the top 16 bits
of `hyper_sample`. -/
theorem scale_sample_full_volume (s : Int) (h_lo : -32768 ≤ s) (h_hi : s ≤ 32767) :
    scale_sample 0 (s * 65536) 65536 = s * 281474976710656 := by
  have hv : to_int64 (65536 * 65536) = 4294967296 := by decide
  unfold scale_sample
  rw [if_neg (by decide)]
  simp only [hv]
  unfold to_int64
  omega

theorem to_uint8_lt (x : Int) : to_uint8 x < 256 := by
  unfold to_uint8
  omega

/-- C28: for 16-bit samples `s` and `t` in stereo mode the frame is widened to
`(s * 65536, t * 65536)`, and at `fix_volume = 0x10000` with dither and loudness off
`process_sample` appends for S16_LE the two bytes `s mod 256` and `(s div 256) mod 256`,
the little-endian two's complement of `s`, for S16_BE the same two bytes in the opposite
order, and for S32_LE the four little-endian bytes of `s * 65536`, which are two zero
bytes followed by the two bytes of `s`; each call appends exactly the sample size and
leaves the random number alone. -/
theorem C28_bit_perfect (big_endian : Bool) (s t r : Int) (st : out_state)
    (h_lo : -32768 ≤ s) (h_hi : s ≤ 32767) (h_lo2 : -32768 ≤ t) (h_hi2 : t ≤ 32767) :
    widen_frame .ST_stereo s t = (s * 65536, t * 65536) ∧
    process_sample big_endian 0 .SPS_FORMAT_S16_LE 65536 0 r st (s * 65536)
      = some ⟨st.out ++ [to_uint8 s, to_uint8 (s / 256)], st.previous_random_number⟩ ∧
    process_sample big_endian 0 .SPS_FORMAT_S16_BE 65536 0 r st (s * 65536)
      = some ⟨st.out ++ [to_uint8 (s / 256), to_uint8 s], st.previous_random_number⟩ ∧
    process_sample big_endian 0 .SPS_FORMAT_S32_LE 65536 0 r st (s * 65536)
      = some ⟨st.out ++ [to_uint8 (s * 65536), to_uint8 (s * 65536 / 256),
          to_uint8 (s * 65536 / 65536), to_uint8 (s * 65536 / 16777216)],
          st.previous_random_number⟩ ∧
    [to_uint8 (s * 65536), to_uint8 (s * 65536 / 256),
        to_uint8 (s * 65536 / 65536), to_uint8 (s * 65536 / 16777216)]
      = [0, 0, to_uint8 s, to_uint8 (s / 256)] ∧
    (to_uint8 s < 256 ∧ to_uint8 (s / 256) < 256) ∧
    ((to_uint8 s : Int) + 256 * (to_uint8 (s / 256) : Int) = s % 65536) ∧
    ((to_uint8 (s * 65536) : Int) + 256 * (to_uint8 (s * 65536 / 256) : Int)
        + 65536 * (to_uint8 (s * 65536 / 65536) : Int)
        + 16777216 * (to_uint8 (s * 65536 / 16777216) : Int)
      = (s * 65536) % 4294967296) := by
  have hsc := scale_sample_full_volume s h_lo h_hi
  have h48 : s * 281474976710656 / 2 ^ 48 = s := by
    rw [show (2 : Int) ^ 48 = 281474976710656 by norm_num]
    omega
  have h32 : s * 281474976710656 / 2 ^ 32 = s * 65536 := by
    rw [show (2 : Int) ^ 32 = 4294967296 by norm_num]
    omega
  refine ⟨?_, ?_, ?_, ?_, ?_, ⟨to_uint8_lt _, to_uint8_lt _⟩, ?_, ?_⟩
  · unfold widen_frame to_int32
    simp only [Prod.mk.injEq]
    constructor <;> omega
  · unfold process_sample
    simp only [hsc]
    rw [if_neg (by decide)]
    show (match store_sample big_endian .SPS_FORMAT_S16_LE (s * 281474976710656 / 2 ^ 48) with
      | none => none
      | some bs => some (⟨st.out ++ bs, st.previous_random_number⟩ : out_state)) = _
    rw [h48]
    rfl
  · unfold process_sample
    simp only [hsc]
    rw [if_neg (by decide)]
    show (match store_sample big_endian .SPS_FORMAT_S16_BE (s * 281474976710656 / 2 ^ 48) with
      | none => none
      | some bs => some (⟨st.out ++ bs, st.previous_random_number⟩ : out_state)) = _
    rw [h48]
    rfl
  · unfold process_sample
    simp only [hsc]
    rw [if_neg (by decide)]
    show (match store_sample big_endian .SPS_FORMAT_S32_LE (s * 281474976710656 / 2 ^ 32) with
      | none => none
      | some bs => some (⟨st.out ++ bs, st.previous_random_number⟩ : out_state)) = _
    rw [h32]
    rfl
  · unfold to_uint8
    simp only [List.cons.injEq, and_true]
    refine ⟨?_, ?_, ?_, ?_⟩ <;> omega
  · unfold to_uint8
    omega
  · unfold to_uint8
    omega

/-- C28 at the samples -2 and 1: the bytes `FE FF` for S16_LE, `FF FE` for S16_BE and
`00 00 FE FF` for S32_LE. -/
theorem C28_witness :
    ((-32768 : Int) ≤ -2 ∧ (-2 : Int) ≤ 32767) ∧
    process_sample false 0 .SPS_FORMAT_S16_LE 65536 0 0 ⟨[], 7⟩ (-2 * 65536)
      = some ⟨[] ++ [to_uint8 (-2), to_uint8 (-2 / 256)], 7⟩ ∧
    process_sample false 0 .SPS_FORMAT_S16_LE 65536 0 0 ⟨[], 7⟩ (-2 * 65536)
      = some ⟨[254, 255], 7⟩ ∧
    process_sample false 0 .SPS_FORMAT_S16_BE 65536 0 0 ⟨[], 7⟩ (-2 * 65536)
      = some ⟨[255, 254], 7⟩ ∧
    process_sample false 0 .SPS_FORMAT_S32_LE 65536 0 0 ⟨[], 7⟩ (-2 * 65536)
      = some ⟨[0, 0, 254, 255], 7⟩ :=
  ⟨⟨by decide, by decide⟩,
   (C28_bit_perfect false (-2) 1 0 ⟨[], 7⟩ (by decide) (by decide) (by decide)
      (by decide)).2.1,
   by decide, by decide, by decide⟩

theorem to_int64_range (x : Int) : INT64_MIN ≤ to_int64 x ∧ to_int64 x ≤ INT64_MAX := by
  unfold to_int64 INT64_MIN INT64_MAX
  omega

theorem scale_sample_range (loudness sample volume : Int) :
    INT64_MIN ≤ scale_sample loudness sample volume ∧
    scale_sample loudness sample volume ≤ INT64_MAX := by
  unfold scale_sample
  split_ifs
  · exact to_int64_range _
  · exact to_int64_range _

/-- The dither mask of each format is `2^(64 - b) - 1` for its bit depth `b`. -/
theorem dither_mask_eq (format : sps_format_t) (mask : Int)
    (h : dither_mask format = some mask) :
    ∃ b, output_bit_depth format = some b ∧ (b = 8 ∨ b = 16 ∨ b = 24 ∨ b = 32) ∧
      mask = 2 ^ (64 - b) - 1 ∧ 0 ≤ mask := by
  cases format <;> simp only [dither_mask, Option.some.injEq] at h
  all_goals first
    | (subst h; exact ⟨8, rfl, by decide, by norm_num, by decide⟩)
    | (subst h; exact ⟨16, rfl, by decide, by norm_num, by decide⟩)
    | (subst h; exact ⟨24, rfl, by decide, by norm_num, by decide⟩)
    | (subst h; exact ⟨32, rfl, by decide, by norm_num, by decide⟩)
    | cases h

theorem tpdf_value_range (mask r prev : Int) (h : 0 ≤ mask) :
    -mask ≤ tpdf_value mask r prev ∧ tpdf_value mask r prev ≤ mask := by
  unfold tpdf_value
  have h1 := Int.emod_nonneg r (show mask + 1 ≠ 0 by omega)
  have h2 := Int.emod_lt_of_pos r (show 0 < mask + 1 by omega)
  have h3 := Int.emod_nonneg prev (show mask + 1 ≠ 0 by omega)
  have h4 := Int.emod_lt_of_pos prev (show 0 < mask + 1 by omega)
  omega

/-- Adding the dither clamps the sum to the range of `int64_t`. -/
theorem add_dither_eq (hyper_sample tpdf : Int) (h1 : INT64_MIN ≤ hyper_sample)
    (h2 : hyper_sample ≤ INT64_MAX) :
    add_dither hyper_sample tpdf = max INT64_MIN (min INT64_MAX (hyper_sample + tpdf)) := by
  unfold add_dither INT64_MIN INT64_MAX at *
  split_ifs <;> omega

/-- The product of a 32-bit sample and `volume << 16` fits an `int64_t`. -/
theorem scale_sample_fits (sample volume : Int) (h1 : -2147483648 ≤ sample)
    (h2 : sample ≤ 2147483647) (h3 : 0 ≤ volume) (h4 : volume ≤ 65536) :
    INT64_MIN ≤ sample * (volume * 65536) ∧ sample * (volume * 65536) ≤ INT64_MAX ∧
    scale_sample 0 sample volume = sample * (volume * 65536) := by
  have hp1 : sample * volume ≤ 2147483647 * 65536 := by nlinarith
  have hp2 : -2147483648 * 65536 ≤ sample * volume := by nlinarith
  have he : sample * (volume * 65536) = sample * volume * 65536 := by ring
  have hv : to_int64 (volume * 65536) = volume * 65536 := by
    unfold to_int64
    omega
  unfold INT64_MIN INT64_MAX
  refine ⟨by omega, by omega, ?_⟩
  unfold scale_sample
  rw [if_neg (by decide)]
  simp only [hv]
  rw [he]
  unfold to_int64
  omega

/-- C29: with dither on and a format of bit depth `b` in {8, 16, 24, 32}, the mask is
`2^(64 - b) - 1`, the dither value `tpdf` lies between minus the mask and the mask,
`process_sample` stores the bytes of `hyper_sample + tpdf` clamped to
`[INT64_MIN, INT64_MAX]` and keeps the random number drawn, and for a 32-bit sample and a
volume from 0 to 65536 the product `sample * (volume << 16)` lies in
`[INT64_MIN, INT64_MAX]` and is what the 64-bit multiplication yields. -/
theorem C29_dither_saturates (big_endian : Bool) (loudness : Int) (format : sps_format_t)
    (volume dither r : Int) (st : out_state) (sample mask : Int)
    (h_dither : dither ≠ 0) (h_mask : dither_mask format = some mask) :
    (∃ b, output_bit_depth format = some b ∧ (b = 8 ∨ b = 16 ∨ b = 24 ∨ b = 32) ∧
      mask = 2 ^ (64 - b) - 1) ∧
    (-mask ≤ tpdf_value mask r st.previous_random_number ∧
      tpdf_value mask r st.previous_random_number ≤ mask) ∧
    add_dither (scale_sample loudness sample volume)
        (tpdf_value mask r st.previous_random_number)
      = max INT64_MIN (min INT64_MAX (scale_sample loudness sample volume
          + tpdf_value mask r st.previous_random_number)) ∧
    process_sample big_endian loudness format volume dither r st sample
      = (sample_bytes big_endian format
          (max INT64_MIN (min INT64_MAX (scale_sample loudness sample volume
            + tpdf_value mask r st.previous_random_number)))).map
          (fun bs => ⟨st.out ++ bs, r⟩) ∧
    (-2147483648 ≤ sample → sample ≤ 2147483647 → 0 ≤ volume → volume ≤ 65536 →
      INT64_MIN ≤ sample * (volume * 65536) ∧ sample * (volume * 65536) ≤ INT64_MAX ∧
      scale_sample 0 sample volume = sample * (volume * 65536)) := by
  obtain ⟨b, hb, hb4, hm, hm0⟩ := dither_mask_eq format mask h_mask
  have hr := scale_sample_range loudness sample volume
  have hd := add_dither_eq (scale_sample loudness sample volume)
    (tpdf_value mask r st.previous_random_number) hr.1 hr.2
  refine ⟨⟨b, hb, hb4, hm⟩, tpdf_value_range mask r _ hm0, hd, ?_,
    fun h1 h2 h3 h4 => scale_sample_fits sample volume h1 h2 h3 h4⟩
  unfold process_sample
  simp only
  rw [if_pos h_dither, h_mask]
  simp only
  rw [hd]
  cases sample_bytes big_endian format
      (max INT64_MIN (min INT64_MAX (scale_sample loudness sample volume
        + tpdf_value mask r st.previous_random_number))) <;> rfl

/-- C29 for S16_LE at the largest sample the scaling yields, with the random numbers
`2^48 - 1` and 0: the sum would pass `INT64_MAX` and the bytes stored are `FF 7F`. -/
theorem C29_witness :
    ((1 : Int) ≠ 0 ∧ dither_mask .SPS_FORMAT_S16_LE = some 281474976710655) ∧
    tpdf_value 281474976710655 281474976710655 0 = 281474976710655 ∧
    scale_sample 1 2147483647 0 + tpdf_value 281474976710655 281474976710655 0
      > INT64_MAX ∧
    add_dither (scale_sample 1 2147483647 0) (tpdf_value 281474976710655 281474976710655 0)
      = max INT64_MIN (min INT64_MAX (scale_sample 1 2147483647 0
          + tpdf_value 281474976710655 281474976710655 0)) ∧
    process_sample false 1 .SPS_FORMAT_S16_LE 0 1 281474976710655 ⟨[], 0⟩ 2147483647
      = some ⟨[255, 127], 281474976710655⟩ :=
  ⟨⟨by decide, rfl⟩, by decide, by decide,
   (C29_dither_saturates false 1 .SPS_FORMAT_S16_LE 0 1 281474976710655 ⟨[], 0⟩
      2147483647 281474976710655 (by decide) rfl).2.2.1,
   by decide⟩

theorem apply_zero_or_minus_one (f : Int → Option (List Nat)) (v : Int)
    (h : v = 0 ∨ v = -1) : f v = f 0 ∨ f v = f (-1) := by
  rcases h with h | h
  · left; rw [h]
  · right; rw [h]

/-- Without dither a pass of the loop stores the value 0. -/
theorem zero_sample_bytes_plain (big_endian : Bool) (format : sps_format_t) (r prev : Int)
    (bps : Nat) (hf : bytes_per_sample format = some bps) :
    zero_sample_bytes big_endian format 0 r prev = store_sample big_endian format 0 := by
  cases format <;> simp only [bytes_per_sample] at hf <;> rfl

/-- With dither a pass of the loop stores the value 0 or the value -1. -/
theorem zero_sample_bytes_dither (big_endian : Bool) (format : sps_format_t)
    (with_dither r prev : Int) (bps : Nat) (hf : bytes_per_sample format = some bps)
    (hd : with_dither ≠ 0) :
    zero_sample_bytes big_endian format with_dither r prev = store_sample big_endian format 0 ∨
    zero_sample_bytes big_endian format with_dither r prev
      = store_sample big_endian format (-1) := by
  cases format <;> simp only [bytes_per_sample] at hf <;>
    simp only [zero_sample_bytes, dither_mask, sample_bytes, sample_shift, if_pos hd,
      tpdf_value, to_int64]
  all_goals first
    | (norm_num
       exact apply_zero_or_minus_one (store_sample big_endian _) _ (by omega))
    | cases hf

/-- The bytes of the values 0, -1 and 1 in each format. -/
theorem store_sample_values (big_endian : Bool) (format : sps_format_t) (bps : Nat)
    (hf : bytes_per_sample format = some bps) :
    store_sample big_endian format 0
      = some (if format = .SPS_FORMAT_U8 then [128] else List.replicate bps 0) ∧
    store_sample big_endian format 1 ≠ store_sample big_endian format 0 ∧
    store_sample big_endian format 1 ≠ store_sample big_endian format (-1) ∧
    (format = .SPS_FORMAT_U8 → store_sample big_endian format (-1) = some [127]) ∧
    (format = .SPS_FORMAT_S8 → store_sample big_endian format (-1) = some [255]) := by
  cases format <;> simp only [bytes_per_sample, Option.some.injEq] at hf
  all_goals first
    | (subst hf; cases big_endian <;> decide)
    | cases hf

/-- The loop of `generate_zero_frames` after `k` passes: `k` samples, each the bytes of
one pass, and the random number of the last pass. -/
theorem generate_zero_samples_spec (big_endian : Bool) (format : sps_format_t)
    (with_dither random_number_in : Int) (ran : Nat → Int) (bps : Nat)
    (hf : bytes_per_sample format = some bps) (k : Nat) :
    ∃ samples : List (List Nat),
      generate_zero_samples big_endian format with_dither random_number_in ran k
        = some (samples, if k = 0 then random_number_in else ran (k - 1)) ∧
      samples.length = k ∧
      ∀ s ∈ samples, s.length = bps ∧
        ∃ r prev, some s = zero_sample_bytes big_endian format with_dither r prev := by
  induction k with
  | zero => exact ⟨[], rfl, rfl, fun s hs => by cases hs⟩
  | succ k ih =>
    obtain ⟨samples, h1, h2, h3⟩ := ih
    have hl := sample_bytes_length big_endian format
    cases hz : zero_sample_bytes big_endian format with_dither (ran k)
        (if k = 0 then random_number_in else ran (k - 1)) with
    | none =>
      exfalso
      unfold zero_sample_bytes at hz
      cases hm : dither_mask format with
      | none =>
        have := dither_mask_isSome format
        rw [hm, hf] at this
        cases this
      | some mask =>
        rw [hm] at hz
        simp only at hz
        have := hl (if with_dither ≠ 0 then to_int64 (0 + tpdf_value mask (ran k)
          (if k = 0 then random_number_in else ran (k - 1))) else 0)
        rw [hz, hf] at this
        cases this
    | some bs =>
      have hbs : bs.length = bps := by
        unfold zero_sample_bytes at hz
        cases hm : dither_mask format with
        | none => rw [hm] at hz; cases hz
        | some mask =>
          rw [hm] at hz
          simp only at hz
          have := hl (if with_dither ≠ 0 then to_int64 (0 + tpdf_value mask (ran k)
            (if k = 0 then random_number_in else ran (k - 1))) else 0)
          rw [hz, hf] at this
          simpa using this
      refine ⟨samples ++ [bs], ?_, ?_, ?_⟩
      · show (match generate_zero_samples big_endian format with_dither random_number_in ran k
            with
          | none => none
          | some q =>
            match zero_sample_bytes big_endian format with_dither (ran k) q.2 with
            | none => none
            | some bs => some (q.1 ++ [bs], ran k)) = _
        rw [h1]
        simp only [hz]
        rfl
      · rw [List.length_append, h2]
        rfl
      · intro s hs
        rcases List.mem_append.1 hs with h | h
        · exact h3 s h
        · rw [List.mem_singleton] at h
          subst h
          exact ⟨hbs, _, _, hz.symm⟩

theorem flatten_length_const (l : List (List Nat)) (bps : Nat)
    (h : ∀ s ∈ l, s.length = bps) : l.flatten.length = l.length * bps := by
  induction l with
  | nil => simp
  | cons a t ih =>
    rw [List.flatten_cons, List.length_append, List.length_cons,
      ih (fun s hs => h s (List.mem_cons_of_mem _ hs)), h a (List.mem_cons_self _ _)]
    ring

/-- C30: for a format with a sample size `bps` and `n` frames, `generate_zero_frames`
returns, having written `2 * n` samples of `bps` bytes each, `n * 2 * bps` bytes in all,
and its value is the random number of the last pass (the number passed in when `n = 0`);
without dither every sample is the stored value 0, which is `bps` zero bytes, and the
byte 128 for U8; with dither every sample is the stored value 0 or -1, never 1, and for
U8 the byte 128 or 127. -/
theorem C30_generated_silence (big_endian : Bool) (number_of_frames : Nat)
    (format : sps_format_t) (with_dither random_number_in : Int) (ran : Nat → Int)
    (bps : Nat) (h_format : bytes_per_sample format = some bps) :
    ∃ samples : List (List Nat),
      generate_zero_frames big_endian number_of_frames format with_dither random_number_in ran
        = some (samples.flatten,
            if number_of_frames = 0 then random_number_in
            else ran (number_of_frames * 2 - 1)) ∧
      samples.length = 2 * number_of_frames ∧
      (∀ s ∈ samples, s.length = bps) ∧
      samples.flatten.length = number_of_frames * 2 * bps ∧
      (with_dither = 0 → ∀ s ∈ samples,
        some s = store_sample big_endian format 0 ∧
        s = if format = .SPS_FORMAT_U8 then [128] else List.replicate bps 0) ∧
      (with_dither ≠ 0 → ∀ s ∈ samples,
        (some s = store_sample big_endian format 0 ∨
          some s = store_sample big_endian format (-1)) ∧
        some s ≠ store_sample big_endian format 1 ∧
        (format = .SPS_FORMAT_U8 → s = [128] ∨ s = [127])) := by
  obtain ⟨samples, h1, h2, h3⟩ := generate_zero_samples_spec big_endian format with_dither
    random_number_in ran bps h_format (number_of_frames * 2)
  obtain ⟨v0, v1, v2, v3, _⟩ := store_sample_values big_endian format bps h_format
  have hlen : ∀ s ∈ samples, s.length = bps := fun s hs => (h3 s hs).1
  refine ⟨samples, ?_, by omega, hlen, ?_, ?_, ?_⟩
  · unfold generate_zero_frames
    rw [h1]
    by_cases hn : number_of_frames = 0
    · rw [if_pos hn, if_pos (by omega)]
      rfl
    · rw [if_neg hn, if_neg (by omega)]
      rfl
  · rw [flatten_length_const samples bps hlen, h2]
  · intro hd s hs
    obtain ⟨_, r, prev, hz⟩ := h3 s hs
    rw [hd, zero_sample_bytes_plain big_endian format r prev bps h_format] at hz
    refine ⟨hz, ?_⟩
    rw [v0] at hz
    exact Option.some.inj hz
  · intro hd s hs
    obtain ⟨_, r, prev, hz⟩ := h3 s hs
    have hc := zero_sample_bytes_dither big_endian format with_dither r prev bps h_format hd
    rw [← hz] at hc
    refine ⟨hc, ?_, ?_⟩
    · rcases hc with h | h
      · rw [h]; exact fun e => v1 e.symm
      · rw [h]; exact fun e => v2 e.symm
    · intro hu
      rcases hc with h | h
      · left
        rw [v0, if_pos hu] at h
        exact Option.some.inj h
      · right
        rw [v3 hu] at h
        exact Option.some.inj h

/-- C30 for one frame of U8 with dither, the random numbers 1 (passed in), 0 and 5: the
bytes written are 127 and 128 and the value returned is 5; without dither the bytes are
128 and 128, and for S16_LE four zero bytes. -/
theorem C30_witness :
    bytes_per_sample .SPS_FORMAT_U8 = some 1 ∧
    (∃ samples : List (List Nat),
      generate_zero_frames false 1 .SPS_FORMAT_U8 1 1 (fun i => if i = 0 then 0 else 5)
        = some (samples.flatten,
            if 1 = 0 then 1 else (fun i => if i = 0 then (0 : Int) else 5) (1 * 2 - 1))) ∧
    generate_zero_frames false 1 .SPS_FORMAT_U8 1 1 (fun i => if i = 0 then 0 else 5)
      = some ([127, 128], 5) ∧
    generate_zero_frames false 1 .SPS_FORMAT_U8 0 1 (fun i => if i = 0 then 0 else 5)
      = some ([128, 128], 5) ∧
    generate_zero_frames false 1 .SPS_FORMAT_S16_LE 0 1 (fun i => if i = 0 then 0 else 5)
      = some ([0, 0, 0, 0], 5) ∧
    generate_zero_frames false 0 .SPS_FORMAT_S16_LE 1 1 (fun i => if i = 0 then 0 else 5)
      = some ([], 1) :=
  ⟨rfl,
   (C30_generated_silence false 1 .SPS_FORMAT_U8 1 1 (fun i => if i = 0 then 0 else 5) 1
      rfl).imp (fun _ h => h.1),
   by decide, by decide, by decide, by decide⟩

end ShairportSync
